import Mathlib

/-!
# Backend of the mini C compiler: stack frame, register allocation, lowering

A shallow embedding of the backend sources (`StackFrame.cpp`,
`RegisterAllocator.cpp`, `MachineInstruction.hpp`, `IRtoLLIR.cpp`,
`AArch64TargetMachine.cpp`, `AArch64InstructionDefinitions.cpp`,
`AArch64TargetABI.cpp`), of the token kinds of the front end (`PPToken.hpp`,
`Token.hpp`) and of the result type of binary expressions (`Type.hpp`,
`AST.hpp`), and theorems about them.

Conventions.  A C++ `unsigned` is a `Nat` reduced modulo `2^32` wherever the
source does arithmetic on it; `~0` is `4294967295`.  An `assert` that fails is
the result `none`.
-/

set_option autoImplicit false

/-! ## Definitions -/

/-- The value of `~0` as a C++ `unsigned`. -/
def UNSIGNED_MAX : Nat := 4294967295

/-- Reduction of a natural number to a C++ `unsigned`. -/
def toUnsigned (n : Nat) : Nat := n % 4294967296

/-! ### std::map -/

/-- `m[k] = v` on a `std::map` with `unsigned` keys, kept as a list of entries
in ascending key order (the iteration order of the map). -/
def StdMap.set {β : Type} : List (Nat × β) → Nat → β → List (Nat × β)
  | [], k, v => [(k, v)]
  | e :: rest, k, v =>
    if k < e.1 then (k, v) :: e :: rest
    else if k = e.1 then (k, v) :: rest
    else e :: StdMap.set rest k v

/-- `m.find(k)`: the mapped value, if the key is present. -/
def StdMap.get? {β : Type} (m : List (Nat × β)) (k : Nat) : Option β :=
  (m.find? (fun e => e.1 == k)).map (fun e => e.2)

/-- `m.count(k) > 0`. -/
def StdMap.contains {β : Type} (m : List (Nat × β)) (k : Nat) : Bool :=
  m.any (fun e => e.1 == k)

/-- `m.insert({k, v})`: a key that is present keeps its entry, a new key is
entered at its place in the key order. -/
def StdMap.insert {β : Type} (m : List (Nat × β)) (k : Nat) (v : β) : List (Nat × β) :=
  if StdMap.contains m k then m else StdMap.set m k v

/-- Reading `AllocatedRegisters[k]`: the mapped register, or the
value-initialised `0` that `operator[]` inserts for an absent key. -/
def StdMap.getD0 (m : List (Nat × Nat)) (k : Nat) : Nat := (StdMap.get? m k).getD 0

/-! ### StackFrame.cpp -/

/-- The stack frame: the `unsigned` aggregate `ObjectsSize` and the slot table
`StackSlots`.  The declaration of the table (StackFrame.hpp) is absent;
StackFrame.cpp uses it through `count(ID)`, `insert({ID, Size})`,
`operator[]` and a range-based loop over entries with `.first`, the interface
of a `std::map<unsigned, unsigned>`.  Its entries `(slot id, size)` are kept,
and walked, in ascending order of the slot id. -/
structure StackFrame where
  ObjectsSize : Nat
  StackSlots : List (Nat × Nat)
deriving Repr, DecidableEq

/-- The frame of a freshly created function: no slots, `ObjectsSize = 0`. -/
def StackFrame.empty : StackFrame := { ObjectsSize := 0, StackSlots := [] }

/-- `StackSlots.count(ID) > 0`. -/
def StackFrame.IsStackSlot (SF : StackFrame) (ID : Nat) : Bool :=
  SF.StackSlots.any (fun e => e.1 == ID)

/-- `StackFrame::InsertStackSlot`: the assertion that the id is new, then
`ObjectsSize += Size` (or `+= 4` when `Size < 4`), then
`StackSlots.insert({ID, Size})`. -/
def StackFrame.InsertStackSlot (SF : StackFrame) (ID Size : Nat) : Option StackFrame :=
  if SF.IsStackSlot ID then none
  else
    some { ObjectsSize := toUnsigned (SF.ObjectsSize + (if Size ≥ 4 then Size else 4)),
           StackSlots := StdMap.insert SF.StackSlots ID Size }

/-- The loop of `StackFrame::GetPosition`: walk the entries, return the running
`Position` at the entry with the wanted id, add 4 otherwise; `~0` at the end. -/
def StackFrame.GetPositionLoop : List (Nat × Nat) → Nat → Nat → Nat
  | [], _, _ => UNSIGNED_MAX
  | e :: rest, ID, Position =>
    if e.1 = ID then Position
    else StackFrame.GetPositionLoop rest ID (toUnsigned (Position + 4))

/-- `StackFrame::GetPosition`, with its assertion that the id is a slot: the
loop over the entries of the table, which come in ascending order of the id. -/
def StackFrame.GetPosition (SF : StackFrame) (ID : Nat) : Option Nat :=
  if SF.IsStackSlot ID then some (StackFrame.GetPositionLoop SF.StackSlots ID 0) else none

/-- `StackFrame::GetSize`: `StackSlots[ID]`, with its assertion. -/
def StackFrame.GetSize (SF : StackFrame) (ID : Nat) : Option Nat :=
  if SF.IsStackSlot ID then (SF.StackSlots.find? (fun e => e.1 == ID)).map (fun e => e.2) else none

/-- A sequence of `InsertStackSlot(ID, Size)` calls applied to a frame. -/
def StackFrame.InsertAll : StackFrame → List (Nat × Nat) → Option StackFrame
  | SF, [] => some SF
  | SF, e :: rest =>
    match SF.InsertStackSlot e.1 e.2 with
    | none => none
    | some SF1 => StackFrame.InsertAll SF1 rest

/-- The bytes a slot of the given size adds to `ObjectsSize`: `max(size, 4)`. -/
def slotBytes (Size : Nat) : Nat := max Size 4

/-! ### MachineOperand, MachineInstruction, MachineFunction -/

/-- Modelled from the spec: LowLevelType (LowLevelType.hpp is absent), the
variant `INT(bitwidth)` or `PTR(pointer-width)`; `IsPtr` is `IsPointer()`. -/
structure LowLevelType where
  IsPtr : Bool := false
  BitWidth : Nat := 0
deriving Repr, DecidableEq

/-- `LowLevelType::CreateINT`. -/
def LowLevelType.CreateINT (BitWidth : Nat) : LowLevelType := { IsPtr := false, BitWidth := BitWidth }

/-- `LowLevelType::CreatePTR`. -/
def LowLevelType.CreatePTR (BitWidth : Nat) : LowLevelType := { IsPtr := true, BitWidth := BitWidth }

/-- The tag of a machine operand. -/
inductive MOKind where
  | NONE | REGISTER | INT_IMMEDIATE | MEMORY_ADDRESS | STACK_ACCESS | PARAMETER
  | LABEL | FUNCTION_NAME | GLOBAL_SYMBOL
deriving Repr, DecidableEq

/-- Modelled from the spec: MachineOperand (MachineOperand.hpp is absent), the
tagged operand `VReg / PhysReg / Imm / StackSlot / Memory / Label / GlobalSym /
Parameter / FunctionName`.  The sources use it through a tag, one value field
(register id, slot id or immediate), an offset, a type, a name and the
virtual flag that separates `VReg` from `PhysReg` and virtual from physical
memory bases. -/
structure MachineOperand where
  Kind : MOKind := MOKind.NONE
  Value : Int := 0
  Offset : Int := 0
  LLT : LowLevelType := {}
  Label : String := ""
  Virtual : Bool := false
deriving Repr, DecidableEq

namespace MachineOperand

def IsVirtualReg (MO : MachineOperand) : Bool := MO.Kind == MOKind.REGISTER && MO.Virtual
def IsRegister (MO : MachineOperand) : Bool := MO.Kind == MOKind.REGISTER && !MO.Virtual
def IsImmediate (MO : MachineOperand) : Bool := MO.Kind == MOKind.INT_IMMEDIATE
def IsMemory (MO : MachineOperand) : Bool := MO.Kind == MOKind.MEMORY_ADDRESS
def IsStackAccess (MO : MachineOperand) : Bool := MO.Kind == MOKind.STACK_ACCESS
def IsParameter (MO : MachineOperand) : Bool := MO.Kind == MOKind.PARAMETER
def IsLabel (MO : MachineOperand) : Bool := MO.Kind == MOKind.LABEL
def IsFunctionName (MO : MachineOperand) : Bool := MO.Kind == MOKind.FUNCTION_NAME
def IsGlobalSymbol (MO : MachineOperand) : Bool := MO.Kind == MOKind.GLOBAL_SYMBOL
def IsVirtual (MO : MachineOperand) : Bool := MO.Virtual

/-- `GetReg()`: the value field read as an `unsigned` register id. -/
def GetReg (MO : MachineOperand) : Nat := MO.Value.toNat
/-- `GetSlot()`: the value field read as a stack slot id. -/
def GetSlot (MO : MachineOperand) : Nat := MO.Value.toNat
def GetImmediate (MO : MachineOperand) : Int := MO.Value
def GetOffset (MO : MachineOperand) : Int := MO.Offset
def GetSize (MO : MachineOperand) : Nat := MO.LLT.BitWidth

/-- The test of the live range scan: the operand names a register id
(`IsVirtualReg() || IsParameter() || IsMemory()`). -/
def UsesReg (MO : MachineOperand) : Bool := MO.IsVirtualReg || MO.IsParameter || MO.IsMemory

def SetToRegister (MO : MachineOperand) : MachineOperand :=
  { MO with Kind := MOKind.REGISTER, Virtual := false }
def SetReg (MO : MachineOperand) (V : Nat) : MachineOperand := { MO with Value := (V : Int) }
def SetValue (MO : MachineOperand) (V : Int) : MachineOperand := { MO with Value := V }
def SetVirtual (MO : MachineOperand) (b : Bool) : MachineOperand := { MO with Virtual := b }
def SetOffset (MO : MachineOperand) (o : Int) : MachineOperand := { MO with Offset := o }
def SetType (MO : MachineOperand) (t : LowLevelType) : MachineOperand := { MO with LLT := t }

def CreateRegister (Reg : Nat) (BitWidth : Nat) : MachineOperand :=
  { Kind := MOKind.REGISTER, Value := (Reg : Int), LLT := LowLevelType.CreateINT BitWidth }
def CreateVirtualRegister (Reg : Nat) (BitWidth : Nat) : MachineOperand :=
  { Kind := MOKind.REGISTER, Virtual := true, Value := (Reg : Int),
    LLT := LowLevelType.CreateINT BitWidth }
def CreateImmediate (Num : Int) (BitWidth : Nat) : MachineOperand :=
  { Kind := MOKind.INT_IMMEDIATE, Value := Num, LLT := LowLevelType.CreateINT BitWidth }
def CreateMemory (Id : Nat) (BitWidth : Nat) : MachineOperand :=
  { Kind := MOKind.MEMORY_ADDRESS, Virtual := true, Value := (Id : Int),
    LLT := LowLevelType.CreatePTR BitWidth }
def CreateStackAccess (Slot : Nat) (Offset : Int) : MachineOperand :=
  { Kind := MOKind.STACK_ACCESS, Value := (Slot : Int), Offset := Offset }
def CreateParameter (Val : Nat) : MachineOperand :=
  { Kind := MOKind.PARAMETER, Value := (Val : Int) }
def CreateLabel (L : String) : MachineOperand := { Kind := MOKind.LABEL, Label := L }
def CreateFunctionName (L : String) : MachineOperand := { Kind := MOKind.FUNCTION_NAME, Label := L }
def CreateGlobalSymbol (L : String) : MachineOperand := { Kind := MOKind.GLOBAL_SYMBOL, Label := L }

end MachineOperand

/-- Generic opcodes: `MachineInstruction::OperationCode`, with the
enumerators the lowering and the selector name (`MOV`, `GLOBAL_ADDRESS`,
`STACK_ADDRESS`, ...) and the opcodes of the IR kinds of memory copy and GEP
next to those the header lists. -/
inductive OperationCode where
  | AND | OR | XOR | LSL | LSR | ADD | SUB | MUL | DIV | DIVU | MOD | MODU | CMP
  | SEXT | ZEXT | TRUNC | FTOI | ITOF
  | CALL | JUMP | BRANCH | RET
  | LOAD | STORE | ZEXT_LOAD | STACK_ALLOC | MEM_COPY | GET_ELEM_PTR
  | LOAD_IMM | MOV | GLOBAL_ADDRESS | STACK_ADDRESS
deriving Repr, DecidableEq

/-- Target opcodes of the AArch64 backend (the enumeration of
AArch64InstructionDefinitions.hpp, by the names the sources use). -/
inductive AArch64.Opcodes where
  | ADD_rrr | ADD_rri | AND_rri | EOR_rri | LSL_rrr | LSL_rri | LSR_rrr | LSR_rri
  | SUB_rrr | SUB_rri | SUBS | SDIV_rrr | SDIV_rri | UDIV_rrr | MUL_rrr | MUL_rri
  | CMP_rr | CMP_ri | CSET | SXTB | SXTW | MOV_rc | MOV_rr
  | LDR | LDRB | STR | STRB
  | BEQ | BNE | BGE | BGT | BLE | BLT | B | BL | RET
deriving Repr, DecidableEq

/-- The `unsigned Opcode` of a machine instruction: `0` (invalid), a generic
opcode, or a target opcode. -/
inductive MIOpcode where
  | invalid
  | generic (c : OperationCode)
  | target (c : AArch64.Opcodes)
deriving Repr, DecidableEq

/-- `MachineInstruction::CMPRelation`, the values of `Attributes`. -/
inductive CMPRelation where
  | INVALID | EQ | NE | LT | GT | LE | GE
deriving Repr, DecidableEq

/-- `MachineInstruction`: opcode, relation attribute, flag word, operand
list.  The parent pointer is a back reference and is not part of the value. -/
structure MachineInstruction where
  Opcode : MIOpcode := MIOpcode.invalid
  Attributes : CMPRelation := CMPRelation.INVALID
  OtherAttributes : Nat := 0
  Operands : List MachineOperand := []
deriving Repr, DecidableEq

namespace MachineInstruction

def IS_LOAD : Nat := 1
def IS_STORE : Nat := 2

def GetOperandsNumber (MI : MachineInstruction) : Nat := MI.Operands.length
def GetOperand (MI : MachineInstruction) (Index : Nat) : Option MachineOperand := MI.Operands.get? Index
def SetOpcode (MI : MachineInstruction) (Op : MIOpcode) : MachineInstruction := { MI with Opcode := Op }
def AddOperand (MI : MachineInstruction) (MO : MachineOperand) : MachineInstruction :=
  { MI with Operands := MI.Operands ++ [MO] }
def SetAttributes (MI : MachineInstruction) (A : CMPRelation) : MachineInstruction :=
  { MI with Attributes := A }
def GetRelation (MI : MachineInstruction) : CMPRelation := MI.Attributes
def AddAttribute (MI : MachineInstruction) (Flag : Nat) : MachineInstruction :=
  { MI with OtherAttributes := MI.OtherAttributes ||| Flag }
def IsInvalid (MI : MachineInstruction) : Bool := MI.Opcode == MIOpcode.invalid

/-- `RemoveOperand(Index)`: `Operands.erase(Operands.begin() + Index)`. -/
def RemoveOperand (MI : MachineInstruction) (Index : Nat) : MachineInstruction :=
  { MI with Operands := MI.Operands.eraseIdx Index }

/-- `InsertOperand(Index, Operand)`. -/
def InsertOperand (MI : MachineInstruction) (Index : Nat) (MO : MachineOperand) :
    MachineInstruction :=
  { MI with Operands := MI.Operands.take Index ++ MO :: MI.Operands.drop Index }

/-- `RemoveMemOperand()`: the loop erases every operand for which
`IsStackAccess()` holds, and no other. -/
def RemoveMemOperand (MI : MachineInstruction) : MachineInstruction :=
  { MI with Operands := MI.Operands.filter (fun o => !o.IsStackAccess) }

/-- `AddRegister(Reg, BitWidth)`. -/
def AddRegister (MI : MachineInstruction) (Reg : Nat) (BitWidth : Nat) : MachineInstruction :=
  MI.AddOperand (MachineOperand.CreateRegister Reg BitWidth)
/-- `AddVirtualRegister(Reg, BitWidth)`. -/
def AddVirtualRegister (MI : MachineInstruction) (Reg : Nat) (BitWidth : Nat) :
    MachineInstruction :=
  MI.AddOperand (MachineOperand.CreateVirtualRegister Reg BitWidth)
/-- `AddImmediate(Num, BitWidth)`. -/
def AddImmediate (MI : MachineInstruction) (Num : Int) (BitWidth : Nat) : MachineInstruction :=
  MI.AddOperand (MachineOperand.CreateImmediate Num BitWidth)
/-- `AddMemory(Id, BitWidth)`. -/
def AddMemory (MI : MachineInstruction) (Id : Nat) (BitWidth : Nat) : MachineInstruction :=
  MI.AddOperand (MachineOperand.CreateMemory Id BitWidth)
/-- `AddStackAccess(Slot, Size = 4)`: the header passes only the slot on, to
`CreateStackAccess(Slot)`; its second parameter is not used. -/
def AddStackAccess (MI : MachineInstruction) (Slot : Nat) (_Size : Nat) : MachineInstruction :=
  MI.AddOperand (MachineOperand.CreateStackAccess Slot 0)
def AddLabel (MI : MachineInstruction) (L : String) : MachineInstruction :=
  MI.AddOperand (MachineOperand.CreateLabel L)
def AddFunctionName (MI : MachineInstruction) (L : String) : MachineInstruction :=
  MI.AddOperand (MachineOperand.CreateFunctionName L)
def AddGlobalSymbol (MI : MachineInstruction) (L : String) : MachineInstruction :=
  MI.AddOperand (MachineOperand.CreateGlobalSymbol L)

def IsFallThroughBranch (MI : MachineInstruction) : Bool := MI.Operands.length == 2

end MachineInstruction

/-- `MachineBasicBlock`: a label and its instructions. -/
structure MachineBasicBlock where
  Name : String := ""
  Instructions : List MachineInstruction := []
deriving Repr, DecidableEq

/-- `MachineFunction`: name, parameters `(id, type)`, blocks, stack frame,
the virtual register counter, the has-call flag and the callee-saved registers
taken into use. -/
structure MachineFunction where
  Name : String := ""
  Parameters : List (Nat × LowLevelType) := []
  BasicBlocks : List MachineBasicBlock := []
  SF : StackFrame := StackFrame.empty
  NextVReg : Nat := 0
  HasCall : Bool := false
  UsedCalleSavedRegs : List Nat := []
deriving Repr, DecidableEq

namespace MachineFunction

def IsStackSlot (MF : MachineFunction) (ID : Nat) : Bool := MF.SF.IsStackSlot ID
def GetStackObjectPosition (MF : MachineFunction) (ID : Nat) : Option Nat := MF.SF.GetPosition ID
def GetStackObjectSize (MF : MachineFunction) (ID : Nat) : Option Nat := MF.SF.GetSize ID
def InsertStackSlot (MF : MachineFunction) (ID Size : Nat) : Option MachineFunction :=
  (MF.SF.InsertStackSlot ID Size).map (fun sf => { MF with SF := sf })

end MachineFunction

/-! ### Target description -/

/-- Modelled from the spec: the register catalog (RegisterInfo, TargetRegister;
their sources are absent).  A physical register has an id, a bit width,
sub-register ids and an optional parent; the catalog is read through
`GetRegisterByID(id)->GetBitWidth()`, `->GetSubRegs()`, `GetParentReg(id)` and
`GetStackRegister()`. -/
structure RegisterInfo where
  BitWidth : Nat → Nat
  SubRegs : Nat → List Nat
  ParentReg : Nat → Option Nat
  StackRegister : Nat

/-- `TargetABI`: the register lists (by register id) and the two constants. -/
structure TargetABI where
  StackAlignment : Nat
  MaxStructSize : Nat
  ArgumentRegisters : List Nat
  CalleeSavedRegisters : List Nat
  CallerSavedRegisters : List Nat
  ReturnRegisters : List Nat
deriving Repr, DecidableEq

/-- Operand classes of the instruction definitions. -/
inductive OperandTypes where
  | GPR | UIMM12 | SIMM12 | SIMM21_LSB0
deriving Repr, DecidableEq

/-- The attribute of a `TargetInstruction`. -/
inductive TargetInstructionAttr where
  | NONE | LOAD | STORE | RETURN
deriving Repr, DecidableEq

/-- `TargetInstruction`: `{opcode, size, asm template, operand classes, attribute}`. -/
structure TargetInstruction where
  Opcode : AArch64.Opcodes
  Size : Nat
  AsmString : String
  OperandTypes : List OperandTypes
  Attributes : TargetInstructionAttr := TargetInstructionAttr.NONE
deriving Repr, DecidableEq

def TargetInstruction.IsReturn (TI : TargetInstruction) : Bool :=
  TI.Attributes == TargetInstructionAttr.RETURN

/-- `TargetMachine`: register info, ABI, `GetInstrDefs()->GetTargetInstr` and
the pointer size in bits. -/
structure TargetMachine where
  RegInfo : RegisterInfo
  ABI : TargetABI
  GetTargetInstr : MIOpcode → Option TargetInstruction
  PointerSize : Nat

/-! ### RegisterAllocator.cpp -/

/-- `PreAllocateParameters`: every parameter is set live `{0, ~0}` and bound to
the next argument register, or to that register's first sub-register when the
parameter is at most 32 bits wide. -/
def PreAllocateParameters (TM : TargetMachine) :
    List (Nat × LowLevelType) → Nat → List (Nat × Nat) → List (Nat × Nat × Nat) →
    Option (List (Nat × Nat) × List (Nat × Nat × Nat))
  | [], _, AllocatedRegisters, LiveRanges => some (AllocatedRegisters, LiveRanges)
  | (ParamID, ParamLLT) :: rest, CurrentParamReg, AllocatedRegisters, LiveRanges =>
    match TM.ABI.ArgumentRegisters.get? CurrentParamReg with
    | none => none
    | some ArgReg =>
      let LiveRanges1 := StdMap.set LiveRanges ParamID (0, UNSIGNED_MAX)
      if ParamLLT.BitWidth ≤ 32 then
        match (TM.RegInfo.SubRegs ArgReg).head? with
        | none => none
        | some Sub =>
          PreAllocateParameters TM rest (CurrentParamReg + 1)
            (StdMap.set AllocatedRegisters ParamID Sub) LiveRanges1
      else
        PreAllocateParameters TM rest (CurrentParamReg + 1)
          (StdMap.set AllocatedRegisters ParamID ArgReg) LiveRanges1

/-- The body of the loop of `PreAllocateReturnRegister` over the instructions
of the last block, taken from the tail. -/
def PreAllocateReturnRegister.loop (TM : TargetMachine) :
    List MachineInstruction → List (Nat × Nat) → Option (List (Nat × Nat))
  | [], AllocatedRegisters => some AllocatedRegisters
  | It :: rest, AllocatedRegisters =>
    match TM.GetTargetInstr It.Opcode with
    | none => none
    | some TargetInstr =>
      if TargetInstr.IsReturn then
        match It.Operands.head? with
        | none => PreAllocateReturnRegister.loop TM rest AllocatedRegisters
        | some Op0 =>
          match TM.ABI.ReturnRegisters.head? with
          | none => none
          | some RetReg0 =>
            if Op0.GetSize = TM.RegInfo.BitWidth RetReg0 then
              PreAllocateReturnRegister.loop TM rest
                (StdMap.set AllocatedRegisters Op0.GetReg RetReg0)
            else
              match (TM.RegInfo.SubRegs RetReg0).head? with
              | none => none
              | some Sub =>
                PreAllocateReturnRegister.loop TM rest
                  (StdMap.set AllocatedRegisters Op0.GetReg Sub)
      else PreAllocateReturnRegister.loop TM rest AllocatedRegisters

/-- `PreAllocateReturnRegister`: the return instructions of the last block bind
their first operand to the first return register or its first sub-register. -/
def PreAllocateReturnRegister (TM : TargetMachine) (Func : MachineFunction)
    (AllocatedRegisters : List (Nat × Nat)) : Option (List (Nat × Nat)) :=
  match Func.BasicBlocks.getLast? with
  | none => none
  | some LastBB => PreAllocateReturnRegister.loop TM LastBB.Instructions.reverse AllocatedRegisters

/-- The search loop of `GetNextAvailableReg`: the first pool entry whose width,
or one of whose sub-registers' width, is `BitSize`; the result is the register
handed out and the index (`loopCounter`) of the pool entry to erase. -/
def GetNextAvailableReg.search (RI : RegisterInfo) (BitSize : Nat) :
    List Nat → Nat → Option (Nat × Nat)
  | [], _ => none
  | UnAllocatedReg :: rest, loopCounter =>
    if RI.BitWidth UnAllocatedReg = BitSize then some (UnAllocatedReg, loopCounter)
    else
      match (RI.SubRegs UnAllocatedReg).find? (fun SubReg => RI.BitWidth SubReg == BitSize) with
      | some SubReg => some (SubReg, loopCounter)
      | none => GetNextAvailableReg.search RI BitSize rest (loopCounter + 1)

/-- The pools and the used-callee-saved list that `GetNextAvailableReg` updates. -/
structure RegPools where
  Pool : List Nat
  BackupPool : List Nat
  UsedCalleSavedRegs : List Nat
deriving Repr, DecidableEq

/-- `GetNextAvailableReg`: fails when both pools are empty; with an empty
primary pool the first backup register is promoted and recorded as used; then
the search picks the register and erases its pool entry. -/
def GetNextAvailableReg (RI : RegisterInfo) (BitSize : Nat) (P : RegPools) :
    Option (Nat × RegPools) :=
  if P.Pool.isEmpty && P.BackupPool.isEmpty then none
  else
    let P1 : RegPools :=
      if P.Pool.isEmpty then
        { Pool := P.Pool ++ P.BackupPool.take 1,
          BackupPool := P.BackupPool.drop 1,
          UsedCalleSavedRegs := P.UsedCalleSavedRegs ++ P.BackupPool.take 1 }
      else P
    match GetNextAvailableReg.search RI BitSize P1.Pool 0 with
    | none => none
    | some (Reg, loopCounter) => some (Reg, { P1 with Pool := P1.Pool.eraseIdx loopCounter })

/-- Removal of one pre-allocated register from the pool: its sub-registers,
itself and its parent are each erased at their first position, if present. -/
def RemovePreAllocated (RI : RegisterInfo) (Pool : List Nat) (PhysReg : Nat) : List Nat :=
  let RegsToCheck := RI.SubRegs PhysReg ++ [PhysReg] ++ (RI.ParentReg PhysReg).toList
  RegsToCheck.foldl (fun pool Reg => pool.erase Reg) Pool

/-- The live range scan over the operands of one instruction. -/
def LiveRangeScan.operands (InstrCounter : Nat) :
    List MachineOperand → List (Nat × Nat × Nat) × List (Nat × MachineOperand) →
    List (Nat × Nat × Nat) × List (Nat × MachineOperand)
  | [], acc => acc
  | Operand :: rest, (LiveRanges, VRegToMOMap) =>
    if Operand.IsVirtualReg || Operand.IsParameter || Operand.IsMemory then
      let UsedReg := Operand.GetReg
      let VRegToMOMap1 :=
        if StdMap.contains VRegToMOMap UsedReg then VRegToMOMap
        else StdMap.set VRegToMOMap UsedReg Operand
      let LiveRanges1 :=
        match StdMap.get? LiveRanges UsedReg with
        | none => StdMap.set LiveRanges UsedReg (InstrCounter, UNSIGNED_MAX)
        | some (DefLine, _) => StdMap.set LiveRanges UsedReg (DefLine, InstrCounter)
      LiveRangeScan.operands InstrCounter rest (LiveRanges1, VRegToMOMap1)
    else LiveRangeScan.operands InstrCounter rest (LiveRanges, VRegToMOMap)

/-- The live range scan over a flat instruction sequence, numbered from
`InstrCounter` on. -/
def LiveRangeScan.instrs :
    List MachineInstruction → Nat → List (Nat × Nat × Nat) × List (Nat × MachineOperand) →
    List (Nat × Nat × Nat) × List (Nat × MachineOperand)
  | [], _, acc => acc
  | Instr :: rest, InstrCounter, acc =>
    LiveRangeScan.instrs rest (toUnsigned (InstrCounter + 1))
      (LiveRangeScan.operands InstrCounter Instr.Operands acc)

/-- All instructions of a function in block order. -/
def MachineFunction.AllInstructions (Func : MachineFunction) : List MachineInstruction :=
  (Func.BasicBlocks.map (fun BB => BB.Instructions)).flatten

/-- The comparator of the `std::sort` call, as a non-strict order on
`(VReg, DefLine, KillLine)`: by `DefLine`, then by `KillLine`. -/
def LiveRangeLE (L R : Nat × Nat × Nat) : Prop :=
  L.2.1 < R.2.1 ∨ (L.2.1 = R.2.1 ∧ L.2.2 ≤ R.2.2)

instance : DecidableRel LiveRangeLE := fun L R => by
  unfold LiveRangeLE; exact inferInstance

instance : IsTotal (Nat × Nat × Nat) LiveRangeLE :=
  ⟨fun a b => by unfold LiveRangeLE; omega⟩

instance : IsTrans (Nat × Nat × Nat) LiveRangeLE :=
  ⟨fun a b c h1 h2 => by unfold LiveRangeLE at *; omega⟩

/-- `SortedLiveRanges`: the entries of the map in key order, sorted by the
comparator.  `std::sort` leaves the relative order of entries with equal
`(DefLine, KillLine)` open; here they keep their key order. -/
def SortLiveRanges (LiveRanges : List (Nat × Nat × Nat)) : List (Nat × Nat × Nat) :=
  LiveRanges.insertionSort LiveRangeLE

/-- The state of the allocation loop. -/
structure RAState where
  AllocatedRegisters : List (Nat × Nat)
  Pools : RegPools
  FreeAbleWorkList : List (Nat × Nat × Nat)
deriving Repr, DecidableEq

/-- The loop that frees the registers of the work list entries whose kill line
lies before `DefLine`: the register, or its parent when it has one, goes to
the front of the pool and the entry leaves the work list. -/
def FreeKilled (RI : RegisterInfo) (AllocatedRegisters : List (Nat × Nat)) (DefLine : Nat) :
    List (Nat × Nat × Nat) → List Nat → Option (List (Nat × Nat × Nat) × List Nat)
  | [], Pool => some ([], Pool)
  | (CheckVReg, CheckDefLine, CheckKillLine) :: rest, Pool =>
    if CheckKillLine < DefLine then
      match StdMap.get? AllocatedRegisters CheckVReg with
      | none => none
      | some Reg =>
        let FreeAbleReg := (RI.ParentReg Reg).getD Reg
        FreeKilled RI AllocatedRegisters DefLine rest (FreeAbleReg :: Pool)
    else
      match FreeKilled RI AllocatedRegisters DefLine rest Pool with
      | none => none
      | some (WorkList, Pool1) => some ((CheckVReg, CheckDefLine, CheckKillLine) :: WorkList, Pool1)

/-- One iteration of the allocation loop for the range `(VReg, DefLine, KillLine)`. -/
def AllocateRange (RI : RegisterInfo) (VRegToMOMap : List (Nat × MachineOperand))
    (St : RAState) (R : Nat × Nat × Nat) : Option RAState :=
  let St1 : Option RAState :=
    if StdMap.contains St.AllocatedRegisters R.1 then some St
    else
      match StdMap.get? VRegToMOMap R.1 with
      | none => none
      | some MO =>
        match GetNextAvailableReg RI (MO.GetSize % 256) St.Pools with
        | none => none
        | some (Reg, Pools1) =>
          some { AllocatedRegisters := StdMap.set St.AllocatedRegisters R.1 Reg,
                 Pools := Pools1,
                 FreeAbleWorkList := St.FreeAbleWorkList ++ [R] }
  match St1 with
  | none => none
  | some St2 =>
    match FreeKilled RI St2.AllocatedRegisters R.2.1 St2.FreeAbleWorkList St2.Pools.Pool with
    | none => none
    | some (WorkList, Pool1) =>
      some { St2 with Pools := { St2.Pools with Pool := Pool1 }, FreeAbleWorkList := WorkList }

/-- The allocation loop over the sorted live ranges. -/
def AllocateRanges (RI : RegisterInfo) (VRegToMOMap : List (Nat × MachineOperand)) :
    List (Nat × Nat × Nat) → RAState → Option RAState
  | [], St => some St
  | R :: rest, St =>
    match AllocateRange RI VRegToMOMap St R with
    | none => none
    | some St1 => AllocateRanges RI VRegToMOMap rest St1

/-- What the first part of `RunRA` computes for one function. -/
structure RAResult where
  PreAllocated : List (Nat × Nat)
  LiveRanges : List (Nat × Nat × Nat)
  AllocatedRegisters : List (Nat × Nat)
  UsedCalleSavedRegs : List Nat
deriving Repr, DecidableEq

/-- The state in which the allocation loop starts: the pre-allocations, the
caller-saved pool without the pre-allocated registers, the callee-saved backup
pool, and an empty work list. -/
def RunRA.initState (TM : TargetMachine) (Func : MachineFunction)
    (PreAllocated : List (Nat × Nat)) : RAState :=
  { AllocatedRegisters := PreAllocated,
    Pools := { Pool := PreAllocated.foldl (fun pool e => RemovePreAllocated TM.RegInfo pool e.2)
                         TM.ABI.CallerSavedRegisters,
               BackupPool := TM.ABI.CalleeSavedRegisters,
               UsedCalleSavedRegs := Func.UsedCalleSavedRegs },
    FreeAbleWorkList := [] }

/-- `RunRA`, from the pool initialisation to the end of the allocation loop. -/
def RunRA.allocate (TM : TargetMachine) (Func : MachineFunction) : Option RAResult :=
  match PreAllocateParameters TM Func.Parameters 0 [] [] with
  | none => none
  | some (Alloc0, LiveRanges0) =>
    match PreAllocateReturnRegister TM Func Alloc0 with
    | none => none
    | some PreAllocated =>
      let Scan := LiveRangeScan.instrs Func.AllInstructions 0 (LiveRanges0, [])
      match AllocateRanges TM.RegInfo Scan.2 (SortLiveRanges Scan.1)
              (RunRA.initState TM Func PreAllocated) with
      | none => none
      | some St =>
        some { PreAllocated := PreAllocated,
               LiveRanges := Scan.1,
               AllocatedRegisters := St.AllocatedRegisters,
               UsedCalleSavedRegs := St.Pools.UsedCalleSavedRegs }

/-- The operand rewrite: a virtual register or parameter becomes a register
with the allocated id; a memory operand gets the allocated register as value
and is no longer virtual; every other operand is left as it is. -/
def RunRA.rewriteOperand (AllocatedRegisters : List (Nat × Nat)) (Operand : MachineOperand) :
    MachineOperand :=
  let PhysReg := StdMap.getD0 AllocatedRegisters Operand.GetReg
  if Operand.IsVirtualReg || Operand.IsParameter then
    (Operand.SetToRegister).SetReg PhysReg
  else if Operand.IsMemory then
    (Operand.SetVirtual false).SetValue (PhysReg : Int)
  else Operand

def RunRA.rewriteInstr (AllocatedRegisters : List (Nat × Nat)) (Instr : MachineInstruction) :
    MachineInstruction :=
  { Instr with Operands := Instr.Operands.map (RunRA.rewriteOperand AllocatedRegisters) }

/-- The lowering of the first stack-access or memory operand of an
instruction to a register and an immediate, appended after
`RemoveMemOperand()`; an instruction without such an operand is unchanged. -/
def RunRA.lowerInstr (TM : TargetMachine) (Func : MachineFunction)
    (AllocatedRegisters : List (Nat × Nat)) (Instr : MachineInstruction) :
    Option MachineInstruction :=
  match Instr.Operands.find? (fun Operand => Operand.IsStackAccess || Operand.IsMemory) with
  | none => some Instr
  | some Operand =>
    if Operand.IsStackAccess then
      let FrameReg := TM.RegInfo.StackRegister
      match Func.GetStackObjectPosition Operand.GetSlot with
      | none => none
      | some Position =>
        let Offset : Int := (Position : Int) + Operand.GetOffset
        some (((Instr.RemoveMemOperand).AddRegister FrameReg TM.PointerSize).AddImmediate Offset 32)
    else
      let BaseReg := Operand.GetReg
      let Offset := Operand.GetOffset
      let Reg := if Operand.IsVirtual then StdMap.getD0 AllocatedRegisters BaseReg else BaseReg
      let RegSize := TM.RegInfo.BitWidth Reg
      some (((Instr.RemoveMemOperand).AddRegister Reg RegSize).AddImmediate Offset 32)

/-- A list of fallible steps, in order. -/
def mapOption {α β : Type} (f : α → Option β) : List α → Option (List β)
  | [] => some []
  | a :: rest =>
    match f a with
    | none => none
    | some b =>
      match mapOption f rest with
      | none => none
      | some bs => some (b :: bs)

/-- The function after the operand rewrite, in which `RunRA` then lowers the
stack accesses. -/
def RunRA.rewritten (Func : MachineFunction) (Res : RAResult) : MachineFunction :=
  { Func with
    UsedCalleSavedRegs := Res.UsedCalleSavedRegs,
    BasicBlocks := Func.BasicBlocks.map (fun BB =>
      { BB with Instructions :=
          BB.Instructions.map (RunRA.rewriteInstr Res.AllocatedRegisters) }) }

/-- `RunRA` on one function: allocation, operand rewrite, stack-frame lowering. -/
def RunRA.function (TM : TargetMachine) (Func : MachineFunction) : Option MachineFunction :=
  match RunRA.allocate TM Func with
  | none => none
  | some Res =>
    let Func1 := RunRA.rewritten Func Res
    match mapOption (fun (BB : MachineBasicBlock) =>
        (mapOption (RunRA.lowerInstr TM Func1 Res.AllocatedRegisters) BB.Instructions).map
          (fun Instrs => ({ BB with Instructions := Instrs } : MachineBasicBlock)))
        Func1.BasicBlocks with
    | none => none
    | some BBs => some { Func1 with BasicBlocks := BBs }

/-- `RegisterAllocator::RunRA`: every function of the module in turn. -/
def RunRA (TM : TargetMachine) (Functions : List MachineFunction) : Option (List MachineFunction) :=
  mapOption (RunRA.function TM) Functions

/-! ### AArch64TargetMachine.cpp: instruction selection -/

/-- `GetTypeRef().SetBitWidth(w)` on an operand. -/
def MachineOperand.SetBitWidth (MO : MachineOperand) (w : Nat) : MachineOperand :=
  { MO with LLT := { MO.LLT with BitWidth := w } }

/-- `ExtendRegSize(MO, BitWidth = 32)`: an operand narrower than 32 bits gets
the width `BitWidth`. -/
def ExtendRegSize (MO : MachineOperand) (BitWidth : Nat) : MachineOperand :=
  if MO.GetSize < 32 then MO.SetBitWidth BitWidth else MO

/-- Update of the operand at `Index` in place (`MI->GetOperand(Index)->...`). -/
def MachineInstruction.ModifyOperand (MI : MachineInstruction) (Index : Nat)
    (f : MachineOperand → MachineOperand) : MachineInstruction :=
  { MI with Operands := MI.Operands.take Index ++
      (match MI.Operands.get? Index with
       | some MO => [f MO]
       | none => []) ++ MI.Operands.drop (Index + 1) }

/-- `IsUInt<12>(v)`: the value fits an unsigned 12-bit field. -/
def IsUInt12 (v : Int) : Bool := decide (0 ≤ v) && decide (v < 4096)

/-- `IsInt<16>(v)`: the value fits a signed 16-bit field. -/
def IsInt16 (v : Int) : Bool := decide (-32768 ≤ v) && decide (v < 32768)

namespace AArch64TargetMachine

/-- The common start of the three-operand selectors: the operand count
assertion and `ExtendRegSize` on operands 0 and 1. -/
def Extend01 (MI : MachineInstruction) : MachineInstruction :=
  (MI.ModifyOperand 0 (fun MO => ExtendRegSize MO 32)).ModifyOperand 1
    (fun MO => ExtendRegSize MO 32)

/-- The shape shared by `SelectSUB`, `SelectMUL` and `SelectDIV`: three
operands asserted, operands 0 and 1 widened, then the `_rri` opcode for an
immediate third operand that passes `IsUInt<12>`, the `_rrr` opcode for any
other third operand. -/
def SelectRRIorRRR (rri rrr : AArch64.Opcodes) (MI : MachineInstruction) :
    Option (Bool × MachineInstruction) :=
  if MI.GetOperandsNumber ≠ 3 then none
  else
    let MI1 := Extend01 MI
    match MI1.GetOperand 2 with
    | none => none
    | some ImmMO =>
      if ImmMO.IsImmediate then
        if IsUInt12 ImmMO.GetImmediate then some (true, MI1.SetOpcode (MIOpcode.target rri))
        else none
      else some (true, MI1.SetOpcode (MIOpcode.target rrr))

def SelectSUB (MI : MachineInstruction) : Option (Bool × MachineInstruction) :=
  SelectRRIorRRR AArch64.Opcodes.SUB_rri AArch64.Opcodes.SUB_rrr MI

def SelectMUL (MI : MachineInstruction) : Option (Bool × MachineInstruction) :=
  SelectRRIorRRR AArch64.Opcodes.MUL_rri AArch64.Opcodes.MUL_rrr MI

def SelectDIV (MI : MachineInstruction) : Option (Bool × MachineInstruction) :=
  SelectRRIorRRR AArch64.Opcodes.SDIV_rri AArch64.Opcodes.SDIV_rrr MI

def SelectLSL (MI : MachineInstruction) : Option (Bool × MachineInstruction) :=
  SelectRRIorRRR AArch64.Opcodes.LSL_rri AArch64.Opcodes.LSL_rrr MI

def SelectLSR (MI : MachineInstruction) : Option (Bool × MachineInstruction) :=
  SelectRRIorRRR AArch64.Opcodes.LSR_rri AArch64.Opcodes.LSR_rrr MI

/-- `SelectXOR`: only the immediate form exists; any other third operand runs
into the `Unreachable` assertion. -/
def SelectXOR (MI : MachineInstruction) : Option (Bool × MachineInstruction) :=
  if MI.GetOperandsNumber ≠ 3 then none
  else
    let MI1 := Extend01 MI
    match MI1.GetOperand 2 with
    | none => none
    | some ImmMO =>
      if ImmMO.IsImmediate then
        if IsUInt12 ImmMO.GetImmediate then
          some (true, MI1.SetOpcode (MIOpcode.target AArch64.Opcodes.EOR_rri))
        else none
      else none

/-- `SelectADD`: a global symbol as third operand gives `ADD_rri`; a negative
immediate turns the instruction into a `SUB_rri` with the negated immediate
and hands it to `SelectSUB`; another immediate must pass `IsUInt<12>` and
gives `ADD_rri`; any other operand gives `ADD_rrr`. -/
def SelectADD (MI : MachineInstruction) : Option (Bool × MachineInstruction) :=
  if MI.GetOperandsNumber ≠ 3 then none
  else
    let MI1 := Extend01 MI
    match MI1.GetOperand 2 with
    | none => none
    | some Op2 =>
      if Op2.IsGlobalSymbol then
        some (true, MI1.SetOpcode (MIOpcode.target AArch64.Opcodes.ADD_rri))
      else if Op2.IsImmediate then
        if Op2.GetImmediate < 0 then
          SelectSUB ((MI1.SetOpcode (MIOpcode.target AArch64.Opcodes.SUB_rri)).ModifyOperand 2
            (fun MO => MO.SetValue (Op2.GetImmediate * -1)))
        else if IsUInt12 Op2.GetImmediate then
          some (true, MI1.SetOpcode (MIOpcode.target AArch64.Opcodes.ADD_rri))
        else none
      else some (true, MI1.SetOpcode (MIOpcode.target AArch64.Opcodes.ADD_rrr))

/-- `SelectDIVU`: an immediate third operand is not supported. -/
def SelectDIVU (MI : MachineInstruction) : Option (Bool × MachineInstruction) :=
  if MI.GetOperandsNumber ≠ 3 then none
  else
    let MI1 := Extend01 MI
    match MI1.GetOperand 2 with
    | none => none
    | some ImmMO =>
      if ImmMO.IsImmediate then none
      else some (true, MI1.SetOpcode (MIOpcode.target AArch64.Opcodes.UDIV_rrr))

def SelectMOD (_MI : MachineInstruction) : Option (Bool × MachineInstruction) := none

def SelectMODU (_MI : MachineInstruction) : Option (Bool × MachineInstruction) := none

/-- `SelectCMP`: `CMP_ri` for an immediate third operand, `CMP_rr` otherwise;
in both cases the destination operand is removed. -/
def SelectCMP (MI : MachineInstruction) : Option (Bool × MachineInstruction) :=
  if MI.GetOperandsNumber ≠ 3 then none
  else
    let MI1 := Extend01 MI
    match MI1.GetOperand 2 with
    | none => none
    | some ImmMO =>
      if ImmMO.IsImmediate then
        some (true, (MI1.SetOpcode (MIOpcode.target AArch64.Opcodes.CMP_ri)).RemoveOperand 0)
      else
        some (true, (MI1.SetOpcode (MIOpcode.target AArch64.Opcodes.CMP_rr)).RemoveOperand 0)

def SelectSEXT (MI : MachineInstruction) : Option (Bool × MachineInstruction) :=
  if MI.GetOperandsNumber ≠ 2 then none
  else
    let MI1 := MI.ModifyOperand 0 (fun MO => ExtendRegSize MO 32)
    match MI1.GetOperand 1 with
    | none => none
    | some Op1 =>
      if Op1.IsImmediate then
        some (true, MI1.SetOpcode (MIOpcode.target AArch64.Opcodes.MOV_rc))
      else if Op1.LLT.BitWidth = 8 then
        some (true, MI1.SetOpcode (MIOpcode.target AArch64.Opcodes.SXTB))
      else if Op1.LLT.BitWidth = 32 then
        some (true, MI1.SetOpcode (MIOpcode.target AArch64.Opcodes.SXTW))
      else none

def SelectZEXT (MI : MachineInstruction) : Option (Bool × MachineInstruction) := SelectSEXT MI

def SelectTRUNC (MI : MachineInstruction) : Option (Bool × MachineInstruction) :=
  if MI.GetOperandsNumber ≠ 2 then none
  else
    match MI.GetOperand 0, MI.GetOperand 1 with
    | some Op0, some Op1 =>
      if Op0.LLT.BitWidth = 8 then
        let MI1 :=
          if Op1.IsImmediate then
            (MI.ModifyOperand 1 (fun MO => MO.SetValue (Op1.GetImmediate % 256))).SetOpcode
              (MIOpcode.target AArch64.Opcodes.MOV_rc)
          else
            (MI.SetOpcode (MIOpcode.target AArch64.Opcodes.AND_rri)).AddImmediate 255 32
        some (true, MI1.ModifyOperand 0 (fun MO => if MO.GetSize < 32 then MO.SetBitWidth 32 else MO))
      else if Op0.LLT.BitWidth = 32 ∧ Op1.LLT.BitWidth = 64 ∧ Op1.IsImmediate = false then
        some (true, MI.SetOpcode (MIOpcode.target AArch64.Opcodes.MOV_rr))
      else none
    | _, _ => none

def SelectZEXT_LOAD (MI : MachineInstruction) : Option (Bool × MachineInstruction) :=
  if MI.GetOperandsNumber ≠ 3 then none
  else
    match MI.GetOperand 1 with
    | none => none
    | some Op1 =>
      let MI1 := MI.RemoveOperand 1
      if Op1.LLT.BitWidth = 8 then
        some (true, MI1.SetOpcode (MIOpcode.target AArch64.Opcodes.LDRB))
      else some (true, MI1.SetOpcode (MIOpcode.target AArch64.Opcodes.LDR))

def SelectLOAD_IMM (MI : MachineInstruction) : Option (Bool × MachineInstruction) :=
  if MI.GetOperandsNumber ≠ 2 then none
  else
    match MI.GetOperand 1 with
    | none => none
    | some Op1 =>
      if Op1.IsImmediate && IsInt16 Op1.GetImmediate then
        some (true, MI.SetOpcode (MIOpcode.target AArch64.Opcodes.MOV_rc))
      else none

def SelectMOV (MI : MachineInstruction) : Option (Bool × MachineInstruction) :=
  if MI.GetOperandsNumber ≠ 2 then none
  else
    match MI.GetOperand 1 with
    | none => none
    | some Op1 =>
      if Op1.IsImmediate then
        if IsInt16 Op1.GetImmediate then
          some (true, MI.SetOpcode (MIOpcode.target AArch64.Opcodes.MOV_rc))
        else none
      else some (true, MI.SetOpcode (MIOpcode.target AArch64.Opcodes.MOV_rr))

/-- `SelectLOAD`; `ParentFunc` is `MI->GetParent()->GetParent()`. -/
def SelectLOAD (ParentFunc : MachineFunction) (MI : MachineInstruction) :
    Option (Bool × MachineInstruction) :=
  if MI.GetOperandsNumber ≠ 2 ∧ MI.GetOperandsNumber ≠ 3 then none
  else
    match MI.GetOperand 0, MI.GetOperand 1 with
    | some Op0, some Op1 =>
      let widen := fun (M : MachineInstruction) =>
        M.ModifyOperand 0 (fun MO => if MO.GetSize < 32 then MO.SetBitWidth 32 else MO)
      if Op0.LLT.BitWidth = 8 ∧ Op0.LLT.IsPtr = false then
        some (true, widen (MI.SetOpcode (MIOpcode.target AArch64.Opcodes.LDRB)))
      else if Op1.IsStackAccess then
        match ParentFunc.GetStackObjectSize Op1.GetSlot with
        | none => none
        | some Size =>
          if Size = 1 then
            some (true, widen (MI.SetOpcode (MIOpcode.target AArch64.Opcodes.LDRB)))
          else some (true, MI.SetOpcode (MIOpcode.target AArch64.Opcodes.LDR))
      else some (true, MI.SetOpcode (MIOpcode.target AArch64.Opcodes.LDR))
    | _, _ => none

/-- `SelectSTORE`; `ParentMF` is read only for a two-operand store. -/
def SelectSTORE (ParentMF : MachineFunction) (MI : MachineInstruction) :
    Option (Bool × MachineInstruction) :=
  if MI.GetOperandsNumber ≠ 2 ∧ MI.GetOperandsNumber ≠ 3 then none
  else
    match MI.GetOperand 0, MI.GetOperand (MI.GetOperandsNumber - 1) with
    | some Op0, some OpLast =>
      if OpLast.LLT.BitWidth = 8 then
        some (true, MI.SetOpcode (MIOpcode.target AArch64.Opcodes.STRB))
      else if MI.GetOperandsNumber = 2 ∧ ParentMF.IsStackSlot Op0.GetSlot = true then
        match ParentMF.GetStackObjectSize Op0.GetSlot with
        | none => none
        | some Size =>
          if Size = 1 then some (true, MI.SetOpcode (MIOpcode.target AArch64.Opcodes.STRB))
          else some (true, MI.SetOpcode (MIOpcode.target AArch64.Opcodes.STR))
      else some (true, MI.SetOpcode (MIOpcode.target AArch64.Opcodes.STR))
    | _, _ => none

def SelectSTACK_ADDRESS (MI : MachineInstruction) : Option (Bool × MachineInstruction) :=
  if MI.GetOperandsNumber ≠ 2 then none
  else some (true, MI.SetOpcode (MIOpcode.target AArch64.Opcodes.ADD_rri))

/-- `SelectBRANCH` on the instruction at `Index` of the block `BBInstructions`:
the preceding instruction is looked up; a two-operand branch takes the
conditional opcode of the preceding relation and loses its condition operand;
any other branch is left alone and the result is `false`. -/
def SelectBRANCH (BBInstructions : List MachineInstruction) (Index : Nat)
    (MI : MachineInstruction) : Option (Bool × MachineInstruction) :=
  let PrecedingMI : Option MachineInstruction :=
    if Index > 0 then BBInstructions.get? (Index - 1) else none
  if MI.IsFallThroughBranch then
    match PrecedingMI with
    | none => none
    | some P =>
      let op : Option AArch64.Opcodes :=
        match P.GetRelation with
        | CMPRelation.EQ => some AArch64.Opcodes.BEQ
        | CMPRelation.NE => some AArch64.Opcodes.BNE
        | CMPRelation.LE => some AArch64.Opcodes.BLE
        | CMPRelation.LT => some AArch64.Opcodes.BLT
        | CMPRelation.GE => some AArch64.Opcodes.BGE
        | CMPRelation.GT => some AArch64.Opcodes.BGT
        | CMPRelation.INVALID => none
      match op with
      | none => none
      | some c => some (true, (MI.SetOpcode (MIOpcode.target c)).RemoveOperand 0)
  else some (false, MI)

def SelectJUMP (MI : MachineInstruction) : Option (Bool × MachineInstruction) :=
  some (true, MI.SetOpcode (MIOpcode.target AArch64.Opcodes.B))

def SelectCALL (MI : MachineInstruction) : Option (Bool × MachineInstruction) :=
  some (true, MI.SetOpcode (MIOpcode.target AArch64.Opcodes.BL))

def SelectRET (MI : MachineInstruction) : Option (Bool × MachineInstruction) :=
  some (true, MI.SetOpcode (MIOpcode.target AArch64.Opcodes.RET))

end AArch64TargetMachine

/-! ### The IR consumed by the lowering -/

/-- Modelled from the spec: the IR type model (middle_end/IR is absent), as far
as the lowering reads it: `IsPTR`, `IsStruct`, `IsVoid`, `GetByteSize`,
`CalcElemSize(0)` and `GetElemByteOffset(i)`. -/
structure IRType where
  IsPTR : Bool := false
  IsStruct : Bool := false
  IsVoid : Bool := false
  ByteSize : Nat := 4
  ElemSize : Nat := 4
  ElemByteOffset : Nat → Nat := fun _ => 0

/-- The kind of an IR value: `IsRegister()`, `IsParameter()`, `IsConstant()`,
`IsGlobalVar()`. -/
inductive ValueKind where
  | NONE | REGISTER | PARAM | CONST | GLOBALVAR
deriving Repr, DecidableEq

/-- Modelled from the spec: an IR value (middle_end/IR is absent), as far as
the lowering reads it: kind, id, bit width, type, name (global variables and
function parameters), the integer of a constant, whether the constant is a
floating point one, and whether the value is a stack allocation instruction. -/
structure Value where
  Kind : ValueKind := ValueKind.REGISTER
  ID : Nat := 0
  BitWidth : Nat := 32
  Ty : IRType := {}
  Name : String := ""
  IntValue : Int := 0
  IsFPConst : Bool := false
  IsStackAllocation : Bool := false

namespace Value
def IsRegister (V : Value) : Bool := V.Kind == ValueKind.REGISTER
def IsParameter (V : Value) : Bool := V.Kind == ValueKind.PARAM
def IsConstant (V : Value) : Bool := V.Kind == ValueKind.CONST
def IsGlobalVar (V : Value) : Bool := V.Kind == ValueKind.GLOBALVAR
/-- A struct passed or held by value: `IsStruct() && !IsPTR()`. -/
def IsStructByValue (V : Value) : Bool := V.Ty.IsStruct && !V.Ty.IsPTR
end Value

/-- Modelled from the spec: the IR instructions (middle_end/IR is absent), the
variants `Binary, Unary, Store, Load, GEP, Jump, Branch, Compare, Call, Return,
MemoryCopy`.  `Res` is the instruction read as a value (its id, width and
type); `Kind` is the generic opcode a binary or unary instruction maps to. -/
inductive Instruction where
  | Binary (Kind : OperationCode) (Res LHS RHS : Value)
  | Unary (Kind : OperationCode) (Res Operand : Value)
  | Store (MemoryLocation SavedValue : Value)
  | Load (Res MemoryLocation : Value)
  | GetElementPointer (Res Source Index : Value)
  | Jump (TargetLabelName : String)
  | Branch (Condition : Value) (TrueLabelName : String) (FalseLabelName : Option String)
  | Compare (Res LHS RHS : Value) (Relation : CMPRelation)
  | Call (Res : Value) (Name : String) (Args : List Value)
  | Return (RetVal : Option Value)
  | MemoryCopy (Destination Source : Value) (Size : Nat)

/-- The opcode `GetInstructionKind() + (1 << 16)` of the machine instruction a
conversion starts from. -/
def Instruction.MachineOpcode : Instruction → MIOpcode
  | Instruction.Binary Kind _ _ _ => MIOpcode.generic Kind
  | Instruction.Unary Kind _ _ => MIOpcode.generic Kind
  | Instruction.Store _ _ => MIOpcode.generic OperationCode.STORE
  | Instruction.Load _ _ => MIOpcode.generic OperationCode.LOAD
  | Instruction.GetElementPointer _ _ _ => MIOpcode.generic OperationCode.GET_ELEM_PTR
  | Instruction.Jump _ => MIOpcode.generic OperationCode.JUMP
  | Instruction.Branch _ _ _ => MIOpcode.generic OperationCode.BRANCH
  | Instruction.Compare _ _ _ _ => MIOpcode.generic OperationCode.CMP
  | Instruction.Call _ _ _ => MIOpcode.generic OperationCode.CALL
  | Instruction.Return _ => MIOpcode.generic OperationCode.RET
  | Instruction.MemoryCopy _ _ _ => MIOpcode.generic OperationCode.MEM_COPY

/-! ### IRtoLLIR.cpp -/

/-- The state a conversion works on: the function under construction
(`ParentFunction`), the three maps of `IRtoLLIR`, and the instructions inserted
into the current block so far (`BB->InsertInstr`). -/
structure LLIRState where
  MF : MachineFunction := {}
  IRVregToLLIRVreg : List (Nat × Nat) := []
  StructToRegMap : List (String × List Nat) := []
  StructByIDToRegMap : List (Nat × List Nat) := []
  Inserted : List MachineInstruction := []
deriving DecidableEq

/-- `BB->InsertInstr(MI)`. -/
def LLIRState.InsertInstr (S : LLIRState) (MI : MachineInstruction) : LLIRState :=
  { S with Inserted := S.Inserted ++ [MI] }

/-- Modelled from the spec: `MachineFunction::GetNextAvailableVReg` (its source
is absent): virtual register ids come from a counter that only grows. -/
def LLIRState.GetNextAvailableVReg (S : LLIRState) : Nat × LLIRState :=
  (S.MF.NextVReg, { S with MF := { S.MF with NextVReg := S.MF.NextVReg + 1 } })

/-- Modelled from the spec: `GetNextAlignedValue(Val, Alignment)` of
Support.hpp (absent): `Val` rounded up to a multiple of `Alignment`. -/
def GetNextAlignedValue (Val Alignment : Nat) : Nat :=
  ((Val + Alignment - 1) / Alignment) * Alignment

/-- A fresh machine instruction with the given generic opcode. -/
def MachineInstruction.ofOpcode (c : OperationCode) : MachineInstruction :=
  { Opcode := MIOpcode.generic c }

/-- `IRtoLLIR::GetMachineOperandFromValue`. -/
def GetMachineOperandFromValue (TM : TargetMachine) (Val : Value) (IsDef : Bool)
    (S : LLIRState) : Option (MachineOperand × LLIRState) :=
  match Val.Kind with
  | ValueKind.REGISTER =>
    let BitWidth :=
      if Val.Ty.IsPTR && !Val.IsStackAllocation then TM.PointerSize else Val.BitWidth
    let LoadFrom := fun (Slot : Nat) =>
      let N := S.GetNextAvailableVReg
      let Instr := ((MachineInstruction.ofOpcode OperationCode.LOAD).AddVirtualRegister
        N.1 BitWidth).AddStackAccess Slot 4
      (N.1, N.2.InsertInstr Instr)
    let R : Nat × LLIRState :=
      if !IsDef && !StdMap.contains S.IRVregToLLIRVreg Val.ID && S.MF.IsStackSlot Val.ID then
        LoadFrom Val.ID
      else if StdMap.contains S.IRVregToLLIRVreg Val.ID then
        if !IsDef && S.MF.IsStackSlot (StdMap.getD0 S.IRVregToLLIRVreg Val.ID) then
          LoadFrom (StdMap.getD0 S.IRVregToLLIRVreg Val.ID)
        else (StdMap.getD0 S.IRVregToLLIRVreg Val.ID, S)
      else
        let N := S.GetNextAvailableVReg
        (N.1, { N.2 with IRVregToLLIRVreg := StdMap.set N.2.IRVregToLLIRVreg Val.ID N.1 })
    let VReg := MachineOperand.CreateVirtualRegister R.1 32
    if Val.Ty.IsPTR then some (VReg.SetType (LowLevelType.CreatePTR TM.PointerSize), R.2)
    else some (VReg.SetType (LowLevelType.CreateINT BitWidth), R.2)
  | ValueKind.PARAM =>
    let Result := MachineOperand.CreateParameter Val.ID
    if Val.Ty.IsPTR then some (Result.SetType (LowLevelType.CreatePTR TM.PointerSize), S)
    else some (Result.SetType (LowLevelType.CreateINT Val.BitWidth), S)
  | ValueKind.CONST =>
    if Val.IsFPConst then none
    else some ((MachineOperand.CreateImmediate Val.IntValue 32).SetType
      (LowLevelType.CreateINT 32), S)
  | _ => none

/-- `IRtoLLIR::GetIDFromValue`. -/
def GetIDFromValue (S : LLIRState) (Val : Value) : Nat :=
  if StdMap.contains S.IRVregToLLIRVreg Val.ID then StdMap.getD0 S.IRVregToLLIRVreg Val.ID
  else Val.ID

/-- The address part shared by Store and Load: a global location gets a
`GLOBAL_ADDRESS` into a fresh virtual register, any other location is named by
`GetIDFromValue`. -/
def LowerAddress (TM : TargetMachine) (MemoryLocation : Value) (S : LLIRState) :
    Nat × LLIRState :=
  if MemoryLocation.IsGlobalVar then
    let N := S.GetNextAvailableVReg
    let GlobalAddress := ((MachineInstruction.ofOpcode OperationCode.GLOBAL_ADDRESS).AddVirtualRegister
      N.1 TM.PointerSize).AddGlobalSymbol MemoryLocation.Name
    (N.1, N.2.InsertInstr GlobalAddress)
  else (GetIDFromValue S MemoryLocation, S)

/-- The stack-access or memory operand of a Store or Load. -/
def AddAddressOperand (TM : TargetMachine) (S : LLIRState) (MI : MachineInstruction)
    (AddressReg : Nat) : MachineInstruction :=
  if S.MF.IsStackSlot AddressReg then MI.AddStackAccess AddressReg 4
  else MI.AddMemory AddressReg TM.PointerSize

/-- The stores of a struct held in parameter registers: one `STORE` per
register of `StructToRegMap[name]`; all but the last are inserted, the last is
the result. -/
def StoreStructParam (AddressReg RegSize Total : Nat) :
    List Nat → Nat → LLIRState → MachineInstruction → MachineInstruction × LLIRState
  | [], _, S, CurrentStore => (CurrentStore, S)
  | ParamID :: rest, Counter, S, _ =>
    let CurrentStore := ((MachineInstruction.ofOpcode OperationCode.STORE).AddStackAccess
      AddressReg (Counter * RegSize / 8)).AddVirtualRegister ParamID RegSize
    let S1 := if Counter + 1 < Total then S.InsertInstr CurrentStore else S
    StoreStructParam AddressReg RegSize Total rest (Counter + 1) S1 CurrentStore

/-- The stores of a struct returned in the return registers, `Remaining`
iterations from index `i` on; the store of the last index is the result. -/
def StoreStructRet (TM : TargetMachine) (AddressReg RegsCount : Nat) :
    Nat → Nat → LLIRState → Option (Option MachineInstruction × LLIRState)
  | 0, _, S => some (none, S)
  | Remaining + 1, i, S =>
    match TM.ABI.ReturnRegisters.get? i with
    | none => none
    | some RetReg =>
      let Store := ((MachineInstruction.ofOpcode OperationCode.STORE).AddStackAccess
        AddressReg ((TM.PointerSize / 8) * i)).AddRegister RetReg TM.PointerSize
      if i = RegsCount - 1 then some (some Store, S)
      else StoreStructRet TM AddressReg RegsCount Remaining (i + 1) (S.InsertInstr Store)

/-- `ConvertToMachineInstr`, Store. -/
def ConvertStore (TM : TargetMachine) (MemoryLocation SavedValue : Value) (S : LLIRState) :
    Option (MachineInstruction × LLIRState) :=
  if !(MemoryLocation.IsRegister || MemoryLocation.IsGlobalVar) then none
  else
    let A := LowerAddress TM MemoryLocation S
    let AddressReg := A.1
    let ResultMI := AddAddressOperand TM A.2
      ((MachineInstruction.ofOpcode OperationCode.STORE).AddAttribute MachineInstruction.IS_STORE)
      AddressReg
    if SavedValue.IsStructByValue then
      if SavedValue.IsParameter then
        let RegSize := TM.PointerSize
        let Regs := (A.2.StructToRegMap.lookup SavedValue.Name).getD []
        if Regs.isEmpty then none
        else some (StoreStructParam AddressReg RegSize Regs.length Regs 0 A.2 {})
      else
        let StructBitSize := SavedValue.Ty.ByteSize * 8
        let MaxRegSize := TM.PointerSize
        let RegsCount := GetNextAlignedValue StructBitSize MaxRegSize / MaxRegSize
        if RegsCount > TM.ABI.ReturnRegisters.length then none
        else
          match StoreStructRet TM AddressReg RegsCount RegsCount 0 A.2 with
          | none => none
          | some (some Store, S1) => some (Store, S1)
          | some (none, S1) => some (ResultMI, S1)
    else
      match GetMachineOperandFromValue TM SavedValue false A.2 with
      | none => none
      | some (MO, S1) => some (ResultMI.AddOperand MO, S1)

/-- The loads of a struct into fresh virtual registers, recorded in
`StructByIDToRegMap[id]`; the load of the last index is the result. -/
def LoadStruct (ID AddressReg RegSize RegsCount : Nat) :
    Nat → Nat → LLIRState → Option MachineInstruction × LLIRState
  | 0, _, S => (none, S)
  | Remaining + 1, i, S =>
    let N := S.GetNextAvailableVReg
    let Regs := (StdMap.get? N.2.StructByIDToRegMap ID).getD [] ++ [N.1]
    let S1 : LLIRState := { N.2 with StructByIDToRegMap := StdMap.set N.2.StructByIDToRegMap ID Regs }
    let CurrentLoad := ((MachineInstruction.ofOpcode OperationCode.LOAD).AddVirtualRegister
      N.1 RegSize).AddStackAccess AddressReg (i * RegSize / 8)
    if i + 1 < RegsCount then
      LoadStruct ID AddressReg RegSize RegsCount Remaining (i + 1) (S1.InsertInstr CurrentLoad)
    else (some CurrentLoad, S1)

/-- `ConvertToMachineInstr`, Load. -/
def ConvertLoad (TM : TargetMachine) (Res MemoryLocation : Value) (S : LLIRState) :
    Option (MachineInstruction × LLIRState) :=
  if !(MemoryLocation.IsRegister || MemoryLocation.IsGlobalVar) then none
  else
    let A := LowerAddress TM MemoryLocation S
    let AddressReg := A.1
    match GetMachineOperandFromValue TM Res true A.2 with
    | none => none
    | some (Dest, S1) =>
      let ResultMI := AddAddressOperand TM S1
        (((MachineInstruction.ofOpcode OperationCode.LOAD).AddAttribute
          MachineInstruction.IS_LOAD).AddOperand Dest) AddressReg
      if Res.IsStructByValue then
        let StructBitSize := Res.Ty.ByteSize * 8
        let RegSize := TM.PointerSize
        let RegsCount := GetNextAlignedValue StructBitSize RegSize / RegSize
        match LoadStruct Res.ID AddressReg RegSize RegsCount RegsCount 0 S1 with
        | (some CurrentLoad, S2) => some (CurrentLoad, S2)
        | (none, S2) => some (ResultMI, S2)
      else some (ResultMI, S1)

/-- The `unsigned ConstantIndexPart` of a GEP with a constant index: the
element size times the index, or the byte offset of the struct member, cut to
32 bits. -/
def ConstantIndexPart (SourceType : IRType) (Index : Int) : Nat :=
  if !SourceType.IsStruct then (((SourceType.ElemSize : Int) * Index) % 4294967296).toNat
  else toUnsigned (SourceType.ElemByteOffset Index.toNat)

/-- An `unsigned` read as an `int`, as `SetOffset` receives it. -/
def toInt32 (n : Nat) : Int :=
  if n % 4294967296 < 2147483648 then ((n % 4294967296 : Nat) : Int)
  else ((n % 4294967296 : Nat) : Int) - 4294967296

/-- Update of the operand at index 1 of an instruction, `GetOperands()[1]`. -/
def MachineInstruction.SetOffsetAt (MI : MachineInstruction) (Index : Nat) (o : Int) :
    MachineInstruction :=
  MI.ModifyOperand Index (fun MO => MO.SetOffset o)

/-- The index arithmetic of a GEP whose index is in a register: the
multiplier is moved into a register, the index sign-extended if narrower
than a pointer, and the product left in the register returned. -/
def GEPIndexInReg (TM : TargetMachine) (Multiplier : Nat) (IndexReg : MachineOperand)
    (S : LLIRState) : Nat × LLIRState :=
  if Multiplier = 1 then
    let N := S.GetNextAvailableVReg
    let MOV := ((MachineInstruction.ofOpcode OperationCode.MOV).AddVirtualRegister
      N.1 TM.PointerSize).AddOperand IndexReg
    let MOV1 := if IndexReg.GetSize < TM.PointerSize then
      MOV.SetOpcode (MIOpcode.generic OperationCode.SEXT) else MOV
    (N.1, N.2.InsertInstr MOV1)
  else
    let N := S.GetNextAvailableVReg
    let ImmediateVReg := N.1
    let MOV := ((MachineInstruction.ofOpcode OperationCode.MOV).AddVirtualRegister
      ImmediateVReg TM.PointerSize).AddImmediate (Multiplier : Int) 32
    let S1 := N.2.InsertInstr MOV
    if IndexReg.GetSize < TM.PointerSize then
      let N2 := S1.GetNextAvailableVReg
      let SEXTResVReg := N2.1
      let SEXT := ((MachineInstruction.ofOpcode OperationCode.SEXT).AddVirtualRegister
        SEXTResVReg TM.PointerSize).AddOperand IndexReg
      let S2 := N2.2.InsertInstr SEXT
      let N3 := S2.GetNextAvailableVReg
      let MUL := (((MachineInstruction.ofOpcode OperationCode.MUL).AddVirtualRegister
        N3.1 TM.PointerSize).AddVirtualRegister SEXTResVReg TM.PointerSize).AddVirtualRegister
        ImmediateVReg TM.PointerSize
      (N3.1, N3.2.InsertInstr MUL)
    else
      let N3 := S1.GetNextAvailableVReg
      let MUL := (((MachineInstruction.ofOpcode OperationCode.MUL).AddVirtualRegister
        N3.1 TM.PointerSize).AddOperand IndexReg).AddVirtualRegister
        ImmediateVReg TM.PointerSize
      (N3.1, N3.2.InsertInstr MUL)

/-- The final `ADD Dest, base, offset` of a GEP. -/
def GEPFinalADD (TM : TargetMachine) (Source : Value) (Dest : MachineOperand) (IsReg : Bool)
    (Third : MachineInstruction → MachineInstruction) (S : LLIRState) :
    Option (MachineInstruction × LLIRState) :=
  let ADD := (MachineInstruction.ofOpcode OperationCode.ADD).AddOperand Dest
  if IsReg then
    match GetMachineOperandFromValue TM Source false S with
    | none => none
    | some (Src, S1) => some (Third (ADD.AddOperand Src), S1)
  else some (Third (ADD.AddOperand Dest), S)

/-- `ConvertToMachineInstr`, GEP. -/
def ConvertGEP (TM : TargetMachine) (Res Source Index : Value) (S : LLIRState) :
    Option (MachineInstruction × LLIRState) :=
  let SourceID := GetIDFromValue S Source
  let IsGlobal := Source.IsGlobalVar
  let IsStack := S.MF.IsStackSlot SourceID
  let IsReg := !IsGlobal && !IsStack
  let GoalInstr0 : MachineInstruction :=
    if IsGlobal then MachineInstruction.ofOpcode OperationCode.GLOBAL_ADDRESS
    else if IsStack then MachineInstruction.ofOpcode OperationCode.STACK_ADDRESS
    else {}
  match GetMachineOperandFromValue TM Res false S with
  | none => none
  | some (Dest, S1) =>
    let GoalInstr1 := GoalInstr0.AddOperand Dest
    let GoalInstr :=
      if IsGlobal then GoalInstr1.AddGlobalSymbol Source.Name
      else if IsStack then GoalInstr1.AddStackAccess SourceID 4
      else GoalInstr1
    match GetMachineOperandFromValue TM Index false S1 with
    | none => none
    | some (IndexReg, S2) =>
      if Index.IsConstant then
        let Part := ConstantIndexPart Source.Ty Index.IntValue
        if Part = 0 ∧ GoalInstr.IsInvalid = false then some (GoalInstr, S2)
        else if IsStack then some (GoalInstr.SetOffsetAt 1 (toInt32 Part), S2)
        else
          let S3 := if GoalInstr.IsInvalid then S2 else S2.InsertInstr GoalInstr
          GEPFinalADD TM Source Dest IsReg
            (fun ADD => ADD.AddImmediate (Part : Int) Dest.GetSize) S3
      else
        if Source.Ty.IsStruct then none
        else
          let S3 := if GoalInstr.IsInvalid then S2 else S2.InsertInstr GoalInstr
          let M := GEPIndexInReg TM Source.Ty.ElemSize IndexReg S3
          GEPFinalADD TM Source Dest IsReg
            (fun ADD => ADD.AddVirtualRegister M.1 TM.PointerSize) M.2

/-- The moves of a struct argument, one per register of
`StructByIDToRegMap[id]`, into consecutive argument registers. -/
def CallStructArg (TM : TargetMachine) :
    List Nat → Nat → LLIRState → Option (Nat × LLIRState)
  | [], ParamCounter, S => some (ParamCounter, S)
  | VReg :: rest, ParamCounter, S =>
    match TM.ABI.ArgumentRegisters.get? ParamCounter with
    | none => none
    | some ArgReg =>
      let Instr := ((MachineInstruction.ofOpcode OperationCode.MOV).AddRegister
        ArgReg (TM.RegInfo.BitWidth ArgReg)).AddVirtualRegister VReg TM.PointerSize
      CallStructArg TM rest (ParamCounter + 1) (S.InsertInstr Instr)

/-- The loop of call lowering over the arguments: each argument is moved into
the next argument register. -/
def CallArgs (TM : TargetMachine) : List Value → Nat → LLIRState → Option (Nat × LLIRState)
  | [], ParamCounter, S => some (ParamCounter, S)
  | Param :: rest, ParamCounter, S =>
    if Param.IsStructByValue then
      if !StdMap.contains S.StructByIDToRegMap Param.ID then none
      else
        match CallStructArg TM ((StdMap.get? S.StructByIDToRegMap Param.ID).getD [])
            ParamCounter S with
        | none => none
        | some (ParamCounter1, S1) => CallArgs TM rest ParamCounter1 S1
    else
      match TM.ABI.ArgumentRegisters.get? ParamCounter with
      | none => none
      | some ArgReg =>
        if Param.Ty.IsPTR && (Param.IsGlobalVar || S.MF.IsStackSlot Param.ID) then
          if Param.IsGlobalVar then
            let Instr := ((MachineInstruction.ofOpcode OperationCode.GLOBAL_ADDRESS).AddRegister
              ArgReg (TM.RegInfo.BitWidth ArgReg)).AddGlobalSymbol Param.Name
            CallArgs TM rest (ParamCounter + 1) (S.InsertInstr Instr)
          else
            let Instr := ((MachineInstruction.ofOpcode OperationCode.STACK_ADDRESS).AddRegister
              ArgReg (TM.RegInfo.BitWidth ArgReg)).AddStackAccess Param.ID 4
            CallArgs TM rest (ParamCounter + 1) (S.InsertInstr Instr)
        else
          match GetMachineOperandFromValue TM Param false S with
          | none => none
          | some (Src, S1) =>
            if Src.GetSize < TM.RegInfo.BitWidth ArgReg then
              match (TM.RegInfo.SubRegs ArgReg).head? with
              | none => none
              | some Sub =>
                let Instr := ((MachineInstruction.ofOpcode OperationCode.MOV).AddRegister
                  Sub (TM.RegInfo.BitWidth Sub)).AddOperand Src
                CallArgs TM rest (ParamCounter + 1) (S1.InsertInstr Instr)
            else
              let Instr := ((MachineInstruction.ofOpcode OperationCode.MOV).AddRegister
                ArgReg (TM.RegInfo.BitWidth ArgReg)).AddOperand Src
              CallArgs TM rest (ParamCounter + 1) (S1.InsertInstr Instr)

/-- The spill of the returned value: per return register a fresh stack slot,
recorded as the mapping of the call's id, and a `STORE` of the register to it;
the store of the last register is the result. -/
def CallSpill (TM : TargetMachine) (ID RegsCount : Nat) :
    Nat → Nat → Nat → LLIRState → Option (Option MachineInstruction × LLIRState)
  | 0, _, _, S => some (none, S)
  | Remaining + 1, i, RetBitSize, S =>
    let MaxRegSize := TM.PointerSize
    let N := S.GetNextAvailableVReg
    let StackSlot := N.1
    let S1 : LLIRState := { N.2 with IRVregToLLIRVreg := StdMap.set N.2.IRVregToLLIRVreg ID StackSlot }
    match S1.MF.InsertStackSlot StackSlot (min RetBitSize MaxRegSize / 8) with
    | none => none
    | some MF1 =>
      let S2 : LLIRState := { S1 with MF := MF1 }
      match TM.ABI.ReturnRegisters.get? i with
      | none => none
      | some RetReg =>
        let TargetRetReg : Option Nat :=
          if min RetBitSize MaxRegSize ≥ TM.PointerSize then some RetReg
          else (TM.RegInfo.SubRegs RetReg).head?
        match TargetRetReg with
        | none => none
        | some Reg =>
          let Store := ((MachineInstruction.ofOpcode OperationCode.STORE).AddStackAccess
            StackSlot 4).AddRegister Reg (min RetBitSize MaxRegSize)
          if i + 1 = RegsCount then some (some Store, S2)
          else CallSpill TM ID RegsCount Remaining (i + 1)
            (toUnsigned (RetBitSize + 4294967296 - MaxRegSize)) (S2.InsertInstr Store)

/-- `ConvertToMachineInstr`, Call. -/
def ConvertCall (TM : TargetMachine) (Res : Value) (Name : String) (Args : List Value)
    (S : LLIRState) : Option (MachineInstruction × LLIRState) :=
  let S0 : LLIRState := { S with MF := { S.MF with HasCall := true } }
  match CallArgs TM Args 0 S0 with
  | none => none
  | some (_, S1) =>
    let ResultMI := (MachineInstruction.ofOpcode OperationCode.CALL).AddFunctionName Name
    if Res.Ty.IsVoid then some (ResultMI, S1)
    else
      let S2 := S1.InsertInstr ResultMI
      let RetBitSize := Res.Ty.ByteSize * 8
      let MaxRegSize := TM.PointerSize
      let RegsCount := GetNextAlignedValue RetBitSize MaxRegSize / MaxRegSize
      if RegsCount = 0 then none
      else
        match CallSpill TM Res.ID RegsCount RegsCount 0 RetBitSize S2 with
        | none => none
        | some (some Store, S3) => some (Store, S3)
        | some (none, S3) => some (ResultMI, S3)

/-- The loads of a returned struct from its stack slot into the return
registers; all of them are inserted. -/
def ReturnStruct (TM : TargetMachine) (RetId : Nat) :
    Nat → Nat → LLIRState → Option LLIRState
  | 0, _, S => some S
  | Remaining + 1, i, S =>
    match TM.ABI.ReturnRegisters.get? i with
    | none => none
    | some RetReg =>
      let Instr := ((MachineInstruction.ofOpcode OperationCode.LOAD).AddRegister
        RetReg (TM.RegInfo.BitWidth RetReg)).AddStackAccess RetId (i * (TM.PointerSize / 8))
      ReturnStruct TM RetId Remaining (i + 1) (S.InsertInstr Instr)

/-- `ConvertToMachineInstr`, Return. -/
def ConvertReturn (TM : TargetMachine) (RetVal : Option Value) (S : LLIRState) :
    Option (MachineInstruction × LLIRState) :=
  let ResultMI0 := MachineInstruction.ofOpcode OperationCode.RET
  match RetVal with
  | none => some (ResultMI0, S)
  | some V =>
    match GetMachineOperandFromValue TM V false S with
    | none => none
    | some (Result, S1) =>
      let ResultMI := ResultMI0.AddOperand Result
      if V.Ty.IsStruct then
        let StructBitSize := V.Ty.ByteSize * 8
        let MaxRegSize := TM.PointerSize
        let RegsCount := GetNextAlignedValue StructBitSize MaxRegSize / MaxRegSize
        match ReturnStruct TM (GetIDFromValue S1 V) RegsCount 0 S1 with
        | none => none
        | some S2 => some (ResultMI, S2)
      else if V.IsConstant then
        match TM.ABI.ReturnRegisters.head? with
        | none => none
        | some RetReg0 =>
          match GetMachineOperandFromValue TM V false S1 with
          | none => none
          | some (Imm, S2) =>
            let LoadImm := ((MachineInstruction.ofOpcode OperationCode.LOAD_IMM).AddRegister
              RetReg0 (TM.RegInfo.BitWidth RetReg0)).AddOperand Imm
            some (ResultMI, S2.InsertInstr LoadImm)
      else some (ResultMI, S1)

/-- The load/store pairs of a memory copy, `Remaining` pairs from index `i`
on, `Count` pairs in all; the store of the last pair is the result. -/
def MemoryCopyPairs (TM : TargetMachine) (Destination Source : Value) (Count : Nat) :
    Nat → Nat → LLIRState → Option MachineInstruction × LLIRState
  | 0, _, S => (none, S)
  | Remaining + 1, i, S =>
    let N := S.GetNextAvailableVReg
    let NewVReg := N.1
    let SrcId := GetIDFromValue N.2 Source
    let Load := ((MachineInstruction.ofOpcode OperationCode.LOAD).AddVirtualRegister
      NewVReg 32).AddStackAccess SrcId (i * 4)
    let S1 := N.2.InsertInstr Load
    let DestId := GetIDFromValue S1 Destination
    let Store0 := MachineInstruction.ofOpcode OperationCode.STORE
    let Store1 :=
      if S1.MF.IsStackSlot DestId then Store0.AddStackAccess DestId (i * 4)
      else (Store0.AddMemory DestId TM.PointerSize).SetOffsetAt 0 ((i * 4 : Nat) : Int)
    let Store := Store1.AddVirtualRegister NewVReg 32
    if i = Count - 1 then (some Store, S1)
    else MemoryCopyPairs TM Destination Source Count Remaining (i + 1) (S1.InsertInstr Store)

/-- `ConvertToMachineInstr`, MemoryCopy. -/
def ConvertMemoryCopy (TM : TargetMachine) (ResultMI : MachineInstruction)
    (Destination Source : Value) (Size : Nat) (S : LLIRState) :
    Option (MachineInstruction × LLIRState) :=
  match MemoryCopyPairs TM Destination Source (Size / 4) (Size / 4) 0 S with
  | (some Store, S1) => some (Store, S1)
  | (none, S1) => some (ResultMI, S1)

/-- The first block name equal to `Name`, as the label searches of Jump and
Branch find it. -/
def FindLabel (BBs : List String) (Name : String) : Option String :=
  BBs.find? (fun BB => Name == BB)

/-- `AddLabel(Label)` for a label pointer that may be null. -/
def MachineInstruction.AddLabelPtr (MI : MachineInstruction) (L : Option String) :
    MachineInstruction :=
  MI.AddLabel (L.getD "")

/-- `IRtoLLIR::ConvertToMachineInstr`: the instruction returned and the state
with the instructions inserted on the way; `BBs` are the names of the blocks
of the function. -/
def ConvertToMachineInstr (TM : TargetMachine) (Instr : Instruction) (BBs : List String)
    (S : LLIRState) : Option (MachineInstruction × LLIRState) :=
  let ResultMI : MachineInstruction := { Opcode := Instr.MachineOpcode }
  match Instr with
  | Instruction.Binary _ Res LHS RHS =>
    match GetMachineOperandFromValue TM Res false S with
    | none => none
    | some (Result, S1) =>
      match GetMachineOperandFromValue TM LHS false S1 with
      | none => none
      | some (FirstSrcOp, S2) =>
        match GetMachineOperandFromValue TM RHS false S2 with
        | none => none
        | some (SecondSrcOp, S3) =>
          some (((ResultMI.AddOperand Result).AddOperand FirstSrcOp).AddOperand SecondSrcOp, S3)
  | Instruction.Unary _ Res Operand =>
    match GetMachineOperandFromValue TM Res false S with
    | none => none
    | some (Result, S1) =>
      match GetMachineOperandFromValue TM Operand false S1 with
      | none => none
      | some (Op, S2) => some ((ResultMI.AddOperand Result).AddOperand Op, S2)
  | Instruction.Store MemoryLocation SavedValue => ConvertStore TM MemoryLocation SavedValue S
  | Instruction.Load Res MemoryLocation => ConvertLoad TM Res MemoryLocation S
  | Instruction.GetElementPointer Res Source Index => ConvertGEP TM Res Source Index S
  | Instruction.Jump TargetLabelName =>
    match FindLabel BBs TargetLabelName with
    | some L => some (ResultMI.AddLabel L, S)
    | none => some (ResultMI, S)
  | Instruction.Branch Condition TrueLabelName FalseLabelName =>
    let LabelTrue := FindLabel BBs TrueLabelName
    match GetMachineOperandFromValue TM Condition false S with
    | none => none
    | some (Cond, S1) =>
      let MI1 := (ResultMI.AddOperand Cond).AddLabelPtr LabelTrue
      if FalseLabelName.isSome then some (MI1.AddLabelPtr LabelTrue, S1)
      else some (MI1, S1)
  | Instruction.Compare Res LHS RHS Relation =>
    match GetMachineOperandFromValue TM Res false S with
    | none => none
    | some (Result, S1) =>
      match GetMachineOperandFromValue TM LHS false S1 with
      | none => none
      | some (FirstSrcOp, S2) =>
        match GetMachineOperandFromValue TM RHS false S2 with
        | none => none
        | some (SecondSrcOp, S3) =>
          some ((((ResultMI.AddOperand Result).AddOperand FirstSrcOp).AddOperand
            SecondSrcOp).SetAttributes Relation, S3)
  | Instruction.Call Res Name Args => ConvertCall TM Res Name Args S
  | Instruction.Return RetVal => ConvertReturn TM RetVal S
  | Instruction.MemoryCopy Destination Source Size =>
    ConvertMemoryCopy TM ResultMI Destination Source Size S

/-- The update `StructToRegMap[name].push_back(v)` of the map from struct
parameter names to their registers. -/
def StructToRegMap.push : List (String × List Nat) → String → Nat → List (String × List Nat)
  | [], name, v => [(name, [v])]
  | e :: rest, name, v =>
    if e.1 = name then (e.1, e.2 ++ [v]) :: rest
    else e :: StructToRegMap.push rest name v

/-- Modelled from the spec: `MachineFunction::InsertParameter` (its source is
absent) registers `(id, type)` as the next parameter of the function. -/
def MachineFunction.InsertParameter (MF : MachineFunction) (ID : Nat) (LLT : LowLevelType) :
    MachineFunction :=
  { MF with Parameters := MF.Parameters ++ [(ID, LLT)] }

/-- The inner loop of `HandleFunctionParams` for a struct passed by value:
`Count` fresh virtual registers, each recorded under the struct's name and
registered as a parameter of pointer width. -/
def HandleFunctionParams.structRegs (TM : TargetMachine) (StructName : String) :
    Nat → LLIRState → LLIRState
  | 0, S => S
  | Count + 1, S =>
    let N := S.GetNextAvailableVReg
    let Map1 := StructToRegMap.push N.2.StructToRegMap StructName N.1
    let MF1 := N.2.MF.InsertParameter N.1 (LowLevelType.CreateINT TM.PointerSize)
    HandleFunctionParams.structRegs TM StructName Count
      { N.2 with MF := MF1, StructToRegMap := Map1 }

/-- `IRtoLLIR::HandleFunctionParams`: a struct passed by value is expanded to
`128 / pointer size` parameters, any other parameter is registered with its id
and its type. -/
def HandleFunctionParams (TM : TargetMachine) : List Value → LLIRState → LLIRState
  | [], S => S
  | Param :: rest, S =>
    if Param.IsStructByValue then
      HandleFunctionParams TM rest
        (HandleFunctionParams.structRegs TM Param.Name (128 / TM.PointerSize) S)
    else if Param.Ty.IsPTR then
      HandleFunctionParams TM rest
        { S with MF := S.MF.InsertParameter Param.ID (LowLevelType.CreatePTR TM.PointerSize) }
    else
      HandleFunctionParams TM rest
        { S with MF := S.MF.InsertParameter Param.ID (LowLevelType.CreateINT Param.BitWidth) }

/-! ### PPToken.hpp, Token.hpp -/

/-- `PPToken::PPTokenKind`. -/
inductive PPToken.PPTokenKind where
  | EndOfFile | Invalid
  | Identifier
  | Dot | Colon | Hashtag | LeftParen | RightParen | DoubleQuote
  | Define | Include
deriving Repr, DecidableEq

/-- `PPToken::ToString(PPTokenKind)`: the spelling of a preprocessor token
kind.  Every kind has a case, so the `default` assertion is never reached. -/
def PPToken.ToString (tk : PPToken.PPTokenKind) : String :=
  match tk with
  | .EndOfFile => "End of file"
  | .Invalid => "Invalid"
  | .Identifier => "Identifier"
  | .Dot => "."
  | .Colon => ","
  | .Hashtag => "#"
  | .LeftParen => "("
  | .RightParen => ")"
  | .DoubleQuote => "\""
  | .Define => "define"
  | .Include => "include"

/-- `Token::TokenKind`. -/
inductive Token.TokenKind where
  | EndOfFile | Invalid
  | Identifier
  | Integer | Real
  | Dot | Comma | Plus | Minus | Astrix | ForwardSlash | Percent | Equal | LessThan
  | GreaterThan | Bang | And | QuestionMark
  | PlusPlus | MinusMinus | PlusEqual | MinusEqual | AstrixEqual | ForwardSlashEqual
  | BangEqual | GreaterEqual | LessEqual | DoubleAnd | DoubleEqual | MinusGreaterThan
  | LessThanLessThan | GreaterThanGreaterThan
  | Colon | SemiColon | LeftParen | RightParen | LeftBracet | RightBracet | LeftCurly
  | RightCurly
  | DoubleForwardSlash
  | For | While | If | Switch | Case | Default | Break | Continue | Else | Return | Const
  | Char | Int | Long | Double | Unsigned | Void | Struct | Enum | Typedef
deriving Repr, DecidableEq

/-- `Token::ToString(TokenKind)`: the spelling of a lexer token kind.  Every
kind has a case, so the `default` assertion is never reached. -/
def Token.ToString (tk : Token.TokenKind) : String :=
  match tk with
  | .EndOfFile => "End of file"
  | .Invalid => "Invalid"
  | .Identifier => "Identifier"
  | .Integer => "Integer"
  | .Real => "Float"
  | .Dot => "."
  | .Comma => ","
  | .Plus => "+"
  | .Minus => "-"
  | .Astrix => "*"
  | .ForwardSlash => "/"
  | .Percent => "%"
  | .Equal => "="
  | .LessThan => "<"
  | .GreaterThan => ">"
  | .Bang => "!"
  | .QuestionMark => "?"
  | .PlusPlus => "++"
  | .MinusMinus => "--"
  | .PlusEqual => "+="
  | .MinusEqual => "-="
  | .AstrixEqual => "*="
  | .ForwardSlashEqual => "/="
  | .BangEqual => "!="
  | .GreaterEqual => ">="
  | .LessEqual => "<="
  | .And => "&"
  | .DoubleAnd => "&&"
  | .DoubleEqual => "=="
  | .MinusGreaterThan => "->"
  | .LessThanLessThan => "<<"
  | .GreaterThanGreaterThan => ">>"
  | .Colon => ":"
  | .SemiColon => ";"
  | .LeftParen => "("
  | .RightParen => ")"
  | .LeftBracet => "["
  | .RightBracet => "]"
  | .LeftCurly => "\x7b"
  | .RightCurly => "\x7d"
  | .DoubleForwardSlash => "//"
  | .For => "for"
  | .While => "while"
  | .If => "if"
  | .Switch => "switch"
  | .Case => "case"
  | .Default => "default"
  | .Break => "break"
  | .Continue => "continue"
  | .Else => "else"
  | .Return => "return"
  | .Const => "const"
  | .Char => "char"
  | .Int => "int"
  | .Long => "long"
  | .Double => "double"
  | .Void => "void"
  | .Unsigned => "unsigned"
  | .Struct => "struct"
  | .Enum => "enum"
  | .Typedef => "typedef"

/-- `Token`: kind, spelling, line and column. -/
structure Token where
  Kind : Token.TokenKind := Token.TokenKind.Invalid
  StringValue : String := ""
  LineNumber : Nat := 0
  ColumnNumber : Nat := 0
deriving Repr, DecidableEq

/-! ### Type.hpp, AST.hpp -/

/-- `Type::VariantKind`: "Basic type variants. Numerical ones are ordered by
conversion rank." -/
inductive ASTType.VariantKind where
  | Invalid | Composite | Void | Char
  | UnsignedChar | Int | UnsignedInt | Long | UnsignedLong
  | LongLong | UnsignedLongLong | Double
deriving Repr, DecidableEq

/-- The value of the enumerator, by which the variants are compared. -/
def ASTType.VariantKind.toNat : ASTType.VariantKind → Nat
  | .Invalid => 0 | .Composite => 1 | .Void => 2 | .Char => 3
  | .UnsignedChar => 4 | .Int => 5 | .UnsignedInt => 6 | .Long => 7 | .UnsignedLong => 8
  | .LongLong => 9 | .UnsignedLongLong => 10 | .Double => 11

/-- `Type::TypeKind`. -/
inductive ASTType.TypeKind where
  | Simple | Array | Struct
deriving Repr, DecidableEq

/-- The class `Type` of Type.hpp (`Type` itself is reserved in Lean): name,
variant, pointer level, kind, qualifiers, member types, parameter types and
dimensions. -/
inductive ASTType where
  | mk (Name : String) (Ty : ASTType.VariantKind) (PointerLevel : Nat)
      (Kind : ASTType.TypeKind) (Qualifiers : Nat)
      (TypeList ParameterList : List ASTType) (Dimensions : List Nat)

namespace ASTType

def GetTypeVariant : ASTType → VariantKind
  | mk _ Ty _ _ _ _ _ _ => Ty

def GetTypeKind : ASTType → TypeKind
  | mk _ _ _ Kind _ _ _ _ => Kind

def GetPointerLevel : ASTType → Nat
  | mk _ _ PointerLevel _ _ _ _ _ => PointerLevel

/-- `Type()`: a simple type of the variant `Invalid`. -/
def default : ASTType := mk "" VariantKind.Invalid 0 TypeKind.Simple 0 [] [] []

/-- `Type(VariantKind vk)`: a simple type of the variant `vk`. -/
def ofVariant (vk : VariantKind) : ASTType := mk "" vk 0 TypeKind.Simple 0 [] [] []

def IsUnsigned (T : ASTType) : Bool :=
  match T.GetTypeVariant with
  | .UnsignedChar | .UnsignedInt | .UnsignedLong | .UnsignedLongLong => true
  | _ => false

/-- `Type::GetStrongestType`: "Given two type variants it return the stronger
one"; the result is the `Type` built from the variant. -/
def GetStrongestType (type1 type2 : VariantKind) : ASTType :=
  if type1.toNat > type2.toNat then ofVariant type1 else ofVariant type2

end ASTType

/-- `Expression`: what the constructor of a binary expression reads of its
operands, the result type. -/
structure Expression where
  IsLValue : Bool := false
  ResultType : ASTType := ASTType.default

/-- `BinaryExpression::BinaryOperation`. -/
inductive BinaryExpression.BinaryOperation where
  | ASSIGN | ADD_ASSIGN | SUB_ASSIGN | MUL_ASSIGN | DIV_ASSIGN
  | LSL | LSR | ADD | SUB | MUL | DIV | DIVU | MOD | MODU | AND
  | Not | EQ | LT | GT | NE | GE | LE | ANDL
deriving Repr, DecidableEq

/-- The value of the enumerator. -/
def BinaryExpression.BinaryOperation.toNat : BinaryExpression.BinaryOperation → Nat
  | .ASSIGN => 0 | .ADD_ASSIGN => 1 | .SUB_ASSIGN => 2 | .MUL_ASSIGN => 3 | .DIV_ASSIGN => 4
  | .LSL => 5 | .LSR => 6 | .ADD => 7 | .SUB => 8 | .MUL => 9 | .DIV => 10 | .DIVU => 11
  | .MOD => 12 | .MODU => 13 | .AND => 14
  | .Not => 15 | .EQ => 16 | .LT => 17 | .GT => 18 | .NE => 19 | .GE => 20 | .LE => 21
  | .ANDL => 22

/-- `BinaryExpression`: the expression part, the operator token and the two
operands. -/
structure BinaryExpression where
  IsLValue : Bool := false
  ResultType : ASTType := ASTType.default
  Operation : Token
  Left : Expression
  Right : Expression

namespace BinaryExpression

/-- `BinaryExpression::GetOperationKind` for the operator token and the result
type the expression has at the time of the call; any other token runs into the
assertion "Invalid binary operator kind". -/
def GetOperationKind (Operation : Token) (ResultType : ASTType) : Option BinaryOperation :=
  match Operation.Kind with
  | .Equal => some .ASSIGN
  | .PlusEqual => some .ADD_ASSIGN
  | .MinusEqual => some .SUB_ASSIGN
  | .AstrixEqual => some .MUL_ASSIGN
  | .ForwardSlashEqual => some .DIV_ASSIGN
  | .LessThanLessThan => some .LSL
  | .GreaterThanGreaterThan => some .LSR
  | .Plus => some .ADD
  | .Minus => some .SUB
  | .Astrix => some .MUL
  | .ForwardSlash => if ResultType.IsUnsigned then some .DIVU else some .DIV
  | .Percent => if ResultType.IsUnsigned then some .MODU else some .MOD
  | .And => some .AND
  | .Bang => some .Not
  | .DoubleEqual => some .EQ
  | .LessThan => some .LT
  | .GreaterThan => some .GT
  | .BangEqual => some .NE
  | .GreaterEqual => some .GE
  | .LessEqual => some .LE
  | .DoubleAnd => some .ANDL
  | _ => none

/-- `BinaryExpression::IsConditional`: `GetOperationKind() >= Not`. -/
def IsConditional (Operation : Token) (ResultType : ASTType) : Option Bool :=
  (GetOperationKind Operation ResultType).map (fun k => decide (k.toNat ≥ BinaryOperation.Not.toNat))

/-- The constructor `BinaryExpression(L, Op, R)`: the members are set, then the
result type, which is still the default-constructed one when `IsConditional`
reads it. -/
def new (L : Expression) (Op : Token) (R : Expression) : Option BinaryExpression :=
  match IsConditional Op ASTType.default with
  | none => none
  | some true =>
    some { Operation := Op, Left := L, Right := R,
           ResultType := ASTType.ofVariant ASTType.VariantKind.Int }
  | some false =>
    let Strongest := ASTType.GetStrongestType L.ResultType.GetTypeVariant
      R.ResultType.GetTypeVariant
    some { Operation := Op, Left := L, Right := R,
           ResultType := ASTType.GetStrongestType Strongest.GetTypeVariant
             ASTType.VariantKind.Int }

end BinaryExpression

/-! ### Notions used to state the allocation results -/

/-- The register that goes back to the pool when `Reg` is freed: its parent
if it has one, else `Reg` itself. -/
def RegisterInfo.rootOf (RI : RegisterInfo) (Reg : Nat) : Nat := (RI.ParentReg Reg).getD Reg

/-- Two physical registers conflict when they are the same register or one is
the parent or a sub-register of the other. -/
def RegisterInfo.Conflict (RI : RegisterInfo) (p q : Nat) : Prop :=
  p = q ∨ RI.ParentReg p = some q ∨ RI.ParentReg q = some p ∨
    p ∈ RI.SubRegs q ∨ q ∈ RI.SubRegs p

/-- The sub/parent relation of the catalog is coherent and one level deep:
`s` is a sub-register of `r` exactly when `r` is the parent of `s`, and a
parent has no parent. -/
def RegisterInfo.WellFormed (RI : RegisterInfo) : Prop :=
  (∀ r s, s ∈ RI.SubRegs r ↔ RI.ParentReg s = some r) ∧
  (∀ r s, RI.ParentReg r = some s → RI.ParentReg s = none)

/-- The register sets of the ABI fit the allocator: caller-saved and
callee-saved registers are duplicate-free, disjoint and without parent, and
argument and return registers are parentless and not callee-saved. -/
def TargetMachine.PoolsWellFormed (TM : TargetMachine) : Prop :=
  (TM.ABI.CallerSavedRegisters ++ TM.ABI.CalleeSavedRegisters).Nodup ∧
  (∀ e ∈ TM.ABI.CallerSavedRegisters ++ TM.ABI.CalleeSavedRegisters,
    TM.RegInfo.ParentReg e = none) ∧
  (∀ a ∈ TM.ABI.ArgumentRegisters ++ TM.ABI.ReturnRegisters,
    TM.RegInfo.ParentReg a = none ∧ a ∉ TM.ABI.CalleeSavedRegisters)

/-- The closed intervals `[def, kill]` of two live ranges meet. -/
def LiveRangesOverlap (a b : Nat × Nat) : Prop := a.1 ≤ b.2 ∧ b.1 ≤ a.2

/-- The invariant of the allocation loop.  `L0` holds the registers the
two pools start with, `Pre` the pre-allocations, `Done` the ranges the loop
has allocated itself, `d` the last `DefLine` handled. -/
structure RAInv (RI : RegisterInfo) (L0 : List Nat) (Pre : List (Nat × Nat)) (d : Nat)
    (Done : List (Nat × Nat × Nat)) (St : RAState) : Prop where
  perm : List.Perm (St.Pools.Pool ++ St.Pools.BackupPool ++
    St.FreeAbleWorkList.map (fun w => RI.rootOf (StdMap.getD0 St.AllocatedRegisters w.1))) L0
  wl : ∀ w ∈ St.FreeAbleWorkList, w ∈ Done
  expired : ∀ w ∈ Done, w ∈ St.FreeAbleWorkList ∨ w.2.2 < d
  root : ∀ w ∈ Done, ∃ p, StdMap.get? St.AllocatedRegisters w.1 = some p ∧ RI.rootOf p ∈ L0
  safe : ∀ a ∈ Done, ∀ b ∈ Done, a.1 ≠ b.1 → a.2.1 ≤ b.2.2 → b.2.1 ≤ a.2.2 →
    RI.rootOf (StdMap.getD0 St.AllocatedRegisters a.1)
      ≠ RI.rootOf (StdMap.getD0 St.AllocatedRegisters b.1)
  keys : ∀ k, StdMap.contains St.AllocatedRegisters k = true →
    StdMap.contains Pre k = true ∨ k ∈ Done.map (fun w => w.1)
  pre : ∀ k p, StdMap.get? Pre k = some p → StdMap.get? St.AllocatedRegisters k = some p

/-! ### The AArch64 target -/

/-- Modelled from the spec: the AArch64 register catalog (AArch64RegisterInfo
is absent).  The numbering is the one AArch64TargetABI.cpp relies on: `x0` is
register 32, `x9` is 41, `x19` is 51, `sp` is 64; the 32-bit register `wN`
embedded in `xN` has the number of `xN` minus 32 and is its only
sub-register. -/
def AArch64.RegInfo : RegisterInfo :=
  { BitWidth := fun ID => if ID < 32 then 32 else if ID ≤ 64 then 64 else 0,
    SubRegs := fun ID => if 32 ≤ ID ∧ ID < 64 then [ID - 32] else [],
    ParentReg := fun ID => if ID < 32 then some (ID + 32) else none,
    StackRegister := 64 }

/-- `AArch64TargetABI::AArch64TargetABI`. -/
def AArch64.TargetABI : TargetABI :=
  { StackAlignment := 16,
    MaxStructSize := 128,
    ArgumentRegisters := [32, 33, 34, 35, 36, 37, 38, 39],
    CalleeSavedRegisters := [51, 52, 53, 54, 55, 56, 57, 58, 59, 60],
    CallerSavedRegisters := [32, 33, 34, 35, 36, 37, 38, 39, 41, 42, 43, 44, 45, 46, 47],
    ReturnRegisters := [32, 33, 34, 35, 36, 37, 38, 39] }

/-- `AArch64InstructionDefinitions::Instructions`: the table, entry by entry. -/
def AArch64.Instructions : List (AArch64.Opcodes × TargetInstruction) :=
  [ (.ADD_rrr, { Opcode := .ADD_rrr, Size := 32, AsmString := "add\t$1, $2, $3",
                 OperandTypes := [.GPR, .GPR, .GPR] }),
    (.ADD_rri, { Opcode := .ADD_rri, Size := 32, AsmString := "add\t$1, $2, #$3",
                 OperandTypes := [.GPR, .GPR, .UIMM12] }),
    (.SUB_rrr, { Opcode := .SUB_rrr, Size := 32, AsmString := "sub\t$1, $2, $3",
                 OperandTypes := [.GPR, .GPR, .GPR] }),
    (.SUB_rri, { Opcode := .SUB_rri, Size := 32, AsmString := "sub\t$1, $2, #$3",
                 OperandTypes := [.GPR, .GPR, .UIMM12] }),
    (.SUBS, { Opcode := .SUBS, Size := 32, AsmString := "subs\t$1, $2, $3",
              OperandTypes := [.GPR, .GPR, .GPR] }),
    (.SDIV_rrr, { Opcode := .SDIV_rrr, Size := 32, AsmString := "sdiv\t$1, $2, $3",
                  OperandTypes := [.GPR, .GPR, .GPR] }),
    (.SDIV_rri, { Opcode := .SDIV_rri, Size := 32, AsmString := "sdiv\t$1, $2, #$3",
                  OperandTypes := [.GPR, .GPR, .UIMM12] }),
    (.MUL_rrr, { Opcode := .MUL_rri, Size := 32, AsmString := "mul\t$1, $2, $3",
                 OperandTypes := [.GPR, .GPR, .GPR] }),
    (.MUL_rri, { Opcode := .MUL_rrr, Size := 32, AsmString := "mul\t$1, $2, #$3",
                 OperandTypes := [.GPR, .GPR, .UIMM12] }),
    (.CMP_rr, { Opcode := .CMP_rr, Size := 32, AsmString := "cmp\t$1, $2",
                OperandTypes := [.GPR, .GPR] }),
    (.CMP_ri, { Opcode := .CMP_ri, Size := 32, AsmString := "cmp\t$1, #$2",
                OperandTypes := [.GPR, .UIMM12] }),
    (.CSET, { Opcode := .CSET, Size := 32, AsmString := "cset\t$1, $2, $3",
              OperandTypes := [.GPR, .GPR, .GPR] }),
    (.LDR, { Opcode := .LDR, Size := 32, AsmString := "ldr\t$1, [$2, #$3]",
             OperandTypes := [.GPR, .GPR, .SIMM12], Attributes := .LOAD }),
    (.STR, { Opcode := .STR, Size := 32, AsmString := "str\t$1, [$2, #$3]",
             OperandTypes := [.GPR, .GPR, .SIMM12], Attributes := .STORE }),
    (.BLE, { Opcode := .BLE, Size := 32, AsmString := "b.le\t$1",
             OperandTypes := [.SIMM21_LSB0] }),
    (.BEQ, { Opcode := .BEQ, Size := 32, AsmString := "b.eq\t$1",
             OperandTypes := [.SIMM21_LSB0] }),
    (.B, { Opcode := .B, Size := 32, AsmString := "b\t$1",
           OperandTypes := [.SIMM21_LSB0] }),
    (.RET, { Opcode := .RET, Size := 32, AsmString := "ret",
             OperandTypes := [], Attributes := .RETURN }) ]

/-- `AArch64InstructionDefinitions::GetTargetInstr`: the entry stored under the
opcode, or nothing (`nullptr`) when the table has no such key. -/
def AArch64.GetTargetInstr (Op : MIOpcode) : Option TargetInstruction :=
  match Op with
  | MIOpcode.target c => (AArch64.Instructions.find? (fun e => e.1 == c)).map (fun e => e.2)
  | _ => none

/-- The AArch64 target machine; its pointer size is 64 bits. -/
def AArch64.TM : TargetMachine :=
  { RegInfo := AArch64.RegInfo,
    ABI := AArch64.TargetABI,
    GetTargetInstr := AArch64.GetTargetInstr,
    PointerSize := 64 }

/-! ### Agreement of an instruction with its definition -/

/-- The operand carries a register: a virtual or physical register, or a
parameter, which the allocator turns into one. -/
def MachineOperand.IsRegLike (MO : MachineOperand) : Bool :=
  MO.Kind == MOKind.REGISTER || MO.IsParameter

/-- The tag of an operand matches an operand class: a register for `GPR`, an
immediate for `UIMM12` and `SIMM12`, a label for `SIMM21_LSB0`. -/
def OperandTypes.Matches (c : OperandTypes) (MO : MachineOperand) : Bool :=
  match c with
  | OperandTypes.GPR => MO.IsRegLike
  | OperandTypes.UIMM12 => MO.IsImmediate
  | OperandTypes.SIMM12 => MO.IsImmediate
  | OperandTypes.SIMM21_LSB0 => MO.IsLabel

/-- The operand tags match the classes position by position, for as far as
both lists go. -/
def OperandTypes.MatchAll : List OperandTypes → List MachineOperand → Bool
  | c :: cs, MO :: MOs => c.Matches MO && OperandTypes.MatchAll cs MOs
  | _, _ => true

/-- The instruction agrees with the instruction-definition table: its opcode
has an entry, it has as many operands as the entry has operand classes, and
every operand matches its class. -/
def AArch64.AgreesWithDefinition (MI : MachineInstruction) : Bool :=
  match AArch64.GetTargetInstr MI.Opcode with
  | none => false
  | some TI =>
    decide (MI.Operands.length = TI.OperandTypes.length) &&
      OperandTypes.MatchAll TI.OperandTypes MI.Operands

/-! ### Notions used to state the lowering results -/

/-- The operand is a stack access or a memory operand. -/
def MachineOperand.IsMemLike (MO : MachineOperand) : Bool := MO.IsStackAccess || MO.IsMemory

/-- The number of operands of an instruction that are a stack access or a
memory operand. -/
def MachineInstruction.MemOperandCount (MI : MachineInstruction) : Nat :=
  (MI.Operands.filter MachineOperand.IsMemLike).length

/-- The instructions inserted into the block from state `S` to state `S1`. -/
def LLIRState.InsertedSince (S S1 : LLIRState) (New : List MachineInstruction) : Prop :=
  S1.Inserted = S.Inserted ++ New

/-- From `S` to `S1` instructions were only appended to the block, each with
at most one stack-access or memory operand. -/
def LLIRState.Extends (S S1 : LLIRState) : Prop :=
  ∃ New, S.InsertedSince S1 New ∧ ∀ I ∈ New, I.MemOperandCount ≤ 1

/-! ### Notions used to state the live ranges -/

/-- The operand names the register id `id`: it is a virtual-register,
parameter or memory operand whose register is `id`. -/
def MachineOperand.Mentions (MO : MachineOperand) (id : Nat) : Bool :=
  MO.UsesReg && MO.GetReg == id

/-- The number of operands of an instruction that name the register id. -/
def MachineInstruction.MentionCount (I : MachineInstruction) (id : Nat) : Nat :=
  (I.Operands.filter (fun O => O.Mentions id)).length

/-- For instructions numbered from `n` on: the number of the first
instruction that names `id`, the number of the last one that does, and the
number of operands that name it; nothing when no operand names it. -/
def Mentions (id : Nat) : List MachineInstruction → Nat → Option (Nat × Nat × Nat)
  | [], _ => none
  | I :: rest, n =>
    match Mentions id rest (n + 1) with
    | none => if I.MentionCount id = 0 then none else some (n, n, I.MentionCount id)
    | some (f, l, k) =>
      if I.MentionCount id = 0 then some (f, l, k) else some (n, l, I.MentionCount id + k)

/-! ### Notions used to state the value mapping and the call lowering -/

/-- The table `IR id → LLIR vreg` fits the counter of the function: every
mapped register lies below the counter, and different IR ids are mapped to
different registers. -/
def LLIRState.VRegsFresh (S : LLIRState) : Prop :=
  (∀ k v, StdMap.get? S.IRVregToLLIRVreg k = some v → v < S.MF.NextVReg) ∧
  (∀ k1 k2 v1 v2, StdMap.get? S.IRVregToLLIRVreg k1 = some v1 →
    StdMap.get? S.IRVregToLLIRVreg k2 = some v2 → k1 ≠ k2 → v1 ≠ v2)

/-- From `S` to `S1` the counter has not gone back, and every entry of the
table of `S1` is an entry of the table of `S` or maps to a register the
counter has handed out since. -/
def LLIRState.GrowsTo (S S1 : LLIRState) : Prop :=
  S.MF.NextVReg ≤ S1.MF.NextVReg ∧
  (∀ k v, StdMap.get? S1.IRVregToLLIRVreg k = some v →
    StdMap.get? S.IRVregToLLIRVreg k = some v ∨ S.MF.NextVReg ≤ v)

/-- The `MOV` of call lowering into a physical register. -/
def ArgumentMove (Reg BitWidth : Nat) (Src : MachineOperand) : MachineInstruction :=
  ((MachineInstruction.ofOpcode OperationCode.MOV).AddRegister Reg BitWidth).AddOperand Src

/-- The lowering the spec gives for scalar arguments: one argument after the
other, in order, the operand of the argument is obtained and one `MOV` is
inserted whose source is that operand and whose destination is the argument
register of the running index `i`, or that register's first sub-register when
the operand is narrower than the register; `S1` is the state after the last
argument. -/
inductive ScalarArgMoves (TM : TargetMachine) : List Value → Nat → LLIRState → LLIRState → Prop
  | done (i : Nat) (S : LLIRState) : ScalarArgMoves TM [] i S S
  | whole (A : Value) (rest : List Value) (i : Nat) (S Sa S1 : LLIRState)
      (Src : MachineOperand) (ArgReg : Nat)
      (hreg : TM.ABI.ArgumentRegisters.get? i = some ArgReg)
      (hsrc : GetMachineOperandFromValue TM A false S = some (Src, Sa))
      (hwide : ¬ Src.GetSize < TM.RegInfo.BitWidth ArgReg)
      (hrest : ScalarArgMoves TM rest (i + 1)
        (Sa.InsertInstr (ArgumentMove ArgReg (TM.RegInfo.BitWidth ArgReg) Src)) S1) :
      ScalarArgMoves TM (A :: rest) i S S1
  | sub (A : Value) (rest : List Value) (i : Nat) (S Sa S1 : LLIRState)
      (Src : MachineOperand) (ArgReg Sub : Nat)
      (hreg : TM.ABI.ArgumentRegisters.get? i = some ArgReg)
      (hsrc : GetMachineOperandFromValue TM A false S = some (Src, Sa))
      (hnarrow : Src.GetSize < TM.RegInfo.BitWidth ArgReg)
      (hsub : (TM.RegInfo.SubRegs ArgReg).head? = some Sub)
      (hrest : ScalarArgMoves TM rest (i + 1)
        (Sa.InsertInstr (ArgumentMove Sub (TM.RegInfo.BitWidth Sub) Src)) S1) :
      ScalarArgMoves TM (A :: rest) i S S1

/-- The argument is a scalar for call lowering in a function with the stack
frame `SF`: not a struct by value, not a pointer to a global or to a stack
slot, and a register, a parameter or an integer constant. -/
def Value.IsScalarArg (A : Value) (SF : StackFrame) : Bool :=
  !A.IsStructByValue && !(A.Ty.IsPTR && (A.IsGlobalVar || SF.IsStackSlot A.ID)) &&
    (A.IsRegister || A.IsParameter || (A.IsConstant && !A.IsFPConst))

/-- The instruction is a generic `MOV`. -/
def MachineInstruction.IsMOV (I : MachineInstruction) : Bool :=
  I.Opcode == MIOpcode.generic OperationCode.MOV

/-- The instruction is a generic `LOAD`. -/
def MachineInstruction.IsLOAD (I : MachineInstruction) : Bool :=
  I.Opcode == MIOpcode.generic OperationCode.LOAD

/-! ### Notions used to state the selection results -/

/-- The selector returned `true` and left an instruction with the target
opcode `c` and `n` operands. -/
def AArch64TargetMachine.SelectsWith (r : Option (Bool × MachineInstruction))
    (c : AArch64.Opcodes) (n : Nat) : Bool :=
  match r with
  | some (true, MI1) => MI1.Opcode == MIOpcode.target c && MI1.Operands.length == n
  | _ => false

/-! ### Notions used to state the front-end claims -/

/-- The token kinds that the preprocessor and the lexer both define, each as
the pair of the preprocessor's and the lexer's kind of that name. -/
def CommonTokenKinds : List (PPToken.PPTokenKind × Token.TokenKind) :=
  [(.EndOfFile, .EndOfFile), (.Invalid, .Invalid), (.Identifier, .Identifier), (.Dot, .Dot),
   (.Colon, .Colon), (.LeftParen, .LeftParen), (.RightParen, .RightParen)]

/-- The operators the claim calls conditional. -/
def ConditionalOperators : List Token.TokenKind :=
  [.Bang, .DoubleEqual, .LessThan, .GreaterThan, .BangEqual, .GreaterEqual, .LessEqual,
   .DoubleAnd]

/-- The other binary operators: assignment, compound assignments, shifts,
`+ - * / %` and `&`. -/
def ArithmeticOperators : List Token.TokenKind :=
  [.Equal, .PlusEqual, .MinusEqual, .AstrixEqual, .ForwardSlashEqual, .LessThanLessThan,
   .GreaterThanGreaterThan, .Plus, .Minus, .Astrix, .ForwardSlash, .Percent, .And]

/-! ### Example functions -/

/-- The machine code of `int f(int a, int b) { c = b + b; d = c + a; return c; }`
after selection: parameters 1 and 2, virtual registers 3 and 4. -/
def Example.sumFunction : MachineFunction :=
  { Name := "f",
    Parameters := [(1, LowLevelType.CreateINT 32), (2, LowLevelType.CreateINT 32)],
    BasicBlocks := [
      { Name := "entry",
        Instructions := [
          { Opcode := MIOpcode.target AArch64.Opcodes.ADD_rrr,
            Operands := [MachineOperand.CreateVirtualRegister 3 32,
                         (MachineOperand.CreateParameter 2).SetType (LowLevelType.CreateINT 32),
                         (MachineOperand.CreateParameter 2).SetType (LowLevelType.CreateINT 32)] },
          { Opcode := MIOpcode.target AArch64.Opcodes.ADD_rrr,
            Operands := [MachineOperand.CreateVirtualRegister 4 32,
                         MachineOperand.CreateVirtualRegister 3 32,
                         (MachineOperand.CreateParameter 1).SetType (LowLevelType.CreateINT 32)] },
          { Opcode := MIOpcode.target AArch64.Opcodes.RET,
            Operands := [MachineOperand.CreateVirtualRegister 3 32] } ] } ] }

/-- A function with one 4-byte stack slot (id 5) that loads it, loads through
the pointer in virtual register 3, adds the two values and returns the sum. -/
def Example.loadFunction : MachineFunction :=
  { Name := "g",
    SF := { ObjectsSize := 4, StackSlots := [(5, 4)] },
    BasicBlocks := [
      { Name := "entry",
        Instructions := [
          { Opcode := MIOpcode.target AArch64.Opcodes.LDR,
            Operands := [MachineOperand.CreateVirtualRegister 1 32,
                         MachineOperand.CreateStackAccess 5 0] },
          { Opcode := MIOpcode.target AArch64.Opcodes.LDR,
            Operands := [MachineOperand.CreateVirtualRegister 2 32,
                         MachineOperand.CreateMemory 3 64] },
          { Opcode := MIOpcode.target AArch64.Opcodes.ADD_rrr,
            Operands := [MachineOperand.CreateVirtualRegister 1 32,
                         MachineOperand.CreateVirtualRegister 1 32,
                         MachineOperand.CreateVirtualRegister 2 32] },
          { Opcode := MIOpcode.target AArch64.Opcodes.RET,
            Operands := [MachineOperand.CreateVirtualRegister 1 32] } ] } ] }

/-- The bindings and live ranges `RunRA` computes for `Example.sumFunction`. -/
def Example.sumResult : RAResult :=
  { PreAllocated := [(1, 0), (2, 1), (3, 0)],
    LiveRanges := [(1, 0, 1), (2, 0, 0), (3, 0, 2), (4, 1, 4294967295)],
    AllocatedRegisters := [(1, 0), (2, 1), (3, 0), (4, 2)],
    UsedCalleSavedRegs := [] }

/-- A function with four 4-byte stack slots and a bare return; `RunRA` leaves
it as it is. -/
def Example.fourSlots : MachineFunction :=
  { Name := "h",
    SF := { ObjectsSize := 16, StackSlots := [(1, 4), (2, 4), (3, 4), (4, 4)] },
    BasicBlocks := [
      { Name := "entry",
        Instructions := [
          { Opcode := MIOpcode.target AArch64.Opcodes.RET, Operands := [] } ] } ] }

/-- The instruction `STACK_ADDRESS %1, slot 5`, as GEP and call lowering emit it. -/
def Example.stackAddress : MachineInstruction :=
  { Opcode := MIOpcode.generic OperationCode.STACK_ADDRESS,
    Operands := [MachineOperand.CreateVirtualRegister 1 64,
                 MachineOperand.CreateStackAccess 5 0] }

/-- The GEP `&a[-1]` on a global array `a` of 4-byte elements. -/
def Example.gepGlobalMinusOne : Instruction :=
  Instruction.GetElementPointer
    { Kind := ValueKind.REGISTER, ID := 7, BitWidth := 64, Ty := { IsPTR := true } }
    { Kind := ValueKind.GLOBALVAR, ID := 1, Name := "a", Ty := { ElemSize := 4, ByteSize := 16 } }
    { Kind := ValueKind.CONST, IntValue := -1 }

/-- The GEP `&b[-1]` on a pointer `b` held in the IR register 2, 4-byte elements. -/
def Example.gepRegisterMinusOne : Instruction :=
  Instruction.GetElementPointer
    { Kind := ValueKind.REGISTER, ID := 7, BitWidth := 64, Ty := { IsPTR := true } }
    { Kind := ValueKind.REGISTER, ID := 2, BitWidth := 64, Ty := { IsPTR := true, ElemSize := 4 } }
    { Kind := ValueKind.CONST, IntValue := -1 }

/-- The GEP `&c[-1]` on the array in stack slot 5, 4-byte elements. -/
def Example.gepStackMinusOne : Instruction :=
  Instruction.GetElementPointer
    { Kind := ValueKind.REGISTER, ID := 7, BitWidth := 64, Ty := { IsPTR := true } }
    { Kind := ValueKind.REGISTER, ID := 5, BitWidth := 64, IsStackAllocation := true,
      Ty := { IsPTR := true, ElemSize := 4 } }
    { Kind := ValueKind.CONST, IntValue := -1 }

/-- A lowering state of a function with the 16-byte stack slot 5. -/
def Example.stateWithSlot : LLIRState :=
  { MF := { SF := { ObjectsSize := 16, StackSlots := [(5, 16)] }, NextVReg := 10 } }

/-- The copy of 8 bytes from the array in stack slot 5 to the address in the
IR register 6. -/
def Example.memoryCopy : Instruction :=
  Instruction.MemoryCopy
    { Kind := ValueKind.REGISTER, ID := 6, BitWidth := 64, Ty := { IsPTR := true } }
    { Kind := ValueKind.REGISTER, ID := 5, BitWidth := 64, IsStackAllocation := true,
      Ty := { IsPTR := true, ElemSize := 4 } }
    8

/-- The lowering of `Example.memoryCopy` in `Example.stateWithSlot`: a load,
a store and a second load are inserted, the second store is returned. -/
def Example.memoryCopyResult : MachineInstruction × LLIRState :=
  ((((MachineInstruction.ofOpcode OperationCode.STORE).AddMemory 6 64).SetOffsetAt 0
      4).AddVirtualRegister 11 32,
   { MF := { SF := { ObjectsSize := 16, StackSlots := [(5, 16)] }, NextVReg := 12 },
     Inserted := [
       ((MachineInstruction.ofOpcode OperationCode.LOAD).AddVirtualRegister 10 32).AddStackAccess
         5 0,
       (((MachineInstruction.ofOpcode OperationCode.STORE).AddMemory 6 64).SetOffsetAt 0
         0).AddVirtualRegister 10 32,
       ((MachineInstruction.ofOpcode OperationCode.LOAD).AddVirtualRegister 11 32).AddStackAccess
         5 4 ] })

/-- The instruction `ADD %1, %1, @a`, which completes the address of the
global `a` held in the virtual register 1. -/
def Example.addGlobal : MachineInstruction :=
  { Opcode := MIOpcode.generic OperationCode.ADD,
    Operands := [MachineOperand.CreateVirtualRegister 1 64,
                 MachineOperand.CreateVirtualRegister 1 64,
                 MachineOperand.CreateGlobalSymbol "a"] }

/-- The compare `CMP %3, %1, 5000` with the relation `LT`. -/
def Example.cmpWide : MachineInstruction :=
  { Opcode := MIOpcode.generic OperationCode.CMP,
    Attributes := CMPRelation.LT,
    Operands := [MachineOperand.CreateVirtualRegister 3 32,
                 MachineOperand.CreateVirtualRegister 1 32,
                 MachineOperand.CreateImmediate 5000 32] }

/-- The addition `ADD %1, %2, %3` of 32-bit registers 1 and 2 whose second
source, register 3, is 8 bits wide. -/
def Example.addNarrowThird : MachineInstruction :=
  { Opcode := MIOpcode.generic OperationCode.ADD,
    Operands := [MachineOperand.CreateVirtualRegister 1 32,
                 MachineOperand.CreateVirtualRegister 2 32,
                 MachineOperand.CreateVirtualRegister 3 8] }

/-- The compare `CMP %3, %1, %2` of two 8-bit registers, relation `EQ`. -/
def Example.cmpNarrow : MachineInstruction :=
  { Opcode := MIOpcode.generic OperationCode.CMP,
    Attributes := CMPRelation.EQ,
    Operands := [MachineOperand.CreateVirtualRegister 3 8,
                 MachineOperand.CreateVirtualRegister 1 8,
                 MachineOperand.CreateVirtualRegister 2 8] }

/-- The stack adjustment `ADD sp, sp, -16` of a prolog (`sp` is register 64). -/
def Example.addNegative : MachineInstruction :=
  { Opcode := MIOpcode.generic OperationCode.ADD,
    Operands := [MachineOperand.CreateRegister 64 64,
                 MachineOperand.CreateRegister 64 64,
                 MachineOperand.CreateImmediate (-16) 32] }

/-- A function whose only stack slot, id 7, holds one byte. -/
def Example.byteFunction : MachineFunction :=
  { Name := "b", SF := { ObjectsSize := 4, StackSlots := [(7, 1)] } }

/-- The load `LOAD %1, slot 7` of the byte slot into a 32-bit register. -/
def Example.byteLoad : MachineInstruction :=
  { Opcode := MIOpcode.generic OperationCode.LOAD,
    Operands := [MachineOperand.CreateVirtualRegister 1 32,
                 MachineOperand.CreateStackAccess 7 0] }

/-- The store `STORE slot 7, %1` of a 32-bit register to the byte slot. -/
def Example.byteStore : MachineInstruction :=
  { Opcode := MIOpcode.generic OperationCode.STORE,
    Operands := [MachineOperand.CreateStackAccess 7 0,
                 MachineOperand.CreateVirtualRegister 1 32] }

/-- A block that ends in a compare with relation `LT` and the two-operand
branch on its result. -/
def Example.compareAndBranch : List MachineInstruction :=
  [ { Opcode := MIOpcode.target AArch64.Opcodes.CMP_rr,
      Attributes := CMPRelation.LT,
      Operands := [MachineOperand.CreateVirtualRegister 1 32,
                   MachineOperand.CreateVirtualRegister 2 32] },
    { Opcode := MIOpcode.generic OperationCode.BRANCH,
      Operands := [MachineOperand.CreateVirtualRegister 3 32,
                   MachineOperand.CreateLabel "then"] } ]

/-- The call `%6 = call g()` of a function that returns a 16-byte struct. -/
def Example.callStruct : Instruction :=
  Instruction.Call
    { Kind := ValueKind.REGISTER, ID := 6, BitWidth := 64,
      Ty := { IsStruct := true, ByteSize := 16 } }
    "g" []

/-- The copy of 6 bytes from the array in stack slot 5 to the address in the
IR register 6. -/
def Example.memoryCopySix : Instruction :=
  Instruction.MemoryCopy
    { Kind := ValueKind.REGISTER, ID := 6, BitWidth := 64, Ty := { IsPTR := true } }
    { Kind := ValueKind.REGISTER, ID := 5, BitWidth := 64, IsStackAllocation := true,
      Ty := { IsPTR := true, ElemSize := 4 } }
    6

/-- A function without virtual registers whose only block returns the
constant 5: `RET 5`. -/
def Example.returnConstant : MachineFunction :=
  { Name := "five",
    BasicBlocks := [
      { Name := "entry",
        Instructions := [
          { Opcode := MIOpcode.target AArch64.Opcodes.RET,
            Operands := [MachineOperand.CreateImmediate 5 32] } ] } ] }

/-- A load of the 32-bit virtual register `v` from stack slot 5. -/
def Example.loadOf (v : Nat) : MachineInstruction :=
  { Opcode := MIOpcode.target AArch64.Opcodes.LDR,
    Operands := [MachineOperand.CreateVirtualRegister v 32,
                 MachineOperand.CreateStackAccess 5 0] }

/-- A store of the 32-bit virtual register `v` to stack slot 5. -/
def Example.storeOf (v : Nat) : MachineInstruction :=
  { Opcode := MIOpcode.target AArch64.Opcodes.STR,
    Operands := [MachineOperand.CreateVirtualRegister v 32,
                 MachineOperand.CreateStackAccess 5 0] }

/-- A function without parameters and with a bare return, whose entry block
holds the given instructions. -/
def Example.functionOf (Instrs : List MachineInstruction) : MachineFunction :=
  { Name := "k",
    SF := { ObjectsSize := 4, StackSlots := [(5, 4)] },
    BasicBlocks := [
      { Name := "entry", Instructions := Instrs },
      { Name := "exit",
        Instructions := [ { Opcode := MIOpcode.target AArch64.Opcodes.RET, Operands := [] } ] } ] }

/-- Two virtual registers used one after the other: register 1 lives on
`(0, 1)`, register 2 on `(2, 3)`. -/
def Example.twoRanges : MachineFunction :=
  Example.functionOf [Example.loadOf 1, Example.storeOf 1, Example.loadOf 2, Example.storeOf 2]

/-- The state of the allocation loop on `Example.twoRanges` after the range of
register 1: it holds `w0` (register 0), whose parent `x0` (register 32) has
left the pool. -/
def Example.stateAfterFirstRange : RAState :=
  { AllocatedRegisters := [(1, 0)],
    Pools := { Pool := [33, 34, 35, 36, 37, 38, 39, 41, 42, 43, 44, 45, 46, 47],
               BackupPool := [51, 52, 53, 54, 55, 56, 57, 58, 59, 60],
               UsedCalleSavedRegs := [] },
    FreeAbleWorkList := [(1, 0, 1)] }

/-- Three virtual registers used one after the other: register 1 lives on
`(0, 1)`, register 2 on `(2, 3)`, register 3 on `(4, 5)`. -/
def Example.threeRanges : MachineFunction :=
  Example.functionOf [Example.loadOf 1, Example.storeOf 1, Example.loadOf 2, Example.storeOf 2,
    Example.loadOf 3, Example.storeOf 3]

/-- The function that loads the virtual registers `1..k` and then stores them
all: the `k` registers are live at the same time. -/
def Example.manyLive (k : Nat) : MachineFunction :=
  Example.functionOf ((List.range k).map (fun i => Example.loadOf (i + 1)) ++
    (List.range k).map (fun i => Example.storeOf (i + 1)))

/-- The parameters of a MIR function that takes four structs by value and an
`int`. -/
def Example.fiveParams : List Value :=
  [ { Kind := ValueKind.PARAM, ID := 0, Name := "a", Ty := { IsStruct := true, ByteSize := 16 } },
    { Kind := ValueKind.PARAM, ID := 1, Name := "b", Ty := { IsStruct := true, ByteSize := 16 } },
    { Kind := ValueKind.PARAM, ID := 2, Name := "c", Ty := { IsStruct := true, ByteSize := 16 } },
    { Kind := ValueKind.PARAM, ID := 3, Name := "d", Ty := { IsStruct := true, ByteSize := 16 } },
    { Kind := ValueKind.PARAM, ID := 4, Name := "n", BitWidth := 32 } ]

/-- The machine function of a MIR function with the parameters
`Example.fiveParams` and a bare return. -/
def Example.nineParamFunction : MachineFunction :=
  { (HandleFunctionParams AArch64.TM Example.fiveParams { MF := { NextVReg := 10 } }).MF with
    Name := "nine",
    BasicBlocks := [
      { Name := "entry",
        Instructions := [ { Opcode := MIOpcode.target AArch64.Opcodes.RET, Operands := [] } ] } ] }

/-- The IR branch `br %3, then, else` on the condition in the IR register 3. -/
def Example.branchTwoLabels : Instruction :=
  Instruction.Branch { Kind := ValueKind.REGISTER, ID := 3, BitWidth := 32 } "then" (some "else")

/-- The block names of a function with an if-else: `entry`, `then`, `else`. -/
def Example.ifElseBlocks : List String := ["entry", "then", "else"]

/-- The 32-bit IR register with the given id. -/
def Example.irRegister (id : Nat) : Value :=
  { Kind := ValueKind.REGISTER, ID := id, BitWidth := 32 }

/-- The state of `Example.stateWithSlot` after the IR register 7 was first
converted: it is mapped to the virtual register 10. -/
def Example.stateAfterRegister7 : LLIRState :=
  { Example.stateWithSlot with
    MF := { Example.stateWithSlot.MF with NextVReg := 11 },
    IRVregToLLIRVreg := [(7, 10)] }

/-- The arguments of the call `h(%7, %8, 3)`: a 32-bit register, a pointer held
in a register, and an integer constant. -/
def Example.scalarArgs : List Value :=
  [Example.irRegister 7,
   { Kind := ValueKind.REGISTER, ID := 8, BitWidth := 64, Ty := { IsPTR := true } },
   { Kind := ValueKind.CONST, IntValue := 3 }]

/-- The result of a call of a `void` function. -/
def Example.voidResult : Value := { ID := 9, Ty := { IsVoid := true } }

/-- The result of a call of a function that returns a 32-bit integer. -/
def Example.intResult : Value := { ID := 9, Ty := { ByteSize := 4 } }

/-- The `BRANCH` that `br %3, then, else` is lowered to: the condition and two
labels. -/
def Example.branchThreeOperands : MachineInstruction :=
  { Opcode := MIOpcode.generic OperationCode.BRANCH,
    Operands := [MachineOperand.CreateVirtualRegister 10 32, MachineOperand.CreateLabel "then",
                 MachineOperand.CreateLabel "then"] }

/-- A 64-bit register pool as the allocator keeps it after the allocation of
`w0`: `x0` is out of the primary pool. -/
def Example.poolsWithoutX0 : RegPools :=
  { Pool := [33, 34, 35], BackupPool := [51, 52], UsedCalleSavedRegs := [] }

/-- Pools with the primary pool used up. -/
def Example.poolsPrimaryEmpty : RegPools :=
  { Pool := [], BackupPool := [51, 52, 53], UsedCalleSavedRegs := [] }

/-- The allocation of `Example.manyLive 16`: the first 15 registers take the
caller-saved registers, the 16th takes `w19`, the sub-register of the first
callee-saved register `x19` (register 51). -/
def Example.sixteenLiveResult : RAResult :=
  { PreAllocated := [],
    LiveRanges := (List.range 16).map (fun i => (i + 1, i, i + 16)),
    AllocatedRegisters := [(1, 0), (2, 1), (3, 2), (4, 3), (5, 4), (6, 5), (7, 6), (8, 7),
      (9, 9), (10, 10), (11, 11), (12, 12), (13, 13), (14, 14), (15, 15), (16, 19)],
    UsedCalleSavedRegs := [51] }

/-- An expression of type `char`. -/
def Example.charExpr : Expression := { ResultType := ASTType.ofVariant ASTType.VariantKind.Char }

/-- An expression of type `long`. -/
def Example.longExpr : Expression := { ResultType := ASTType.ofVariant ASTType.VariantKind.Long }

/-! ## Theorems -/

/-! ### The map operations -/

theorem StdMap.get?_set_self {β : Type} (m : List (Nat × β)) (k : Nat) (v : β) :
    StdMap.get? (StdMap.set m k v) k = some v := by
  induction m with
  | nil => simp [StdMap.set, StdMap.get?]
  | cons e rest ih =>
    unfold StdMap.set
    by_cases h1 : k < e.1
    · simp [h1, StdMap.get?]
    · by_cases h2 : k = e.1
      · simp [h1, h2, StdMap.get?]
      · have h3 : ¬ (e.1 = k) := fun h => h2 h.symm
        simp only [h1, h2, if_false]
        simp only [StdMap.get?] at ih ⊢
        rw [List.find?_cons_of_neg _ (by simpa using h3)]
        exact ih

theorem StdMap.get?_set_ne {β : Type} (m : List (Nat × β)) (k k1 : Nat) (v : β) (hne : k1 ≠ k) :
    StdMap.get? (StdMap.set m k v) k1 = StdMap.get? m k1 := by
  induction m with
  | nil =>
    have h3 : ¬ (k = k1) := fun h => hne h.symm
    simp [StdMap.set, StdMap.get?, h3]
  | cons e rest ih =>
    have h3 : ¬ (k = k1) := fun h => hne h.symm
    unfold StdMap.set
    by_cases h1 : k < e.1
    · simp only [h1, if_true, StdMap.get?]
      rw [List.find?_cons_of_neg _ (by simpa using h3)]
    · by_cases h2 : k = e.1
      · have h4 : ¬ (e.1 = k1) := by rw [← h2]; exact h3
        simp only [h1, if_false, StdMap.get?]
        rw [if_pos h2]
        rw [List.find?_cons_of_neg _ (by simpa using h3), List.find?_cons_of_neg _ (by simpa using h4)]
      · simp only [h1, h2, if_false]
        simp only [StdMap.get?] at ih ⊢
        by_cases h5 : e.1 = k1
        · rw [List.find?_cons_of_pos _ (by simpa using h5), List.find?_cons_of_pos _ (by simpa using h5)]
        · rw [List.find?_cons_of_neg _ (by simpa using h5), List.find?_cons_of_neg _ (by simpa using h5)]
          exact ih

theorem StdMap.contains_iff_get? {β : Type} (m : List (Nat × β)) (k : Nat) :
    StdMap.contains m k = true ↔ ∃ v, StdMap.get? m k = some v := by
  induction m with
  | nil => simp [StdMap.contains, StdMap.get?]
  | cons e rest ih =>
    by_cases h : e.1 = k
    · simp [StdMap.contains, StdMap.get?, h]
    · simp only [StdMap.contains, StdMap.get?] at ih ⊢
      rw [List.find?_cons_of_neg _ (by simpa using h)]
      simp only [List.any_cons, Bool.or_eq_true, beq_iff_eq, h, false_or]
      exact ih

theorem StdMap.contains_eq_false_iff {β : Type} (m : List (Nat × β)) (k : Nat) :
    StdMap.contains m k = false ↔ StdMap.get? m k = none := by
  rw [← Bool.not_eq_true, StdMap.contains_iff_get?]
  cases StdMap.get? m k <;> simp

theorem StdMap.contains_set {β : Type} (m : List (Nat × β)) (k k1 : Nat) (v : β) :
    StdMap.contains (StdMap.set m k v) k1 = (StdMap.contains m k1 || k == k1) := by
  by_cases h : k1 = k
  · subst h
    have : StdMap.contains (StdMap.set m k1 v) k1 = true :=
      (StdMap.contains_iff_get? _ _).mpr ⟨v, StdMap.get?_set_self m k1 v⟩
    simp [this]
  · have h3 : ¬ (k = k1) := fun h' => h h'.symm
    cases hc : StdMap.contains m k1
    · rw [StdMap.contains_eq_false_iff] at hc
      have h5 : (k == k1) = false := by simpa using h3
      simp only [Bool.false_or, h5]
      rw [StdMap.contains_eq_false_iff, StdMap.get?_set_ne m k k1 v h]
      exact hc
    · rw [StdMap.contains_iff_get?] at hc
      obtain ⟨w, hw⟩ := hc
      simp only [Bool.true_or]
      rw [StdMap.contains_iff_get?]
      exact ⟨w, by rw [StdMap.get?_set_ne m k k1 v h]; exact hw⟩

theorem StdMap.mem_set {β : Type} (m : List (Nat × β)) (k : Nat) (v : β) :
    ∀ x ∈ StdMap.set m k v, x = (k, v) ∨ x ∈ m := by
  induction m with
  | nil => intro x hx; simp [StdMap.set] at hx; exact Or.inl hx
  | cons e rest ih =>
    intro x hx
    unfold StdMap.set at hx
    by_cases h1 : k < e.1
    · simp only [h1, if_true, List.mem_cons] at hx
      rcases hx with hx | hx | hx
      · exact Or.inl hx
      · exact Or.inr (hx ▸ List.mem_cons_self _ _)
      · exact Or.inr (List.mem_cons_of_mem _ hx)
    · by_cases h2 : k = e.1
      · simp only [h1, if_false] at hx
        rw [if_pos h2] at hx
        rcases List.mem_cons.mp hx with hx | hx
        · exact Or.inl hx
        · exact Or.inr (List.mem_cons_of_mem _ hx)
      · simp only [h1, h2, if_false] at hx
        rcases List.mem_cons.mp hx with hx | hx
        · exact Or.inr (hx ▸ List.mem_cons_self _ _)
        · rcases ih x hx with h3 | h3
          · exact Or.inl h3
          · exact Or.inr (List.mem_cons_of_mem _ h3)

theorem StdMap.set_ordered {β : Type} (m : List (Nat × β)) (k : Nat) (v : β)
    (h : m.Pairwise (fun a b => a.1 < b.1)) :
    (StdMap.set m k v).Pairwise (fun a b => a.1 < b.1) := by
  induction m with
  | nil => simp [StdMap.set]
  | cons e rest ih =>
    obtain ⟨h1, h2⟩ := List.pairwise_cons.mp h
    unfold StdMap.set
    by_cases hk1 : k < e.1
    · simp only [hk1, if_true]
      refine List.pairwise_cons.mpr ⟨?_, h⟩
      intro x hx
      rcases List.mem_cons.mp hx with hx | hx
      · rw [hx]; exact hk1
      · exact Nat.lt_trans hk1 (h1 x hx)
    · by_cases hk2 : k = e.1
      · simp only [hk1, if_false]
        rw [if_pos hk2]
        refine List.pairwise_cons.mpr ⟨?_, h2⟩
        intro x hx
        rw [hk2]; exact h1 x hx
      · simp only [hk1, hk2, if_false]
        refine List.pairwise_cons.mpr ⟨?_, ih h2⟩
        intro x hx
        rcases StdMap.mem_set rest k v x hx with h3 | h3
        · rw [h3]; simp only; omega
        · exact h1 x h3

/-- Writing a new key adds one entry and keeps the others. -/
theorem StdMap.set_perm {β : Type} (m : List (Nat × β)) (k : Nat) (v : β)
    (h : StdMap.contains m k = false) : List.Perm (StdMap.set m k v) ((k, v) :: m) := by
  induction m with
  | nil => simp [StdMap.set]
  | cons e rest ih =>
    simp only [StdMap.contains, List.any_cons, Bool.or_eq_false_iff, beq_eq_false_iff_ne,
      ne_eq] at h
    unfold StdMap.set
    by_cases h1 : k < e.1
    · simp only [h1, if_true]
      exact List.Perm.refl _
    · have h2 : ¬ k = e.1 := fun hk => h.1 hk.symm
      simp only [h1, h2, if_false]
      exact ((ih h.2).cons e).trans (List.Perm.swap _ _ _)

theorem StdMap.insert_of_not_contains {β : Type} (m : List (Nat × β)) (k : Nat) (v : β)
    (h : StdMap.contains m k = false) : StdMap.insert m k v = StdMap.set m k v := by
  simp [StdMap.insert, h]

/-! ### StackFrame -/

theorem StackFrame.IsStackSlot_iff (SF : StackFrame) (ID : Nat) :
    SF.IsStackSlot ID = true ↔ ID ∈ SF.StackSlots.map Prod.fst := by
  unfold StackFrame.IsStackSlot
  simp [List.any_eq_true]

theorem toUnsigned_lt (n : Nat) : toUnsigned n < 4294967296 := by
  unfold toUnsigned; omega

theorem toUnsigned_of_lt {n : Nat} (h : n < 4294967296) : toUnsigned n = n := by
  unfold toUnsigned; omega

theorem slotBytes_eq (Size : Nat) : (if Size ≥ 4 then Size else 4) = slotBytes Size := by
  unfold slotBytes; split <;> omega

/-- The one way in which `InsertStackSlot` succeeds: the id is new, the padded
size is added and the entry goes to its place in the key order. -/
theorem StackFrame.InsertStackSlot_eq_some (SF SF1 : StackFrame) (ID Size : Nat) :
    SF.InsertStackSlot ID Size = some SF1 ↔
      SF.IsStackSlot ID = false ∧
      SF1 = { ObjectsSize := toUnsigned (SF.ObjectsSize + slotBytes Size),
              StackSlots := StdMap.set SF.StackSlots ID Size } := by
  unfold StackFrame.InsertStackSlot
  cases hc : SF.IsStackSlot ID
  · have hc2 : StdMap.contains SF.StackSlots ID = false := hc
    simp only [Bool.false_eq_true, if_false, Option.some.injEq, slotBytes_eq,
      StdMap.insert_of_not_contains _ _ _ hc2, true_and]
    exact eq_comm
  · simp

theorem StackFrame.IsStackSlot_InsertStackSlot (SF SF1 : StackFrame) (ID Size x : Nat)
    (hins : SF.InsertStackSlot ID Size = some SF1) :
    SF1.IsStackSlot x = (SF.IsStackSlot x || ID == x) := by
  obtain ⟨_, h⟩ := (StackFrame.InsertStackSlot_eq_some SF SF1 ID Size).mp hins
  subst h
  exact StdMap.contains_set SF.StackSlots ID x Size

/-- A sequence of insertions of new, pairwise different ids succeeds: the
padded sizes are added up, the table holds the old and the new entries, and it
stays in ascending key order. -/
theorem StackFrame.InsertAll_spec (slots : List (Nat × Nat)) :
    ∀ SF : StackFrame,
      SF.ObjectsSize < 4294967296 →
      (∀ e ∈ slots, SF.IsStackSlot e.1 = false) →
      (slots.map Prod.fst).Nodup →
      ∃ SF1 : StackFrame, StackFrame.InsertAll SF slots = some SF1 ∧
        SF1.ObjectsSize
          = toUnsigned (SF.ObjectsSize + (slots.map (fun e => slotBytes e.2)).sum) ∧
        List.Perm SF1.StackSlots (SF.StackSlots ++ slots) ∧
        (SF.StackSlots.Pairwise (fun a b => a.1 < b.1) →
          SF1.StackSlots.Pairwise (fun a b => a.1 < b.1)) := by
  induction slots with
  | nil =>
    intro SF hlt _ _
    exact ⟨SF, rfl, by simp [toUnsigned_of_lt hlt], by simp, fun h => h⟩
  | cons e rest ih =>
    intro SF _ hfresh hnd
    simp only [List.map_cons, List.nodup_cons] at hnd
    have he : SF.IsStackSlot e.1 = false := hfresh e (List.mem_cons_self _ _)
    have hins := (StackFrame.InsertStackSlot_eq_some SF _ e.1 e.2).mpr ⟨he, rfl⟩
    obtain ⟨SF1, h1, h2, h3, h4⟩ := ih _ (toUnsigned_lt _)
      (by
        intro x hx
        rw [StackFrame.IsStackSlot_InsertStackSlot SF _ e.1 e.2 x.1 hins]
        have h1 := hfresh x (List.mem_cons_of_mem _ hx)
        have h2 : e.1 ≠ x.1 := by
          intro h
          apply hnd.1
          rw [h]
          exact List.mem_map_of_mem _ hx
        simp [h1, h2])
      hnd.2
    refine ⟨SF1, ?_, ?_, ?_, ?_⟩
    · simp only [StackFrame.InsertAll, hins]
      exact h1
    · rw [h2]
      simp only [List.map_cons, List.sum_cons]
      unfold toUnsigned
      omega
    · refine h3.trans ?_
      have hp := StdMap.set_perm SF.StackSlots e.1 e.2 he
      refine (hp.append_right rest).trans ?_
      simp only [List.cons_append]
      exact List.perm_middle.symm
    · intro hs
      exact h4 (StdMap.set_ordered _ _ _ hs)

/-- The walk of `GetPosition` over any table without a repeated id: the entry
at index `k` is reached with `Position = 4 * k`. -/
theorem StackFrame.GetPositionLoop_idx (l : List (Nat × Nat)) :
    ∀ (p k : Nat) (hk : k < l.length), (l.map Prod.fst).Nodup → p < 4294967296 →
      StackFrame.GetPositionLoop l (l.get ⟨k, hk⟩).1 p = toUnsigned (p + 4 * k) := by
  induction l with
  | nil => intro p k hk; simp at hk
  | cons e rest ih =>
    intro p k hk hnd hp
    cases k with
    | zero => simp [StackFrame.GetPositionLoop, toUnsigned_of_lt hp]
    | succ k =>
      have hk2 : k < rest.length := by simpa using hk
      simp only [List.map_cons, List.nodup_cons] at hnd
      have hne : e.1 ≠ (rest.get ⟨k, hk2⟩).1 := by
        intro h
        apply hnd.1
        rw [h]
        exact List.mem_map_of_mem _ (List.get_mem _ _ _)
      simp only [List.get_cons_succ, StackFrame.GetPositionLoop, if_neg hne]
      rw [ih (toUnsigned (p + 4)) k hk2 hnd.2 (toUnsigned_lt _)]
      unfold toUnsigned
      omega

/-- The walk of `GetPosition` over a table in ascending key order: the wanted
entry is reached after the entries with a smaller id, 4 bytes each. -/
theorem StackFrame.GetPositionLoop_sorted (l : List (Nat × Nat)) :
    ∀ (p ID : Nat), l.Pairwise (fun a b => a.1 < b.1) → ID ∈ l.map Prod.fst →
      p < 4294967296 →
      StackFrame.GetPositionLoop l ID p
        = toUnsigned (p + 4 * (l.filter (fun e => e.1 < ID)).length) := by
  induction l with
  | nil => intro p ID _ h; simp at h
  | cons e rest ih =>
    intro p ID hs hID hp
    rw [List.pairwise_cons] at hs
    by_cases he : e.1 = ID
    · have hnone : rest.filter (fun x => decide (x.1 < ID)) = [] := by
        rw [List.filter_eq_nil_iff]
        intro x hx
        have := hs.1 x hx
        simp only [decide_eq_true_eq]
        omega
      have hlt : ¬ e.1 < ID := by omega
      simp only [StackFrame.GetPositionLoop, if_pos he, List.filter_cons, hlt, decide_False,
        Bool.false_eq_true, if_false, hnone, List.length_nil, Nat.mul_zero, Nat.add_zero]
      exact (toUnsigned_of_lt hp).symm
    · have hin : ID ∈ rest.map Prod.fst := by
        simp only [List.map_cons, List.mem_cons] at hID
        rcases hID with h | h
        · exact absurd h.symm he
        · exact h
      obtain ⟨x, hx, hxe⟩ := List.mem_map.mp hin
      have hlt : e.1 < ID := by rw [← hxe]; exact hs.1 x hx
      simp only [StackFrame.GetPositionLoop, if_neg he, List.filter_cons, hlt, decide_True,
        if_true, List.length_cons]
      rw [ih (toUnsigned (p + 4)) ID hs.2 hin (toUnsigned_lt _)]
      unfold toUnsigned
      omega

theorem List.find?_key_of_nodup (l : List (Nat × Nat)) :
    ∀ e ∈ l, (l.map Prod.fst).Nodup → l.find? (fun x => x.1 == e.1) = some e := by
  induction l with
  | nil => intro e he; simp at he
  | cons a rest ih =>
    intro e he hnd
    simp only [List.map_cons, List.nodup_cons] at hnd
    rcases List.mem_cons.mp he with h | h
    · subst h; simp
    · have hne : a.1 ≠ e.1 := by
        intro h2
        apply hnd.1
        rw [h2]
        exact List.mem_map_of_mem _ h
      rw [List.find?_cons_of_neg _ (by simpa using hne)]
      exact ih e h hnd.2

/-- The frame that a sequence of insertions builds from the empty frame. -/
theorem StackFrame.InsertAll_empty (slots : List (Nat × Nat))
    (hnd : (slots.map Prod.fst).Nodup) :
    ∃ SF : StackFrame, StackFrame.InsertAll StackFrame.empty slots = some SF ∧
      SF.ObjectsSize = toUnsigned ((slots.map (fun e => max e.2 4)).sum) ∧
      List.Perm SF.StackSlots slots ∧
      SF.StackSlots.Pairwise (fun a b => a.1 < b.1) ∧
      (SF.StackSlots.map Prod.fst).Nodup ∧
      (∀ ID, SF.IsStackSlot ID = true ↔ ID ∈ slots.map Prod.fst) := by
  obtain ⟨SF, h1, h2, h3, h4⟩ := StackFrame.InsertAll_spec slots StackFrame.empty
    (by simp [StackFrame.empty])
    (by intro e _; simp [StackFrame.empty, StackFrame.IsStackSlot]) hnd
  have h3b : List.Perm SF.StackSlots slots := by simpa [StackFrame.empty] using h3
  refine ⟨SF, h1, ?_, h3b, h4 (by simp [StackFrame.empty]), ?_, ?_⟩
  · rw [h2]
    simp only [StackFrame.empty, Nat.zero_add]
    rfl
  · exact ((h3b.map Prod.fst).nodup_iff).mpr hnd
  · intro ID
    rw [StackFrame.IsStackSlot_iff]
    exact (h3b.map Prod.fst).mem_iff

/-- The position of a slot in a frame whose table is in ascending key order
and holds the entries `l`: 4 bytes for every entry of `l` with a smaller id. -/
theorem StackFrame.GetPosition_of_sorted (SF : StackFrame) (l : List (Nat × Nat)) (ID : Nat)
    (hs : SF.StackSlots.Pairwise (fun a b => a.1 < b.1)) (hp : List.Perm SF.StackSlots l)
    (hID : ID ∈ l.map Prod.fst) (hfit : 4 * l.length ≤ 4294967296) :
    SF.GetPosition ID = some (4 * (l.filter (fun s => s.1 < ID)).length) := by
  have hin : ID ∈ SF.StackSlots.map Prod.fst := (hp.map Prod.fst).mem_iff.mpr hID
  have hslot : SF.IsStackSlot ID = true := (StackFrame.IsStackSlot_iff SF ID).mpr hin
  have hcount : (SF.StackSlots.filter (fun s => decide (s.1 < ID))).length
      = (l.filter (fun s => decide (s.1 < ID))).length := (hp.filter _).length_eq
  have hlt : (l.filter (fun s => decide (s.1 < ID))).length < l.length := by
    rw [List.length_filter_lt_length_iff_exists]
    obtain ⟨x, hx, hxe⟩ := List.mem_map.mp hID
    exact ⟨x, hx, by simp [hxe]⟩
  simp only [StackFrame.GetPosition, hslot, if_true, Option.some.injEq]
  rw [StackFrame.GetPositionLoop_sorted SF.StackSlots 0 ID hs hin (by omega), hcount,
    toUnsigned_of_lt (by omega)]
  omega

/-! ### Claims on the stack frame -/

/-- Claim C6: starting from an empty StackFrame, inserting slots with distinct
ids and sizes `s_1..s_n` (whose padded sum fits an `unsigned`) succeeds,
`ObjectsSize` is then the sum over all slots of `max(s_i, 4)`, and
`GetSize(id)` returns the size that was passed for that id, not the padded one. -/
theorem StackFrame.ObjectsSize_eq_sum_max_and_GetSize (slots : List (Nat × Nat))
    (hnd : (slots.map Prod.fst).Nodup)
    (hfit : (slots.map (fun e => max e.2 4)).sum < 4294967296) :
    ∃ SF : StackFrame, StackFrame.InsertAll StackFrame.empty slots = some SF ∧
      SF.ObjectsSize = (slots.map (fun e => max e.2 4)).sum ∧
      ∀ e ∈ slots, SF.GetSize e.1 = some e.2 := by
  obtain ⟨SF, h1, h2, h3, _, h5, h6⟩ := StackFrame.InsertAll_empty slots hnd
  refine ⟨SF, h1, ?_, ?_⟩
  · rw [h2]
    exact toUnsigned_of_lt hfit
  · intro e he
    have hin : SF.IsStackSlot e.1 = true := (h6 e.1).mpr (List.mem_map_of_mem Prod.fst he)
    simp only [StackFrame.GetSize, hin, if_true]
    rw [List.find?_key_of_nodup SF.StackSlots e (h3.mem_iff.mpr he) h5]
    rfl

/-- A frame with an `int`, a `char` and a 12-byte array: 4 + 4 + 12 bytes. -/
theorem StackFrame.ObjectsSize_eq_sum_max_and_GetSize_witness :
    ∃ SF : StackFrame, StackFrame.InsertAll StackFrame.empty [(7, 4), (3, 1), (9, 12)] = some SF ∧
      SF.ObjectsSize = ([(7, 4), (3, 1), (9, 12)].map (fun e : Nat × Nat => max e.2 4)).sum ∧
      ∀ e ∈ [((7 : Nat), (4 : Nat)), (3, 1), (9, 12)], SF.GetSize e.1 = some e.2 :=
  StackFrame.ObjectsSize_eq_sum_max_and_GetSize [(7, 4), (3, 1), (9, 12)] (by decide) (by decide)

/-- Claim C7, counterexample: the slots 7, 3 and 9, inserted in this order, are
kept in the order of their ids.  Slot 7, inserted first, sits at position 4 and
slot 3, inserted second, at position 0; and the insertion of slot 3 into the
frame that holds slot 7 alone moves slot 7 from position 0 to position 4. -/
theorem StackFrame.GetPosition_follows_key_order :
    StackFrame.InsertAll StackFrame.empty [(7, 4), (3, 1), (9, 12)]
      = some { ObjectsSize := 20, StackSlots := [(3, 1), (7, 4), (9, 12)] } ∧
    StackFrame.GetPosition { ObjectsSize := 20, StackSlots := [(3, 1), (7, 4), (9, 12)] } 7
      = some 4 ∧
    StackFrame.GetPosition { ObjectsSize := 20, StackSlots := [(3, 1), (7, 4), (9, 12)] } 3
      = some 0 ∧
    StackFrame.InsertAll StackFrame.empty [(7, 4)]
      = some { ObjectsSize := 4, StackSlots := [(7, 4)] } ∧
    StackFrame.GetPosition { ObjectsSize := 4, StackSlots := [(7, 4)] } 7 = some 0 ∧
    StackFrame.InsertStackSlot { ObjectsSize := 4, StackSlots := [(7, 4)] } 3 1
      = some { ObjectsSize := 8, StackSlots := [(3, 1), (7, 4)] } ∧
    StackFrame.GetPosition { ObjectsSize := 8, StackSlots := [(3, 1), (7, 4)] } 7 = some 4 :=
  ⟨by decide, by decide, by decide, by decide, by decide, by decide, by decide⟩

/-- Claim C7 (amended): in a StackFrame built by InsertStackSlot calls with
distinct ids, `GetPosition(id)` is 4 times the number of slots of the frame
with a smaller id; so inserting a further slot moves the slots with a larger
id up by 4 and leaves the slots with a smaller id where they are. -/
theorem StackFrame.GetPosition_eq_four_mul_smaller (slots : List (Nat × Nat))
    (hnd : (slots.map Prod.fst).Nodup) (hfit : 4 * slots.length < 4294967296) :
    ∃ SF : StackFrame, StackFrame.InsertAll StackFrame.empty slots = some SF ∧
      (∀ e ∈ slots,
        SF.GetPosition e.1 = some (4 * (slots.filter (fun s => s.1 < e.1)).length)) ∧
      (∀ (ID Size : Nat) (SF1 : StackFrame), SF.InsertStackSlot ID Size = some SF1 →
        ∀ e ∈ slots, ∃ Position : Nat, SF.GetPosition e.1 = some Position ∧
          SF1.GetPosition e.1 = some (if ID < e.1 then Position + 4 else Position)) := by
  obtain ⟨SF, h1, _, h3, h4, _, _⟩ := StackFrame.InsertAll_empty slots hnd
  have hpos : ∀ e ∈ slots,
      SF.GetPosition e.1 = some (4 * (slots.filter (fun s => s.1 < e.1)).length) :=
    fun e he => StackFrame.GetPosition_of_sorted SF slots e.1 h4 h3
      (List.mem_map_of_mem Prod.fst he) (by omega)
  refine ⟨SF, h1, hpos, ?_⟩
  intro ID Size SF1 hins e he
  refine ⟨_, hpos e he, ?_⟩
  obtain ⟨hnew, hSF1⟩ := (StackFrame.InsertStackSlot_eq_some SF SF1 ID Size).mp hins
  have hs1 : SF1.StackSlots.Pairwise (fun a b => a.1 < b.1) := by
    rw [hSF1]
    exact StdMap.set_ordered _ _ _ h4
  have hp1 : List.Perm SF1.StackSlots ((ID, Size) :: slots) := by
    rw [hSF1]
    exact (StdMap.set_perm SF.StackSlots ID Size hnew).trans (h3.cons _)
  rw [StackFrame.GetPosition_of_sorted SF1 ((ID, Size) :: slots) e.1 hs1 hp1
    (List.mem_cons_of_mem _ (List.mem_map_of_mem Prod.fst he))
    (by simp only [List.length_cons]; omega)]
  by_cases hlt : ID < e.1
  · simp [List.filter_cons, hlt]
    omega
  · simp [List.filter_cons, hlt]

/-- The slots 7, 3 and 9: slot 3 sits at offset 0, slot 7 at 4 and slot 9 at
8, whatever the order of their insertion. -/
theorem StackFrame.GetPosition_eq_four_mul_smaller_witness :
    ∃ SF : StackFrame, StackFrame.InsertAll StackFrame.empty [(7, 4), (3, 1), (9, 12)] = some SF ∧
      (∀ e ∈ [((7 : Nat), (4 : Nat)), (3, 1), (9, 12)],
        SF.GetPosition e.1
          = some (4 * ([((7 : Nat), (4 : Nat)), (3, 1), (9, 12)].filter
              (fun s => s.1 < e.1)).length)) ∧
      (∀ (ID Size : Nat) (SF1 : StackFrame), SF.InsertStackSlot ID Size = some SF1 →
        ∀ e ∈ [((7 : Nat), (4 : Nat)), (3, 1), (9, 12)],
          ∃ Position : Nat, SF.GetPosition e.1 = some Position ∧
            SF1.GetPosition e.1 = some (if ID < e.1 then Position + 4 else Position)) :=
  StackFrame.GetPosition_eq_four_mul_smaller [(7, 4), (3, 1), (9, 12)] (by decide) (by decide)

/-! ### The allocation steps -/

/-- The two ways in which one iteration of the allocation loop succeeds. -/
theorem AllocateRange_some (RI : RegisterInfo) (V : List (Nat × MachineOperand))
    (St St1 : RAState) (R : Nat × Nat × Nat) (h : AllocateRange RI V St R = some St1) :
    (StdMap.contains St.AllocatedRegisters R.1 = true ∧
      St1.AllocatedRegisters = St.AllocatedRegisters ∧
      St1.Pools.BackupPool = St.Pools.BackupPool ∧
      St1.Pools.UsedCalleSavedRegs = St.Pools.UsedCalleSavedRegs ∧
      FreeKilled RI St.AllocatedRegisters R.2.1 St.FreeAbleWorkList St.Pools.Pool
        = some (St1.FreeAbleWorkList, St1.Pools.Pool)) ∨
    (StdMap.contains St.AllocatedRegisters R.1 = false ∧
      ∃ (MO : MachineOperand) (Reg : Nat) (P1 : RegPools),
        StdMap.get? V R.1 = some MO ∧
        GetNextAvailableReg RI (MO.GetSize % 256) St.Pools = some (Reg, P1) ∧
        St1.AllocatedRegisters = StdMap.set St.AllocatedRegisters R.1 Reg ∧
        St1.Pools.BackupPool = P1.BackupPool ∧
        St1.Pools.UsedCalleSavedRegs = P1.UsedCalleSavedRegs ∧
        FreeKilled RI (StdMap.set St.AllocatedRegisters R.1 Reg) R.2.1
          (St.FreeAbleWorkList ++ [R]) P1.Pool = some (St1.FreeAbleWorkList, St1.Pools.Pool)) := by
  unfold AllocateRange at h
  cases hc : StdMap.contains St.AllocatedRegisters R.1
  · right
    refine ⟨rfl, ?_⟩
    simp only [hc, Bool.false_eq_true, if_false] at h
    cases hv : StdMap.get? V R.1 with
    | none => simp [hv] at h
    | some MO =>
      simp only [hv] at h
      cases hg : GetNextAvailableReg RI (MO.GetSize % 256) St.Pools with
      | none => simp [hg] at h
      | some res =>
        obtain ⟨Reg, P1⟩ := res
        simp only [hg] at h
        cases hf : FreeKilled RI (StdMap.set St.AllocatedRegisters R.1 Reg) R.2.1
            (St.FreeAbleWorkList ++ [R]) P1.Pool with
        | none => simp [hf] at h
        | some res2 =>
          obtain ⟨WL, Pool1⟩ := res2
          simp only [hf, Option.some.injEq] at h
          subst h
          exact ⟨MO, Reg, P1, rfl, hg, rfl, rfl, rfl, hf⟩
  · left
    refine ⟨rfl, ?_⟩
    simp only [hc, if_true] at h
    cases hf : FreeKilled RI St.AllocatedRegisters R.2.1 St.FreeAbleWorkList St.Pools.Pool with
    | none => simp [hf] at h
    | some res2 =>
      obtain ⟨WL, Pool1⟩ := res2
      simp only [hf, Option.some.injEq] at h
      subst h
      exact ⟨rfl, rfl, rfl, rfl⟩

/-- An iteration keeps every binding it finds and binds the id of its range. -/
theorem AllocateRange_bindings (RI : RegisterInfo) (V : List (Nat × MachineOperand))
    (St St1 : RAState) (R : Nat × Nat × Nat) (h : AllocateRange RI V St R = some St1) :
    StdMap.contains St1.AllocatedRegisters R.1 = true ∧
    ∀ k p, StdMap.get? St.AllocatedRegisters k = some p →
      StdMap.get? St1.AllocatedRegisters k = some p := by
  rcases AllocateRange_some RI V St St1 R h with ⟨hc, ha, _⟩ | ⟨hc, MO, Reg, P1, _, _, ha, _⟩
  · rw [ha]; exact ⟨hc, fun k p hk => hk⟩
  · rw [ha]
    refine ⟨by rw [StdMap.contains_set]; simp, ?_⟩
    intro k p hk
    have hne : k ≠ R.1 := by
      intro hkr
      rw [StdMap.contains_eq_false_iff, ← hkr, hk] at hc
      exact absurd hc (by simp)
    rw [StdMap.get?_set_ne _ _ _ _ hne]
    exact hk

theorem AllocateRanges_bindings (RI : RegisterInfo) (V : List (Nat × MachineOperand))
    (Ranges : List (Nat × Nat × Nat)) :
    ∀ (St St1 : RAState), AllocateRanges RI V Ranges St = some St1 →
      (∀ R ∈ Ranges, StdMap.contains St1.AllocatedRegisters R.1 = true) ∧
      ∀ k p, StdMap.get? St.AllocatedRegisters k = some p →
        StdMap.get? St1.AllocatedRegisters k = some p := by
  induction Ranges with
  | nil =>
    intro St St1 h
    simp only [AllocateRanges, Option.some.injEq] at h
    subst h
    exact ⟨by simp, fun k p hk => hk⟩
  | cons R rest ih =>
    intro St St1 h
    simp only [AllocateRanges] at h
    cases hs : AllocateRange RI V St R with
    | none => simp [hs] at h
    | some St2 =>
      simp only [hs] at h
      obtain ⟨h1, h2⟩ := AllocateRange_bindings RI V St St2 R hs
      obtain ⟨h3, h4⟩ := ih St2 St1 h
      refine ⟨?_, fun k p hk => h4 k p (h2 k p hk)⟩
      intro R1 hR1
      rcases List.mem_cons.mp hR1 with hR | hR
      · subst hR
        obtain ⟨p, hp⟩ := (StdMap.contains_iff_get? _ _).mp h1
        exact (StdMap.contains_iff_get? _ _).mpr ⟨p, h4 _ p hp⟩
      · exact h3 R1 hR

/-! ### The live range scan -/

theorem LiveRangeScan.operands_keys (c : Nat) (Ops : List MachineOperand) :
    ∀ (acc : List (Nat × Nat × Nat) × List (Nat × MachineOperand)),
      (∀ k, StdMap.contains acc.1 k = true →
        StdMap.contains (LiveRangeScan.operands c Ops acc).1 k = true) ∧
      (∀ O ∈ Ops, O.UsesReg = true →
        StdMap.contains (LiveRangeScan.operands c Ops acc).1 O.GetReg = true) := by
  induction Ops with
  | nil => intro acc; exact ⟨fun k hk => hk, by simp⟩
  | cons O rest ih =>
    intro acc
    obtain ⟨L, V⟩ := acc
    by_cases hu : O.UsesReg = true
    · have hu2 : (O.IsVirtualReg || O.IsParameter || O.IsMemory) = true := hu
      simp only [LiveRangeScan.operands, hu2, if_true]
      have hstep : ∀ k, (StdMap.contains L k = true ∨ k = O.GetReg) →
          StdMap.contains (match StdMap.get? L O.GetReg with
            | none => StdMap.set L O.GetReg (c, UNSIGNED_MAX)
            | some (DefLine, _) => StdMap.set L O.GetReg (DefLine, c)) k = true := by
        intro k hk
        cases hg : StdMap.get? L O.GetReg with
        | none =>
          simp only [StdMap.contains_set]
          rcases hk with hk | hk
          · simp [hk]
          · simp [hk]
        | some dk =>
          simp only [StdMap.contains_set]
          rcases hk with hk | hk
          · simp [hk]
          · simp [hk]
      constructor
      · intro k hk
        exact (ih _).1 k (hstep k (Or.inl hk))
      · intro O1 hO1 hU1
        rcases List.mem_cons.mp hO1 with h | h
        · subst h
          exact (ih _).1 _ (hstep _ (Or.inr rfl))
        · exact (ih _).2 O1 h hU1
    · have hu2 : (O.IsVirtualReg || O.IsParameter || O.IsMemory) = false := by
        simpa [MachineOperand.UsesReg] using hu
      simp only [LiveRangeScan.operands, hu2, Bool.false_eq_true, if_false]
      constructor
      · exact (ih (L, V)).1
      · intro O1 hO1 hU1
        rcases List.mem_cons.mp hO1 with h | h
        · subst h; exact absurd hU1 hu
        · exact (ih _).2 O1 h hU1

theorem LiveRangeScan.instrs_keys (Instrs : List MachineInstruction) :
    ∀ (c : Nat) (acc : List (Nat × Nat × Nat) × List (Nat × MachineOperand)),
      (∀ k, StdMap.contains acc.1 k = true →
        StdMap.contains (LiveRangeScan.instrs Instrs c acc).1 k = true) ∧
      (∀ I ∈ Instrs, ∀ O ∈ I.Operands, O.UsesReg = true →
        StdMap.contains (LiveRangeScan.instrs Instrs c acc).1 O.GetReg = true) := by
  induction Instrs with
  | nil => intro c acc; exact ⟨fun k hk => hk, by simp⟩
  | cons I rest ih =>
    intro c acc
    simp only [LiveRangeScan.instrs]
    constructor
    · intro k hk
      exact (ih _ _).1 k ((LiveRangeScan.operands_keys c I.Operands acc).1 k hk)
    · intro I1 hI1 O hO hU
      rcases List.mem_cons.mp hI1 with h | h
      · subst h
        exact (ih _ _).1 _ ((LiveRangeScan.operands_keys c I1.Operands acc).2 O hO hU)
      · exact (ih _ _).2 I1 h O hO hU

theorem StdMap.contains_iff_mem {β : Type} (m : List (Nat × β)) (k : Nat) :
    StdMap.contains m k = true ↔ ∃ e ∈ m, e.1 = k := by
  simp [StdMap.contains, List.any_eq_true]

/-- After a successful allocation every register id used by an operand of the
function is bound. -/
theorem RunRA.allocate_binds_operands (TM : TargetMachine) (Func : MachineFunction)
    (Res : RAResult) (h : RunRA.allocate TM Func = some Res) :
    ∀ I ∈ Func.AllInstructions, ∀ O ∈ I.Operands, O.UsesReg = true →
      ∃ p, StdMap.get? Res.AllocatedRegisters O.GetReg = some p := by
  unfold RunRA.allocate at h
  cases hp : PreAllocateParameters TM Func.Parameters 0 [] [] with
  | none => simp [hp] at h
  | some r =>
    obtain ⟨Alloc0, LR0⟩ := r
    simp only [hp] at h
    cases hr : PreAllocateReturnRegister TM Func Alloc0 with
    | none => simp [hr] at h
    | some Pre =>
      simp only [hr] at h
      cases ha : AllocateRanges TM.RegInfo (LiveRangeScan.instrs Func.AllInstructions 0 (LR0, [])).2
          (SortLiveRanges (LiveRangeScan.instrs Func.AllInstructions 0 (LR0, [])).1)
          (RunRA.initState TM Func Pre) with
      | none => simp [ha] at h
      | some St =>
        simp only [ha, Option.some.injEq] at h
        subst h
        intro I hI O hO hU
        have hk := (LiveRangeScan.instrs_keys Func.AllInstructions 0 (LR0, [])).2 I hI O hO hU
        obtain ⟨e, he, hek⟩ := (StdMap.contains_iff_mem _ _).mp hk
        have he2 : e ∈ SortLiveRanges (LiveRangeScan.instrs Func.AllInstructions 0 (LR0, [])).1 :=
          (List.perm_insertionSort LiveRangeLE _).mem_iff.mpr he
        have := (AllocateRanges_bindings _ _ _ _ _ ha).1 e he2
        rw [hek] at this
        exact (StdMap.contains_iff_get? _ _).mp this

theorem RunRA.rewriteOperand_spec (A : List (Nat × Nat)) (O : MachineOperand) :
    (RunRA.rewriteOperand A O).IsVirtualReg = false ∧
    (RunRA.rewriteOperand A O).IsParameter = false ∧
    ((O.IsVirtualReg = true ∨ O.IsParameter = true) →
      (RunRA.rewriteOperand A O).IsRegister = true ∧
      (RunRA.rewriteOperand A O).GetReg = StdMap.getD0 A O.GetReg) ∧
    ((O.IsImmediate = true ∨ O.IsLabel = true ∨ O.IsStackAccess = true) →
      RunRA.rewriteOperand A O = O) := by
  unfold RunRA.rewriteOperand
  cases hk : O.Kind <;> cases hv : O.Virtual <;>
    simp [MachineOperand.IsVirtualReg, MachineOperand.IsParameter, MachineOperand.IsMemory,
      MachineOperand.IsRegister, MachineOperand.IsImmediate, MachineOperand.IsLabel,
      MachineOperand.IsStackAccess, MachineOperand.SetToRegister, MachineOperand.SetReg,
      MachineOperand.SetVirtual, MachineOperand.SetValue, MachineOperand.GetReg, hk, hv]

theorem mapOption_forall₂ {α β : Type} (f : α → Option β) (l : List α) :
    ∀ (l1 : List β), mapOption f l = some l1 → List.Forall₂ (fun a b => f a = some b) l l1 := by
  induction l with
  | nil =>
    intro l1 h
    simp only [mapOption, Option.some.injEq] at h
    subst h
    exact List.Forall₂.nil
  | cons a rest ih =>
    intro l1 h
    simp only [mapOption] at h
    cases ha : f a with
    | none => simp [ha] at h
    | some b =>
      simp only [ha] at h
      cases hr : mapOption f rest with
      | none => simp [hr] at h
      | some bs =>
        simp only [hr, Option.some.injEq] at h
        subst h
        exact List.Forall₂.cons ha (ih bs hr)

theorem mapOption_mem {α β : Type} (f : α → Option β) (l : List α) (l1 : List β)
    (h : mapOption f l = some l1) : ∀ b ∈ l1, ∃ a ∈ l, f a = some b := by
  have hf := mapOption_forall₂ f l l1 h
  clear h
  induction hf with
  | nil => simp
  | cons hab _ ih =>
    intro b hb
    rcases List.mem_cons.mp hb with h1 | h1
    · subst h1; exact ⟨_, List.mem_cons_self _ _, hab⟩
    · obtain ⟨a, ha, hfa⟩ := ih b h1
      exact ⟨a, List.mem_cons_of_mem _ ha, hfa⟩

/-- The result of lowering an instruction: unchanged without a stack-access or
memory operand; otherwise the operands that are not stack accesses, followed
by a register and an immediate. -/
theorem RunRA.lowerInstr_some (TM : TargetMachine) (Func : MachineFunction)
    (A : List (Nat × Nat)) (I I1 : MachineInstruction)
    (h : RunRA.lowerInstr TM Func A I = some I1) :
    I1 = I ∨ ∃ (Reg W : Nat) (Imm : Int),
      I1.Operands = I.Operands.filter (fun o => !o.IsStackAccess) ++
        [MachineOperand.CreateRegister Reg W, MachineOperand.CreateImmediate Imm 32] := by
  unfold RunRA.lowerInstr at h
  cases hf : I.Operands.find? (fun Operand => Operand.IsStackAccess || Operand.IsMemory) with
  | none =>
    simp only [hf, Option.some.injEq] at h
    exact Or.inl h.symm
  | some O =>
    simp only [hf] at h
    right
    cases hs : O.IsStackAccess
    · simp only [hs, Bool.false_eq_true, if_false, Option.some.injEq] at h
      subst h
      refine ⟨if O.IsVirtual = true then StdMap.getD0 A O.GetReg else O.GetReg,
        TM.RegInfo.BitWidth (if O.IsVirtual = true then StdMap.getD0 A O.GetReg else O.GetReg),
        O.GetOffset, ?_⟩
      simp only [MachineInstruction.AddImmediate, MachineInstruction.AddRegister,
        MachineInstruction.AddOperand, MachineInstruction.RemoveMemOperand, List.append_assoc]
      rfl
    · simp only [hs, if_true] at h
      cases hp : Func.GetStackObjectPosition O.GetSlot with
      | none => simp [hp] at h
      | some pos =>
        simp only [hp, Option.some.injEq] at h
        subst h
        refine ⟨TM.RegInfo.StackRegister, TM.PointerSize, (pos : Int) + O.GetOffset, ?_⟩
        simp only [MachineInstruction.AddImmediate, MachineInstruction.AddRegister,
          MachineInstruction.AddOperand, MachineInstruction.RemoveMemOperand, List.append_assoc]
        rfl

/-- Lowering introduces no virtual register and no parameter operand. -/
theorem RunRA.lowerInstr_no_virtual (TM : TargetMachine) (Func : MachineFunction)
    (A : List (Nat × Nat)) (I I1 : MachineInstruction)
    (h : RunRA.lowerInstr TM Func A I = some I1)
    (hI : ∀ O ∈ I.Operands, O.IsVirtualReg = false ∧ O.IsParameter = false) :
    ∀ O ∈ I1.Operands, O.IsVirtualReg = false ∧ O.IsParameter = false := by
  rcases RunRA.lowerInstr_some TM Func A I I1 h with h1 | ⟨Reg, W, Imm, h1⟩
  · rw [h1]; exact hI
  · intro O hO
    rw [h1, List.mem_append] at hO
    rcases hO with hO | hO
    · exact hI O (List.mem_filter.mp hO).1
    · simp only [List.mem_cons, List.mem_singleton, List.not_mem_nil, or_false] at hO
      rcases hO with hO | hO <;> subst hO <;>
        simp [MachineOperand.IsVirtualReg, MachineOperand.IsParameter,
          MachineOperand.CreateRegister, MachineOperand.CreateImmediate]

/-- What `RunRA.function` returns, step by step. -/
theorem RunRA.function_some (TM : TargetMachine) (Func Func2 : MachineFunction)
    (h : RunRA.function TM Func = some Func2) :
    ∃ Res : RAResult, RunRA.allocate TM Func = some Res ∧
      Func2.SF = Func.SF ∧ Func2.Parameters = Func.Parameters ∧
      Func2.UsedCalleSavedRegs = Res.UsedCalleSavedRegs ∧
      ∀ I2 ∈ Func2.AllInstructions, ∃ I ∈ Func.AllInstructions,
        RunRA.lowerInstr TM (RunRA.rewritten Func Res)
          Res.AllocatedRegisters (RunRA.rewriteInstr Res.AllocatedRegisters I) = some I2 := by
  unfold RunRA.function at h
  cases ha : RunRA.allocate TM Func with
  | none => simp [ha] at h
  | some Res =>
    simp only [ha] at h
    refine ⟨Res, rfl, ?_⟩
    split at h
    · exact absurd h (by simp)
    · rename_i BBs hm
      simp only [Option.some.injEq] at h
      subst h
      refine ⟨rfl, rfl, rfl, ?_⟩
      intro I2 hI2
      simp only [MachineFunction.AllInstructions, List.mem_flatten, List.mem_map] at hI2
      obtain ⟨l, ⟨BB2, hBB2, hl⟩, hI2l⟩ := hI2
      obtain ⟨BB1, hBB1, hfb⟩ := mapOption_mem _ _ _ hm BB2 hBB2
      have hBB1a : BB1 ∈ Func.BasicBlocks.map (fun BB =>
          ({ BB with Instructions :=
              BB.Instructions.map (RunRA.rewriteInstr Res.AllocatedRegisters) } :
            MachineBasicBlock)) := hBB1
      simp only [List.mem_map] at hBB1a
      obtain ⟨BB, hBB, hBB1eq⟩ := hBB1a
      cases hmi : mapOption (RunRA.lowerInstr TM (RunRA.rewritten Func Res) Res.AllocatedRegisters)
          BB1.Instructions with
      | none =>
        simp [hmi] at hfb
      | some Instrs =>
        simp only [hmi, Option.map, Option.some.injEq] at hfb
        subst hfb
        subst hl
        simp only at hI2l
        obtain ⟨I1, hI1, hlow⟩ := mapOption_mem _ _ _ hmi I2 hI2l
        subst hBB1eq
        simp only [List.mem_map] at hI1
        obtain ⟨I, hI, hIeq⟩ := hI1
        subst hIeq
        refine ⟨I, ?_, hlow⟩
        simp only [MachineFunction.AllInstructions, List.mem_flatten, List.mem_map]
        exact ⟨BB.Instructions, ⟨BB, hBB, rfl⟩, hI⟩

/-! ### Claims on the operand rewrite and the stack-frame lowering -/

/-- Claim C2: when the allocation of `RunRA` succeeds on a function, the
operand rewrite turns every virtual-register and parameter operand into a
physical-register operand carrying the register the allocator assigned to its
former id, leaves immediate, label and stack-access operands unchanged, and
leaves no virtual-register or parameter operand, neither right after the
rewrite nor in the function `RunRA` returns. -/
theorem RunRA.rewrite_replaces_virtual_operands (TM : TargetMachine) (Func : MachineFunction)
    (Res : RAResult) (h : RunRA.allocate TM Func = some Res) :
    ((RunRA.rewritten Func Res).AllInstructions =
        Func.AllInstructions.map (RunRA.rewriteInstr Res.AllocatedRegisters)) ∧
    (∀ I ∈ Func.AllInstructions,
      List.Forall₂
        (fun (O O1 : MachineOperand) =>
          O1.IsVirtualReg = false ∧ O1.IsParameter = false ∧
          ((O.IsVirtualReg = true ∨ O.IsParameter = true) →
            O1.IsRegister = true ∧
            StdMap.get? Res.AllocatedRegisters O.GetReg = some O1.GetReg) ∧
          ((O.IsImmediate = true ∨ O.IsLabel = true ∨ O.IsStackAccess = true) → O1 = O))
        I.Operands (RunRA.rewriteInstr Res.AllocatedRegisters I).Operands) ∧
    (∀ Func2 : MachineFunction, RunRA.function TM Func = some Func2 →
      ∀ I2 ∈ Func2.AllInstructions, ∀ O ∈ I2.Operands,
        O.IsVirtualReg = false ∧ O.IsParameter = false) := by
  have hpoint : ∀ I ∈ Func.AllInstructions, ∀ O ∈ I.Operands,
      (RunRA.rewriteOperand Res.AllocatedRegisters O).IsVirtualReg = false ∧
      (RunRA.rewriteOperand Res.AllocatedRegisters O).IsParameter = false ∧
      ((O.IsVirtualReg = true ∨ O.IsParameter = true) →
        (RunRA.rewriteOperand Res.AllocatedRegisters O).IsRegister = true ∧
        StdMap.get? Res.AllocatedRegisters O.GetReg =
          some (RunRA.rewriteOperand Res.AllocatedRegisters O).GetReg) ∧
      ((O.IsImmediate = true ∨ O.IsLabel = true ∨ O.IsStackAccess = true) →
        RunRA.rewriteOperand Res.AllocatedRegisters O = O) := by
    intro I hI O hO
    obtain ⟨h1, h2, h3, h4⟩ := RunRA.rewriteOperand_spec Res.AllocatedRegisters O
    refine ⟨h1, h2, ?_, h4⟩
    intro hvp
    obtain ⟨h5, h6⟩ := h3 hvp
    refine ⟨h5, ?_⟩
    have hU : O.UsesReg = true := by
      unfold MachineOperand.UsesReg
      rcases hvp with hv | hp
      · simp [hv]
      · simp [hp]
    obtain ⟨p, hp⟩ := RunRA.allocate_binds_operands TM Func Res h I hI O hO hU
    rw [h6, StdMap.getD0, hp]
    rfl
  refine ⟨?_, ?_, ?_⟩
  · simp only [MachineFunction.AllInstructions, RunRA.rewritten, List.map_map, List.map_flatten]
    rfl
  · intro I hI
    simp only [RunRA.rewriteInstr, List.forall₂_map_right_iff]
    exact List.forall₂_same.mpr (hpoint I hI)
  · intro Func2 hF I2 hI2
    obtain ⟨Res2, hRes2, _, _, _, hall⟩ := RunRA.function_some TM Func Func2 hF
    rw [h] at hRes2
    simp only [Option.some.injEq] at hRes2
    subst hRes2
    obtain ⟨I, hI, hlow⟩ := hall I2 hI2
    apply RunRA.lowerInstr_no_virtual TM _ _ _ _ hlow
    intro O1 hO1
    simp only [RunRA.rewriteInstr, List.mem_map] at hO1
    obtain ⟨O, hO, hOeq⟩ := hO1
    subst hOeq
    exact ⟨(hpoint I hI O hO).1, (hpoint I hI O hO).2.1⟩

/-- The allocation of `Example.sumFunction` on AArch64: both parameter 1 and the
returned virtual register 3 are bound to `w0` (register 0). -/
theorem RunRA.rewrite_replaces_virtual_operands_witness :
    RunRA.allocate AArch64.TM Example.sumFunction = some Example.sumResult ∧
    (((RunRA.rewritten Example.sumFunction Example.sumResult).AllInstructions =
        Example.sumFunction.AllInstructions.map
          (RunRA.rewriteInstr Example.sumResult.AllocatedRegisters)) ∧
    (∀ I ∈ Example.sumFunction.AllInstructions,
      List.Forall₂
        (fun (O O1 : MachineOperand) =>
          O1.IsVirtualReg = false ∧ O1.IsParameter = false ∧
          ((O.IsVirtualReg = true ∨ O.IsParameter = true) →
            O1.IsRegister = true ∧
            StdMap.get? Example.sumResult.AllocatedRegisters O.GetReg = some O1.GetReg) ∧
          ((O.IsImmediate = true ∨ O.IsLabel = true ∨ O.IsStackAccess = true) → O1 = O))
        I.Operands (RunRA.rewriteInstr Example.sumResult.AllocatedRegisters I).Operands) ∧
    (∀ Func2 : MachineFunction, RunRA.function AArch64.TM Example.sumFunction = some Func2 →
      ∀ I2 ∈ Func2.AllInstructions, ∀ O ∈ I2.Operands,
        O.IsVirtualReg = false ∧ O.IsParameter = false)) :=
  ⟨by decide,
   RunRA.rewrite_replaces_virtual_operands AArch64.TM Example.sumFunction Example.sumResult
     (by decide)⟩

/-- Claim C9, the code at the failing input: `RunRA` on `Example.loadFunction`
leaves the second instruction, `ldr v2, [Memory(v3)]`, with four operands, the
memory operand still among them: `RemoveMemOperand()` erases stack accesses
only. -/
theorem RunRA.memory_operand_survives_lowering :
    (RunRA.function AArch64.TM Example.loadFunction).map
        (fun F => (F.AllInstructions.get? 1).map (fun I => I.Operands))
      = some (some [MachineOperand.CreateRegister 1 32,
                    ((MachineOperand.CreateMemory 3 64).SetVirtual false).SetValue 34,
                    MachineOperand.CreateRegister 34 64,
                    MachineOperand.CreateImmediate 0 32]) ∧
    (((MachineOperand.CreateMemory 3 64).SetVirtual false).SetValue 34).IsMemory = true := by
  decide

theorem StackFrame.InsertAll_ObjectsSize (slots : List (Nat × Nat)) :
    ∀ SF SF1 : StackFrame, SF.ObjectsSize < 4294967296 →
      StackFrame.InsertAll SF slots = some SF1 →
      SF1.ObjectsSize = toUnsigned (SF.ObjectsSize + (slots.map (fun e => max e.2 4)).sum) := by
  induction slots with
  | nil =>
    intro SF SF1 hlt h
    simp only [StackFrame.InsertAll, Option.some.injEq] at h
    subst h
    simp [toUnsigned_of_lt hlt]
  | cons e rest ih =>
    intro SF SF1 _ h
    simp only [StackFrame.InsertAll] at h
    cases hi : SF.InsertStackSlot e.1 e.2 with
    | none => simp [hi] at h
    | some SF2 =>
      simp only [hi] at h
      have h2 : SF2.ObjectsSize = toUnsigned (SF.ObjectsSize + max e.2 4) := by
        obtain ⟨_, e2⟩ := (StackFrame.InsertStackSlot_eq_some SF SF2 e.1 e.2).mp hi
        rw [e2]
        rfl
      rw [ih SF2 SF1 (by rw [h2]; exact toUnsigned_lt _) h, h2]
      simp only [List.map_cons, List.sum_cons]
      unfold toUnsigned
      omega

/-- Claim C4, counterexample: `Example.loadFunction` has the frame that
`InsertStackSlot(5, 4)` builds; after `RunRA` its `ObjectsSize` is 4, which is
not a multiple of the AArch64 stack alignment 16. -/
theorem RunRA.ObjectsSize_unaligned_after_lowering :
    StackFrame.InsertAll StackFrame.empty [(5, 4)] = some Example.loadFunction.SF ∧
    (RunRA.function AArch64.TM Example.loadFunction).map
        (fun F => F.SF.ObjectsSize % AArch64.TM.ABI.StackAlignment) = some 4 := by
  decide

/-- Claim C4 (amended): `RunRA`, stack-frame lowering included, leaves the
stack frame as lowering built it, so `ObjectsSize` is the `unsigned` sum of
`max(size, 4)` over the inserted slots; it is congruent to that sum modulo the
stack alignment 16 and hence a multiple of 16 exactly when that sum is. -/
theorem RunRA.ObjectsSize_mod_alignment (Func Func2 : MachineFunction)
    (slots : List (Nat × Nat))
    (hframe : StackFrame.InsertAll StackFrame.empty slots = some Func.SF)
    (hra : RunRA.function AArch64.TM Func = some Func2) :
    Func2.SF = Func.SF ∧
    Func2.SF.ObjectsSize = toUnsigned ((slots.map (fun e => max e.2 4)).sum) ∧
    Func2.SF.ObjectsSize % AArch64.TM.ABI.StackAlignment
      = (slots.map (fun e => max e.2 4)).sum % AArch64.TM.ABI.StackAlignment ∧
    (Func2.SF.ObjectsSize % AArch64.TM.ABI.StackAlignment = 0 ↔
      (slots.map (fun e => max e.2 4)).sum % 16 = 0) := by
  obtain ⟨_, _, hSF, _⟩ := RunRA.function_some AArch64.TM Func Func2 hra
  have hsz := StackFrame.InsertAll_ObjectsSize slots StackFrame.empty Func.SF
    (by simp [StackFrame.empty]) hframe
  simp only [StackFrame.empty, Nat.zero_add] at hsz
  have hal : AArch64.TM.ABI.StackAlignment = 16 := rfl
  rw [hSF, hsz, hal]
  refine ⟨rfl, rfl, ?_, ?_⟩ <;> unfold toUnsigned <;> omega

/-- Four `int` slots give `ObjectsSize = 16`. -/
theorem RunRA.ObjectsSize_mod_alignment_witness :
    (StackFrame.InsertAll StackFrame.empty [(1, 4), (2, 4), (3, 4), (4, 4)]
      = some Example.fourSlots.SF ∧
     RunRA.function AArch64.TM Example.fourSlots = some Example.fourSlots) ∧
    (Example.fourSlots.SF = Example.fourSlots.SF ∧
    Example.fourSlots.SF.ObjectsSize
      = toUnsigned (([(1, 4), (2, 4), (3, 4), (4, 4)].map (fun e : Nat × Nat => max e.2 4)).sum) ∧
    Example.fourSlots.SF.ObjectsSize % AArch64.TM.ABI.StackAlignment
      = ([(1, 4), (2, 4), (3, 4), (4, 4)].map (fun e : Nat × Nat => max e.2 4)).sum
          % AArch64.TM.ABI.StackAlignment ∧
    (Example.fourSlots.SF.ObjectsSize % AArch64.TM.ABI.StackAlignment = 0 ↔
      ([(1, 4), (2, 4), (3, 4), (4, 4)].map (fun e : Nat × Nat => max e.2 4)).sum % 16 = 0)) :=
  ⟨by decide,
   RunRA.ObjectsSize_mod_alignment Example.fourSlots Example.fourSlots
    [(1, 4), (2, 4), (3, 4), (4, 4)] (by decide) (by decide)⟩

/-! ### Register pools -/

theorem List.perm_cons_eraseIdx_of_get? {α : Type} (l : List α) :
    ∀ (n : Nat) (e : α), l.get? n = some e → List.Perm l (e :: l.eraseIdx n) := by
  induction l with
  | nil => intro n e h; simp at h
  | cons a rest ih =>
    intro n e h
    cases n with
    | zero =>
      simp only [List.get?_cons_zero, Option.some.injEq] at h
      subst h
      simp
    | succ n =>
      simp only [List.get?_cons_succ] at h
      simp only [List.eraseIdx_cons_succ]
      exact ((ih n e h).cons a).trans (List.Perm.swap e a _)

theorem GetNextAvailableReg.search_some (RI : RegisterInfo) (BitSize : Nat) (Pool : List Nat) :
    ∀ (c Reg i : Nat), GetNextAvailableReg.search RI BitSize Pool c = some (Reg, i) →
      ∃ e, c ≤ i ∧ Pool.get? (i - c) = some e ∧ (Reg = e ∨ Reg ∈ RI.SubRegs e) := by
  induction Pool with
  | nil => intro c Reg i h; simp [GetNextAvailableReg.search] at h
  | cons r rest ih =>
    intro c Reg i h
    simp only [GetNextAvailableReg.search] at h
    split at h
    · simp only [Option.some.injEq, Prod.mk.injEq] at h
      obtain ⟨h1, h2⟩ := h
      exact ⟨r, by omega, by simp [h2], Or.inl h1.symm⟩
    · split at h
      · rename_i SubReg hfind
        simp only [Option.some.injEq, Prod.mk.injEq] at h
        obtain ⟨h1, h2⟩ := h
        refine ⟨r, by omega, by simp [h2], Or.inr ?_⟩
        rw [← h1]
        exact List.mem_of_find?_eq_some hfind
      · obtain ⟨e, hle, hget, hor⟩ := ih (c + 1) Reg i h
        refine ⟨e, by omega, ?_, hor⟩
        have : i - c = (i - (c + 1)) + 1 := by omega
        rw [this, List.get?_cons_succ]
        exact hget

/-- The register handed out is a pool entry or a sub-register of one, and that
entry leaves the two pools; nothing else changes in them. -/
theorem GetNextAvailableReg_some (RI : RegisterInfo) (BitSize : Nat) (P P1 : RegPools) (Reg : Nat)
    (h : GetNextAvailableReg RI BitSize P = some (Reg, P1)) :
    ∃ e, (Reg = e ∨ Reg ∈ RI.SubRegs e) ∧
      List.Perm (P.Pool ++ P.BackupPool) (e :: (P1.Pool ++ P1.BackupPool)) := by
  unfold GetNextAvailableReg at h
  cases hb : (P.Pool.isEmpty && P.BackupPool.isEmpty)
  · simp only [hb, Bool.false_eq_true, if_false] at h
    cases hp : P.Pool.isEmpty
    · simp only [hp, Bool.false_eq_true, if_false] at h
      cases hs : GetNextAvailableReg.search RI BitSize P.Pool 0 with
      | none => simp [hs] at h
      | some res =>
        obtain ⟨Reg1, loopCounter⟩ := res
        simp only [hs, Option.some.injEq, Prod.mk.injEq] at h
        obtain ⟨h1, h2⟩ := h
        subst h1 h2
        obtain ⟨e, _, hget, hor⟩ := GetNextAvailableReg.search_some RI BitSize _ 0 _ _ hs
        refine ⟨e, hor, ?_⟩
        simp only [Nat.sub_zero] at hget
        exact (List.perm_cons_eraseIdx_of_get? _ _ _ hget).append_right _
    · simp only [hp, if_true] at h
      have hnil : P.Pool = [] := List.isEmpty_iff.mp hp
      simp only [hnil, List.nil_append] at h
      cases hs : GetNextAvailableReg.search RI BitSize (P.BackupPool.take 1) 0 with
      | none => simp [hs] at h
      | some res =>
        obtain ⟨Reg1, loopCounter⟩ := res
        simp only [hs, Option.some.injEq, Prod.mk.injEq] at h
        obtain ⟨h1, h2⟩ := h
        subst h1 h2
        obtain ⟨e, _, hget, hor⟩ := GetNextAvailableReg.search_some RI BitSize _ 0 _ _ hs
        refine ⟨e, hor, ?_⟩
        simp only [Nat.sub_zero] at hget
        simp only [hnil, List.nil_append]
        have h3 := List.perm_cons_eraseIdx_of_get? _ _ _ hget
        have h4 : List.Perm (P.BackupPool.take 1 ++ P.BackupPool.drop 1)
            ((e :: (P.BackupPool.take 1).eraseIdx loopCounter) ++ P.BackupPool.drop 1) :=
          h3.append_right _
        rw [List.take_append_drop] at h4
        exact h4
  · simp [hb] at h

/-- What the freeing loop does: the entries it keeps are those whose kill line
is not before `DefLine`; the roots of the entries it drops go to the pool. -/
theorem FreeKilled_some (RI : RegisterInfo) (A : List (Nat × Nat)) (d : Nat)
    (WL : List (Nat × Nat × Nat)) :
    ∀ (Pool : List Nat) (WL1 : List (Nat × Nat × Nat)) (Pool1 : List Nat),
      FreeKilled RI A d WL Pool = some (WL1, Pool1) →
      (∀ w ∈ WL1, w ∈ WL) ∧ (∀ w ∈ WL, w ∈ WL1 ∨ w.2.2 < d) ∧
      List.Perm (Pool1 ++ WL1.map (fun w => RI.rootOf (StdMap.getD0 A w.1)))
        (Pool ++ WL.map (fun w => RI.rootOf (StdMap.getD0 A w.1))) := by
  induction WL with
  | nil =>
    intro Pool WL1 Pool1 h
    simp only [FreeKilled, Option.some.injEq, Prod.mk.injEq] at h
    obtain ⟨h1, h2⟩ := h
    subst h1 h2
    exact ⟨by simp, by simp, List.Perm.refl _⟩
  | cons w rest ih =>
    intro Pool WL1 Pool1 h
    obtain ⟨v, dv, kv⟩ := w
    simp only [FreeKilled] at h
    by_cases hk : kv < d
    · simp only [hk, if_true] at h
      cases hg : StdMap.get? A v with
      | none => simp [hg] at h
      | some Reg =>
        simp only [hg] at h
        obtain ⟨h1, h2, h3⟩ := ih _ WL1 Pool1 h
        refine ⟨fun x hx => List.mem_cons_of_mem _ (h1 x hx), ?_, ?_⟩
        · intro x hx
          rcases List.mem_cons.mp hx with hx | hx
          · subst hx; exact Or.inr hk
          · exact h2 x hx
        · refine h3.trans ?_
          have hroot : RI.rootOf (StdMap.getD0 A v) = (RI.ParentReg Reg).getD Reg := by
            simp [RegisterInfo.rootOf, StdMap.getD0, hg]
          simp only [List.map_cons, hroot]
          exact (List.perm_middle).symm
    · simp only [hk, if_false] at h
      cases hr : FreeKilled RI A d rest Pool with
      | none => simp [hr] at h
      | some res =>
        obtain ⟨WL2, Pool2⟩ := res
        simp only [hr, Option.some.injEq, Prod.mk.injEq] at h
        obtain ⟨h4, h5⟩ := h
        subst h4 h5
        obtain ⟨h1, h2, h3⟩ := ih _ WL2 Pool2 hr
        refine ⟨?_, ?_, ?_⟩
        · intro x hx
          rcases List.mem_cons.mp hx with hx | hx
          · subst hx; exact List.mem_cons_self _ _
          · exact List.mem_cons_of_mem _ (h1 x hx)
        · intro x hx
          rcases List.mem_cons.mp hx with hx | hx
          · subst hx; exact Or.inl (List.mem_cons_self _ _)
          · rcases h2 x hx with h6 | h6
            · exact Or.inl (List.mem_cons_of_mem _ h6)
            · exact Or.inr h6
        · simp only [List.map_cons]
          exact (List.perm_middle.trans (h3.cons _)).trans (List.perm_middle).symm

theorem StdMap.getD0_set_self (m : List (Nat × Nat)) (k v : Nat) :
    StdMap.getD0 (StdMap.set m k v) k = v := by
  simp [StdMap.getD0, StdMap.get?_set_self]

theorem StdMap.getD0_set_ne (m : List (Nat × Nat)) (k k1 v : Nat) (h : k1 ≠ k) :
    StdMap.getD0 (StdMap.set m k v) k1 = StdMap.getD0 m k1 := by
  simp [StdMap.getD0, StdMap.get?_set_ne _ _ _ _ h]

theorem StdMap.getD0_of_get? (m : List (Nat × Nat)) (k p : Nat) (h : StdMap.get? m k = some p) :
    StdMap.getD0 m k = p := by
  simp [StdMap.getD0, h]

theorem List.Perm.append_mid {α : Type} {P P1 W W1 : List α} (B : List α)
    (h : List.Perm (P1 ++ W1) (P ++ W)) : List.Perm (P1 ++ B ++ W1) (P ++ B ++ W) := by
  have h1 : List.Perm (P1 ++ B ++ W1) (B ++ (P1 ++ W1)) := by
    rw [← List.append_assoc]
    exact List.perm_append_comm.append_right W1
  have h2 : List.Perm (B ++ (P ++ W)) (P ++ B ++ W) := by
    rw [← List.append_assoc]
    exact List.perm_append_comm.append_right W
  exact (h1.trans (h.append_left B)).trans h2

/-- One iteration of the allocation loop keeps the invariant. -/
theorem AllocateRange_inv (RI : RegisterInfo) (V : List (Nat × MachineOperand))
    (L0 : List Nat) (Pre : List (Nat × Nat)) (d : Nat) (Done : List (Nat × Nat × Nat))
    (St St1 : RAState) (R : Nat × Nat × Nat)
    (hInv : RAInv RI L0 Pre d Done St)
    (hnd : L0.Nodup)
    (hgood : ∀ e ∈ L0, RI.ParentReg e = none ∧ ∀ s ∈ RI.SubRegs e, RI.ParentReg s = some e)
    (hd : d ≤ R.2.1)
    (hfresh : ∀ w ∈ Done, w.1 ≠ R.1)
    (h : AllocateRange RI V St R = some St1) :
    ∃ Done1, RAInv RI L0 Pre R.2.1 Done1 St1 ∧ (Done1 = Done ∨ Done1 = Done ++ [R]) ∧
      (StdMap.contains Pre R.1 = false → R ∈ Done1) := by
  rcases AllocateRange_some RI V St St1 R h with
    ⟨hc, ha, hb, _, hf⟩ | ⟨hc, MO, Reg, P1, _, hg, ha, hb, _, hf⟩
  · -- the id is bound already
    obtain ⟨f1, f2, f3⟩ := FreeKilled_some RI _ _ _ _ _ _ hf
    refine ⟨Done, ?_, Or.inl rfl, ?_⟩
    · refine ⟨?_, ?_, ?_, ?_, ?_, ?_, ?_⟩
      · rw [ha, hb]
        exact (List.Perm.append_mid _ f3).trans hInv.perm
      · intro w hw
        exact hInv.wl w (f1 w hw)
      · intro w hw
        rcases hInv.expired w hw with h1 | h1
        · rcases f2 w h1 with h2 | h2
          · exact Or.inl h2
          · exact Or.inr h2
        · exact Or.inr (by omega)
      · rw [ha]; exact hInv.root
      · rw [ha]; exact hInv.safe
      · rw [ha]; exact hInv.keys
      · rw [ha]; exact hInv.pre
    · intro hpre
      rcases hInv.keys R.1 hc with h1 | h1
      · rw [hpre] at h1; exact absurd h1 (by simp)
      · simp only [List.mem_map] at h1
        obtain ⟨w, hw, hwk⟩ := h1
        exact absurd hwk (hfresh w hw)
  · -- a register is taken from the pools
    obtain ⟨e, hor, hperm⟩ := GetNextAvailableReg_some RI _ _ _ _ hg
    obtain ⟨f1, f2, f3⟩ := FreeKilled_some RI _ _ _ _ _ _ hf
    have hLnd : (St.Pools.Pool ++ St.Pools.BackupPool ++ St.FreeAbleWorkList.map
        (fun w => RI.rootOf (StdMap.getD0 St.AllocatedRegisters w.1))).Nodup :=
      hInv.perm.nodup_iff.mpr hnd
    have he_mem : e ∈ St.Pools.Pool ++ St.Pools.BackupPool :=
      hperm.mem_iff.mpr (List.mem_cons_self _ _)
    have heL0 : e ∈ L0 := hInv.perm.mem_iff.mp (List.mem_append_left _ he_mem)
    have hroot : RI.rootOf Reg = e := by
      rcases hor with h1 | h1
      · rw [h1]; simp [RegisterInfo.rootOf, (hgood e heL0).1]
      · simp [RegisterInfo.rootOf, (hgood e heL0).2 Reg h1]
    have hstable : ∀ w ∈ Done,
        StdMap.getD0 (StdMap.set St.AllocatedRegisters R.1 Reg) w.1
          = StdMap.getD0 St.AllocatedRegisters w.1 :=
      fun w hw => StdMap.getD0_set_ne _ _ _ _ (hfresh w hw)
    have hmapWL : (St.FreeAbleWorkList ++ [R]).map
        (fun w => RI.rootOf (StdMap.getD0 (StdMap.set St.AllocatedRegisters R.1 Reg) w.1))
        = St.FreeAbleWorkList.map
            (fun w => RI.rootOf (StdMap.getD0 St.AllocatedRegisters w.1)) ++ [e] := by
      rw [List.map_append]
      congr 1
      · apply List.map_congr_left
        intro w hw
        rw [hstable w (hInv.wl w hw)]
      · simp [StdMap.getD0_set_self, hroot]
    refine ⟨Done ++ [R], ?_, Or.inr rfl, fun _ => by simp⟩
    refine ⟨?_, ?_, ?_, ?_, ?_, ?_, ?_⟩
    · rw [ha, hb]
      refine (List.Perm.append_mid _ f3).trans ?_
      rw [hmapWL]
      refine List.Perm.trans ?_ hInv.perm
      have h1 : List.Perm (P1.Pool ++ P1.BackupPool ++
          (St.FreeAbleWorkList.map
            (fun w => RI.rootOf (StdMap.getD0 St.AllocatedRegisters w.1)) ++ [e]))
          (e :: (P1.Pool ++ P1.BackupPool) ++ St.FreeAbleWorkList.map
            (fun w => RI.rootOf (StdMap.getD0 St.AllocatedRegisters w.1))) := by
        rw [← List.append_assoc]
        refine List.perm_append_comm.trans ?_
        simp only [List.singleton_append, List.cons_append, List.append_assoc]
        exact List.Perm.refl _
      exact h1.trans (hperm.symm.append_right _)
    · intro w hw
      have := f1 w hw
      rcases List.mem_append.mp this with h1 | h1
      · exact List.mem_append_left _ (hInv.wl w h1)
      · exact List.mem_append_right _ h1
    · intro w hw
      rcases List.mem_append.mp hw with h1 | h1
      · rcases hInv.expired w h1 with h2 | h2
        · rcases f2 w (List.mem_append_left _ h2) with h3 | h3
          · exact Or.inl h3
          · exact Or.inr h3
        · exact Or.inr (by omega)
      · rcases f2 w (List.mem_append_right _ h1) with h3 | h3
        · exact Or.inl h3
        · exact Or.inr h3
    · intro w hw
      rw [ha]
      rcases List.mem_append.mp hw with h1 | h1
      · obtain ⟨p, hp, hpr⟩ := hInv.root w h1
        exact ⟨p, by rw [StdMap.get?_set_ne _ _ _ _ (hfresh w h1)]; exact hp, hpr⟩
      · simp only [List.mem_singleton] at h1
        subst h1
        exact ⟨Reg, StdMap.get?_set_self _ _ _, by rw [hroot]; exact heL0⟩
    · intro a haD b hbD hne h1 h2
      rw [ha]
      have hnew : ∀ w ∈ Done, w.2.1 ≤ R.2.2 → R.2.1 ≤ w.2.2 →
          RI.rootOf (StdMap.getD0 St.AllocatedRegisters w.1) ≠ e := by
        intro w hw _ hov
        rcases hInv.expired w hw with h3 | h3
        · intro heq
          have hmem : RI.rootOf (StdMap.getD0 St.AllocatedRegisters w.1) ∈
              St.FreeAbleWorkList.map
                (fun w => RI.rootOf (StdMap.getD0 St.AllocatedRegisters w.1)) :=
            List.mem_map_of_mem _ h3
          rw [heq] at hmem
          exact (List.disjoint_of_nodup_append hLnd) he_mem hmem
        · omega
      rcases List.mem_append.mp haD with ha1 | ha1 <;> rcases List.mem_append.mp hbD with hb1 | hb1
      · rw [hstable a ha1, hstable b hb1]
        exact hInv.safe a ha1 b hb1 hne h1 h2
      · simp only [List.mem_singleton] at hb1
        subst hb1
        rw [hstable a ha1, StdMap.getD0_set_self, hroot]
        exact hnew a ha1 h1 h2
      · simp only [List.mem_singleton] at ha1
        subst ha1
        rw [hstable b hb1, StdMap.getD0_set_self, hroot]
        exact fun heq => hnew b hb1 h2 h1 heq.symm
      · simp only [List.mem_singleton] at ha1 hb1
        subst ha1 hb1
        exact absurd rfl hne
    · intro k hk
      rw [ha, StdMap.contains_set] at hk
      simp only [Bool.or_eq_true, beq_iff_eq] at hk
      rcases hk with hk | hk
      · rcases hInv.keys k hk with h1 | h1
        · exact Or.inl h1
        · right
          simp only [List.map_append, List.mem_append]
          exact Or.inl h1
      · right
        simp [hk]
    · intro k p hk
      rw [ha]
      have h1 := hInv.pre k p hk
      have hne : k ≠ R.1 := by
        intro hkr
        rw [StdMap.contains_eq_false_iff, ← hkr, h1] at hc
        exact absurd hc (by simp)
      rw [StdMap.get?_set_ne _ _ _ _ hne]
      exact h1

/-- The allocation loop keeps the invariant; the ranges it allocates itself
are exactly those whose id was not bound before. -/
theorem AllocateRanges_inv (RI : RegisterInfo) (V : List (Nat × MachineOperand))
    (L0 : List Nat) (Pre : List (Nat × Nat))
    (hnd : L0.Nodup)
    (hgood : ∀ e ∈ L0, RI.ParentReg e = none ∧ ∀ s ∈ RI.SubRegs e, RI.ParentReg s = some e)
    (Ranges : List (Nat × Nat × Nat)) :
    ∀ (d : Nat) (Done : List (Nat × Nat × Nat)) (St St1 : RAState),
      Ranges.Pairwise (fun a b => a.2.1 ≤ b.2.1) →
      (∀ r ∈ Ranges, d ≤ r.2.1) →
      ((Done ++ Ranges).map (fun w => w.1)).Nodup →
      RAInv RI L0 Pre d Done St →
      AllocateRanges RI V Ranges St = some St1 →
      ∃ d1 Done1, RAInv RI L0 Pre d1 Done1 St1 ∧
        (∀ r ∈ Ranges, StdMap.contains Pre r.1 = false → r ∈ Done1) ∧
        (∀ w ∈ Done, w ∈ Done1) := by
  induction Ranges with
  | nil =>
    intro d Done St St1 _ _ _ hInv h
    simp only [AllocateRanges, Option.some.injEq] at h
    subst h
    exact ⟨d, Done, hInv, by simp, fun w hw => hw⟩
  | cons R rest ih =>
    intro d Done St St1 hpw hd hkeys hInv h
    simp only [AllocateRanges] at h
    cases hs : AllocateRange RI V St R with
    | none => simp [hs] at h
    | some St2 =>
      simp only [hs] at h
      have hfresh : ∀ w ∈ Done, w.1 ≠ R.1 := by
        intro w hw heq
        simp only [List.map_append, List.map_cons] at hkeys
        have hdis := List.disjoint_of_nodup_append hkeys
        exact hdis (List.mem_map_of_mem _ hw) (by rw [heq]; exact List.mem_cons_self _ _)
      obtain ⟨Done2, hInv2, hDone2, hR⟩ :=
        AllocateRange_inv RI V L0 Pre d Done St St2 R hInv hnd hgood
          (hd R (List.mem_cons_self _ _)) hfresh hs
      have hpw2 := List.pairwise_cons.mp hpw
      have hkeys2 : ((Done2 ++ rest).map (fun w => w.1)).Nodup := by
        rcases hDone2 with h1 | h1
        · rw [h1]
          refine hkeys.sublist ?_
          exact List.Sublist.map _ ((List.Sublist.refl Done).append (List.sublist_cons_self R rest))
        · rw [h1]
          simpa using hkeys
      obtain ⟨d1, Done1, hInv1, hall, hsub⟩ :=
        ih R.2.1 Done2 St2 St1 hpw2.2 (fun r hr => hpw2.1 r hr) hkeys2 hInv2 h
      refine ⟨d1, Done1, hInv1, ?_, ?_⟩
      · intro r hr hpre
        rcases List.mem_cons.mp hr with h1 | h1
        · subst h1
          exact hsub _ (hR hpre)
        · exact hall r h1 hpre
      · intro w hw
        apply hsub
        rcases hDone2 with h1 | h1
        · rw [h1]; exact hw
        · rw [h1]; exact List.mem_append_left _ hw

/-- With a coherent catalog, registers with different roots do not conflict. -/
theorem RegisterInfo.not_conflict_of_root_ne (RI : RegisterInfo) (hWF : RI.WellFormed)
    (p q : Nat) (h : RI.rootOf p ≠ RI.rootOf q) : ¬ RI.Conflict p q := by
  obtain ⟨hW1, hW2⟩ := hWF
  have hpar : ∀ x y, RI.ParentReg x = some y → RI.rootOf x = RI.rootOf y := by
    intro x y hxy
    simp [RegisterInfo.rootOf, hxy, hW2 x y hxy]
  intro hc
  rcases hc with h1 | h1 | h1 | h1 | h1
  · exact h (by rw [h1])
  · exact h (hpar p q h1)
  · exact h (hpar q p h1).symm
  · exact h (hpar p q ((hW1 q p).mp h1))
  · exact h (hpar q p ((hW1 p q).mp h1)).symm

/-! ### Unique keys, pre-allocated registers -/

theorem StdMap.keys_nodup_of_ordered {β : Type} (m : List (Nat × β))
    (h : m.Pairwise (fun a b => a.1 < b.1)) : (m.map (fun w => w.1)).Nodup := by
  rw [List.Nodup, List.pairwise_map]
  exact h.imp (fun hab => Nat.ne_of_lt hab)

theorem StdMap.mem_of_get? {β : Type} (m : List (Nat × β)) (k : Nat) (v : β)
    (h : StdMap.get? m k = some v) : (k, v) ∈ m := by
  unfold StdMap.get? at h
  cases hf : m.find? (fun e => e.1 == k) with
  | none => simp [hf] at h
  | some e =>
    simp only [hf, Option.map, Option.some.injEq] at h
    have h1 := List.mem_of_find?_eq_some hf
    have h2 := List.find?_some hf
    simp only [beq_iff_eq] at h2
    obtain ⟨a, b⟩ := e
    simp only at h h2
    subst h h2
    exact h1

/-- The registers parameters are pre-allocated to, and the ordering of the
live range map. -/
theorem PreAllocateParameters_spec (TM : TargetMachine) (Params : List (Nat × LowLevelType)) :
    ∀ (c : Nat) (A A1 : List (Nat × Nat)) (L L1 : List (Nat × Nat × Nat)),
      PreAllocateParameters TM Params c A L = some (A1, L1) →
      (L.Pairwise (fun a b => a.1 < b.1) → L1.Pairwise (fun a b => a.1 < b.1)) ∧
      (∀ x ∈ A1, x ∈ A ∨ ∃ a ∈ TM.ABI.ArgumentRegisters, x.2 = a ∨ x.2 ∈ TM.RegInfo.SubRegs a) := by
  induction Params with
  | nil =>
    intro c A A1 L L1 h
    simp only [PreAllocateParameters, Option.some.injEq, Prod.mk.injEq] at h
    obtain ⟨h1, h2⟩ := h
    subst h1 h2
    exact ⟨fun hL => hL, fun x hx => Or.inl hx⟩
  | cons P rest ih =>
    intro c A A1 L L1 h
    obtain ⟨ParamID, ParamLLT⟩ := P
    simp only [PreAllocateParameters] at h
    cases hg : TM.ABI.ArgumentRegisters.get? c with
    | none =>
      rw [hg] at h
      exact absurd h (by simp)
    | some ArgReg =>
      rw [hg] at h
      simp only at h
      have hmem : ArgReg ∈ TM.ABI.ArgumentRegisters := List.get?_mem hg
      by_cases hw : ParamLLT.BitWidth ≤ 32
      · simp only [hw, if_true] at h
        cases hs : (TM.RegInfo.SubRegs ArgReg).head? with
        | none => simp [hs] at h
        | some Sub =>
          simp only [hs] at h
          obtain ⟨h1, h2⟩ := ih _ _ _ _ _ h
          refine ⟨fun hL => h1 (StdMap.set_ordered _ _ _ hL), ?_⟩
          intro x hx
          rcases h2 x hx with h3 | h3
          · rcases StdMap.mem_set _ _ _ x h3 with h4 | h4
            · right
              refine ⟨ArgReg, hmem, Or.inr ?_⟩
              rw [h4]
              exact List.mem_of_mem_head? (by rw [hs]; rfl)
            · exact Or.inl h4
          · exact Or.inr h3
      · simp only [hw, if_false] at h
        obtain ⟨h1, h2⟩ := ih _ _ _ _ _ h
        refine ⟨fun hL => h1 (StdMap.set_ordered _ _ _ hL), ?_⟩
        intro x hx
        rcases h2 x hx with h3 | h3
        · rcases StdMap.mem_set _ _ _ x h3 with h4 | h4
          · right
            exact ⟨ArgReg, hmem, Or.inl (by rw [h4])⟩
          · exact Or.inl h4
        · exact Or.inr h3

theorem PreAllocateReturnRegister.loop_spec (TM : TargetMachine) (Instrs : List MachineInstruction) :
    ∀ (A A1 : List (Nat × Nat)), PreAllocateReturnRegister.loop TM Instrs A = some A1 →
      ∀ x ∈ A1, x ∈ A ∨ ∃ a ∈ TM.ABI.ReturnRegisters, x.2 = a ∨ x.2 ∈ TM.RegInfo.SubRegs a := by
  induction Instrs with
  | nil =>
    intro A A1 h
    simp only [PreAllocateReturnRegister.loop, Option.some.injEq] at h
    subst h
    exact fun x hx => Or.inl hx
  | cons It rest ih =>
    intro A A1 h
    simp only [PreAllocateReturnRegister.loop] at h
    cases ht : TM.GetTargetInstr It.Opcode with
    | none => simp [ht] at h
    | some TI =>
      simp only [ht] at h
      cases hr : TI.IsReturn
      · simp only [hr, Bool.false_eq_true, if_false] at h
        exact ih _ _ h
      · simp only [hr, if_true] at h
        cases ho : It.Operands.head? with
        | none =>
          simp only [ho] at h
          exact ih _ _ h
        | some Op0 =>
          simp only [ho] at h
          cases hrr : TM.ABI.ReturnRegisters.head? with
          | none => simp [hrr] at h
          | some RetReg0 =>
            simp only [hrr] at h
            have hmem : RetReg0 ∈ TM.ABI.ReturnRegisters :=
              List.mem_of_mem_head? (by rw [hrr]; rfl)
            by_cases hsz : Op0.GetSize = TM.RegInfo.BitWidth RetReg0
            · simp only [hsz, if_true] at h
              intro x hx
              rcases ih _ _ h x hx with h3 | h3
              · rcases StdMap.mem_set _ _ _ x h3 with h4 | h4
                · right
                  exact ⟨RetReg0, hmem, Or.inl (by rw [h4])⟩
                · exact Or.inl h4
              · exact Or.inr h3
            · simp only [hsz, if_false] at h
              cases hs : (TM.RegInfo.SubRegs RetReg0).head? with
              | none => simp [hs] at h
              | some Sub =>
                simp only [hs] at h
                intro x hx
                rcases ih _ _ h x hx with h3 | h3
                · rcases StdMap.mem_set _ _ _ x h3 with h4 | h4
                  · right
                    refine ⟨RetReg0, hmem, Or.inr ?_⟩
                    rw [h4]
                    exact List.mem_of_mem_head? (by rw [hs]; rfl)
                  · exact Or.inl h4
                · exact Or.inr h3

theorem LiveRangeScan.operands_ordered (c : Nat) (Ops : List MachineOperand) :
    ∀ (acc : List (Nat × Nat × Nat) × List (Nat × MachineOperand)),
      acc.1.Pairwise (fun a b => a.1 < b.1) →
      (LiveRangeScan.operands c Ops acc).1.Pairwise (fun a b => a.1 < b.1) := by
  induction Ops with
  | nil => intro acc h; exact h
  | cons O rest ih =>
    intro acc h
    obtain ⟨L, V⟩ := acc
    simp only [LiveRangeScan.operands]
    split
    · apply ih
      simp only
      split
      · exact StdMap.set_ordered _ _ _ h
      · exact StdMap.set_ordered _ _ _ h
    · exact ih _ h

theorem LiveRangeScan.instrs_ordered (Instrs : List MachineInstruction) :
    ∀ (c : Nat) (acc : List (Nat × Nat × Nat) × List (Nat × MachineOperand)),
      acc.1.Pairwise (fun a b => a.1 < b.1) →
      (LiveRangeScan.instrs Instrs c acc).1.Pairwise (fun a b => a.1 < b.1) := by
  induction Instrs with
  | nil => intro c acc h; exact h
  | cons I rest ih =>
    intro c acc h
    simp only [LiveRangeScan.instrs]
    exact ih _ _ (LiveRangeScan.operands_ordered c I.Operands acc h)

/-- The pool after the removal of the pre-allocated registers: a sublist of
the pool before, without the root of any pre-allocated register. -/
theorem RemovePreAllocated_foldl (RI : RegisterInfo) (Pre : List (Nat × Nat)) :
    ∀ (Pool : List Nat),
      List.Sublist (Pre.foldl (fun pool e => RemovePreAllocated RI pool e.2) Pool) Pool ∧
      (Pool.Nodup → ∀ e ∈ Pre,
        RI.rootOf e.2 ∉ Pre.foldl (fun pool e => RemovePreAllocated RI pool e.2) Pool) := by
  induction Pre with
  | nil => intro Pool; exact ⟨List.Sublist.refl _, fun _ e he => by simp at he⟩
  | cons x rest ih =>
    intro Pool
    simp only [List.foldl_cons]
    have hdiff : RemovePreAllocated RI Pool x.2 =
        Pool.diff (RI.SubRegs x.2 ++ [x.2] ++ (RI.ParentReg x.2).toList) := by
      rw [List.diff_eq_foldl]; rfl
    have hsub : List.Sublist (RemovePreAllocated RI Pool x.2) Pool := by
      rw [hdiff]; exact List.diff_sublist _ _
    obtain ⟨h1, h2⟩ := ih (RemovePreAllocated RI Pool x.2)
    refine ⟨h1.trans hsub, ?_⟩
    intro hnd e he
    rcases List.mem_cons.mp he with h3 | h3
    · subst h3
      intro hmem
      have h4 := h1.subset hmem
      rw [hdiff, List.Nodup.mem_diff_iff hnd] at h4
      apply h4.2
      simp only [RegisterInfo.rootOf, List.mem_append, List.mem_singleton, Option.mem_toList]
      cases hp : RI.ParentReg e.2 with
      | none => simp
      | some par => simp
    · exact h2 (hnd.sublist hsub) e h3

theorem SortLiveRanges_pairwise (L : List (Nat × Nat × Nat)) :
    (SortLiveRanges L).Pairwise (fun a b => a.2.1 ≤ b.2.1) := by
  have h := List.sorted_insertionSort LiveRangeLE L
  refine List.Pairwise.imp ?_ h
  intro a b hab
  unfold LiveRangeLE at hab
  omega

/-- The state the allocation loop ends in satisfies the invariant, for the
pools `RunRA` starts with. -/
theorem RunRA.allocate_inv (TM : TargetMachine) (Func : MachineFunction) (Res : RAResult)
    (hWF : TM.RegInfo.WellFormed) (hP : TM.PoolsWellFormed)
    (h : RunRA.allocate TM Func = some Res) :
    ∃ (L0 : List Nat) (d : Nat) (Done : List (Nat × Nat × Nat)) (St : RAState),
      St.AllocatedRegisters = Res.AllocatedRegisters ∧
      RAInv TM.RegInfo L0 Res.PreAllocated d Done St ∧
      (∀ r ∈ Res.LiveRanges, StdMap.contains Res.PreAllocated r.1 = false → r ∈ Done) ∧
      (∀ e ∈ Res.PreAllocated, TM.RegInfo.rootOf e.2 ∉ L0) := by
  obtain ⟨hW1, hW2⟩ := hWF
  obtain ⟨hA1, hA2, hA3⟩ := hP
  unfold RunRA.allocate at h
  cases hp : PreAllocateParameters TM Func.Parameters 0 [] [] with
  | none => simp [hp] at h
  | some r =>
    obtain ⟨Alloc0, LR0⟩ := r
    simp only [hp] at h
    cases hr : PreAllocateReturnRegister TM Func Alloc0 with
    | none => simp [hr] at h
    | some Pre =>
      simp only [hr] at h
      cases ha : AllocateRanges TM.RegInfo (LiveRangeScan.instrs Func.AllInstructions 0 (LR0, [])).2
          (SortLiveRanges (LiveRangeScan.instrs Func.AllInstructions 0 (LR0, [])).1)
          (RunRA.initState TM Func Pre) with
      | none => simp [ha] at h
      | some St =>
        simp only [ha, Option.some.injEq] at h
        subst h
        simp only
        -- the pools at the start
        obtain ⟨hsub, hroots⟩ := RemovePreAllocated_foldl TM.RegInfo Pre TM.ABI.CallerSavedRegisters
        have hL0sub : List.Sublist
            (Pre.foldl (fun pool e => RemovePreAllocated TM.RegInfo pool e.2)
              TM.ABI.CallerSavedRegisters ++ TM.ABI.CalleeSavedRegisters)
            (TM.ABI.CallerSavedRegisters ++ TM.ABI.CalleeSavedRegisters) :=
          hsub.append (List.Sublist.refl _)
        have hnd := hA1.sublist hL0sub
        have hgood : ∀ e ∈ Pre.foldl (fun pool e => RemovePreAllocated TM.RegInfo pool e.2)
              TM.ABI.CallerSavedRegisters ++ TM.ABI.CalleeSavedRegisters,
            TM.RegInfo.ParentReg e = none ∧
              ∀ s ∈ TM.RegInfo.SubRegs e, TM.RegInfo.ParentReg s = some e :=
          fun e he => ⟨hA2 e (hL0sub.subset he), fun s hs => (hW1 e s).mp hs⟩
        -- the pre-allocated registers
        have hparams := (PreAllocateParameters_spec TM Func.Parameters 0 [] Alloc0 [] LR0 hp)
        have hLR0 : LR0.Pairwise (fun a b => a.1 < b.1) := hparams.1 List.Pairwise.nil
        have hpre_vals : ∀ x ∈ Pre, ∃ a ∈ TM.ABI.ArgumentRegisters ++ TM.ABI.ReturnRegisters,
            x.2 = a ∨ x.2 ∈ TM.RegInfo.SubRegs a := by
          intro x hx
          unfold PreAllocateReturnRegister at hr
          cases hl : Func.BasicBlocks.getLast? with
          | none => simp [hl] at hr
          | some LastBB =>
            simp only [hl] at hr
            rcases PreAllocateReturnRegister.loop_spec TM _ _ _ hr x hx with h1 | ⟨a, ha1, ha2⟩
            · rcases hparams.2 x h1 with h2 | ⟨a, ha1, ha2⟩
              · simp at h2
              · exact ⟨a, List.mem_append_left _ ha1, ha2⟩
            · exact ⟨a, List.mem_append_right _ ha1, ha2⟩
        have hpre_root : ∀ e ∈ Pre, TM.RegInfo.rootOf e.2 ∉
            Pre.foldl (fun pool e => RemovePreAllocated TM.RegInfo pool e.2)
              TM.ABI.CallerSavedRegisters ++ TM.ABI.CalleeSavedRegisters := by
          intro e he hmem
          rcases List.mem_append.mp hmem with h1 | h1
          · exact hroots (hA1.sublist (List.sublist_append_left _ _)) e he h1
          · obtain ⟨a, ha1, ha2⟩ := hpre_vals e he
            have hroot : TM.RegInfo.rootOf e.2 = a := by
              rcases ha2 with h2 | h2
              · rw [h2]; simp [RegisterInfo.rootOf, (hA3 a ha1).1]
              · simp [RegisterInfo.rootOf, (hW1 a e.2).mp h2]
            rw [hroot] at h1
            exact (hA3 a ha1).2 h1
        -- the ranges
        have hscan := LiveRangeScan.instrs_ordered Func.AllInstructions 0 (LR0, []) hLR0
        have hkeys : ((([] : List (Nat × Nat × Nat)) ++
            SortLiveRanges (LiveRangeScan.instrs Func.AllInstructions 0 (LR0, [])).1).map
              (fun w => w.1)).Nodup := by
          rw [List.nil_append]
          exact ((List.perm_insertionSort LiveRangeLE _).map _).nodup_iff.mpr
            (StdMap.keys_nodup_of_ordered _ hscan)
        have hInv0 : RAInv TM.RegInfo
            (Pre.foldl (fun pool e => RemovePreAllocated TM.RegInfo pool e.2)
              TM.ABI.CallerSavedRegisters ++ TM.ABI.CalleeSavedRegisters)
            Pre 0 [] (RunRA.initState TM Func Pre) := by
          refine ⟨?_, ?_, ?_, ?_, ?_, ?_, ?_⟩
          · simp [RunRA.initState]
          · intro w hw; simp [RunRA.initState] at hw
          · intro w hw; simp at hw
          · intro w hw; simp at hw
          · intro a ha; simp at ha
          · intro k hk; exact Or.inl hk
          · intro k p hk; exact hk
        obtain ⟨d1, Done1, hInv1, hall, _⟩ :=
          AllocateRanges_inv TM.RegInfo _ _ Pre hnd hgood _ 0 [] _ St
            (SortLiveRanges_pairwise _) (fun r _ => Nat.zero_le _) hkeys hInv0 ha
        refine ⟨_, d1, Done1, St, rfl, hInv1, ?_, hpre_root⟩
        intro r hr hc
        exact hall r ((List.perm_insertionSort LiveRangeLE _).mem_iff.mpr hr) hc

/-- The core of the allocator's safety: two ids of which at least one was
allocated by the loop itself, with overlapping live ranges, get registers that
do not conflict. -/
theorem RunRA.allocate_no_conflict (TM : TargetMachine) (Func : MachineFunction) (Res : RAResult)
    (hWF : TM.RegInfo.WellFormed) (hP : TM.PoolsWellFormed)
    (h : RunRA.allocate TM Func = some Res)
    (v1 v2 : Nat) (r1 r2 : Nat × Nat) (p1 p2 : Nat) (hne : v1 ≠ v2)
    (hr1 : StdMap.get? Res.LiveRanges v1 = some r1)
    (hr2 : StdMap.get? Res.LiveRanges v2 = some r2)
    (hov : LiveRangesOverlap r1 r2)
    (hpre : StdMap.contains Res.PreAllocated v1 = false ∨
      StdMap.contains Res.PreAllocated v2 = false)
    (hp1 : StdMap.get? Res.AllocatedRegisters v1 = some p1)
    (hp2 : StdMap.get? Res.AllocatedRegisters v2 = some p2) :
    ¬ TM.RegInfo.Conflict p1 p2 := by
  obtain ⟨L0, d, Done, St, hSt, hInv, hall, hpreroot⟩ := RunRA.allocate_inv TM Func Res hWF hP h
  apply RegisterInfo.not_conflict_of_root_ne _ hWF
  rw [← hSt] at hp1 hp2
  have hm1 := StdMap.mem_of_get? _ _ _ hr1
  have hm2 := StdMap.mem_of_get? _ _ _ hr2
  -- an id bound by the loop and a pre-allocated id
  have hmixed : ∀ (v u : Nat) (r : Nat × Nat) (p q : Nat), (v, r) ∈ Res.LiveRanges →
      StdMap.contains Res.PreAllocated v = false → StdMap.contains Res.PreAllocated u = true →
      StdMap.get? St.AllocatedRegisters v = some p → StdMap.get? St.AllocatedRegisters u = some q →
      TM.RegInfo.rootOf p ≠ TM.RegInfo.rootOf q := by
    intro v u r p q hm hv hu hp hq heq
    obtain ⟨p', hp', hroot⟩ := hInv.root _ (hall _ hm hv)
    simp only at hp'
    rw [hp] at hp'
    simp only [Option.some.injEq] at hp'
    subst hp'
    obtain ⟨q', hq'⟩ := (StdMap.contains_iff_get? _ _).mp hu
    have h1 := hInv.pre u q' hq'
    rw [hq] at h1
    simp only [Option.some.injEq] at h1
    subst h1
    exact hpreroot _ (StdMap.mem_of_get? _ _ _ hq') (heq ▸ hroot)
  cases hc1 : StdMap.contains Res.PreAllocated v1 <;>
    cases hc2 : StdMap.contains Res.PreAllocated v2
  · have h1 := hInv.safe _ (hall _ hm1 hc1) _ (hall _ hm2 hc2) hne hov.1 hov.2
    simp only at h1
    rw [StdMap.getD0_of_get? _ _ _ hp1, StdMap.getD0_of_get? _ _ _ hp2] at h1
    exact h1
  · exact hmixed v1 v2 r1 p1 p2 hm1 hc1 hc2 hp1 hp2
  · exact fun heq => hmixed v2 v1 r2 p2 p1 hm2 hc2 hc1 hp2 hp1 heq.symm
  · rw [hc1, hc2] at hpre
    simp at hpre

/-! ### The AArch64 register sets -/

theorem AArch64.RegInfo_WellFormed : AArch64.TM.RegInfo.WellFormed := by
  constructor
  · intro r s
    simp only [AArch64.TM, AArch64.RegInfo]
    split
    · rename_i h
      simp only [List.mem_singleton]
      constructor
      · intro hs; subst hs
        have : r - 32 < 32 := by omega
        simp only [this, if_true, Option.some.injEq]
        omega
      · intro hs
        split at hs
        · simp only [Option.some.injEq] at hs; omega
        · exact absurd hs (by simp)
    · rename_i h
      simp only [List.not_mem_nil, false_iff]
      intro hs
      split at hs
      · simp only [Option.some.injEq] at hs; omega
      · exact absurd hs (by simp)
  · intro r s h
    simp only [AArch64.TM, AArch64.RegInfo] at h ⊢
    split at h
    · simp only [Option.some.injEq] at h
      have : ¬ s < 32 := by omega
      simp [this]
    · exact absurd h (by simp)

theorem AArch64.TM_PoolsWellFormed : AArch64.TM.PoolsWellFormed := by
  refine ⟨by decide, by decide, by decide⟩

/-! ### Claims on the register assignment -/

/-- Claim C1, counterexample: in `Example.sumFunction` the parameter 1 is live
on `[0, 1]` and the returned virtual register 3 on `[0, 2]`; the two ranges
overlap, yet both ids are pre-allocated to `w0` (register 0), the first
argument register and the return register. -/
theorem RunRA.parameter_and_return_value_share_w0 :
    RunRA.allocate AArch64.TM Example.sumFunction = some Example.sumResult ∧
    StdMap.get? Example.sumResult.LiveRanges 1 = some (0, 1) ∧
    StdMap.get? Example.sumResult.LiveRanges 3 = some (0, 2) ∧
    LiveRangesOverlap (0, 1) (0, 2) ∧
    StdMap.get? Example.sumResult.AllocatedRegisters 1 = some 0 ∧
    StdMap.get? Example.sumResult.AllocatedRegisters 3 = some 0 :=
  ⟨by decide, by decide, by decide, ⟨by decide, by decide⟩, by decide, by decide⟩

/-- Claim C1 (amended): after the allocation of `RunRA` on AArch64, two
distinct register ids with overlapping live ranges `[def, kill]`, of which at
least one was not pre-allocated to an argument or return register, have
different physical registers, neither being the parent or a sub-register of
the other. -/
theorem RunRA.overlapping_ranges_get_distinct_registers (Func : MachineFunction)
    (Res : RAResult) (h : RunRA.allocate AArch64.TM Func = some Res)
    (v1 v2 : Nat) (r1 r2 : Nat × Nat) (p1 p2 : Nat) (hne : v1 ≠ v2)
    (hr1 : StdMap.get? Res.LiveRanges v1 = some r1)
    (hr2 : StdMap.get? Res.LiveRanges v2 = some r2)
    (hov : LiveRangesOverlap r1 r2)
    (hpre : StdMap.contains Res.PreAllocated v1 = false ∨
      StdMap.contains Res.PreAllocated v2 = false)
    (hp1 : StdMap.get? Res.AllocatedRegisters v1 = some p1)
    (hp2 : StdMap.get? Res.AllocatedRegisters v2 = some p2) :
    p1 ≠ p2 ∧
    AArch64.TM.RegInfo.ParentReg p1 ≠ some p2 ∧ AArch64.TM.RegInfo.ParentReg p2 ≠ some p1 ∧
    p1 ∉ AArch64.TM.RegInfo.SubRegs p2 ∧ p2 ∉ AArch64.TM.RegInfo.SubRegs p1 := by
  have hnc := RunRA.allocate_no_conflict AArch64.TM Func Res AArch64.RegInfo_WellFormed
    AArch64.TM_PoolsWellFormed h v1 v2 r1 r2 p1 p2 hne hr1 hr2 hov hpre hp1 hp2
  unfold RegisterInfo.Conflict at hnc
  refine ⟨?_, ?_, ?_, ?_, ?_⟩ <;> intro hx <;> apply hnc
  · exact Or.inl hx
  · exact Or.inr (Or.inl hx)
  · exact Or.inr (Or.inr (Or.inl hx))
  · exact Or.inr (Or.inr (Or.inr (Or.inl hx)))
  · exact Or.inr (Or.inr (Or.inr (Or.inr hx)))

/-- In `Example.sumFunction` the virtual register 4, live from instruction 1
on, gets `w2`, apart from `w0` of the returned register 3 live on `[0, 2]`. -/
theorem RunRA.overlapping_ranges_get_distinct_registers_witness :
    (RunRA.allocate AArch64.TM Example.sumFunction = some Example.sumResult ∧
     (4 : Nat) ≠ 3 ∧
     StdMap.get? Example.sumResult.LiveRanges 4 = some (1, 4294967295) ∧
     StdMap.get? Example.sumResult.LiveRanges 3 = some (0, 2) ∧
     LiveRangesOverlap (1, 4294967295) (0, 2) ∧
     StdMap.contains Example.sumResult.PreAllocated 4 = false ∧
     StdMap.get? Example.sumResult.AllocatedRegisters 4 = some 2 ∧
     StdMap.get? Example.sumResult.AllocatedRegisters 3 = some 0) ∧
    ((2 : Nat) ≠ 0 ∧
     AArch64.TM.RegInfo.ParentReg 2 ≠ some 0 ∧ AArch64.TM.RegInfo.ParentReg 0 ≠ some 2 ∧
     2 ∉ AArch64.TM.RegInfo.SubRegs 0 ∧ 0 ∉ AArch64.TM.RegInfo.SubRegs 2) :=
  ⟨⟨by decide, by decide, by decide, by decide, ⟨by decide, by decide⟩, by decide, by decide,
     by decide⟩,
   RunRA.overlapping_ranges_get_distinct_registers Example.sumFunction Example.sumResult
     (by decide) 4 3 (1, 4294967295) (0, 2) 2 0 (by decide) (by decide) (by decide)
     ⟨by decide, by decide⟩ (Or.inl (by decide)) (by decide) (by decide)⟩

/-! ### Instruction selection and the definition table -/

section Selection
open AArch64TargetMachine

theorem ExtendRegSize_IsRegLike (MO : MachineOperand) (w : Nat) :
    (ExtendRegSize MO w).IsRegLike = MO.IsRegLike := by
  unfold ExtendRegSize
  split <;> rfl

theorem AArch64TargetMachine.Extend01_three (MI : MachineInstruction) (a b c : MachineOperand)
    (h : MI.Operands = [a, b, c]) :
    (Extend01 MI).Operands = [ExtendRegSize a 32, ExtendRegSize b 32, c] ∧
    (Extend01 MI).Opcode = MI.Opcode := by
  simp [Extend01, MachineInstruction.ModifyOperand, h]

/-- Selection of an ALU instruction over registers. -/
theorem AArch64TargetMachine.SelectRRIorRRR_agrees (rri rrr : AArch64.Opcodes)
    (hrri : (AArch64.GetTargetInstr (MIOpcode.target rri)).map (fun TI => TI.OperandTypes)
      = some [OperandTypes.GPR, OperandTypes.GPR, OperandTypes.UIMM12])
    (hrrr : (AArch64.GetTargetInstr (MIOpcode.target rrr)).map (fun TI => TI.OperandTypes)
      = some [OperandTypes.GPR, OperandTypes.GPR, OperandTypes.GPR])
    (MI : MachineInstruction) (a b c : MachineOperand)
    (hops : MI.Operands = [a, b, c]) (ha : a.IsRegLike = true) (hb : b.IsRegLike = true)
    (hc : (c.IsRegLike = true ∧ c.IsImmediate = false) ∨
      (c.IsImmediate = true ∧ 0 ≤ c.GetImmediate ∧ c.GetImmediate < 4096)) :
    ∃ MI1, SelectRRIorRRR rri rrr MI = some (true, MI1) ∧
      AArch64.AgreesWithDefinition MI1 = true := by
  obtain ⟨h1, h2⟩ := Extend01_three MI a b c hops
  have hlen : MI.GetOperandsNumber = 3 := by simp [MachineInstruction.GetOperandsNumber, hops]
  have hget : (Extend01 MI).GetOperand 2 = some c := by
    simp [MachineInstruction.GetOperand, h1]
  unfold SelectRRIorRRR
  simp only [hlen, ne_eq, not_true_eq_false, if_false, hget]
  rcases hc with ⟨hc1, hc2⟩ | ⟨hc1, hc2, hc3⟩
  · simp only [hc2, Bool.false_eq_true, if_false]
    refine ⟨_, rfl, ?_⟩
    cases hT : AArch64.GetTargetInstr (MIOpcode.target rrr) with
    | none => simp [hT] at hrrr
    | some TI =>
      simp only [hT, Option.map, Option.some.injEq] at hrrr
      simp [AArch64.AgreesWithDefinition, MachineInstruction.SetOpcode, hT, hrrr, h1,
        OperandTypes.MatchAll, OperandTypes.Matches, ExtendRegSize_IsRegLike, ha, hb, hc1]
  · have hu : IsUInt12 c.GetImmediate = true := by simp [IsUInt12, hc2, hc3]
    simp only [hc1, hu, if_true]
    refine ⟨_, rfl, ?_⟩
    cases hT : AArch64.GetTargetInstr (MIOpcode.target rri) with
    | none => simp [hT] at hrri
    | some TI =>
      simp only [hT, Option.map, Option.some.injEq] at hrri
      simp [AArch64.AgreesWithDefinition, MachineInstruction.SetOpcode, hT, hrri, h1,
        OperandTypes.MatchAll, OperandTypes.Matches, ExtendRegSize_IsRegLike, ha, hb, hc1]

theorem MachineOperand.IsRegLike_kinds (MO : MachineOperand) (h : MO.IsRegLike = true) :
    MO.IsStackAccess = false ∧ MO.IsMemory = false ∧ MO.IsGlobalSymbol = false ∧
    MO.IsImmediate = false := by
  unfold MachineOperand.IsRegLike MachineOperand.IsParameter at h
  cases hk : MO.Kind <;>
    simp_all [MachineOperand.IsStackAccess, MachineOperand.IsMemory,
      MachineOperand.IsGlobalSymbol, MachineOperand.IsImmediate]

/-- Lowering of a two-operand instruction made of a register and a stack
access, in either order: the register, the stack pointer, the offset. -/
theorem RunRA.lowerInstr_reg_stack (TM : TargetMachine) (Func : MachineFunction)
    (A : List (Nat × Nat)) (MI : MachineInstruction) (a s : MachineOperand) (Position : Nat)
    (ha : a.IsRegLike = true) (hs : s.IsStackAccess = true)
    (hpos : Func.GetStackObjectPosition s.GetSlot = some Position)
    (hops : MI.Operands = [a, s] ∨ MI.Operands = [s, a]) :
    RunRA.lowerInstr TM Func A MI = some { MI with Operands :=
      [a, MachineOperand.CreateRegister TM.RegInfo.StackRegister TM.PointerSize,
       MachineOperand.CreateImmediate ((Position : Int) + s.GetOffset) 32] } := by
  obtain ⟨h1, h2, _, _⟩ := MachineOperand.IsRegLike_kinds a ha
  unfold RunRA.lowerInstr
  rcases hops with hops | hops <;>
    simp [hops, List.find?, h1, h2, hs, hpos, MachineInstruction.RemoveMemOperand,
      MachineInstruction.AddRegister, MachineInstruction.AddImmediate,
      MachineInstruction.AddOperand, List.filter]

theorem AArch64.AgreesWithDefinition_lowered (MI : MachineInstruction) (c : AArch64.Opcodes)
    (a : MachineOperand) (R W : Nat) (Imm : Int) (last : OperandTypes)
    (hop : MI.Opcode = MIOpcode.target c)
    (hT : (AArch64.GetTargetInstr (MIOpcode.target c)).map (fun TI => TI.OperandTypes)
      = some [OperandTypes.GPR, OperandTypes.GPR, last])
    (hlast : last = OperandTypes.UIMM12 ∨ last = OperandTypes.SIMM12)
    (ha : a.IsRegLike = true) :
    AArch64.AgreesWithDefinition { MI with Operands :=
      [a, MachineOperand.CreateRegister R W, MachineOperand.CreateImmediate Imm 32] } = true := by
  cases hTI : AArch64.GetTargetInstr (MIOpcode.target c) with
  | none => simp [hTI] at hT
  | some TI =>
    simp only [hTI, Option.map, Option.some.injEq] at hT
    have hr : (MachineOperand.CreateRegister R W).IsRegLike = true := by
      simp [MachineOperand.IsRegLike, MachineOperand.CreateRegister]
    have hi : (MachineOperand.CreateImmediate Imm 32).IsImmediate = true := by
      simp [MachineOperand.IsImmediate, MachineOperand.CreateImmediate]
    rcases hlast with h | h <;> subst h <;>
      simp [AArch64.AgreesWithDefinition, hop, hTI, hT, OperandTypes.MatchAll,
        OperandTypes.Matches, ha, hr, hi]

/-- Claim C3, counterexample: `SelectSTACK_ADDRESS` turns the two-operand
`STACK_ADDRESS %1, slot 5` into an `ADD_rri` that still has two operands, a
register and a stack access, while the table lists three operand classes for
`ADD_rri`. -/
theorem AArch64TargetMachine.SelectSTACK_ADDRESS_has_two_operands :
    SelectSTACK_ADDRESS Example.stackAddress
      = some (true, { Example.stackAddress with
          Opcode := MIOpcode.target AArch64.Opcodes.ADD_rri }) ∧
    Example.stackAddress.Operands.length = 2 ∧
    (AArch64.GetTargetInstr (MIOpcode.target AArch64.Opcodes.ADD_rri)).map
        (fun TI => TI.OperandTypes)
      = some [OperandTypes.GPR, OperandTypes.GPR, OperandTypes.UIMM12] ∧
    AArch64.AgreesWithDefinition { Example.stackAddress with
      Opcode := MIOpcode.target AArch64.Opcodes.ADD_rri } = false := by
  decide

/-- Claim C3 (amended): with register operands `a`, `b` and a third operand
`c` that is a register or an immediate in `0..4095`, the instructions selected
by `SelectADD`, `SelectSUB`, `SelectMUL`, `SelectDIV` and `SelectCMP` have as
many operands as the definition table lists classes for the selected opcode,
and every tag matches its class.  The `ADD_rri` selected from an `ADD` with a
global symbol has three operands whose third is not an immediate.  The
`ADD_rri` selected from `STACK_ADDRESS` and the `LDR`/`STR` selected from
two-operand stack loads and stores keep their two operands (register and stack
access), one fewer than the three classes, and agree with the table once
stack-frame lowering has replaced the stack access by the stack pointer and an
immediate. -/
theorem AArch64TargetMachine.selected_operands_and_definition
    (Func : MachineFunction) (A : List (Nat × Nat)) (a b c s g : MachineOperand)
    (Position Size : Nat)
    (ha : a.IsRegLike = true) (hb : b.IsRegLike = true)
    (hc : (c.IsRegLike = true ∧ c.IsImmediate = false) ∨
      (c.IsImmediate = true ∧ 0 ≤ c.GetImmediate ∧ c.GetImmediate < 4096))
    (ha8 : a.LLT.BitWidth ≠ 8)
    (hs : s.IsStackAccess = true) (hg : g.IsGlobalSymbol = true)
    (hpos : Func.GetStackObjectPosition s.GetSlot = some Position)
    (hsize : Func.GetStackObjectSize s.GetSlot = some Size) (hsz1 : Size ≠ 1) :
    (∀ MI : MachineInstruction, MI.Operands = [a, b, c] →
      (∃ MI1, SelectADD MI = some (true, MI1) ∧ AArch64.AgreesWithDefinition MI1 = true) ∧
      (∃ MI1, SelectSUB MI = some (true, MI1) ∧ AArch64.AgreesWithDefinition MI1 = true) ∧
      (∃ MI1, SelectMUL MI = some (true, MI1) ∧ AArch64.AgreesWithDefinition MI1 = true) ∧
      (∃ MI1, SelectDIV MI = some (true, MI1) ∧ AArch64.AgreesWithDefinition MI1 = true) ∧
      (∃ MI1, SelectCMP MI = some (true, MI1) ∧ AArch64.AgreesWithDefinition MI1 = true)) ∧
    (∀ MI : MachineInstruction, MI.Operands = [a, b, g] →
      ∃ MI1, SelectADD MI = some (true, MI1) ∧
        MI1.Opcode = MIOpcode.target AArch64.Opcodes.ADD_rri ∧ MI1.Operands.length = 3 ∧
        (MI1.Operands.get? 2).map (fun MO => MO.IsImmediate) = some false ∧
        AArch64.AgreesWithDefinition MI1 = false) ∧
    (∀ MI : MachineInstruction, MI.Operands = [a, s] →
      ∃ MI1, SelectSTACK_ADDRESS MI = some (true, MI1) ∧
        MI1.Opcode = MIOpcode.target AArch64.Opcodes.ADD_rri ∧ MI1.Operands = [a, s] ∧
        AArch64.AgreesWithDefinition MI1 = false ∧
        ∃ MI2, RunRA.lowerInstr AArch64.TM Func A MI1 = some MI2 ∧
          AArch64.AgreesWithDefinition MI2 = true) ∧
    (∀ MI : MachineInstruction, MI.Operands = [a, s] →
      ∃ MI1, SelectLOAD Func MI = some (true, MI1) ∧
        MI1.Opcode = MIOpcode.target AArch64.Opcodes.LDR ∧ MI1.Operands = [a, s] ∧
        AArch64.AgreesWithDefinition MI1 = false ∧
        ∃ MI2, RunRA.lowerInstr AArch64.TM Func A MI1 = some MI2 ∧
          AArch64.AgreesWithDefinition MI2 = true) ∧
    (∀ MI : MachineInstruction, MI.Operands = [s, a] →
      ∃ MI1, SelectSTORE Func MI = some (true, MI1) ∧
        MI1.Opcode = MIOpcode.target AArch64.Opcodes.STR ∧ MI1.Operands = [s, a] ∧
        AArch64.AgreesWithDefinition MI1 = false ∧
        ∃ MI2, RunRA.lowerInstr AArch64.TM Func A MI1 = some MI2 ∧
          AArch64.AgreesWithDefinition MI2 = true) := by
  obtain ⟨ka1, ka2, ka3, ka4⟩ := MachineOperand.IsRegLike_kinds a ha
  have hcg : c.IsGlobalSymbol = false := by
    rcases hc with ⟨h1, _⟩ | ⟨h1, _, _⟩
    · exact (MachineOperand.IsRegLike_kinds c h1).2.2.1
    · unfold MachineOperand.IsImmediate at h1
      unfold MachineOperand.IsGlobalSymbol
      cases hk : c.Kind <;> simp_all
  have hgi : g.IsImmediate = false := by
    unfold MachineOperand.IsGlobalSymbol at hg
    unfold MachineOperand.IsImmediate
    cases hk : g.Kind <;> simp_all
  have hslot : Func.IsStackSlot s.GetSlot = true := by
    unfold MachineFunction.GetStackObjectSize StackFrame.GetSize at hsize
    unfold MachineFunction.IsStackSlot
    by_contra hcon
    simp [hcon] at hsize
  refine ⟨?_, ?_, ?_, ?_, ?_⟩
  · intro MI hops
    refine ⟨?_, ?_, ?_, ?_, ?_⟩
    · -- ADD
      obtain ⟨h1, h2⟩ := Extend01_three MI a b c hops
      have hlen : MI.GetOperandsNumber = 3 := by simp [MachineInstruction.GetOperandsNumber, hops]
      have hget : (Extend01 MI).GetOperand 2 = some c := by
        simp [MachineInstruction.GetOperand, h1]
      unfold SelectADD
      simp only [hlen, ne_eq, not_true_eq_false, if_false, hget, hcg, Bool.false_eq_true]
      rcases hc with ⟨hc1, hc2⟩ | ⟨hc1, hc2, hc3⟩
      · simp only [hc2, Bool.false_eq_true, if_false]
        refine ⟨_, rfl, ?_⟩
        simp [AArch64.AgreesWithDefinition, MachineInstruction.SetOpcode, h1,
          AArch64.GetTargetInstr, AArch64.Instructions, OperandTypes.MatchAll,
          OperandTypes.Matches, ExtendRegSize_IsRegLike, ha, hb, hc1]
      · have hu : IsUInt12 c.GetImmediate = true := by simp [IsUInt12, hc2, hc3]
        have hneg : ¬ c.GetImmediate < 0 := by omega
        simp only [hc1, hu, hneg, if_true, if_false]
        refine ⟨_, rfl, ?_⟩
        simp [AArch64.AgreesWithDefinition, MachineInstruction.SetOpcode, h1,
          AArch64.GetTargetInstr, AArch64.Instructions, OperandTypes.MatchAll,
          OperandTypes.Matches, ExtendRegSize_IsRegLike, ha, hb, hc1]
    · exact SelectRRIorRRR_agrees _ _ (by decide) (by decide) MI a b c hops ha hb hc
    · exact SelectRRIorRRR_agrees _ _ (by decide) (by decide) MI a b c hops ha hb hc
    · exact SelectRRIorRRR_agrees _ _ (by decide) (by decide) MI a b c hops ha hb hc
    · -- CMP
      obtain ⟨h1, h2⟩ := Extend01_three MI a b c hops
      have hlen : MI.GetOperandsNumber = 3 := by simp [MachineInstruction.GetOperandsNumber, hops]
      have hget : (Extend01 MI).GetOperand 2 = some c := by
        simp [MachineInstruction.GetOperand, h1]
      unfold SelectCMP
      simp only [hlen, ne_eq, not_true_eq_false, if_false, hget]
      rcases hc with ⟨hc1, hc2⟩ | ⟨hc1, hc2, hc3⟩
      · simp only [hc2, Bool.false_eq_true, if_false]
        refine ⟨_, rfl, ?_⟩
        simp [AArch64.AgreesWithDefinition, MachineInstruction.SetOpcode,
          MachineInstruction.RemoveOperand, h1,
          AArch64.GetTargetInstr, AArch64.Instructions, OperandTypes.MatchAll,
          OperandTypes.Matches, ExtendRegSize_IsRegLike, ha, hb, hc1]
      · simp only [hc1, if_true]
        refine ⟨_, rfl, ?_⟩
        simp [AArch64.AgreesWithDefinition, MachineInstruction.SetOpcode,
          MachineInstruction.RemoveOperand, h1,
          AArch64.GetTargetInstr, AArch64.Instructions, OperandTypes.MatchAll,
          OperandTypes.Matches, ExtendRegSize_IsRegLike, ha, hb, hc1]
  · intro MI hops
    obtain ⟨h1, h2⟩ := Extend01_three MI a b g hops
    have hlen : MI.GetOperandsNumber = 3 := by simp [MachineInstruction.GetOperandsNumber, hops]
    have hget : (Extend01 MI).GetOperand 2 = some g := by
      simp [MachineInstruction.GetOperand, h1]
    unfold SelectADD
    simp only [hlen, ne_eq, not_true_eq_false, if_false, hget, hg, if_true]
    refine ⟨_, rfl, rfl, ?_, ?_, ?_⟩
    · simp [MachineInstruction.SetOpcode, h1]
    · simp [MachineInstruction.SetOpcode, h1, hgi]
    · simp [AArch64.AgreesWithDefinition, MachineInstruction.SetOpcode, h1,
        AArch64.GetTargetInstr, AArch64.Instructions, OperandTypes.MatchAll,
        OperandTypes.Matches, hgi]
  · intro MI hops
    have hlen : MI.GetOperandsNumber = 2 := by simp [MachineInstruction.GetOperandsNumber, hops]
    unfold SelectSTACK_ADDRESS
    simp only [hlen, ne_eq, not_true_eq_false, if_false]
    refine ⟨_, rfl, rfl, hops, ?_, ?_⟩
    · simp [AArch64.AgreesWithDefinition, MachineInstruction.SetOpcode, hops,
        AArch64.GetTargetInstr, AArch64.Instructions]
    · refine ⟨_, RunRA.lowerInstr_reg_stack AArch64.TM Func A _ a s Position ha hs hpos
        (Or.inl hops), ?_⟩
      exact AArch64.AgreesWithDefinition_lowered _ AArch64.Opcodes.ADD_rri a _ _ _
        OperandTypes.UIMM12 rfl (by decide) (Or.inl rfl) ha
  · intro MI hops
    have hlen : MI.GetOperandsNumber = 2 := by simp [MachineInstruction.GetOperandsNumber, hops]
    unfold SelectLOAD
    simp only [hlen, ne_eq, not_true_eq_false, false_and, if_false,
      MachineInstruction.GetOperand, hops, List.get?_cons_zero, List.get?_cons_succ]
    simp only [ha8, false_and, if_false, hs, if_true, hsize, hsz1]
    refine ⟨_, rfl, rfl, hops, ?_, ?_⟩
    · simp [AArch64.AgreesWithDefinition, MachineInstruction.SetOpcode, hops,
        AArch64.GetTargetInstr, AArch64.Instructions]
    · refine ⟨_, RunRA.lowerInstr_reg_stack AArch64.TM Func A _ a s Position ha hs hpos
        (Or.inl hops), ?_⟩
      exact AArch64.AgreesWithDefinition_lowered _ AArch64.Opcodes.LDR a _ _ _
        OperandTypes.SIMM12 rfl (by decide) (Or.inr rfl) ha
  · intro MI hops
    have hlen : MI.GetOperandsNumber = 2 := by simp [MachineInstruction.GetOperandsNumber, hops]
    unfold SelectSTORE
    simp only [hlen, ne_eq, not_true_eq_false, false_and, if_false,
      MachineInstruction.GetOperand, hops, List.get?_cons_zero, List.get?_cons_succ]
    simp only [ha8, if_false, hslot, and_self, if_true, hsize, hsz1]
    refine ⟨_, rfl, rfl, hops, ?_, ?_⟩
    · simp [AArch64.AgreesWithDefinition, MachineInstruction.SetOpcode, hops,
        AArch64.GetTargetInstr, AArch64.Instructions]
    · refine ⟨_, RunRA.lowerInstr_reg_stack AArch64.TM Func A _ a s Position ha hs hpos
        (Or.inr hops), ?_⟩
      exact AArch64.AgreesWithDefinition_lowered _ AArch64.Opcodes.STR a _ _ _
        OperandTypes.SIMM12 rfl (by decide) (Or.inr rfl) ha

theorem AArch64TargetMachine.selected_operands_and_definition_witness :
    ((MachineOperand.CreateVirtualRegister 1 32).IsRegLike = true ∧
     (MachineOperand.CreateVirtualRegister 2 32).IsRegLike = true ∧
     (((MachineOperand.CreateImmediate 7 32).IsRegLike = true ∧
        (MachineOperand.CreateImmediate 7 32).IsImmediate = false) ∨
      ((MachineOperand.CreateImmediate 7 32).IsImmediate = true ∧
        0 ≤ (MachineOperand.CreateImmediate 7 32).GetImmediate ∧
        (MachineOperand.CreateImmediate 7 32).GetImmediate < 4096)) ∧
     (MachineOperand.CreateVirtualRegister 1 32).LLT.BitWidth ≠ 8 ∧
     (MachineOperand.CreateStackAccess 5 0).IsStackAccess = true ∧
     (MachineOperand.CreateGlobalSymbol "x").IsGlobalSymbol = true ∧
     Example.loadFunction.GetStackObjectPosition (MachineOperand.CreateStackAccess 5 0).GetSlot
       = some 0 ∧
     Example.loadFunction.GetStackObjectSize (MachineOperand.CreateStackAccess 5 0).GetSlot
       = some 4 ∧
     (4 : Nat) ≠ 1) ∧
    ((∀ MI : MachineInstruction,
      MI.Operands = [MachineOperand.CreateVirtualRegister 1 32,
        MachineOperand.CreateVirtualRegister 2 32, MachineOperand.CreateImmediate 7 32] →
      (∃ MI1, SelectADD MI = some (true, MI1) ∧ AArch64.AgreesWithDefinition MI1 = true) ∧
      (∃ MI1, SelectSUB MI = some (true, MI1) ∧ AArch64.AgreesWithDefinition MI1 = true) ∧
      (∃ MI1, SelectMUL MI = some (true, MI1) ∧ AArch64.AgreesWithDefinition MI1 = true) ∧
      (∃ MI1, SelectDIV MI = some (true, MI1) ∧ AArch64.AgreesWithDefinition MI1 = true) ∧
      (∃ MI1, SelectCMP MI = some (true, MI1) ∧ AArch64.AgreesWithDefinition MI1 = true)) ∧
    (∀ MI : MachineInstruction,
      MI.Operands = [MachineOperand.CreateVirtualRegister 1 32,
        MachineOperand.CreateVirtualRegister 2 32, MachineOperand.CreateGlobalSymbol "x"] →
      ∃ MI1, SelectADD MI = some (true, MI1) ∧
        MI1.Opcode = MIOpcode.target AArch64.Opcodes.ADD_rri ∧ MI1.Operands.length = 3 ∧
        (MI1.Operands.get? 2).map (fun MO => MO.IsImmediate) = some false ∧
        AArch64.AgreesWithDefinition MI1 = false) ∧
    (∀ MI : MachineInstruction,
      MI.Operands = [MachineOperand.CreateVirtualRegister 1 32,
        MachineOperand.CreateStackAccess 5 0] →
      ∃ MI1, SelectSTACK_ADDRESS MI = some (true, MI1) ∧
        MI1.Opcode = MIOpcode.target AArch64.Opcodes.ADD_rri ∧
        MI1.Operands = [MachineOperand.CreateVirtualRegister 1 32,
          MachineOperand.CreateStackAccess 5 0] ∧
        AArch64.AgreesWithDefinition MI1 = false ∧
        ∃ MI2, RunRA.lowerInstr AArch64.TM Example.loadFunction [] MI1 = some MI2 ∧
          AArch64.AgreesWithDefinition MI2 = true) ∧
    (∀ MI : MachineInstruction,
      MI.Operands = [MachineOperand.CreateVirtualRegister 1 32,
        MachineOperand.CreateStackAccess 5 0] →
      ∃ MI1, SelectLOAD Example.loadFunction MI = some (true, MI1) ∧
        MI1.Opcode = MIOpcode.target AArch64.Opcodes.LDR ∧
        MI1.Operands = [MachineOperand.CreateVirtualRegister 1 32,
          MachineOperand.CreateStackAccess 5 0] ∧
        AArch64.AgreesWithDefinition MI1 = false ∧
        ∃ MI2, RunRA.lowerInstr AArch64.TM Example.loadFunction [] MI1 = some MI2 ∧
          AArch64.AgreesWithDefinition MI2 = true) ∧
    (∀ MI : MachineInstruction,
      MI.Operands = [MachineOperand.CreateStackAccess 5 0,
        MachineOperand.CreateVirtualRegister 1 32] →
      ∃ MI1, SelectSTORE Example.loadFunction MI = some (true, MI1) ∧
        MI1.Opcode = MIOpcode.target AArch64.Opcodes.STR ∧
        MI1.Operands = [MachineOperand.CreateStackAccess 5 0,
          MachineOperand.CreateVirtualRegister 1 32] ∧
        AArch64.AgreesWithDefinition MI1 = false ∧
        ∃ MI2, RunRA.lowerInstr AArch64.TM Example.loadFunction [] MI1 = some MI2 ∧
          AArch64.AgreesWithDefinition MI2 = true)) :=
  ⟨⟨by decide, by decide, Or.inr ⟨by decide, by decide, by decide⟩, by decide, by decide,
    by decide, by decide, by decide, by decide⟩,
   AArch64TargetMachine.selected_operands_and_definition Example.loadFunction []
     (MachineOperand.CreateVirtualRegister 1 32) (MachineOperand.CreateVirtualRegister 2 32)
     (MachineOperand.CreateImmediate 7 32) (MachineOperand.CreateStackAccess 5 0)
     (MachineOperand.CreateGlobalSymbol "x") 0 4
     (by decide) (by decide) (Or.inr ⟨by decide, by decide, by decide⟩) (by decide) (by decide)
     (by decide) (by decide) (by decide) (by decide)⟩

end Selection

/-! ### IR to LLIR lowering -/

/-- Claim C5, the code at the failing input: for the constant index -1 and
4-byte elements the byte offset is -4.  On a stack slot the offset of the
stack-access operand is -4; on a global array and on a pointer in a register
the emitted `ADD` carries the immediate 4294967292, the `unsigned` the product
was stored in. -/
theorem ConvertToMachineInstr_GEP_negative_index :
    (ConvertToMachineInstr AArch64.TM Example.gepStackMinusOne [] Example.stateWithSlot).map
        (fun r => (r.1.Opcode, r.1.Operands.map (fun o => (o.Kind, o.Value, o.Offset))))
      = some (MIOpcode.generic OperationCode.STACK_ADDRESS,
          [(MOKind.REGISTER, 10, 0), (MOKind.STACK_ACCESS, 5, -4)]) ∧
    (ConvertToMachineInstr AArch64.TM Example.gepGlobalMinusOne [] Example.stateWithSlot).map
        (fun r => (r.1.Opcode, r.1.Operands.map (fun o => (o.Kind, o.Value, o.Offset))))
      = some (MIOpcode.generic OperationCode.ADD,
          [(MOKind.REGISTER, 10, 0), (MOKind.REGISTER, 10, 0),
           (MOKind.INT_IMMEDIATE, 4294967292, 0)]) ∧
    (ConvertToMachineInstr AArch64.TM Example.gepRegisterMinusOne [] Example.stateWithSlot).map
        (fun r => (r.1.Opcode, r.1.Operands.map (fun o => (o.Kind, o.Value, o.Offset))))
      = some (MIOpcode.generic OperationCode.ADD,
          [(MOKind.REGISTER, 10, 0), (MOKind.REGISTER, 11, 0),
           (MOKind.INT_IMMEDIATE, 4294967292, 0)]) ∧
    (4294967292 : Int) ≠ 4 * (-1) :=
  ⟨by decide, by decide, by decide, by decide⟩

/-! ### Stack-access and memory operands of lowered instructions -/

@[simp]
theorem MachineInstruction.MemOperandCount_AddOperand (MI : MachineInstruction)
    (MO : MachineOperand) :
    (MI.AddOperand MO).MemOperandCount = MI.MemOperandCount + (if MO.IsMemLike then 1 else 0) := by
  unfold MachineInstruction.MemOperandCount MachineInstruction.AddOperand
  simp only [List.filter_append, List.length_append]
  cases h : MO.IsMemLike <;> simp [List.filter, h]

@[simp]
theorem MachineInstruction.MemOperandCount_ofOpcode (c : OperationCode) :
    (MachineInstruction.ofOpcode c).MemOperandCount = 0 := rfl

@[simp]
theorem MachineOperand.IsMemLike_CreateVirtualRegister (r w : Nat) :
    (MachineOperand.CreateVirtualRegister r w).IsMemLike = false := rfl

@[simp]
theorem MachineOperand.IsMemLike_CreateRegister (r w : Nat) :
    (MachineOperand.CreateRegister r w).IsMemLike = false := rfl

@[simp]
theorem MachineOperand.IsMemLike_CreateImmediate (v : Int) (w : Nat) :
    (MachineOperand.CreateImmediate v w).IsMemLike = false := rfl

@[simp]
theorem MachineOperand.IsMemLike_CreateStackAccess (s : Nat) (o : Int) :
    (MachineOperand.CreateStackAccess s o).IsMemLike = true := rfl

@[simp]
theorem MachineOperand.IsMemLike_CreateMemory (s w : Nat) :
    (MachineOperand.CreateMemory s w).IsMemLike = true := rfl

@[simp]
theorem MachineOperand.IsMemLike_CreateGlobalSymbol (L : String) :
    (MachineOperand.CreateGlobalSymbol L).IsMemLike = false := rfl

@[simp]
theorem MachineOperand.IsMemLike_CreateFunctionName (L : String) :
    (MachineOperand.CreateFunctionName L).IsMemLike = false := rfl

@[simp]
theorem MachineOperand.IsMemLike_CreateLabel (L : String) :
    (MachineOperand.CreateLabel L).IsMemLike = false := rfl

@[simp]
theorem MachineOperand.IsMemLike_SetOffset (MO : MachineOperand) (o : Int) :
    (MO.SetOffset o).IsMemLike = MO.IsMemLike := rfl

@[simp]
theorem MachineOperand.IsMemLike_SetType (MO : MachineOperand) (t : LowLevelType) :
    (MO.SetType t).IsMemLike = MO.IsMemLike := rfl

theorem LLIRState.Extends.refl (S : LLIRState) : S.Extends S :=
  ⟨[], by simp [LLIRState.InsertedSince], by simp⟩

theorem LLIRState.Extends.trans {S S1 S2 : LLIRState} (h1 : S.Extends S1) (h2 : S1.Extends S2) :
    S.Extends S2 := by
  obtain ⟨N1, e1, p1⟩ := h1
  obtain ⟨N2, e2, p2⟩ := h2
  refine ⟨N1 ++ N2, ?_, ?_⟩
  · unfold LLIRState.InsertedSince at *
    rw [e2, e1, List.append_assoc]
  · intro I hI
    rcases List.mem_append.mp hI with h | h
    · exact p1 I h
    · exact p2 I h

theorem LLIRState.Extends.insert (S : LLIRState) (MI : MachineInstruction)
    (h : MI.MemOperandCount ≤ 1) : S.Extends (S.InsertInstr MI) :=
  ⟨[MI], rfl, by simpa using h⟩

theorem LLIRState.Extends.of_inserted_eq {S S1 : LLIRState} (h : S1.Inserted = S.Inserted) :
    S.Extends S1 :=
  ⟨[], by simp [LLIRState.InsertedSince, h], by simp⟩

/-- Operand conversion inserts at most a `LOAD` with one stack access and
returns a register, parameter or immediate operand. -/
theorem GetMachineOperandFromValue_spec (TM : TargetMachine) (Val : Value) (IsDef : Bool)
    (S S1 : LLIRState) (MO : MachineOperand)
    (h : GetMachineOperandFromValue TM Val IsDef S = some (MO, S1)) :
    S.Extends S1 ∧ MO.IsMemLike = false := by
  unfold GetMachineOperandFromValue at h
  have hload : ∀ (w Slot : Nat), S.Extends
      ((S.GetNextAvailableVReg).2.InsertInstr
        (((MachineInstruction.ofOpcode OperationCode.LOAD).AddVirtualRegister
          (S.GetNextAvailableVReg).1 w).AddStackAccess Slot 4)) := by
    intro w Slot
    refine ⟨[_], rfl, ?_⟩
    intro I hI
    simp only [List.mem_singleton] at hI
    subst hI
    simp [MachineInstruction.AddStackAccess, MachineInstruction.AddVirtualRegister,
      MachineInstruction.MemOperandCount_AddOperand, MachineInstruction.MemOperandCount_ofOpcode,
      MachineOperand.IsMemLike_CreateVirtualRegister, MachineOperand.IsMemLike_CreateStackAccess]
  cases hk : Val.Kind <;> simp only [hk] at h
  · exact absurd h (by simp)
  · -- register
    have hext : S.Extends S1 ∧ MO.IsMemLike = false := by
      split at h <;> simp only [Option.some.injEq, Prod.mk.injEq] at h <;>
        obtain ⟨h1, h2⟩ := h <;> subst h1 h2 <;> refine ⟨?_, rfl⟩ <;>
        (split
         · exact hload _ _
         · split
           · split
             · exact hload _ _
             · exact LLIRState.Extends.refl _
           · exact LLIRState.Extends.of_inserted_eq rfl)
    exact hext
  · split at h <;> simp only [Option.some.injEq, Prod.mk.injEq] at h <;>
      obtain ⟨h1, h2⟩ := h <;> subst h1 h2 <;> exact ⟨LLIRState.Extends.refl _, rfl⟩
  · split at h
    · exact absurd h (by simp)
    · simp only [Option.some.injEq, Prod.mk.injEq] at h
      obtain ⟨h1, h2⟩ := h
      subst h1 h2
      exact ⟨LLIRState.Extends.refl _, rfl⟩
  · exact absurd h (by simp)

@[simp]
theorem MachineInstruction.MemOperandCount_AddAttribute (MI : MachineInstruction) (f : Nat) :
    (MI.AddAttribute f).MemOperandCount = MI.MemOperandCount := rfl

@[simp]
theorem MachineInstruction.MemOperandCount_SetOpcode (MI : MachineInstruction) (c : MIOpcode) :
    (MI.SetOpcode c).MemOperandCount = MI.MemOperandCount := rfl

@[simp]
theorem MachineInstruction.MemOperandCount_SetAttributes (MI : MachineInstruction)
    (r : CMPRelation) : (MI.SetAttributes r).MemOperandCount = MI.MemOperandCount := rfl

@[simp]
theorem MachineInstruction.MemOperandCount_AddVirtualRegister (MI : MachineInstruction)
    (r w : Nat) : (MI.AddVirtualRegister r w).MemOperandCount = MI.MemOperandCount := by
  simp [MachineInstruction.AddVirtualRegister]

@[simp]
theorem MachineInstruction.MemOperandCount_AddRegister (MI : MachineInstruction)
    (r w : Nat) : (MI.AddRegister r w).MemOperandCount = MI.MemOperandCount := by
  simp [MachineInstruction.AddRegister]

@[simp]
theorem MachineInstruction.MemOperandCount_AddImmediate (MI : MachineInstruction)
    (v : Int) (w : Nat) : (MI.AddImmediate v w).MemOperandCount = MI.MemOperandCount := by
  simp [MachineInstruction.AddImmediate]

@[simp]
theorem MachineInstruction.MemOperandCount_AddGlobalSymbol (MI : MachineInstruction)
    (L : String) : (MI.AddGlobalSymbol L).MemOperandCount = MI.MemOperandCount := by
  simp [MachineInstruction.AddGlobalSymbol]

@[simp]
theorem MachineInstruction.MemOperandCount_AddFunctionName (MI : MachineInstruction)
    (L : String) : (MI.AddFunctionName L).MemOperandCount = MI.MemOperandCount := by
  simp [MachineInstruction.AddFunctionName]

@[simp]
theorem MachineInstruction.MemOperandCount_AddLabel (MI : MachineInstruction)
    (L : String) : (MI.AddLabel L).MemOperandCount = MI.MemOperandCount := by
  simp [MachineInstruction.AddLabel]

@[simp]
theorem MachineInstruction.MemOperandCount_AddStackAccess (MI : MachineInstruction)
    (s n : Nat) : (MI.AddStackAccess s n).MemOperandCount = MI.MemOperandCount + 1 := by
  simp [MachineInstruction.AddStackAccess]

@[simp]
theorem MachineInstruction.MemOperandCount_AddMemory (MI : MachineInstruction)
    (s n : Nat) : (MI.AddMemory s n).MemOperandCount = MI.MemOperandCount + 1 := by
  simp [MachineInstruction.AddMemory]

@[simp]
theorem MachineInstruction.MemOperandCount_default :
    ({} : MachineInstruction).MemOperandCount = 0 := rfl

theorem List.filter_modify_length (p : MachineOperand → Bool) (f : MachineOperand → MachineOperand)
    (hf : ∀ o, p (f o) = p o) (l : List MachineOperand) :
    ∀ i : Nat, ((l.take i ++ (match l.get? i with
        | some MO => [f MO]
        | none => []) ++ l.drop (i + 1)).filter p).length = (l.filter p).length := by
  induction l with
  | nil => intro i; simp
  | cons a rest ih =>
    intro i
    cases i with
    | zero =>
      simp only [List.take_zero, List.get?_cons_zero, List.nil_append, List.drop_succ_cons,
        List.drop_zero, List.singleton_append, List.filter_cons, hf]
      split <;> simp
    | succ n =>
      have := ih n
      simp only [List.take_succ_cons, List.get?_cons_succ, List.drop_succ_cons, List.cons_append,
        List.filter_cons]
      split <;> simp_all

@[simp]
theorem MachineInstruction.MemOperandCount_SetOffsetAt (MI : MachineInstruction) (i : Nat)
    (o : Int) : (MI.SetOffsetAt i o).MemOperandCount = MI.MemOperandCount := by
  unfold MachineInstruction.SetOffsetAt MachineInstruction.ModifyOperand
    MachineInstruction.MemOperandCount
  exact List.filter_modify_length MachineOperand.IsMemLike (fun MO => MO.SetOffset o)
    (fun _ => rfl) MI.Operands i

theorem LowerAddress_extends (TM : TargetMachine) (Loc : Value) (S : LLIRState) :
    S.Extends (LowerAddress TM Loc S).2 := by
  unfold LowerAddress
  split
  · exact LLIRState.Extends.insert _ _ (by simp)
  · exact LLIRState.Extends.refl _

@[simp]
theorem AddAddressOperand_count (TM : TargetMachine) (S : LLIRState) (MI : MachineInstruction)
    (r : Nat) : (AddAddressOperand TM S MI r).MemOperandCount = MI.MemOperandCount + 1 := by
  unfold AddAddressOperand
  split <;> simp

theorem StoreStructParam_spec (AddressReg RegSize Total : Nat) (Regs : List Nat) :
    ∀ (Counter : Nat) (S : LLIRState) (Cur : MachineInstruction), Cur.MemOperandCount ≤ 1 →
      S.Extends (StoreStructParam AddressReg RegSize Total Regs Counter S Cur).2 ∧
      (StoreStructParam AddressReg RegSize Total Regs Counter S Cur).1.MemOperandCount ≤ 1 := by
  induction Regs with
  | nil => intro Counter S Cur h; exact ⟨LLIRState.Extends.refl _, h⟩
  | cons r rest ih =>
    intro Counter S Cur _
    simp only [StoreStructParam]
    have hc : (((MachineInstruction.ofOpcode OperationCode.STORE).AddStackAccess
        AddressReg (Counter * RegSize / 8)).AddVirtualRegister r RegSize).MemOperandCount ≤ 1 := by
      simp
    obtain ⟨h1, h2⟩ := ih (Counter + 1)
      (if Counter + 1 < Total then S.InsertInstr
        (((MachineInstruction.ofOpcode OperationCode.STORE).AddStackAccess
          AddressReg (Counter * RegSize / 8)).AddVirtualRegister r RegSize) else S) _ hc
    refine ⟨LLIRState.Extends.trans ?_ h1, h2⟩
    split
    · exact LLIRState.Extends.insert _ _ hc
    · exact LLIRState.Extends.refl _

theorem StoreStructRet_spec (TM : TargetMachine) (AddressReg RegsCount : Nat) (Remaining : Nat) :
    ∀ (i : Nat) (S S1 : LLIRState) (R : Option MachineInstruction),
      StoreStructRet TM AddressReg RegsCount Remaining i S = some (R, S1) →
      S.Extends S1 ∧ ∀ MI ∈ R, MI.MemOperandCount ≤ 1 := by
  induction Remaining with
  | zero =>
    intro i S S1 R h
    simp only [StoreStructRet, Option.some.injEq, Prod.mk.injEq] at h
    obtain ⟨h1, h2⟩ := h
    subst h1 h2
    exact ⟨LLIRState.Extends.refl _, by simp⟩
  | succ n ih =>
    intro i S S1 R h
    simp only [StoreStructRet] at h
    split at h
    · exact absurd h (by simp)
    · rename_i RetReg _
      have hc : (((MachineInstruction.ofOpcode OperationCode.STORE).AddStackAccess
          AddressReg ((TM.PointerSize / 8) * i)).AddRegister RetReg TM.PointerSize).MemOperandCount
          ≤ 1 := by simp
      split at h
      · simp only [Option.some.injEq, Prod.mk.injEq] at h
        obtain ⟨h1, h2⟩ := h
        subst h1 h2
        refine ⟨LLIRState.Extends.refl _, ?_⟩
        intro MI hMI
        simp only [Option.mem_def, Option.some.injEq] at hMI
        subst hMI
        exact hc
      · obtain ⟨h1, h2⟩ := ih _ _ _ _ h
        exact ⟨LLIRState.Extends.trans (LLIRState.Extends.insert _ _ hc) h1, h2⟩

/-- Store lowering. -/
theorem ConvertStore_spec (TM : TargetMachine) (Loc Saved : Value) (S S1 : LLIRState)
    (MI : MachineInstruction) (h : ConvertStore TM Loc Saved S = some (MI, S1)) :
    S.Extends S1 ∧ MI.MemOperandCount ≤ 1 := by
  unfold ConvertStore at h
  dsimp only at h
  split at h
  · exact absurd h (by simp)
  · have hA := LowerAddress_extends TM Loc S
    split at h
    · split at h
      · split at h
        · exact absurd h (by simp)
        · simp only [Option.some.injEq] at h
          obtain ⟨h1, h2⟩ := StoreStructParam_spec (LowerAddress TM Loc S).1 TM.PointerSize
            (((LowerAddress TM Loc S).2.StructToRegMap.lookup Saved.Name).getD []).length
            (((LowerAddress TM Loc S).2.StructToRegMap.lookup Saved.Name).getD []) 0
            (LowerAddress TM Loc S).2 {} (by simp)
          rw [h] at h1 h2
          exact ⟨LLIRState.Extends.trans hA h1, h2⟩
      · split at h
        · exact absurd h (by simp)
        · split at h
          · exact absurd h (by simp)
          · rename_i Store S2 hs
            simp only [Option.some.injEq, Prod.mk.injEq] at h
            obtain ⟨h1, h2⟩ := h
            subst h1 h2
            obtain ⟨h3, h4⟩ := StoreStructRet_spec TM _ _ _ _ _ _ _ hs
            exact ⟨LLIRState.Extends.trans hA h3, h4 _ rfl⟩
          · rename_i S2 hs
            simp only [Option.some.injEq, Prod.mk.injEq] at h
            obtain ⟨h1, h2⟩ := h
            subst h1 h2
            obtain ⟨h3, _⟩ := StoreStructRet_spec TM _ _ _ _ _ _ _ hs
            exact ⟨LLIRState.Extends.trans hA h3, by simp⟩
    · split at h
      · exact absurd h (by simp)
      · rename_i MO S2 hg
        simp only [Option.some.injEq, Prod.mk.injEq] at h
        obtain ⟨h1, h2⟩ := h
        subst h1 h2
        obtain ⟨h3, h4⟩ := GetMachineOperandFromValue_spec TM _ _ _ _ _ hg
        exact ⟨LLIRState.Extends.trans hA h3, by simp [h4]⟩

theorem LoadStruct_spec (ID AddressReg RegSize RegsCount : Nat) (Remaining : Nat) :
    ∀ (i : Nat) (S : LLIRState),
      S.Extends (LoadStruct ID AddressReg RegSize RegsCount Remaining i S).2 ∧
      ∀ MI ∈ (LoadStruct ID AddressReg RegSize RegsCount Remaining i S).1,
        MI.MemOperandCount ≤ 1 := by
  induction Remaining with
  | zero => intro i S; exact ⟨LLIRState.Extends.refl _, by simp [LoadStruct]⟩
  | succ n ih =>
    intro i S
    simp only [LoadStruct]
    have hc : ∀ v : Nat, (((MachineInstruction.ofOpcode OperationCode.LOAD).AddVirtualRegister
        v RegSize).AddStackAccess AddressReg (i * RegSize / 8)).MemOperandCount ≤ 1 := by
      intro v; simp
    split
    · refine ⟨LLIRState.Extends.trans ?_ (ih _ _).1, (ih _ _).2⟩
      exact ⟨[_], rfl, by intro I hI; simp only [List.mem_singleton] at hI; subst hI; exact hc _⟩
    · refine ⟨LLIRState.Extends.of_inserted_eq rfl, ?_⟩
      intro MI hMI
      simp only [Option.mem_def, Option.some.injEq] at hMI
      subst hMI
      exact hc _

/-- Load lowering. -/
theorem ConvertLoad_spec (TM : TargetMachine) (Res Loc : Value) (S S1 : LLIRState)
    (MI : MachineInstruction) (h : ConvertLoad TM Res Loc S = some (MI, S1)) :
    S.Extends S1 ∧ MI.MemOperandCount ≤ 1 := by
  unfold ConvertLoad at h
  dsimp only at h
  split at h
  · exact absurd h (by simp)
  · have hA := LowerAddress_extends TM Loc S
    split at h
    · exact absurd h (by simp)
    · rename_i Dest S2 hg
      obtain ⟨h3, h4⟩ := GetMachineOperandFromValue_spec TM _ _ _ _ _ hg
      have hres : (AddAddressOperand TM S2
          (((MachineInstruction.ofOpcode OperationCode.LOAD).AddAttribute
            MachineInstruction.IS_LOAD).AddOperand Dest) (LowerAddress TM Loc S).1).MemOperandCount
          ≤ 1 := by simp [h4]
      split at h
      · obtain ⟨h5, h6⟩ := LoadStruct_spec Res.ID (LowerAddress TM Loc S).1 TM.PointerSize
          (GetNextAlignedValue (Res.Ty.ByteSize * 8) TM.PointerSize / TM.PointerSize)
          (GetNextAlignedValue (Res.Ty.ByteSize * 8) TM.PointerSize / TM.PointerSize) 0 S2
        split at h
        · rename_i CurrentLoad S3 hl
          simp only [Option.some.injEq, Prod.mk.injEq] at h
          obtain ⟨h1, h2⟩ := h
          subst h1 h2
          rw [hl] at h5 h6
          exact ⟨(hA.trans h3).trans h5, h6 _ rfl⟩
        · rename_i S3 hl
          simp only [Option.some.injEq, Prod.mk.injEq] at h
          obtain ⟨h1, h2⟩ := h
          subst h1 h2
          rw [hl] at h5
          exact ⟨(hA.trans h3).trans h5, hres⟩
      · simp only [Option.some.injEq, Prod.mk.injEq] at h
        obtain ⟨h1, h2⟩ := h
        subst h1 h2
        exact ⟨hA.trans h3, hres⟩

theorem LLIRState.Extends.fresh_insert (S : LLIRState) (MI : MachineInstruction)
    (h : MI.MemOperandCount ≤ 1) : S.Extends ((S.GetNextAvailableVReg).2.InsertInstr MI) :=
  ⟨[MI], rfl, by simpa using h⟩

theorem GEPIndexInReg_extends (TM : TargetMachine) (Multiplier : Nat) (IndexReg : MachineOperand)
    (S : LLIRState) (hI : IndexReg.IsMemLike = false) :
    S.Extends (GEPIndexInReg TM Multiplier IndexReg S).2 := by
  unfold GEPIndexInReg
  dsimp only
  split
  · apply LLIRState.Extends.fresh_insert
    split <;> simp [hI]
  · split
    · exact ((LLIRState.Extends.fresh_insert _ _ (by simp)).trans
        (LLIRState.Extends.fresh_insert _ _ (by simp [hI]))).trans
        (LLIRState.Extends.fresh_insert _ _ (by simp))
    · exact (LLIRState.Extends.fresh_insert _ _ (by simp)).trans
        (LLIRState.Extends.fresh_insert _ _ (by simp [hI]))

theorem GEPFinalADD_spec (TM : TargetMachine) (Source : Value) (Dest : MachineOperand)
    (IsReg : Bool) (Third : MachineInstruction → MachineInstruction) (S S1 : LLIRState)
    (MI : MachineInstruction) (hD : Dest.IsMemLike = false)
    (hT : ∀ M : MachineInstruction, (Third M).MemOperandCount = M.MemOperandCount)
    (h : GEPFinalADD TM Source Dest IsReg Third S = some (MI, S1)) :
    S.Extends S1 ∧ MI.MemOperandCount ≤ 1 := by
  unfold GEPFinalADD at h
  dsimp only at h
  split at h
  · split at h
    · exact absurd h (by simp)
    · rename_i Src S2 hg
      simp only [Option.some.injEq, Prod.mk.injEq] at h
      obtain ⟨h1, h2⟩ := h
      subst h1 h2
      obtain ⟨h3, h4⟩ := GetMachineOperandFromValue_spec TM _ _ _ _ _ hg
      exact ⟨h3, by simp [hT, hD, h4]⟩
  · simp only [Option.some.injEq, Prod.mk.injEq] at h
    obtain ⟨h1, h2⟩ := h
    subst h1 h2
    exact ⟨LLIRState.Extends.refl _, by simp [hT, hD]⟩

theorem ConvertGEP_tail (TM : TargetMachine) (Source Index : Value) (Dest IndexReg : MachineOperand)
    (IsStack IsReg : Bool) (Goal : MachineInstruction) (S2 S1 : LLIRState)
    (MI : MachineInstruction) (hD : Dest.IsMemLike = false) (hIdx : IndexReg.IsMemLike = false)
    (hG : Goal.MemOperandCount ≤ 1)
    (h : (if Index.IsConstant = true then
        if ConstantIndexPart Source.Ty Index.IntValue = 0 ∧ Goal.IsInvalid = false then
          some (Goal, S2)
        else if IsStack = true then
          some (Goal.SetOffsetAt 1 (toInt32 (ConstantIndexPart Source.Ty Index.IntValue)), S2)
        else
          GEPFinalADD TM Source Dest IsReg
            (fun ADD => ADD.AddImmediate (ConstantIndexPart Source.Ty Index.IntValue : Int)
              Dest.GetSize)
            (if Goal.IsInvalid = true then S2 else S2.InsertInstr Goal)
      else
        if Source.Ty.IsStruct = true then none
        else
          GEPFinalADD TM Source Dest IsReg
            (fun ADD => ADD.AddVirtualRegister
              (GEPIndexInReg TM Source.Ty.ElemSize IndexReg
                (if Goal.IsInvalid = true then S2 else S2.InsertInstr Goal)).1 TM.PointerSize)
            (GEPIndexInReg TM Source.Ty.ElemSize IndexReg
              (if Goal.IsInvalid = true then S2 else S2.InsertInstr Goal)).2) = some (MI, S1)) :
    S2.Extends S1 ∧ MI.MemOperandCount ≤ 1 := by
  have hS3 : S2.Extends (if Goal.IsInvalid = true then S2 else S2.InsertInstr Goal) := by
    split
    · exact LLIRState.Extends.refl _
    · exact LLIRState.Extends.insert _ _ hG
  by_cases hc : Index.IsConstant = true
  · rw [if_pos hc] at h
    by_cases hp : ConstantIndexPart Source.Ty Index.IntValue = 0 ∧ Goal.IsInvalid = false
    · rw [if_pos hp] at h
      simp only [Option.some.injEq, Prod.mk.injEq] at h
      obtain ⟨h1, h2⟩ := h
      subst h1 h2
      exact ⟨LLIRState.Extends.refl _, hG⟩
    · rw [if_neg hp] at h
      by_cases hs : IsStack = true
      · rw [if_pos hs] at h
        simp only [Option.some.injEq, Prod.mk.injEq] at h
        obtain ⟨h1, h2⟩ := h
        subst h1 h2
        exact ⟨LLIRState.Extends.refl _, by simpa using hG⟩
      · rw [if_neg hs] at h
        obtain ⟨e3, hc3⟩ := GEPFinalADD_spec TM Source Dest _ _ _ _ _ hD (by intro M; simp) h
        exact ⟨hS3.trans e3, hc3⟩
  · rw [if_neg hc] at h
    by_cases hst : Source.Ty.IsStruct = true
    · rw [if_pos hst] at h
      exact absurd h (by simp)
    · rw [if_neg hst] at h
      obtain ⟨e3, hc3⟩ := GEPFinalADD_spec TM Source Dest _ _ _ _ _ hD (by intro M; simp) h
      exact ⟨(hS3.trans (GEPIndexInReg_extends TM _ _ _ hIdx)).trans e3, hc3⟩

/-- GEP lowering. -/
theorem ConvertGEP_spec (TM : TargetMachine) (Res Source Index : Value) (S S1 : LLIRState)
    (MI : MachineInstruction) (h : ConvertGEP TM Res Source Index S = some (MI, S1)) :
    S.Extends S1 ∧ MI.MemOperandCount ≤ 1 := by
  unfold ConvertGEP at h
  dsimp only at h
  cases hg : GetMachineOperandFromValue TM Res false S with
  | none => rw [hg] at h; exact absurd h (by simp)
  | some R =>
    obtain ⟨Dest, S2⟩ := R
    rw [hg] at h
    dsimp only at h
    obtain ⟨e1, hD⟩ := GetMachineOperandFromValue_spec TM _ _ _ _ _ hg
    cases hg2 : GetMachineOperandFromValue TM Index false S2 with
    | none => rw [hg2] at h; exact absurd h (by simp)
    | some R2 =>
      obtain ⟨IndexReg, S3⟩ := R2
      rw [hg2] at h
      dsimp only at h
      obtain ⟨e2, hIdx⟩ := GetMachineOperandFromValue_spec TM _ _ _ _ _ hg2
      have hG : (if Source.IsGlobalVar = true then
            ((MachineInstruction.ofOpcode OperationCode.GLOBAL_ADDRESS).AddOperand
              Dest).AddGlobalSymbol Source.Name
          else if S.MF.IsStackSlot (GetIDFromValue S Source) = true then
            ((MachineInstruction.ofOpcode OperationCode.STACK_ADDRESS).AddOperand
              Dest).AddStackAccess (GetIDFromValue S Source) 4
          else ({} : MachineInstruction).AddOperand Dest).MemOperandCount ≤ 1 := by
        split
        · simp [hD]
        · split <;> simp [hD]
      obtain ⟨e3, hc⟩ := ConvertGEP_tail TM Source Index Dest IndexReg
        (S.MF.IsStackSlot (GetIDFromValue S Source))
        (!Source.IsGlobalVar && !S.MF.IsStackSlot (GetIDFromValue S Source)) _ S3 S1 MI hD hIdx hG
        (by
          by_cases hgl : Source.IsGlobalVar = true
          · simp only [hgl, if_true] at h ⊢
            exact h
          · by_cases hsl : S.MF.IsStackSlot (GetIDFromValue S Source) = true
            · simp only [hgl, hsl, if_true, if_false] at h ⊢
              exact h
            · simp only [hgl, hsl, if_false] at h ⊢
              exact h)
      exact ⟨(e1.trans e2).trans e3, hc⟩

theorem CallStructArg_spec (TM : TargetMachine) (Regs : List Nat) :
    ∀ (c : Nat) (S S1 : LLIRState) (c1 : Nat),
      CallStructArg TM Regs c S = some (c1, S1) → S.Extends S1 := by
  induction Regs with
  | nil =>
    intro c S S1 c1 h
    simp only [CallStructArg, Option.some.injEq, Prod.mk.injEq] at h
    obtain ⟨_, h2⟩ := h
    subst h2
    exact LLIRState.Extends.refl _
  | cons r rest ih =>
    intro c S S1 c1 h
    simp only [CallStructArg] at h
    split at h
    · exact absurd h (by simp)
    · exact (LLIRState.Extends.insert _ _ (by simp)).trans (ih _ _ _ _ h)

theorem CallArgs_spec (TM : TargetMachine) (Args : List Value) :
    ∀ (c : Nat) (S S1 : LLIRState) (c1 : Nat),
      CallArgs TM Args c S = some (c1, S1) → S.Extends S1 := by
  induction Args with
  | nil =>
    intro c S S1 c1 h
    simp only [CallArgs, Option.some.injEq, Prod.mk.injEq] at h
    obtain ⟨_, h2⟩ := h
    subst h2
    exact LLIRState.Extends.refl _
  | cons P rest ih =>
    intro c S S1 c1 h
    simp only [CallArgs] at h
    split at h
    · split at h
      · exact absurd h (by simp)
      · split at h
        · exact absurd h (by simp)
        · rename_i c2 S2 hs
          exact (CallStructArg_spec TM _ _ _ _ _ hs).trans (ih _ _ _ _ h)
    · split at h
      · exact absurd h (by simp)
      · split at h
        · split at h
          · exact (LLIRState.Extends.insert _ _ (by simp)).trans (ih _ _ _ _ h)
          · exact (LLIRState.Extends.insert _ _ (by simp)).trans (ih _ _ _ _ h)
        · split at h
          · exact absurd h (by simp)
          · rename_i Src S2 hg
            obtain ⟨e1, hS⟩ := GetMachineOperandFromValue_spec TM _ _ _ _ _ hg
            split at h
            · split at h
              · exact absurd h (by simp)
              · exact (e1.trans (LLIRState.Extends.insert _ _ (by simp [hS]))).trans
                  (ih _ _ _ _ h)
            · exact (e1.trans (LLIRState.Extends.insert _ _ (by simp [hS]))).trans
                (ih _ _ _ _ h)

theorem CallSpill_spec (TM : TargetMachine) (ID RegsCount : Nat) (Remaining : Nat) :
    ∀ (i B : Nat) (S S1 : LLIRState) (R : Option MachineInstruction),
      CallSpill TM ID RegsCount Remaining i B S = some (R, S1) →
      S.Extends S1 ∧ ∀ MI ∈ R, MI.MemOperandCount ≤ 1 := by
  induction Remaining with
  | zero =>
    intro i B S S1 R h
    simp only [CallSpill, Option.some.injEq, Prod.mk.injEq] at h
    obtain ⟨h1, h2⟩ := h
    subst h1 h2
    exact ⟨LLIRState.Extends.refl _, by simp⟩
  | succ n ih =>
    intro i B S S1 R h
    simp only [CallSpill] at h
    split at h
    · exact absurd h (by simp)
    · split at h
      · exact absurd h (by simp)
      · split at h
        · exact absurd h (by simp)
        · rename_i MF1 _ RetReg _ _ Reg _
          have hc : (((MachineInstruction.ofOpcode OperationCode.STORE).AddStackAccess
              (S.GetNextAvailableVReg).1 4).AddRegister Reg
                (min B TM.PointerSize)).MemOperandCount ≤ 1 := by simp
          split at h
          · simp only [Option.some.injEq, Prod.mk.injEq] at h
            obtain ⟨h1, h2⟩ := h
            subst h1 h2
            refine ⟨LLIRState.Extends.of_inserted_eq rfl, ?_⟩
            intro MI hMI
            simp only [Option.mem_def, Option.some.injEq] at hMI
            subst hMI
            exact hc
          · obtain ⟨h1, h2⟩ := ih _ _ _ _ _ h
            refine ⟨LLIRState.Extends.trans ?_ h1, h2⟩
            exact ⟨[_], rfl, by
              intro I hI; simp only [List.mem_singleton] at hI; subst hI; exact hc⟩

/-- Call lowering. -/
theorem ConvertCall_spec (TM : TargetMachine) (Res : Value) (Name : String) (Args : List Value)
    (S S1 : LLIRState) (MI : MachineInstruction)
    (h : ConvertCall TM Res Name Args S = some (MI, S1)) :
    S.Extends S1 ∧ MI.MemOperandCount ≤ 1 := by
  unfold ConvertCall at h
  dsimp only at h
  have e0 : S.Extends { S with MF := { S.MF with HasCall := true } } :=
    LLIRState.Extends.of_inserted_eq rfl
  split at h
  · exact absurd h (by simp)
  · rename_i c S2 hs
    have e1 := CallArgs_spec TM _ _ _ _ _ hs
    split at h
    · simp only [Option.some.injEq, Prod.mk.injEq] at h
      obtain ⟨h1, h2⟩ := h
      subst h1 h2
      exact ⟨e0.trans e1, by simp⟩
    · split at h
      · exact absurd h (by simp)
      · have e2 : S2.Extends (S2.InsertInstr
            ((MachineInstruction.ofOpcode OperationCode.CALL).AddFunctionName Name)) :=
          LLIRState.Extends.insert _ _ (by simp)
        split at h
        · exact absurd h (by simp)
        · rename_i Store S3 hp
          simp only [Option.some.injEq, Prod.mk.injEq] at h
          obtain ⟨h1, h2⟩ := h
          subst h1 h2
          obtain ⟨e3, hc⟩ := CallSpill_spec TM _ _ _ _ _ _ _ _ hp
          exact ⟨((e0.trans e1).trans e2).trans e3, hc _ rfl⟩
        · rename_i S3 hp
          simp only [Option.some.injEq, Prod.mk.injEq] at h
          obtain ⟨h1, h2⟩ := h
          subst h1 h2
          obtain ⟨e3, _⟩ := CallSpill_spec TM _ _ _ _ _ _ _ _ hp
          exact ⟨((e0.trans e1).trans e2).trans e3, by simp⟩

theorem ReturnStruct_spec (TM : TargetMachine) (RetId : Nat) (Remaining : Nat) :
    ∀ (i : Nat) (S S1 : LLIRState),
      ReturnStruct TM RetId Remaining i S = some S1 → S.Extends S1 := by
  induction Remaining with
  | zero =>
    intro i S S1 h
    simp only [ReturnStruct, Option.some.injEq] at h
    subst h
    exact LLIRState.Extends.refl _
  | succ n ih =>
    intro i S S1 h
    simp only [ReturnStruct] at h
    split at h
    · exact absurd h (by simp)
    · exact (LLIRState.Extends.insert _ _ (by simp)).trans (ih _ _ _ h)

/-- Return lowering. -/
theorem ConvertReturn_spec (TM : TargetMachine) (RetVal : Option Value)
    (S S1 : LLIRState) (MI : MachineInstruction)
    (h : ConvertReturn TM RetVal S = some (MI, S1)) :
    S.Extends S1 ∧ MI.MemOperandCount ≤ 1 := by
  unfold ConvertReturn at h
  dsimp only at h
  cases RetVal with
  | none =>
    simp only [Option.some.injEq, Prod.mk.injEq] at h
    obtain ⟨h1, h2⟩ := h
    subst h1 h2
    exact ⟨LLIRState.Extends.refl _, by simp⟩
  | some V =>
    dsimp only at h
    cases hg : GetMachineOperandFromValue TM V false S with
    | none => rw [hg] at h; exact absurd h (by simp)
    | some R =>
      obtain ⟨Result, S2⟩ := R
      rw [hg] at h
      dsimp only at h
      obtain ⟨e1, hR⟩ := GetMachineOperandFromValue_spec TM _ _ _ _ _ hg
      have hc : ((MachineInstruction.ofOpcode OperationCode.RET).AddOperand
          Result).MemOperandCount ≤ 1 := by simp [hR]
      split at h
      · split at h
        · exact absurd h (by simp)
        · rename_i S3 hr
          simp only [Option.some.injEq, Prod.mk.injEq] at h
          obtain ⟨h1, h2⟩ := h
          subst h1 h2
          exact ⟨e1.trans (ReturnStruct_spec TM _ _ _ _ _ hr), hc⟩
      · split at h
        · split at h
          · exact absurd h (by simp)
          · split at h
            · exact absurd h (by simp)
            · rename_i Imm S3 hg2
              simp only [Option.some.injEq, Prod.mk.injEq] at h
              obtain ⟨h1, h2⟩ := h
              subst h1 h2
              obtain ⟨e2, hI⟩ := GetMachineOperandFromValue_spec TM _ _ _ _ _ hg2
              exact ⟨(e1.trans e2).trans (LLIRState.Extends.insert _ _ (by simp [hI])), hc⟩
        · simp only [Option.some.injEq, Prod.mk.injEq] at h
          obtain ⟨h1, h2⟩ := h
          subst h1 h2
          exact ⟨e1, hc⟩

theorem MemoryCopyPairs_spec (TM : TargetMachine) (Destination Source : Value) (Count : Nat)
    (Remaining : Nat) :
    ∀ (i : Nat) (S : LLIRState),
      S.Extends (MemoryCopyPairs TM Destination Source Count Remaining i S).2 ∧
      ∀ MI ∈ (MemoryCopyPairs TM Destination Source Count Remaining i S).1,
        MI.MemOperandCount ≤ 1 := by
  induction Remaining with
  | zero => intro i S; exact ⟨LLIRState.Extends.refl _, by simp [MemoryCopyPairs]⟩
  | succ n ih =>
    intro i S
    simp only [MemoryCopyPairs]
    have hl : ∀ (v s : Nat), (((MachineInstruction.ofOpcode OperationCode.LOAD).AddVirtualRegister
        v 32).AddStackAccess s (i * 4)).MemOperandCount ≤ 1 := by
      intro v s; simp
    have hs : ∀ (b : Bool) (d v : Nat), ((if b = true then
          (MachineInstruction.ofOpcode OperationCode.STORE).AddStackAccess d (i * 4)
        else ((MachineInstruction.ofOpcode OperationCode.STORE).AddMemory d
          TM.PointerSize).SetOffsetAt 0 ((i * 4 : Nat) : Int)).AddVirtualRegister
          v 32).MemOperandCount ≤ 1 := by
      intro b d v
      cases b <;> simp
    split
    · refine ⟨LLIRState.Extends.fresh_insert _ _ (hl _ _), ?_⟩
      intro MI hMI
      simp only [Option.mem_def, Option.some.injEq] at hMI
      subst hMI
      exact hs _ _ _
    · refine ⟨LLIRState.Extends.trans ?_ (ih _ _).1, (ih _ _).2⟩
      exact (LLIRState.Extends.fresh_insert _ _ (hl _ _)).trans
        (LLIRState.Extends.insert _ _ (hs _ _ _))

/-- Memory-copy lowering. -/
theorem ConvertMemoryCopy_spec (TM : TargetMachine) (ResultMI : MachineInstruction)
    (Destination Source : Value) (Size : Nat) (S S1 : LLIRState) (MI : MachineInstruction)
    (hR : ResultMI.MemOperandCount ≤ 1)
    (h : ConvertMemoryCopy TM ResultMI Destination Source Size S = some (MI, S1)) :
    S.Extends S1 ∧ MI.MemOperandCount ≤ 1 := by
  unfold ConvertMemoryCopy at h
  obtain ⟨e, hc⟩ := MemoryCopyPairs_spec TM Destination Source (Size / 4) (Size / 4) 0 S
  split at h
  · rename_i Store S2 hp
    simp only [Option.some.injEq, Prod.mk.injEq] at h
    obtain ⟨h1, h2⟩ := h
    subst h1 h2
    rw [hp] at e hc
    exact ⟨e, hc _ rfl⟩
  · rename_i S2 hp
    simp only [Option.some.injEq, Prod.mk.injEq] at h
    obtain ⟨h1, h2⟩ := h
    subst h1 h2
    rw [hp] at e
    exact ⟨e, hR⟩

/-- Claim C10: every machine instruction that `ConvertToMachineInstr` returns
or inserts into the block on the way, whatever the IR instruction (Store, Load,
GEP, Call, Return and MemoryCopy among them), has at most one operand that is a
stack access or a memory operand. -/
theorem ConvertToMachineInstr_at_most_one_memory_operand (TM : TargetMachine)
    (Instr : Instruction) (BBs : List String) (S S1 : LLIRState) (MI : MachineInstruction)
    (h : ConvertToMachineInstr TM Instr BBs S = some (MI, S1)) :
    MI.MemOperandCount ≤ 1 ∧
    ∃ New, S.InsertedSince S1 New ∧ ∀ I ∈ New, I.MemOperandCount ≤ 1 := by
  suffices hs : S.Extends S1 ∧ MI.MemOperandCount ≤ 1 from ⟨hs.2, hs.1⟩
  have h0 : ∀ c : MIOpcode, ({ Opcode := c } : MachineInstruction).MemOperandCount = 0 :=
    fun _ => rfl
  cases Instr with
  | Binary Kind Res LHS RHS =>
    simp only [ConvertToMachineInstr] at h
    split at h
    · exact absurd h (by simp)
    · rename_i R S2 hg1
      split at h
      · exact absurd h (by simp)
      · rename_i A S3 hg2
        split at h
        · exact absurd h (by simp)
        · rename_i B S4 hg3
          simp only [Option.some.injEq, Prod.mk.injEq] at h
          obtain ⟨h1, h2⟩ := h
          subst h1 h2
          obtain ⟨e1, m1⟩ := GetMachineOperandFromValue_spec TM _ _ _ _ _ hg1
          obtain ⟨e2, m2⟩ := GetMachineOperandFromValue_spec TM _ _ _ _ _ hg2
          obtain ⟨e3, m3⟩ := GetMachineOperandFromValue_spec TM _ _ _ _ _ hg3
          exact ⟨(e1.trans e2).trans e3, by simp [m1, m2, m3, h0]⟩
  | Unary Kind Res Operand =>
    simp only [ConvertToMachineInstr] at h
    split at h
    · exact absurd h (by simp)
    · rename_i R S2 hg1
      split at h
      · exact absurd h (by simp)
      · rename_i A S3 hg2
        simp only [Option.some.injEq, Prod.mk.injEq] at h
        obtain ⟨h1, h2⟩ := h
        subst h1 h2
        obtain ⟨e1, m1⟩ := GetMachineOperandFromValue_spec TM _ _ _ _ _ hg1
        obtain ⟨e2, m2⟩ := GetMachineOperandFromValue_spec TM _ _ _ _ _ hg2
        exact ⟨e1.trans e2, by simp [m1, m2, h0]⟩
  | Store Loc Saved => exact ConvertStore_spec TM Loc Saved S S1 MI h
  | Load Res Loc => exact ConvertLoad_spec TM Res Loc S S1 MI h
  | GetElementPointer Res Source Index => exact ConvertGEP_spec TM Res Source Index S S1 MI h
  | Jump L =>
    simp only [ConvertToMachineInstr] at h
    split at h <;> simp only [Option.some.injEq, Prod.mk.injEq] at h <;>
      obtain ⟨h1, h2⟩ := h <;> subst h1 h2 <;>
      exact ⟨LLIRState.Extends.refl _, by simp [h0]⟩
  | Branch C T F =>
    simp only [ConvertToMachineInstr] at h
    split at h
    · exact absurd h (by simp)
    · rename_i Cond S2 hg1
      obtain ⟨e1, m1⟩ := GetMachineOperandFromValue_spec TM _ _ _ _ _ hg1
      split at h <;> simp only [Option.some.injEq, Prod.mk.injEq] at h <;>
        obtain ⟨h1, h2⟩ := h <;> subst h1 h2 <;>
        exact ⟨e1, by simp [MachineInstruction.AddLabelPtr, m1, h0]⟩
  | Compare Res LHS RHS Rel =>
    simp only [ConvertToMachineInstr] at h
    split at h
    · exact absurd h (by simp)
    · rename_i R S2 hg1
      split at h
      · exact absurd h (by simp)
      · rename_i A S3 hg2
        split at h
        · exact absurd h (by simp)
        · rename_i B S4 hg3
          simp only [Option.some.injEq, Prod.mk.injEq] at h
          obtain ⟨h1, h2⟩ := h
          subst h1 h2
          obtain ⟨e1, m1⟩ := GetMachineOperandFromValue_spec TM _ _ _ _ _ hg1
          obtain ⟨e2, m2⟩ := GetMachineOperandFromValue_spec TM _ _ _ _ _ hg2
          obtain ⟨e3, m3⟩ := GetMachineOperandFromValue_spec TM _ _ _ _ _ hg3
          exact ⟨(e1.trans e2).trans e3, by simp [m1, m2, m3, h0]⟩
  | Call Res Name Args => exact ConvertCall_spec TM Res Name Args S S1 MI h
  | Return RetVal => exact ConvertReturn_spec TM RetVal S S1 MI h
  | MemoryCopy D Src Size =>
    exact ConvertMemoryCopy_spec TM _ D Src Size S S1 MI (by rw [h0]; exact Nat.zero_le _) h

theorem ConvertToMachineInstr_at_most_one_memory_operand_witness :
    ConvertToMachineInstr AArch64.TM Example.memoryCopy [] Example.stateWithSlot
      = some (Example.memoryCopyResult.1, Example.memoryCopyResult.2) ∧
    (Example.memoryCopyResult.1.MemOperandCount ≤ 1 ∧
     ∃ New, Example.stateWithSlot.InsertedSince Example.memoryCopyResult.2 New ∧
       ∀ I ∈ New, I.MemOperandCount ≤ 1) :=
  ⟨by decide,
   ConvertToMachineInstr_at_most_one_memory_operand AArch64.TM Example.memoryCopy []
     Example.stateWithSlot Example.memoryCopyResult.2 Example.memoryCopyResult.1 (by decide)⟩

/-! ### The selectors of the AArch64 target -/

section SelectorResults
open AArch64TargetMachine

theorem ExtendRegSize_GetSize (MO : MachineOperand) : 32 ≤ (ExtendRegSize MO 32).GetSize := by
  unfold ExtendRegSize
  split
  · simp [MachineOperand.SetBitWidth, MachineOperand.GetSize]
  · omega

theorem ExtendRegSize_of_le (MO : MachineOperand) (h : 32 ≤ MO.GetSize) :
    ExtendRegSize MO 32 = MO := by
  unfold ExtendRegSize
  rw [if_neg (by omega)]

theorem MachineOperand.not_global_of_immediate (MO : MachineOperand)
    (h : MO.IsImmediate = true) : MO.IsGlobalSymbol = false := by
  unfold MachineOperand.IsImmediate at h
  unfold MachineOperand.IsGlobalSymbol
  cases hk : MO.Kind <;> simp_all

/-- The result of `SelectSUB`, `SelectMUL` and `SelectDIV` on three operands. -/
theorem AArch64TargetMachine.SelectRRIorRRR_eq (rri rrr : AArch64.Opcodes)
    (MI : MachineInstruction) (a b c : MachineOperand) (hops : MI.Operands = [a, b, c]) :
    SelectRRIorRRR rri rrr MI =
      if c.IsImmediate = true then
        if IsUInt12 c.GetImmediate = true then
          some (true, { MI with Opcode := MIOpcode.target rri,
                                Operands := [ExtendRegSize a 32, ExtendRegSize b 32, c] })
        else none
      else
        some (true, { MI with Opcode := MIOpcode.target rrr,
                              Operands := [ExtendRegSize a 32, ExtendRegSize b 32, c] }) := by
  simp [SelectRRIorRRR, Extend01, MachineInstruction.ModifyOperand,
    MachineInstruction.GetOperandsNumber, MachineInstruction.GetOperand,
    MachineInstruction.SetOpcode, hops]

/-- The result of `SelectADD` on three operands. -/
theorem AArch64TargetMachine.SelectADD_eq (MI : MachineInstruction) (a b c : MachineOperand)
    (hops : MI.Operands = [a, b, c]) :
    SelectADD MI =
      if c.IsGlobalSymbol = true then
        some (true, { MI with Opcode := MIOpcode.target AArch64.Opcodes.ADD_rri,
                              Operands := [ExtendRegSize a 32, ExtendRegSize b 32, c] })
      else if c.IsImmediate = true then
        if c.GetImmediate < 0 then
          if IsUInt12 (c.GetImmediate * -1) = true then
            some (true, { MI with Opcode := MIOpcode.target AArch64.Opcodes.SUB_rri,
                                  Operands := [ExtendRegSize a 32, ExtendRegSize b 32,
                                    c.SetValue (c.GetImmediate * -1)] })
          else none
        else if IsUInt12 c.GetImmediate = true then
          some (true, { MI with Opcode := MIOpcode.target AArch64.Opcodes.ADD_rri,
                                Operands := [ExtendRegSize a 32, ExtendRegSize b 32, c] })
        else none
      else
        some (true, { MI with Opcode := MIOpcode.target AArch64.Opcodes.ADD_rrr,
                              Operands := [ExtendRegSize a 32, ExtendRegSize b 32, c] }) := by
  have hE : ∀ x : MachineOperand, ExtendRegSize (ExtendRegSize x 32) 32 = ExtendRegSize x 32 :=
    fun x => ExtendRegSize_of_le _ (ExtendRegSize_GetSize x)
  have hsub := SelectRRIorRRR_eq AArch64.Opcodes.SUB_rri AArch64.Opcodes.SUB_rrr
    { MI with Opcode := MIOpcode.target AArch64.Opcodes.SUB_rri,
              Operands := [ExtendRegSize a 32, ExtendRegSize b 32,
                c.SetValue (c.GetImmediate * -1)] }
    (ExtendRegSize a 32) (ExtendRegSize b 32) (c.SetValue (c.GetImmediate * -1)) rfl
  by_cases hg : c.IsGlobalSymbol = true
  · simp [SelectADD, Extend01, MachineInstruction.ModifyOperand,
      MachineInstruction.GetOperandsNumber, MachineInstruction.GetOperand,
      MachineInstruction.SetOpcode, hops, hg]
  · by_cases hi : c.IsImmediate = true
    · by_cases hn : c.GetImmediate < 0
      · have hci : (c.SetValue (c.GetImmediate * -1)).IsImmediate = true := hi
        have hcv : (c.SetValue (c.GetImmediate * -1)).GetImmediate = c.GetImmediate * -1 := rfl
        rw [hci, hcv, hE, hE] at hsub
        simp only [SelectADD, SelectSUB, Extend01, MachineInstruction.ModifyOperand,
          MachineInstruction.GetOperandsNumber, MachineInstruction.GetOperand,
          MachineInstruction.SetOpcode, hops, hg, hi, hn, if_true, if_false]
        simp only [List.length_cons, List.length_nil, ne_eq, not_true_eq_false, if_false,
          List.take, List.drop, List.get?, List.append, List.cons_append, List.nil_append,
          Bool.false_eq_true, List.take_succ_cons, List.take_zero, List.drop_succ_cons,
          List.drop_zero, List.get?_cons_zero, List.get?_cons_succ, Nat.reduceAdd]
        rw [if_neg hg, if_pos hi, if_pos hn]
        simpa using hsub
      · simp [SelectADD, Extend01, MachineInstruction.ModifyOperand,
          MachineInstruction.GetOperandsNumber, MachineInstruction.GetOperand,
          MachineInstruction.SetOpcode, hops, hg, hi, hn]
    · simp [SelectADD, Extend01, MachineInstruction.ModifyOperand,
        MachineInstruction.GetOperandsNumber, MachineInstruction.GetOperand,
        MachineInstruction.SetOpcode, hops, hg, hi]

/-- The result of `SelectCMP` on three operands. -/
theorem AArch64TargetMachine.SelectCMP_eq (MI : MachineInstruction) (d a b : MachineOperand)
    (hops : MI.Operands = [d, a, b]) :
    SelectCMP MI = some (true, { MI with
      Opcode := MIOpcode.target
        (if b.IsImmediate = true then AArch64.Opcodes.CMP_ri else AArch64.Opcodes.CMP_rr),
      Operands := [ExtendRegSize a 32, b] }) := by
  by_cases hi : b.IsImmediate = true <;>
    simp [SelectCMP, Extend01, MachineInstruction.ModifyOperand,
      MachineInstruction.GetOperandsNumber, MachineInstruction.GetOperand,
      MachineInstruction.SetOpcode, MachineInstruction.RemoveOperand, hops, hi]

/-- Claim C11, counterexample: the third operand of `ADD %1, %1, @a` is a
global symbol, not an immediate, and `SelectADD` selects `ADD_rri` for it, not
`ADD_rrr`. -/
theorem AArch64TargetMachine.SelectADD_global_symbol_selects_rri :
    Example.addGlobal.Operands.length = 3 ∧
    (Example.addGlobal.Operands.get? 2).map (fun MO => MO.IsImmediate) = some false ∧
    SelectADD Example.addGlobal = some (true,
      { Example.addGlobal with Opcode := MIOpcode.target AArch64.Opcodes.ADD_rri }) ∧
    SelectsWith (SelectADD Example.addGlobal) AArch64.Opcodes.ADD_rrr 3 = false :=
  ⟨by decide, by decide, by decide, by decide⟩

/-- Claim C11 (amended): on a three-operand instruction `SelectADD`,
`SelectSUB`, `SelectMUL` and `SelectDIV` select the `_rri` form when the third
operand is an immediate in `0..4095`; when it is not an immediate,
`SelectSUB`, `SelectMUL` and `SelectDIV` select the `_rrr` form, and
`SelectADD` selects `ADD_rrr` unless the operand is a global symbol, for which
it selects `ADD_rri`; the operand count stays 3. -/
theorem AArch64TargetMachine.select_rri_or_rrr (MI : MachineInstruction)
    (a b c : MachineOperand) (hops : MI.Operands = [a, b, c]) :
    ((c.IsImmediate = true ∧ 0 ≤ c.GetImmediate ∧ c.GetImmediate ≤ 4095) →
      SelectsWith (SelectADD MI) AArch64.Opcodes.ADD_rri 3 = true ∧
      SelectsWith (SelectSUB MI) AArch64.Opcodes.SUB_rri 3 = true ∧
      SelectsWith (SelectMUL MI) AArch64.Opcodes.MUL_rri 3 = true ∧
      SelectsWith (SelectDIV MI) AArch64.Opcodes.SDIV_rri 3 = true) ∧
    (c.IsImmediate = false →
      SelectsWith (SelectSUB MI) AArch64.Opcodes.SUB_rrr 3 = true ∧
      SelectsWith (SelectMUL MI) AArch64.Opcodes.MUL_rrr 3 = true ∧
      SelectsWith (SelectDIV MI) AArch64.Opcodes.SDIV_rrr 3 = true ∧
      (c.IsGlobalSymbol = false →
        SelectsWith (SelectADD MI) AArch64.Opcodes.ADD_rrr 3 = true) ∧
      (c.IsGlobalSymbol = true →
        SelectsWith (SelectADD MI) AArch64.Opcodes.ADD_rri 3 = true)) := by
  have hadd := SelectADD_eq MI a b c hops
  have hsub := SelectRRIorRRR_eq AArch64.Opcodes.SUB_rri AArch64.Opcodes.SUB_rrr MI a b c hops
  have hmul := SelectRRIorRRR_eq AArch64.Opcodes.MUL_rri AArch64.Opcodes.MUL_rrr MI a b c hops
  have hdiv := SelectRRIorRRR_eq AArch64.Opcodes.SDIV_rri AArch64.Opcodes.SDIV_rrr MI a b c hops
  constructor
  · rintro ⟨hi, h0, h1⟩
    have hu : IsUInt12 c.GetImmediate = true := by
      simp only [IsUInt12, Bool.and_eq_true, decide_eq_true_eq]; omega
    have hg := MachineOperand.not_global_of_immediate c hi
    have hn : ¬ c.GetImmediate < 0 := by omega
    simp only [SelectSUB, SelectMUL, SelectDIV, hadd, hsub, hmul, hdiv, hi, hu, hg, hn, if_true,
      if_false, Bool.false_eq_true, SelectsWith]
    simp
  · intro hi
    simp only [SelectSUB, SelectMUL, SelectDIV, hsub, hmul, hdiv, hi, if_false,
      Bool.false_eq_true, SelectsWith]
    refine ⟨by simp, by simp, by simp, ?_, ?_⟩
    · intro hg
      simp [hadd, hg, hi, SelectsWith]
    · intro hg
      simp [hadd, hg, SelectsWith]

theorem AArch64TargetMachine.select_rri_or_rrr_witness :
    Example.addNarrowThird.Operands = [MachineOperand.CreateVirtualRegister 1 32,
      MachineOperand.CreateVirtualRegister 2 32, MachineOperand.CreateVirtualRegister 3 8] ∧
    (((MachineOperand.CreateVirtualRegister 3 8).IsImmediate = true ∧
        0 ≤ (MachineOperand.CreateVirtualRegister 3 8).GetImmediate ∧
        (MachineOperand.CreateVirtualRegister 3 8).GetImmediate ≤ 4095) →
      SelectsWith (SelectADD Example.addNarrowThird) AArch64.Opcodes.ADD_rri 3 = true ∧
      SelectsWith (SelectSUB Example.addNarrowThird) AArch64.Opcodes.SUB_rri 3 = true ∧
      SelectsWith (SelectMUL Example.addNarrowThird) AArch64.Opcodes.MUL_rri 3 = true ∧
      SelectsWith (SelectDIV Example.addNarrowThird) AArch64.Opcodes.SDIV_rri 3 = true) ∧
    ((MachineOperand.CreateVirtualRegister 3 8).IsImmediate = false →
      SelectsWith (SelectSUB Example.addNarrowThird) AArch64.Opcodes.SUB_rrr 3 = true ∧
      SelectsWith (SelectMUL Example.addNarrowThird) AArch64.Opcodes.MUL_rrr 3 = true ∧
      SelectsWith (SelectDIV Example.addNarrowThird) AArch64.Opcodes.SDIV_rrr 3 = true ∧
      ((MachineOperand.CreateVirtualRegister 3 8).IsGlobalSymbol = false →
        SelectsWith (SelectADD Example.addNarrowThird) AArch64.Opcodes.ADD_rrr 3 = true) ∧
      ((MachineOperand.CreateVirtualRegister 3 8).IsGlobalSymbol = true →
        SelectsWith (SelectADD Example.addNarrowThird) AArch64.Opcodes.ADD_rri 3 = true)) :=
  ⟨by decide,
   AArch64TargetMachine.select_rri_or_rrr Example.addNarrowThird
     (MachineOperand.CreateVirtualRegister 1 32) (MachineOperand.CreateVirtualRegister 2 32)
     (MachineOperand.CreateVirtualRegister 3 8) (by decide)⟩

/-- Claim C12, the code at the failing input: the immediate 5000 of
`CMP %3, %1, 5000` does not fit 12 bits; `SelectSUB`, `SelectMUL` and
`SelectDIV` fail on these operands, while `SelectCMP` returns `true` with the
opcode `CMP_ri`, whose second operand class in the definition table is
`UIMM12`, and keeps the immediate 5000. -/
theorem AArch64TargetMachine.SelectCMP_accepts_wide_immediate :
    (Example.cmpWide.Operands.get? 2).map (fun MO => (MO.IsImmediate, MO.GetImmediate))
      = some (true, 5000) ∧
    IsUInt12 5000 = false ∧
    SelectSUB Example.cmpWide = none ∧
    SelectMUL Example.cmpWide = none ∧
    SelectDIV Example.cmpWide = none ∧
    SelectCMP Example.cmpWide = some (true,
      { Example.cmpWide with
          Opcode := MIOpcode.target AArch64.Opcodes.CMP_ri,
          Operands := [MachineOperand.CreateVirtualRegister 1 32,
                       MachineOperand.CreateImmediate 5000 32] }) ∧
    (AArch64.GetTargetInstr (MIOpcode.target AArch64.Opcodes.CMP_ri)).map
        (fun TI => TI.OperandTypes) = some [OperandTypes.GPR, OperandTypes.UIMM12] :=
  ⟨by decide, by decide, by decide, by decide, by decide, by decide, by decide⟩

/-- Claim C13: on a three-operand `ADD` whose third operand is a negative
immediate `imm`, `SelectADD` succeeds exactly when `-4095 ≤ imm`; it then
returns `true` with the opcode `SUB_rri`, the third operand turned into the
immediate `-imm`, a value in `1..4095`, and the first two operands as
`ExtendRegSize` leaves them: unchanged from 32 bits on, raised to 32 bits
below. -/
theorem AArch64TargetMachine.SelectADD_negative_immediate (MI : MachineInstruction)
    (a b c : MachineOperand) (hops : MI.Operands = [a, b, c])
    (hi : c.IsImmediate = true) (hneg : c.GetImmediate < 0) :
    ((SelectADD MI).isSome = true ↔ -4095 ≤ c.GetImmediate) ∧
    (-4095 ≤ c.GetImmediate →
      SelectADD MI = some (true, { MI with
        Opcode := MIOpcode.target AArch64.Opcodes.SUB_rri,
        Operands := [ExtendRegSize a 32, ExtendRegSize b 32, c.SetValue (-c.GetImmediate)] }) ∧
      (c.SetValue (-c.GetImmediate)).IsImmediate = true ∧
      1 ≤ (c.SetValue (-c.GetImmediate)).GetImmediate ∧
      (c.SetValue (-c.GetImmediate)).GetImmediate ≤ 4095) ∧
    (∀ x : MachineOperand, (32 ≤ x.GetSize → ExtendRegSize x 32 = x) ∧
      (x.GetSize < 32 → ExtendRegSize x 32 = x.SetBitWidth 32)) := by
  have hadd := SelectADD_eq MI a b c hops
  have hg := MachineOperand.not_global_of_immediate c hi
  rw [if_neg (by simp [hg]), if_pos hi, if_pos hneg] at hadd
  have hm : c.GetImmediate * -1 = -c.GetImmediate := by omega
  rw [hm] at hadd
  have hu : IsUInt12 (-c.GetImmediate) = true ↔ -4095 ≤ c.GetImmediate := by
    simp only [IsUInt12, Bool.and_eq_true, decide_eq_true_eq]; omega
  refine ⟨?_, ?_, ?_⟩
  · rw [hadd]
    by_cases h : IsUInt12 (-c.GetImmediate) = true
    · rw [if_pos h]; simpa using hu.mp h
    · rw [if_neg h]
      simp only [Option.isSome_none, Bool.false_eq_true, false_iff]
      exact fun h2 => h (hu.mpr h2)
  · intro h
    rw [hadd, if_pos (hu.mpr h)]
    refine ⟨rfl, hi, ?_, ?_⟩
    · show 1 ≤ -c.GetImmediate
      omega
    · show -c.GetImmediate ≤ 4095
      omega
  · intro x
    constructor
    · exact ExtendRegSize_of_le x
    · intro h
      unfold ExtendRegSize
      rw [if_pos h]

theorem AArch64TargetMachine.SelectADD_negative_immediate_witness :
    (Example.addNegative.Operands
      = [MachineOperand.CreateRegister 64 64, MachineOperand.CreateRegister 64 64,
          MachineOperand.CreateImmediate (-16) 32] ∧
     (MachineOperand.CreateImmediate (-16) 32).IsImmediate = true ∧
     (MachineOperand.CreateImmediate (-16) 32).GetImmediate < 0) ∧
    (((SelectADD Example.addNegative).isSome = true ↔
        -4095 ≤ (MachineOperand.CreateImmediate (-16) 32).GetImmediate) ∧
    (-4095 ≤ (MachineOperand.CreateImmediate (-16) 32).GetImmediate →
      SelectADD Example.addNegative = some (true, { Example.addNegative with
          Opcode := MIOpcode.target AArch64.Opcodes.SUB_rri,
          Operands := [ExtendRegSize (MachineOperand.CreateRegister 64 64) 32,
            ExtendRegSize (MachineOperand.CreateRegister 64 64) 32,
            (MachineOperand.CreateImmediate (-16) 32).SetValue
              (-(MachineOperand.CreateImmediate (-16) 32).GetImmediate)] }) ∧
      ((MachineOperand.CreateImmediate (-16) 32).SetValue
        (-(MachineOperand.CreateImmediate (-16) 32).GetImmediate)).IsImmediate = true ∧
      1 ≤ ((MachineOperand.CreateImmediate (-16) 32).SetValue
        (-(MachineOperand.CreateImmediate (-16) 32).GetImmediate)).GetImmediate ∧
      ((MachineOperand.CreateImmediate (-16) 32).SetValue
        (-(MachineOperand.CreateImmediate (-16) 32).GetImmediate)).GetImmediate ≤ 4095) ∧
    (∀ x : MachineOperand, (32 ≤ x.GetSize → ExtendRegSize x 32 = x) ∧
      (x.GetSize < 32 → ExtendRegSize x 32 = x.SetBitWidth 32))) :=
  ⟨⟨by decide, by decide, by decide⟩,
   AArch64TargetMachine.SelectADD_negative_immediate Example.addNegative
     (MachineOperand.CreateRegister 64 64) (MachineOperand.CreateRegister 64 64)
     (MachineOperand.CreateImmediate (-16) 32) (by decide) (by decide) (by decide)⟩

/-- Claim C14: `SelectCMP` on the three operands `(dst, a, b)` returns `true`
with two operands, `a` then `b`, the destination being dropped; `a` is as
`ExtendRegSize` leaves it (unchanged from 32 bits on) and `b` is untouched; the
opcode is `CMP_ri` when `b` is an immediate and `CMP_rr` otherwise, and the
relation attribute is the one the compare had. -/
theorem AArch64TargetMachine.SelectCMP_drops_destination (MI : MachineInstruction)
    (dst a b : MachineOperand) (hops : MI.Operands = [dst, a, b]) :
    ∃ MI1, SelectCMP MI = some (true, MI1) ∧
      MI1.Operands = [ExtendRegSize a 32, b] ∧
      (32 ≤ a.GetSize → MI1.Operands = [a, b]) ∧
      (ExtendRegSize a 32).Kind = a.Kind ∧ (ExtendRegSize a 32).Value = a.Value ∧
      (ExtendRegSize a 32).Virtual = a.Virtual ∧
      (b.IsImmediate = true → MI1.Opcode = MIOpcode.target AArch64.Opcodes.CMP_ri) ∧
      (b.IsImmediate = false → MI1.Opcode = MIOpcode.target AArch64.Opcodes.CMP_rr) ∧
      MI1.GetRelation = MI.GetRelation := by
  refine ⟨_, SelectCMP_eq MI dst a b hops, rfl, ?_, ?_, ?_, ?_, ?_, ?_, rfl⟩
  · intro h
    simp only [ExtendRegSize_of_le a h]
  · unfold ExtendRegSize; split <;> rfl
  · unfold ExtendRegSize; split <;> rfl
  · unfold ExtendRegSize; split <;> rfl
  · intro h; simp [h]
  · intro h; simp [h]

theorem AArch64TargetMachine.SelectCMP_drops_destination_witness :
    Example.cmpWide.Operands = [MachineOperand.CreateVirtualRegister 3 32,
      MachineOperand.CreateVirtualRegister 1 32, MachineOperand.CreateImmediate 5000 32] ∧
    ∃ MI1, SelectCMP Example.cmpWide = some (true, MI1) ∧
      MI1.Operands = [ExtendRegSize (MachineOperand.CreateVirtualRegister 1 32) 32,
        MachineOperand.CreateImmediate 5000 32] ∧
      (32 ≤ (MachineOperand.CreateVirtualRegister 1 32).GetSize →
        MI1.Operands = [MachineOperand.CreateVirtualRegister 1 32,
          MachineOperand.CreateImmediate 5000 32]) ∧
      (ExtendRegSize (MachineOperand.CreateVirtualRegister 1 32) 32).Kind
        = (MachineOperand.CreateVirtualRegister 1 32).Kind ∧
      (ExtendRegSize (MachineOperand.CreateVirtualRegister 1 32) 32).Value
        = (MachineOperand.CreateVirtualRegister 1 32).Value ∧
      (ExtendRegSize (MachineOperand.CreateVirtualRegister 1 32) 32).Virtual
        = (MachineOperand.CreateVirtualRegister 1 32).Virtual ∧
      ((MachineOperand.CreateImmediate 5000 32).IsImmediate = true →
        MI1.Opcode = MIOpcode.target AArch64.Opcodes.CMP_ri) ∧
      ((MachineOperand.CreateImmediate 5000 32).IsImmediate = false →
        MI1.Opcode = MIOpcode.target AArch64.Opcodes.CMP_rr) ∧
      MI1.GetRelation = Example.cmpWide.GetRelation :=
  ⟨by decide,
   AArch64TargetMachine.SelectCMP_drops_destination Example.cmpWide
     (MachineOperand.CreateVirtualRegister 3 32) (MachineOperand.CreateVirtualRegister 1 32)
     (MachineOperand.CreateImmediate 5000 32) (by decide)⟩

/-- Claim C15, counterexample: `SelectADD` succeeds on `ADD %1, %2, %3` and
`SelectCMP` on `CMP %3, %1, %2`, and in both results the last operand is a
register that is still 8 bits wide. -/
theorem AArch64TargetMachine.second_source_keeps_narrow_width :
    SelectADD Example.addNarrowThird = some (true,
      { Example.addNarrowThird with Opcode := MIOpcode.target AArch64.Opcodes.ADD_rrr }) ∧
    (Example.addNarrowThird.Operands.get? 2).map (fun MO => (MO.IsVirtualReg, MO.GetSize))
      = some (true, 8) ∧
    SelectCMP Example.cmpNarrow = some (true,
      { Example.cmpNarrow with
          Opcode := MIOpcode.target AArch64.Opcodes.CMP_rr,
          Operands := [MachineOperand.CreateVirtualRegister 1 32,
                       MachineOperand.CreateVirtualRegister 2 8] }) ∧
    (MachineOperand.CreateVirtualRegister 2 8).IsVirtualReg = true ∧
    (MachineOperand.CreateVirtualRegister 2 8).GetSize = 8 :=
  ⟨by decide, by decide, by decide, by decide, by decide⟩

/-- Claim C15 (amended): after `SelectADD`, `SelectSUB`, `SelectMUL` or
`SelectDIV` succeeds on a three-operand instruction, its first two operands
are at least 32 bits wide and the third operand has the width it had; after
`SelectCMP`, which succeeds, the first of the two remaining operands is at
least 32 bits wide and the second is the untouched third operand. -/
theorem AArch64TargetMachine.selected_operand_widths (MI : MachineInstruction)
    (a b c : MachineOperand) (hops : MI.Operands = [a, b, c]) :
    (∀ Sel ∈ [SelectADD, SelectSUB, SelectMUL, SelectDIV],
      ∀ (r : Bool) (MI1 : MachineInstruction), Sel MI = some (r, MI1) →
        ∃ a1 b1 c1, MI1.Operands = [a1, b1, c1] ∧
          32 ≤ a1.GetSize ∧ 32 ≤ b1.GetSize ∧ c1.GetSize = c.GetSize) ∧
    (∃ MI1 b1, SelectCMP MI = some (true, MI1) ∧ MI1.Operands = [b1, c] ∧
      32 ≤ b1.GetSize) := by
  have hR : ∀ (rri rrr : AArch64.Opcodes) (r : Bool) (MI1 : MachineInstruction),
      SelectRRIorRRR rri rrr MI = some (r, MI1) →
        ∃ a1 b1 c1, MI1.Operands = [a1, b1, c1] ∧
          32 ≤ a1.GetSize ∧ 32 ≤ b1.GetSize ∧ c1.GetSize = c.GetSize := by
    intro rri rrr r MI1 h
    rw [SelectRRIorRRR_eq rri rrr MI a b c hops] at h
    refine ⟨ExtendRegSize a 32, ExtendRegSize b 32, c, ?_, ExtendRegSize_GetSize a,
      ExtendRegSize_GetSize b, rfl⟩
    split at h
    · split at h
      · simp only [Option.some.injEq, Prod.mk.injEq] at h
        rw [← h.2]
      · exact absurd h (by simp)
    · simp only [Option.some.injEq, Prod.mk.injEq] at h
      rw [← h.2]
  constructor
  · intro Sel hSel r MI1 h
    simp only [List.mem_cons, List.mem_singleton, List.not_mem_nil, or_false] at hSel
    rcases hSel with hS | hS | hS | hS
    · subst hS
      rw [SelectADD_eq MI a b c hops] at h
      split at h
      · simp only [Option.some.injEq, Prod.mk.injEq] at h
        exact ⟨_, _, _, by rw [← h.2], ExtendRegSize_GetSize a, ExtendRegSize_GetSize b, rfl⟩
      · split at h
        · split at h
          · split at h
            · simp only [Option.some.injEq, Prod.mk.injEq] at h
              exact ⟨ExtendRegSize a 32, ExtendRegSize b 32, c.SetValue (c.GetImmediate * -1),
                by rw [← h.2], ExtendRegSize_GetSize a, ExtendRegSize_GetSize b, rfl⟩
            · exact absurd h (by simp)
          · split at h
            · simp only [Option.some.injEq, Prod.mk.injEq] at h
              exact ⟨_, _, _, by rw [← h.2], ExtendRegSize_GetSize a, ExtendRegSize_GetSize b,
                rfl⟩
            · exact absurd h (by simp)
        · simp only [Option.some.injEq, Prod.mk.injEq] at h
          exact ⟨_, _, _, by rw [← h.2], ExtendRegSize_GetSize a, ExtendRegSize_GetSize b, rfl⟩
    · subst hS; exact hR _ _ r MI1 h
    · subst hS; exact hR _ _ r MI1 h
    · subst hS; exact hR _ _ r MI1 h
  · exact ⟨_, _, SelectCMP_eq MI a b c hops, rfl, ExtendRegSize_GetSize b⟩

theorem AArch64TargetMachine.selected_operand_widths_witness :
    Example.addNarrowThird.Operands = [MachineOperand.CreateVirtualRegister 1 32,
      MachineOperand.CreateVirtualRegister 2 32, MachineOperand.CreateVirtualRegister 3 8] ∧
    ((∀ Sel ∈ [SelectADD, SelectSUB, SelectMUL, SelectDIV],
      ∀ (r : Bool) (MI1 : MachineInstruction), Sel Example.addNarrowThird = some (r, MI1) →
        ∃ a1 b1 c1, MI1.Operands = [a1, b1, c1] ∧
          32 ≤ a1.GetSize ∧ 32 ≤ b1.GetSize ∧
          c1.GetSize = (MachineOperand.CreateVirtualRegister 3 8).GetSize) ∧
    (∃ MI1 b1, SelectCMP Example.addNarrowThird = some (true, MI1) ∧
      MI1.Operands = [b1, MachineOperand.CreateVirtualRegister 3 8] ∧ 32 ≤ b1.GetSize)) :=
  ⟨by decide,
   AArch64TargetMachine.selected_operand_widths Example.addNarrowThird
     (MachineOperand.CreateVirtualRegister 1 32) (MachineOperand.CreateVirtualRegister 2 32)
     (MachineOperand.CreateVirtualRegister 3 8) (by decide)⟩

/-- Claim C16: `SelectSEXT` on the two operands `(d, s)` returns `true` with
`MOV_rc` when `s` is an immediate, otherwise with `SXTB` when `s` is 8 bits
wide, otherwise with `SXTW` when `s` is 32 bits wide, and fails for any other
width of a source that is not an immediate; in a result the destination is at
least 32 bits wide and the source is `s` itself. -/
theorem AArch64TargetMachine.SelectSEXT_selects (MI : MachineInstruction)
    (d s : MachineOperand) (hops : MI.Operands = [d, s]) :
    (s.IsImmediate = true → SelectSEXT MI = some (true, { MI with
      Opcode := MIOpcode.target AArch64.Opcodes.MOV_rc, Operands := [ExtendRegSize d 32, s] })) ∧
    (s.IsImmediate = false → s.GetSize = 8 → SelectSEXT MI = some (true, { MI with
      Opcode := MIOpcode.target AArch64.Opcodes.SXTB, Operands := [ExtendRegSize d 32, s] })) ∧
    (s.IsImmediate = false → s.GetSize = 32 → SelectSEXT MI = some (true, { MI with
      Opcode := MIOpcode.target AArch64.Opcodes.SXTW, Operands := [ExtendRegSize d 32, s] })) ∧
    (s.IsImmediate = false → s.GetSize ≠ 8 → s.GetSize ≠ 32 → SelectSEXT MI = none) ∧
    32 ≤ (ExtendRegSize d 32).GetSize := by
  unfold MachineOperand.GetSize
  refine ⟨?_, ?_, ?_, ?_, ExtendRegSize_GetSize d⟩
  · intro hi
    simp [SelectSEXT, MachineInstruction.ModifyOperand, MachineInstruction.GetOperandsNumber,
      MachineInstruction.GetOperand, MachineInstruction.SetOpcode, hops, hi]
  · intro hi h8
    simp [SelectSEXT, MachineInstruction.ModifyOperand, MachineInstruction.GetOperandsNumber,
      MachineInstruction.GetOperand, MachineInstruction.SetOpcode, hops, hi, h8]
  · intro hi h32
    simp [SelectSEXT, MachineInstruction.ModifyOperand, MachineInstruction.GetOperandsNumber,
      MachineInstruction.GetOperand, MachineInstruction.SetOpcode, hops, hi, h32]
  · intro hi h8 h32
    simp [SelectSEXT, MachineInstruction.ModifyOperand, MachineInstruction.GetOperandsNumber,
      MachineInstruction.GetOperand, MachineInstruction.SetOpcode, hops, hi, h8, h32]

theorem AArch64TargetMachine.SelectSEXT_selects_witness :
    ({ Opcode := MIOpcode.generic OperationCode.SEXT,
       Operands := [MachineOperand.CreateVirtualRegister 2 64,
                    MachineOperand.CreateVirtualRegister 1 32] } : MachineInstruction).Operands
      = [MachineOperand.CreateVirtualRegister 2 64, MachineOperand.CreateVirtualRegister 1 32] ∧
    SelectSEXT { Opcode := MIOpcode.generic OperationCode.SEXT,
                 Operands := [MachineOperand.CreateVirtualRegister 2 64,
                              MachineOperand.CreateVirtualRegister 1 32] }
      = some (true, { Opcode := MIOpcode.target AArch64.Opcodes.SXTW,
                      Operands := [MachineOperand.CreateVirtualRegister 2 64,
                                   MachineOperand.CreateVirtualRegister 1 32] }) :=
  ⟨by decide,
   ((AArch64TargetMachine.SelectSEXT_selects
      { Opcode := MIOpcode.generic OperationCode.SEXT,
        Operands := [MachineOperand.CreateVirtualRegister 2 64,
                     MachineOperand.CreateVirtualRegister 1 32] }
      (MachineOperand.CreateVirtualRegister 2 64) (MachineOperand.CreateVirtualRegister 1 32)
      (by decide)).2.2.1 (by decide) (by decide)).trans (by decide)⟩

/-- Claim C17: `SelectTRUNC` on the two operands `(d, s)`.  With `d` 8 bits
wide and `s` an immediate `v` it returns `true` with `MOV_rc` and the source
immediate `v mod 256`, the value of `v & 0xFF`, in `0..255`; with `d` 8 bits
wide and `s` not an immediate, with `AND_rri` and an immediate 255 appended as
third operand; in both the width of `d` becomes 32.  With `d` 32 bits wide and
`s` a 64-bit operand that is not an immediate it returns `true` with `MOV_rr`
and both operands as they were.  Any other shape fails. -/
theorem AArch64TargetMachine.SelectTRUNC_selects (MI : MachineInstruction)
    (d s : MachineOperand) (hops : MI.Operands = [d, s]) :
    (d.GetSize = 8 → s.IsImmediate = true →
      SelectTRUNC MI = some (true, { MI with
        Opcode := MIOpcode.target AArch64.Opcodes.MOV_rc,
        Operands := [d.SetBitWidth 32, s.SetValue (s.GetImmediate % 256)] }) ∧
      0 ≤ s.GetImmediate % 256 ∧ s.GetImmediate % 256 ≤ 255) ∧
    (d.GetSize = 8 → s.IsImmediate = false →
      ∃ m, SelectTRUNC MI = some (true, { MI with
        Opcode := MIOpcode.target AArch64.Opcodes.AND_rri,
        Operands := [d.SetBitWidth 32, s, m] }) ∧
        m.IsImmediate = true ∧ m.GetImmediate = 255) ∧
    (d.SetBitWidth 32).GetSize = 32 ∧
    (d.GetSize = 32 → s.GetSize = 64 → s.IsImmediate = false →
      SelectTRUNC MI = some (true, { MI with
        Opcode := MIOpcode.target AArch64.Opcodes.MOV_rr, Operands := [d, s] })) ∧
    (d.GetSize ≠ 8 → ¬ (d.GetSize = 32 ∧ s.GetSize = 64 ∧ s.IsImmediate = false) →
      SelectTRUNC MI = none) := by
  unfold MachineOperand.GetSize
  refine ⟨?_, ?_, rfl, ?_, ?_⟩
  · intro h8 hi
    refine ⟨?_, Int.emod_nonneg _ (by decide), ?_⟩
    · simp [SelectTRUNC, MachineInstruction.ModifyOperand, MachineInstruction.GetOperandsNumber,
        MachineInstruction.GetOperand, MachineInstruction.SetOpcode, hops, hi, h8,
        MachineOperand.GetSize, MachineOperand.SetValue, MachineOperand.SetBitWidth]
    · have := Int.emod_lt_of_pos s.GetImmediate (show (0 : Int) < 256 by decide)
      omega
  · intro h8 hi
    refine ⟨MachineOperand.CreateImmediate 255 32, ?_, rfl, rfl⟩
    simp [SelectTRUNC, MachineInstruction.ModifyOperand, MachineInstruction.GetOperandsNumber,
      MachineInstruction.GetOperand, MachineInstruction.SetOpcode, hops, hi, h8,
      MachineOperand.GetSize, MachineOperand.SetBitWidth, MachineInstruction.AddImmediate,
      MachineInstruction.AddOperand]
  · intro h32 h64 hi
    have hops2 : ({ MI with
        Opcode := MIOpcode.target AArch64.Opcodes.MOV_rr,
        Operands := [d, s] } : MachineInstruction)
        = MI.SetOpcode (MIOpcode.target AArch64.Opcodes.MOV_rr) := by
      simp [MachineInstruction.SetOpcode, hops]
    rw [hops2]
    simp [SelectTRUNC, MachineInstruction.GetOperandsNumber,
      MachineInstruction.GetOperand, hops, hi, h32, h64]
  · intro h8 hn
    simp only [not_and] at hn
    simp only [SelectTRUNC, MachineInstruction.GetOperandsNumber,
      MachineInstruction.GetOperand, hops, List.length_cons, List.length_nil, ne_eq,
      not_true_eq_false, if_false, List.get?_cons_zero, List.get?_cons_succ, h8]
    split
    · rename_i h
      exact absurd h.2.2 (by simpa using hn h.1 h.2.1)
    · rfl

theorem AArch64TargetMachine.SelectTRUNC_selects_witness :
    ({ Opcode := MIOpcode.generic OperationCode.TRUNC,
       Operands := [MachineOperand.CreateVirtualRegister 2 8,
                    MachineOperand.CreateImmediate (-1) 32] } : MachineInstruction).Operands
      = [MachineOperand.CreateVirtualRegister 2 8, MachineOperand.CreateImmediate (-1) 32] ∧
    SelectTRUNC { Opcode := MIOpcode.generic OperationCode.TRUNC,
                  Operands := [MachineOperand.CreateVirtualRegister 2 8,
                               MachineOperand.CreateImmediate (-1) 32] }
      = some (true, { Opcode := MIOpcode.target AArch64.Opcodes.MOV_rc,
                      Operands := [MachineOperand.CreateVirtualRegister 2 32,
                                   MachineOperand.CreateImmediate 255 32] }) :=
  ⟨by decide,
   ((AArch64TargetMachine.SelectTRUNC_selects
      { Opcode := MIOpcode.generic OperationCode.TRUNC,
        Operands := [MachineOperand.CreateVirtualRegister 2 8,
                     MachineOperand.CreateImmediate (-1) 32] }
      (MachineOperand.CreateVirtualRegister 2 8) (MachineOperand.CreateImmediate (-1) 32)
      (by decide)).1 (by decide) (by decide)).1.trans (by decide)⟩

theorem StackFrame.GetSize_isSome (SF : StackFrame) (ID : Nat) (h : SF.IsStackSlot ID = true) :
    ∃ Size, SF.GetSize ID = some Size := by
  unfold StackFrame.GetSize
  rw [if_pos h]
  unfold StackFrame.IsStackSlot at h
  rw [List.any_eq_true] at h
  obtain ⟨e, he, hp⟩ := h
  cases hf : SF.StackSlots.find? (fun e => e.1 == ID) with
  | none =>
    rw [List.find?_eq_none] at hf
    exact absurd hp (hf e he)
  | some x => exact ⟨x.2, rfl⟩

/-- Claim C18: `SelectLOAD` on a load with destination `d` and second operand
`s` (two or three operands, a stack access naming a slot of the function)
returns `true` with `LDRB` exactly when `d` is 8 bits wide and not a pointer,
or `s` is a stack access to a slot of size 1, and with `LDR` in every other
case.  `SelectSTORE` on a store with first operand `p` and last operand `v`
(two or three operands) returns `true` with `STRB` exactly when `v` is 8 bits
wide, or the store has two operands and `p` names a stack slot of size 1, and
with `STR` in every other case. -/
theorem AArch64TargetMachine.SelectLOAD_SelectSTORE_byte_forms (Func : MachineFunction)
    (L : MachineInstruction) (d s : MachineOperand) (restL : List MachineOperand)
    (S : MachineInstruction) (p v : MachineOperand) (restS : List MachineOperand)
    (hL : L.Operands = d :: s :: restL) (hLn : restL.length ≤ 1)
    (hslot : s.IsStackAccess = true → Func.IsStackSlot s.GetSlot = true)
    (hS : S.Operands = p :: (restS ++ [v])) (hSn : restS.length ≤ 1) :
    (∃ L1, SelectLOAD Func L = some (true, L1) ∧
      (L1.Opcode = MIOpcode.target AArch64.Opcodes.LDRB ↔
        ((d.GetSize = 8 ∧ d.LLT.IsPtr = false) ∨
         (s.IsStackAccess = true ∧ Func.GetStackObjectSize s.GetSlot = some 1))) ∧
      (L1.Opcode = MIOpcode.target AArch64.Opcodes.LDR ↔
        ¬ ((d.GetSize = 8 ∧ d.LLT.IsPtr = false) ∨
           (s.IsStackAccess = true ∧ Func.GetStackObjectSize s.GetSlot = some 1)))) ∧
    (∃ S1, SelectSTORE Func S = some (true, S1) ∧
      (S1.Opcode = MIOpcode.target AArch64.Opcodes.STRB ↔
        (v.GetSize = 8 ∨
         (S.Operands.length = 2 ∧ Func.IsStackSlot p.GetSlot = true ∧
           Func.GetStackObjectSize p.GetSlot = some 1))) ∧
      (S1.Opcode = MIOpcode.target AArch64.Opcodes.STR ↔
        ¬ (v.GetSize = 8 ∨
           (S.Operands.length = 2 ∧ Func.IsStackSlot p.GetSlot = true ∧
             Func.GetStackObjectSize p.GetSlot = some 1)))) := by
  unfold MachineOperand.GetSize
  constructor
  · have hn : ¬ (L.GetOperandsNumber ≠ 2 ∧ L.GetOperandsNumber ≠ 3) := by
      simp only [MachineInstruction.GetOperandsNumber, hL, List.length_cons]
      omega
    have h0 : L.GetOperand 0 = some d := by simp [MachineInstruction.GetOperand, hL]
    have h1 : L.GetOperand 1 = some s := by simp [MachineInstruction.GetOperand, hL]
    unfold SelectLOAD
    rw [if_neg hn, h0, h1]
    dsimp only
    by_cases hd : d.LLT.BitWidth = 8 ∧ d.LLT.IsPtr = false
    · rw [if_pos hd]
      refine ⟨_, rfl, ?_, ?_⟩
      · simp [MachineInstruction.ModifyOperand, MachineInstruction.SetOpcode, hd]
      · simp [MachineInstruction.ModifyOperand, MachineInstruction.SetOpcode, hd]
    · rw [if_neg hd]
      by_cases hs : s.IsStackAccess = true
      · rw [if_pos hs]
        obtain ⟨Size, hsz⟩ := StackFrame.GetSize_isSome Func.SF s.GetSlot (hslot hs)
        have hsz2 : Func.GetStackObjectSize s.GetSlot = some Size := hsz
        rw [hsz2]
        dsimp only
        by_cases h1s : Size = 1
        · rw [if_pos h1s]
          refine ⟨_, rfl, ?_, ?_⟩
          · simp [MachineInstruction.ModifyOperand, MachineInstruction.SetOpcode, hs, h1s]
          · simp [MachineInstruction.ModifyOperand, MachineInstruction.SetOpcode, hs, h1s]
        · rw [if_neg h1s]
          refine ⟨_, rfl, ?_, ?_⟩
          · simp [MachineInstruction.SetOpcode, hd, h1s]
          · simp [MachineInstruction.SetOpcode, hd, h1s]
      · rw [if_neg hs]
        refine ⟨_, rfl, ?_, ?_⟩
        · simp [MachineInstruction.SetOpcode, hd, hs]
        · simp [MachineInstruction.SetOpcode, hd, hs]
  · have hlen : S.Operands.length = restS.length + 2 := by simp [hS]
    have hn : ¬ (S.GetOperandsNumber ≠ 2 ∧ S.GetOperandsNumber ≠ 3) := by
      simp only [MachineInstruction.GetOperandsNumber, hlen]
      omega
    have h0 : S.GetOperand 0 = some p := by simp [MachineInstruction.GetOperand, hS]
    have h1 : S.GetOperand (S.GetOperandsNumber - 1) = some v := by
      simp only [MachineInstruction.GetOperand, MachineInstruction.GetOperandsNumber, hlen]
      rw [hS]
      have : restS.length + 2 - 1 = restS.length + 1 := by omega
      rw [this, List.get?_cons_succ, List.get?_eq_getElem?, List.getElem?_append_right (by omega)]
      simp
    unfold SelectSTORE
    rw [if_neg hn, h0, h1]
    dsimp only
    by_cases hv : v.LLT.BitWidth = 8
    · rw [if_pos hv]
      refine ⟨_, rfl, ?_, ?_⟩
      · simp [MachineInstruction.SetOpcode, hv]
      · simp [MachineInstruction.SetOpcode, hv]
    · rw [if_neg hv]
      by_cases h2 : S.GetOperandsNumber = 2 ∧ Func.IsStackSlot p.GetSlot = true
      · rw [if_pos h2]
        obtain ⟨Size, hsz⟩ := StackFrame.GetSize_isSome Func.SF p.GetSlot h2.2
        have hsz2 : Func.GetStackObjectSize p.GetSlot = some Size := hsz
        have h2l : S.Operands.length = 2 := h2.1
        rw [hsz2]
        dsimp only
        by_cases h1s : Size = 1
        · rw [if_pos h1s]
          refine ⟨_, rfl, ?_, ?_⟩
          · simp [MachineInstruction.SetOpcode, h2.2, h2l, h1s]
          · simp [MachineInstruction.SetOpcode, h2.2, h2l, h1s]
        · rw [if_neg h1s]
          refine ⟨_, rfl, ?_, ?_⟩
          · simp [MachineInstruction.SetOpcode, hv, h1s]
          · simp [MachineInstruction.SetOpcode, hv, h1s]
      · rw [if_neg h2]
        have h2x : ¬ (S.Operands.length = 2 ∧ Func.IsStackSlot p.GetSlot = true ∧
            Func.GetStackObjectSize p.GetSlot = some 1) := fun hx => h2 ⟨hx.1, hx.2.1⟩
        refine ⟨_, rfl, ?_, ?_⟩
        · simp [MachineInstruction.SetOpcode, hv, h2x]
        · simp [MachineInstruction.SetOpcode, hv, h2x]

theorem AArch64TargetMachine.SelectLOAD_SelectSTORE_byte_forms_witness :
    (Example.byteLoad.Operands = MachineOperand.CreateVirtualRegister 1 32 ::
        MachineOperand.CreateStackAccess 7 0 :: [] ∧
     ([] : List MachineOperand).length ≤ 1 ∧
     ((MachineOperand.CreateStackAccess 7 0).IsStackAccess = true →
        Example.byteFunction.IsStackSlot (MachineOperand.CreateStackAccess 7 0).GetSlot = true) ∧
     Example.byteStore.Operands = MachineOperand.CreateStackAccess 7 0 ::
        ([] ++ [MachineOperand.CreateVirtualRegister 1 32])) ∧
    ((∃ L1, SelectLOAD Example.byteFunction Example.byteLoad = some (true, L1) ∧
      (L1.Opcode = MIOpcode.target AArch64.Opcodes.LDRB ↔
        (((MachineOperand.CreateVirtualRegister 1 32).GetSize = 8 ∧
            (MachineOperand.CreateVirtualRegister 1 32).LLT.IsPtr = false) ∨
         ((MachineOperand.CreateStackAccess 7 0).IsStackAccess = true ∧
            Example.byteFunction.GetStackObjectSize (MachineOperand.CreateStackAccess 7 0).GetSlot
              = some 1))) ∧
      (L1.Opcode = MIOpcode.target AArch64.Opcodes.LDR ↔
        ¬ (((MachineOperand.CreateVirtualRegister 1 32).GetSize = 8 ∧
              (MachineOperand.CreateVirtualRegister 1 32).LLT.IsPtr = false) ∨
           ((MachineOperand.CreateStackAccess 7 0).IsStackAccess = true ∧
              Example.byteFunction.GetStackObjectSize
                (MachineOperand.CreateStackAccess 7 0).GetSlot = some 1)))) ∧
    (∃ S1, SelectSTORE Example.byteFunction Example.byteStore = some (true, S1) ∧
      (S1.Opcode = MIOpcode.target AArch64.Opcodes.STRB ↔
        ((MachineOperand.CreateVirtualRegister 1 32).GetSize = 8 ∨
         (Example.byteStore.Operands.length = 2 ∧
           Example.byteFunction.IsStackSlot (MachineOperand.CreateStackAccess 7 0).GetSlot = true ∧
           Example.byteFunction.GetStackObjectSize (MachineOperand.CreateStackAccess 7 0).GetSlot
             = some 1))) ∧
      (S1.Opcode = MIOpcode.target AArch64.Opcodes.STR ↔
        ¬ ((MachineOperand.CreateVirtualRegister 1 32).GetSize = 8 ∨
           (Example.byteStore.Operands.length = 2 ∧
             Example.byteFunction.IsStackSlot (MachineOperand.CreateStackAccess 7 0).GetSlot
               = true ∧
             Example.byteFunction.GetStackObjectSize
               (MachineOperand.CreateStackAccess 7 0).GetSlot = some 1))))) :=
  ⟨⟨by decide, by decide, fun _ => by decide, by decide⟩,
   AArch64TargetMachine.SelectLOAD_SelectSTORE_byte_forms Example.byteFunction
     Example.byteLoad (MachineOperand.CreateVirtualRegister 1 32)
     (MachineOperand.CreateStackAccess 7 0) []
     Example.byteStore (MachineOperand.CreateStackAccess 7 0)
     (MachineOperand.CreateVirtualRegister 1 32) []
     (by decide) (by decide) (fun _ => by decide) (by decide) (by decide)⟩

/-- Claim C19: for a `BRANCH` with the two operands `(cond, label)`, `Index`
being its position in the block `BB`: when it is not the first instruction and the
instruction before it carries the relation `EQ`, `NE`, `LE`, `LT`, `GE` or
`GT`, `SelectBRANCH` returns `true` with the opcode `BEQ`, `BNE`, `BLE`, `BLT`,
`BGE` or `BGT` and the label as the only operand; when it is the first
instruction of the block, or the instruction before it carries no valid
relation, selection fails. -/
theorem AArch64TargetMachine.SelectBRANCH_conditional (BB : List MachineInstruction)
    (Index : Nat) (MI : MachineInstruction) (cond label : MachineOperand)
    (hops : MI.Operands = [cond, label]) :
    (∀ (P : MachineInstruction) (R : CMPRelation) (c : AArch64.Opcodes),
      0 < Index → BB.get? (Index - 1) = some P → P.GetRelation = R →
      (R, c) ∈ [(CMPRelation.EQ, AArch64.Opcodes.BEQ), (CMPRelation.NE, AArch64.Opcodes.BNE),
                (CMPRelation.LE, AArch64.Opcodes.BLE), (CMPRelation.LT, AArch64.Opcodes.BLT),
                (CMPRelation.GE, AArch64.Opcodes.BGE), (CMPRelation.GT, AArch64.Opcodes.BGT)] →
      SelectBRANCH BB Index MI = some (true, { MI with
        Opcode := MIOpcode.target c, Operands := [label] })) ∧
    (Index = 0 → SelectBRANCH BB Index MI = none) ∧
    (∀ P : MachineInstruction, 0 < Index → BB.get? (Index - 1) = some P →
      P.GetRelation = CMPRelation.INVALID → SelectBRANCH BB Index MI = none) := by
  have hft : MI.IsFallThroughBranch = true := by
    simp [MachineInstruction.IsFallThroughBranch, hops]
  refine ⟨?_, ?_, ?_⟩
  · intro P R c hpos hP hR hmem
    simp only [List.mem_cons, Prod.mk.injEq, List.mem_singleton, List.not_mem_nil,
      or_false] at hmem
    unfold SelectBRANCH
    simp only [hft, if_true, gt_iff_lt, hpos, hP, hR]
    rcases hmem with ⟨h1, h2⟩ | ⟨h1, h2⟩ | ⟨h1, h2⟩ | ⟨h1, h2⟩ | ⟨h1, h2⟩ | ⟨h1, h2⟩ <;>
      subst h1 h2 <;>
      simp [MachineInstruction.SetOpcode, MachineInstruction.RemoveOperand, hops]
  · intro h0
    unfold SelectBRANCH
    simp [hft, h0]
  · intro P hpos hP hR
    unfold SelectBRANCH
    simp only [hft, if_true, gt_iff_lt, hpos, hP, hR]

theorem AArch64TargetMachine.SelectBRANCH_conditional_witness :
    (Example.compareAndBranch.get? 1 = some
        { Opcode := MIOpcode.generic OperationCode.BRANCH,
          Operands := [MachineOperand.CreateVirtualRegister 3 32,
                       MachineOperand.CreateLabel "then"] } ∧
     ({ Opcode := MIOpcode.generic OperationCode.BRANCH,
        Operands := [MachineOperand.CreateVirtualRegister 3 32,
                     MachineOperand.CreateLabel "then"] } : MachineInstruction).Operands
       = [MachineOperand.CreateVirtualRegister 3 32, MachineOperand.CreateLabel "then"]) ∧
    SelectBRANCH Example.compareAndBranch 1
        { Opcode := MIOpcode.generic OperationCode.BRANCH,
          Operands := [MachineOperand.CreateVirtualRegister 3 32,
                       MachineOperand.CreateLabel "then"] }
      = some (true, { Opcode := MIOpcode.target AArch64.Opcodes.BLT,
                      Operands := [MachineOperand.CreateLabel "then"] }) :=
  ⟨⟨by decide, by decide⟩,
   ((AArch64TargetMachine.SelectBRANCH_conditional Example.compareAndBranch 1
      { Opcode := MIOpcode.generic OperationCode.BRANCH,
        Operands := [MachineOperand.CreateVirtualRegister 3 32,
                     MachineOperand.CreateLabel "then"] }
      (MachineOperand.CreateVirtualRegister 3 32) (MachineOperand.CreateLabel "then")
      (by decide)).1
      { Opcode := MIOpcode.target AArch64.Opcodes.CMP_rr,
        Attributes := CMPRelation.LT,
        Operands := [MachineOperand.CreateVirtualRegister 1 32,
                     MachineOperand.CreateVirtualRegister 2 32] }
      CMPRelation.LT AArch64.Opcodes.BLT (by decide) (by decide) (by decide)
      (by decide)).trans (by decide)⟩

end SelectorResults

/-! ### Lowering of the IR branch -/

/-- Claim C20, the code at the failing input: the IR branch
`br %3, then, else` in a function with the blocks `entry`, `then`, `else`.
Both labels name blocks, and the lowered `BRANCH` has the operands
`(%10, Label then, Label then)`: the true label twice, the false label not at
all. -/
theorem ConvertToMachineInstr_Branch_repeats_true_label :
    FindLabel Example.ifElseBlocks "then" = some "then" ∧
    FindLabel Example.ifElseBlocks "else" = some "else" ∧
    (ConvertToMachineInstr AArch64.TM Example.branchTwoLabels Example.ifElseBlocks
        Example.stateWithSlot).map (fun r => (r.1.Opcode, r.1.Operands))
      = some (MIOpcode.generic OperationCode.BRANCH,
          [MachineOperand.CreateVirtualRegister 10 32, MachineOperand.CreateLabel "then",
           MachineOperand.CreateLabel "then"]) ∧
    (ConvertToMachineInstr AArch64.TM Example.branchTwoLabels Example.ifElseBlocks
        Example.stateWithSlot).map (fun r => r.1.Operands)
      ≠ some [MachineOperand.CreateVirtualRegister 10 32, MachineOperand.CreateLabel "then",
           MachineOperand.CreateLabel "else"] :=
  ⟨by decide, by decide, by decide, by decide⟩

/-! ### The mapping of IR values to operands -/

theorem MachineOperand.GetReg_CreateVirtualRegister (r w : Nat) (t : LowLevelType) :
    ((MachineOperand.CreateVirtualRegister r w).SetType t).GetReg = r ∧
    ((MachineOperand.CreateVirtualRegister r w).SetType t).IsVirtualReg = true := by
  simp [MachineOperand.CreateVirtualRegister, MachineOperand.SetType, MachineOperand.GetReg,
    MachineOperand.IsVirtualReg]

/-- The three ways `GetMachineOperandFromValue` treats an IR register value:
the mapped register is returned and nothing changes; or the counter's next
register is returned and recorded; or it is returned as the destination of an
inserted `LOAD` and not recorded. -/
theorem GetMachineOperandFromValue_register (TM : TargetMachine) (V : Value) (IsDef : Bool)
    (S S1 : LLIRState) (MO : MachineOperand) (hV : V.Kind = ValueKind.REGISTER)
    (h : GetMachineOperandFromValue TM V IsDef S = some (MO, S1)) :
    MO.IsVirtualReg = true ∧
    ((∃ v, StdMap.get? S.IRVregToLLIRVreg V.ID = some v ∧ MO.GetReg = v ∧ S1 = S ∧
        (IsDef = true ∨ S.MF.IsStackSlot v = false)) ∨
     (StdMap.contains S.IRVregToLLIRVreg V.ID = false ∧ MO.GetReg = S.MF.NextVReg ∧
        (IsDef = true ∨ S.MF.IsStackSlot V.ID = false) ∧
        S1 = { S with
          MF := { S.MF with NextVReg := S.MF.NextVReg + 1 },
          IRVregToLLIRVreg := StdMap.set S.IRVregToLLIRVreg V.ID S.MF.NextVReg }) ∨
     (MO.GetReg = S.MF.NextVReg ∧ IsDef = false ∧
        ∃ Slot w, S.MF.IsStackSlot Slot = true ∧
          S1 = { S with
            MF := { S.MF with NextVReg := S.MF.NextVReg + 1 },
            Inserted := S.Inserted ++
              [((MachineInstruction.ofOpcode OperationCode.LOAD).AddVirtualRegister
                S.MF.NextVReg w).AddStackAccess Slot 4] })) := by
  unfold GetMachineOperandFromValue at h
  simp only [hV] at h
  have key : ∀ (R : Nat × LLIRState) (t : LowLevelType),
      some ((MachineOperand.CreateVirtualRegister R.1 32).SetType t, R.2) = some (MO, S1) →
      MO.IsVirtualReg = true ∧ MO.GetReg = R.1 ∧ S1 = R.2 := by
    intro R t e
    simp only [Option.some.injEq, Prod.mk.injEq] at e
    obtain ⟨e1, e2⟩ := e
    subst e1 e2
    exact ⟨(MachineOperand.GetReg_CreateVirtualRegister _ _ _).2,
      (MachineOperand.GetReg_CreateVirtualRegister _ _ _).1, rfl⟩
  have main : ∀ (R : Nat × LLIRState),
      R = (if (!IsDef && !StdMap.contains S.IRVregToLLIRVreg V.ID && S.MF.IsStackSlot V.ID) = true
        then (S.MF.NextVReg, (S.GetNextAvailableVReg).2.InsertInstr
          (((MachineInstruction.ofOpcode OperationCode.LOAD).AddVirtualRegister S.MF.NextVReg
            (if (V.Ty.IsPTR && !V.IsStackAllocation) = true then TM.PointerSize
              else V.BitWidth)).AddStackAccess V.ID 4))
        else if StdMap.contains S.IRVregToLLIRVreg V.ID = true then
          if (!IsDef && S.MF.IsStackSlot (StdMap.getD0 S.IRVregToLLIRVreg V.ID)) = true then
            (S.MF.NextVReg, (S.GetNextAvailableVReg).2.InsertInstr
              (((MachineInstruction.ofOpcode OperationCode.LOAD).AddVirtualRegister S.MF.NextVReg
                (if (V.Ty.IsPTR && !V.IsStackAllocation) = true then TM.PointerSize
                  else V.BitWidth)).AddStackAccess (StdMap.getD0 S.IRVregToLLIRVreg V.ID) 4))
          else (StdMap.getD0 S.IRVregToLLIRVreg V.ID, S)
        else (S.MF.NextVReg,
          { (S.GetNextAvailableVReg).2 with
            IRVregToLLIRVreg :=
              StdMap.set (S.GetNextAvailableVReg).2.IRVregToLLIRVreg V.ID S.MF.NextVReg })) →
      MO.IsVirtualReg = true ∧ MO.GetReg = R.1 ∧ S1 = R.2 →
      MO.IsVirtualReg = true ∧
      ((∃ v, StdMap.get? S.IRVregToLLIRVreg V.ID = some v ∧ MO.GetReg = v ∧ S1 = S ∧
          (IsDef = true ∨ S.MF.IsStackSlot v = false)) ∨
       (StdMap.contains S.IRVregToLLIRVreg V.ID = false ∧ MO.GetReg = S.MF.NextVReg ∧
          (IsDef = true ∨ S.MF.IsStackSlot V.ID = false) ∧
          S1 = { S with
            MF := { S.MF with NextVReg := S.MF.NextVReg + 1 },
            IRVregToLLIRVreg := StdMap.set S.IRVregToLLIRVreg V.ID S.MF.NextVReg }) ∨
       (MO.GetReg = S.MF.NextVReg ∧ IsDef = false ∧
          ∃ Slot w, S.MF.IsStackSlot Slot = true ∧
            S1 = { S with
              MF := { S.MF with NextVReg := S.MF.NextVReg + 1 },
              Inserted := S.Inserted ++
                [((MachineInstruction.ofOpcode OperationCode.LOAD).AddVirtualRegister
                  S.MF.NextVReg w).AddStackAccess Slot 4] })) := by
    intro R hR ⟨k1, k2, k3⟩
    refine ⟨k1, ?_⟩
    by_cases c1 : (!IsDef && !StdMap.contains S.IRVregToLLIRVreg V.ID && S.MF.IsStackSlot V.ID) = true
    · rw [if_pos c1] at hR
      simp only [Bool.and_eq_true, Bool.not_eq_true'] at c1
      right; right
      rw [hR] at k2 k3
      exact ⟨k2, c1.1.1, V.ID, _, c1.2, k3⟩
    · rw [if_neg c1] at hR
      by_cases c2 : StdMap.contains S.IRVregToLLIRVreg V.ID = true
      · rw [if_pos c2] at hR
        obtain ⟨v, hv⟩ := (StdMap.contains_iff_get? _ _).mp c2
        have hD : StdMap.getD0 S.IRVregToLLIRVreg V.ID = v := StdMap.getD0_of_get? _ _ _ hv
        by_cases c3 : (!IsDef && S.MF.IsStackSlot (StdMap.getD0 S.IRVregToLLIRVreg V.ID)) = true
        · rw [if_pos c3] at hR
          simp only [Bool.and_eq_true, Bool.not_eq_true'] at c3
          right; right
          rw [hR] at k2 k3
          exact ⟨k2, c3.1, _, _, c3.2, k3⟩
        · rw [if_neg c3] at hR
          left
          rw [hR] at k2 k3
          refine ⟨v, hv, by rw [k2]; exact hD, k3, ?_⟩
          rw [hD] at c3
          cases hd : IsDef
          · right
            simpa [hd] using c3
          · left; rfl
      · rw [if_neg c2] at hR
        have c2f : StdMap.contains S.IRVregToLLIRVreg V.ID = false := by simpa using c2
        right; left
        rw [hR] at k2 k3
        refine ⟨c2f, k2, ?_, k3⟩
        cases hd : IsDef
        · right
          simpa [hd, c2f] using c1
        · left; rfl
  split at h
  · exact main _ rfl (key _ _ h)
  · exact main _ rfl (key _ _ h)

theorem LLIRState.GrowsTo_refl (S : LLIRState) : S.GrowsTo S :=
  ⟨Nat.le_refl _, fun _ _ h => Or.inl h⟩

theorem LLIRState.VRegsFresh_of_empty (S : LLIRState) (h : S.IRVregToLLIRVreg = []) :
    S.VRegsFresh := by
  constructor
  · intro k v hk
    rw [h] at hk
    simp [StdMap.get?] at hk
  · intro k1 k2 v1 v2 hk
    rw [h] at hk
    simp [StdMap.get?] at hk

/-- A call on an IR register value keeps the table fitting the counter, lets
the state grow, and returns a register below the new counter. -/
theorem GetMachineOperandFromValue_fresh (TM : TargetMachine) (V : Value) (IsDef : Bool)
    (S S1 : LLIRState) (MO : MachineOperand) (hV : V.Kind = ValueKind.REGISTER)
    (hS : S.VRegsFresh) (h : GetMachineOperandFromValue TM V IsDef S = some (MO, S1)) :
    S1.VRegsFresh ∧ S.GrowsTo S1 ∧ MO.GetReg < S1.MF.NextVReg := by
  obtain ⟨_, hc⟩ := GetMachineOperandFromValue_register TM V IsDef S S1 MO hV h
  obtain ⟨hlt, hinj⟩ := hS
  rcases hc with ⟨v, hv, hr, hS1, _⟩ | ⟨hn, hr, _, hS1⟩ | ⟨hr, _, Slot, w, _, hS1⟩
  · subst hS1
    exact ⟨⟨hlt, hinj⟩, LLIRState.GrowsTo_refl _, by rw [hr]; exact hlt _ _ hv⟩
  · subst hS1
    have hget : ∀ k v, StdMap.get? (StdMap.set S.IRVregToLLIRVreg V.ID S.MF.NextVReg) k = some v →
        (k = V.ID ∧ v = S.MF.NextVReg) ∨ (k ≠ V.ID ∧ StdMap.get? S.IRVregToLLIRVreg k = some v) := by
      intro k v hk
      by_cases e : k = V.ID
      · subst e
        rw [StdMap.get?_set_self] at hk
        simp only [Option.some.injEq] at hk
        exact Or.inl ⟨rfl, hk.symm⟩
      · rw [StdMap.get?_set_ne _ _ _ _ e] at hk
        exact Or.inr ⟨e, hk⟩
    refine ⟨⟨?_, ?_⟩, ⟨Nat.le_succ _, ?_⟩, by rw [hr]; exact Nat.lt_succ_self _⟩
    · intro k v hk
      show v < S.MF.NextVReg + 1
      rcases hget k v hk with ⟨_, e⟩ | ⟨_, e⟩
      · omega
      · have := hlt k v e
        omega
    · intro k1 k2 v1 v2 h1 h2 hne
      rcases hget k1 v1 h1 with ⟨e1, f1⟩ | ⟨e1, f1⟩ <;>
        rcases hget k2 v2 h2 with ⟨e2, f2⟩ | ⟨e2, f2⟩
      · exact absurd (e1.trans e2.symm) hne
      · have := hlt k2 v2 f2
        omega
      · have := hlt k1 v1 f1
        omega
      · exact hinj k1 k2 v1 v2 f1 f2 hne
    · intro k v hk
      rcases hget k v hk with ⟨_, e⟩ | ⟨_, e⟩
      · exact Or.inr (by omega)
      · exact Or.inl e
  · subst hS1
    refine ⟨⟨?_, hinj⟩, ⟨Nat.le_succ _, fun k v hk => Or.inl hk⟩,
      by rw [hr]; exact Nat.lt_succ_self _⟩
    intro k v hk
    show v < S.MF.NextVReg + 1
    have := hlt k v hk
    omega

/-- Claim C24: `GetMachineOperandFromValue` on an IR register value.  When its
id is not in the table and is not a stack slot, the call returns the next
register of the function's counter and records it, inserting nothing.  When
the id is mapped to a register that is not a stack slot, the call returns that
register and leaves the state as it is.  A table that fits the counter keeps
fitting it, and then two IR values with different ids never receive the same
register, whatever the lowering does in between as long as the state only
grows and keeps the entry of the first id. -/
theorem GetMachineOperandFromValue_stable_and_injective (TM : TargetMachine) (V : Value)
    (S : LLIRState) (hV : V.Kind = ValueKind.REGISTER) :
    (StdMap.contains S.IRVregToLLIRVreg V.ID = false → S.MF.IsStackSlot V.ID = false →
      ∀ IsDef : Bool, ∃ MO,
        GetMachineOperandFromValue TM V IsDef S = some (MO, { S with
          MF := { S.MF with NextVReg := S.MF.NextVReg + 1 },
          IRVregToLLIRVreg := StdMap.set S.IRVregToLLIRVreg V.ID S.MF.NextVReg }) ∧
        MO.IsVirtualReg = true ∧ MO.GetReg = S.MF.NextVReg) ∧
    (∀ v, StdMap.get? S.IRVregToLLIRVreg V.ID = some v → S.MF.IsStackSlot v = false →
      ∀ IsDef : Bool, ∃ MO, GetMachineOperandFromValue TM V IsDef S = some (MO, S) ∧
        MO.IsVirtualReg = true ∧ MO.GetReg = v) ∧
    (S.VRegsFresh → ∀ (IsDef : Bool) (MO : MachineOperand) (S1 : LLIRState),
      GetMachineOperandFromValue TM V IsDef S = some (MO, S1) →
      S1.VRegsFresh ∧ S.GrowsTo S1 ∧ MO.GetReg < S1.MF.NextVReg) ∧
    (S.VRegsFresh → ∀ (d1 : Bool) (MO1 : MachineOperand) (S1 : LLIRState),
      GetMachineOperandFromValue TM V d1 S = some (MO1, S1) →
      ∀ S2 : LLIRState, S1.GrowsTo S2 → S2.VRegsFresh →
        (∀ v, StdMap.get? S1.IRVregToLLIRVreg V.ID = some v →
          StdMap.get? S2.IRVregToLLIRVreg V.ID = some v) →
        ∀ (V2 : Value) (d2 : Bool) (MO2 : MachineOperand) (S3 : LLIRState),
          V2.Kind = ValueKind.REGISTER → V2.ID ≠ V.ID →
          GetMachineOperandFromValue TM V2 d2 S2 = some (MO2, S3) →
          MO1.GetReg ≠ MO2.GetReg) := by
  refine ⟨?_, ?_, ?_, ?_⟩
  · intro hc hs IsDef
    refine ⟨_, ?_, (MachineOperand.GetReg_CreateVirtualRegister S.MF.NextVReg 32
        (if V.Ty.IsPTR = true then LowLevelType.CreatePTR TM.PointerSize
          else LowLevelType.CreateINT (if (V.Ty.IsPTR && !V.IsStackAllocation) = true
            then TM.PointerSize else V.BitWidth))).2,
      (MachineOperand.GetReg_CreateVirtualRegister _ _ _).1⟩
    unfold GetMachineOperandFromValue
    simp only [hV, hc, hs, Bool.and_false, Bool.false_eq_true, if_false,
      LLIRState.GetNextAvailableVReg]
    split <;> rename_i hp <;> simp [hp]
  · intro v hv hs IsDef
    have hc : StdMap.contains S.IRVregToLLIRVreg V.ID = true :=
      (StdMap.contains_iff_get? _ _).mpr ⟨v, hv⟩
    have hD : StdMap.getD0 S.IRVregToLLIRVreg V.ID = v := StdMap.getD0_of_get? _ _ _ hv
    refine ⟨_, ?_, (MachineOperand.GetReg_CreateVirtualRegister v 32
        (if V.Ty.IsPTR = true then LowLevelType.CreatePTR TM.PointerSize
          else LowLevelType.CreateINT (if (V.Ty.IsPTR && !V.IsStackAllocation) = true
            then TM.PointerSize else V.BitWidth))).2,
      (MachineOperand.GetReg_CreateVirtualRegister _ _ _).1⟩
    unfold GetMachineOperandFromValue
    simp only [hV, hc, hD, hs, Bool.not_true, Bool.and_false, Bool.false_and,
      Bool.false_eq_true, if_false, if_true]
    split <;> rename_i hp <;> simp [hp]
  · intro hS IsDef MO S1 h
    exact GetMachineOperandFromValue_fresh TM V IsDef S S1 MO hV hS h
  · intro hS d1 MO1 S1 h1 S2 hg hS2 hkeep V2 d2 MO2 S3 hV2 hne h2
    obtain ⟨hS1, _, hlt1⟩ := GetMachineOperandFromValue_fresh TM V d1 S S1 MO1 hV hS h1
    obtain ⟨_, hc1⟩ := GetMachineOperandFromValue_register TM V d1 S S1 MO1 hV h1
    obtain ⟨_, hc2⟩ := GetMachineOperandFromValue_register TM V2 d2 S2 S3 MO2 hV2 h2
    obtain ⟨hgn, hge⟩ := hg
    have hfreshcase : MO2.GetReg = S2.MF.NextVReg → MO1.GetReg ≠ MO2.GetReg := by
      intro e; omega
    rcases hc2 with ⟨v2, hv2, hr2, _, _⟩ | ⟨_, hr2, _, _⟩ | ⟨hr2, _, _⟩
    · -- the second value is mapped in S2
      have hrec : (∃ v1, StdMap.get? S1.IRVregToLLIRVreg V.ID = some v1 ∧ MO1.GetReg = v1) ∨
          (MO1.GetReg = S.MF.NextVReg ∧ S1.IRVregToLLIRVreg = S.IRVregToLLIRVreg ∧
            S1.MF.NextVReg = S.MF.NextVReg + 1) := by
        rcases hc1 with ⟨v, hv, hr, hS1e, _⟩ | ⟨_, hr, _, hS1e⟩ | ⟨hr, _, Slot, w, _, hS1e⟩
        · left; subst hS1e; exact ⟨v, hv, hr⟩
        · left; subst hS1e
          exact ⟨S.MF.NextVReg, StdMap.get?_set_self _ _ _, hr⟩
        · right; subst hS1e; exact ⟨hr, rfl, rfl⟩
      rcases hrec with ⟨v1, hv1, hr1⟩ | ⟨hr1, hmap, hnext⟩
      · have := hS2.2 V.ID V2.ID v1 v2 (hkeep v1 hv1) hv2 (fun e => hne e.symm)
        rw [hr1, hr2]; exact this
      · rcases hge V2.ID v2 hv2 with e | e
        · rw [hmap] at e
          have := hS.1 V2.ID v2 e
          omega
        · omega
    · exact hfreshcase hr2
    · exact hfreshcase hr2

theorem GetMachineOperandFromValue_stable_and_injective_witness :
    (Example.irRegister 7).Kind = ValueKind.REGISTER ∧
    Example.stateWithSlot.VRegsFresh ∧
    (∃ MO1, GetMachineOperandFromValue AArch64.TM (Example.irRegister 7) false
        Example.stateWithSlot = some (MO1, Example.stateAfterRegister7) ∧ MO1.GetReg = 10 ∧
      (∃ MO, GetMachineOperandFromValue AArch64.TM (Example.irRegister 7) true
          Example.stateAfterRegister7 = some (MO, Example.stateAfterRegister7) ∧
        MO.GetReg = 10) ∧
      ∃ MO2 S3, GetMachineOperandFromValue AArch64.TM (Example.irRegister 8) false
          Example.stateAfterRegister7 = some (MO2, S3) ∧ MO1.GetReg ≠ MO2.GetReg) := by
  have T := GetMachineOperandFromValue_stable_and_injective AArch64.TM (Example.irRegister 7)
    Example.stateWithSlot rfl
  have T7 := GetMachineOperandFromValue_stable_and_injective AArch64.TM (Example.irRegister 7)
    Example.stateAfterRegister7 rfl
  have T8 := GetMachineOperandFromValue_stable_and_injective AArch64.TM (Example.irRegister 8)
    Example.stateAfterRegister7 rfl
  have hF : Example.stateWithSlot.VRegsFresh := LLIRState.VRegsFresh_of_empty _ rfl
  obtain ⟨MO1, h1, _, hr1⟩ := T.1 (by decide) (by decide) false
  have h1a : GetMachineOperandFromValue AArch64.TM (Example.irRegister 7) false
      Example.stateWithSlot = some (MO1, Example.stateAfterRegister7) := h1
  obtain ⟨hF1, _, _⟩ := T.2.2.1 hF false MO1 _ h1a
  obtain ⟨MO, h3, _, hr3⟩ := T7.2.1 10 (by decide) (by decide) true
  obtain ⟨MO2, h2, _, _⟩ := T8.1 (by decide) (by decide) false
  exact ⟨rfl, hF, MO1, h1a, hr1, ⟨MO, h3, hr3⟩, MO2, _, h2,
    T.2.2.2 hF false MO1 _ h1a _ (LLIRState.GrowsTo_refl _) hF1 (fun _ h => h)
      (Example.irRegister 8) false MO2 _ rfl (by decide) h2⟩

theorem LLIRState.GrowsTo_trans {S S1 S2 : LLIRState} (h1 : S.GrowsTo S1) (h2 : S1.GrowsTo S2) :
    S.GrowsTo S2 := by
  refine ⟨Nat.le_trans h1.1 h2.1, ?_⟩
  intro k v hk
  rcases h2.2 k v hk with e | e
  · exact h1.2 k v e
  · exact Or.inr (Nat.le_trans h1.1 e)

/-- Recording the next register of the counter for an IR id, whether the id
was mapped before or not, keeps the table fitting the counter. -/
theorem LLIRState.VRegsFresh.record (S S1 : LLIRState) (hS : S.VRegsFresh) (ID : Nat)
    (hmap : S1.IRVregToLLIRVreg = StdMap.set S.IRVregToLLIRVreg ID S.MF.NextVReg)
    (hnext : S1.MF.NextVReg = S.MF.NextVReg + 1) :
    S1.VRegsFresh ∧ S.GrowsTo S1 ∧
      ∀ k, k ≠ ID → StdMap.get? S1.IRVregToLLIRVreg k = StdMap.get? S.IRVregToLLIRVreg k := by
  obtain ⟨hlt, hinj⟩ := hS
  have hget : ∀ k v, StdMap.get? S1.IRVregToLLIRVreg k = some v →
      (k = ID ∧ v = S.MF.NextVReg) ∨ (k ≠ ID ∧ StdMap.get? S.IRVregToLLIRVreg k = some v) := by
    intro k v hk
    rw [hmap] at hk
    by_cases e : k = ID
    · subst e
      rw [StdMap.get?_set_self] at hk
      simp only [Option.some.injEq] at hk
      exact Or.inl ⟨rfl, hk.symm⟩
    · rw [StdMap.get?_set_ne _ _ _ _ e] at hk
      exact Or.inr ⟨e, hk⟩
  refine ⟨⟨?_, ?_⟩, ⟨by omega, ?_⟩, ?_⟩
  · intro k v hk
    rcases hget k v hk with ⟨_, e⟩ | ⟨_, e⟩
    · omega
    · have := hlt k v e
      omega
  · intro k1 k2 v1 v2 h1 h2 hne
    rcases hget k1 v1 h1 with ⟨e1, f1⟩ | ⟨e1, f1⟩ <;>
      rcases hget k2 v2 h2 with ⟨e2, f2⟩ | ⟨e2, f2⟩
    · exact absurd (e1.trans e2.symm) hne
    · have := hlt k2 v2 f2
      omega
    · have := hlt k1 v1 f1
      omega
    · exact hinj k1 k2 v1 v2 f1 f2 hne
  · intro k v hk
    rcases hget k v hk with ⟨_, e⟩ | ⟨_, e⟩
    · exact Or.inr (by omega)
    · exact Or.inl e
  · intro k hk
    rw [hmap, StdMap.get?_set_ne _ _ _ _ hk]

/-- The spill of a call's result, the other place that writes the table,
keeps it fitting the counter and touches no entry but the one of the call's
id. -/
theorem CallSpill_fresh (TM : TargetMachine) (ID RegsCount : Nat) (Remaining : Nat) :
    ∀ (i B : Nat) (S S1 : LLIRState) (R : Option MachineInstruction),
      S.VRegsFresh → CallSpill TM ID RegsCount Remaining i B S = some (R, S1) →
      S1.VRegsFresh ∧ S.GrowsTo S1 ∧
        ∀ k, k ≠ ID → StdMap.get? S1.IRVregToLLIRVreg k = StdMap.get? S.IRVregToLLIRVreg k := by
  induction Remaining with
  | zero =>
    intro i B S S1 R hS h
    simp only [CallSpill, Option.some.injEq, Prod.mk.injEq] at h
    obtain ⟨_, h2⟩ := h
    subst h2
    exact ⟨hS, LLIRState.GrowsTo_refl _, fun _ _ => rfl⟩
  | succ n ih =>
    intro i B S S1 R hS h
    simp only [CallSpill] at h
    split at h
    · exact absurd h (by simp)
    · rename_i MF1 hMF
      have hMF1 : MF1.NextVReg = S.MF.NextVReg + 1 := by
        unfold MachineFunction.InsertStackSlot at hMF
        simp only [Option.map_eq_some'] at hMF
        obtain ⟨sf, _, e⟩ := hMF
        subst e
        rfl
      split at h
      · exact absurd h (by simp)
      · split at h
        · exact absurd h (by simp)
        · split at h
          · simp only [Option.some.injEq, Prod.mk.injEq] at h
            obtain ⟨_, h2⟩ := h
            subst h2
            exact LLIRState.VRegsFresh.record S _ hS ID rfl hMF1
          · have hx : ∃ Sx Bx, CallSpill TM ID RegsCount n (i + 1) Bx Sx = some (R, S1) ∧
                Sx.IRVregToLLIRVreg = StdMap.set S.IRVregToLLIRVreg ID S.MF.NextVReg ∧
                Sx.MF.NextVReg = S.MF.NextVReg + 1 := ⟨_, _, h, by rfl, by exact hMF1⟩
            obtain ⟨Sx, Bx, hc, hm, hn⟩ := hx
            obtain ⟨a1, a2, a3⟩ := LLIRState.VRegsFresh.record S Sx hS ID hm hn
            obtain ⟨b1, b2, b3⟩ := ih _ _ _ _ _ a1 hc
            exact ⟨b1, LLIRState.GrowsTo_trans a2 b2, fun k hk => (b3 k hk).trans (a3 k hk)⟩

/-! ### The moves of call lowering -/

theorem AArch64.ArgumentRegisters_get? (c : Nat) (h : c < 8) :
    AArch64.TM.ABI.ArgumentRegisters.get? c = some (c + 32) := by
  have : ∀ c < 8, AArch64.TM.ABI.ArgumentRegisters.get? c = some (c + 32) := by decide
  exact this c h

theorem AArch64.ArgumentRegisters_get?_none (c : Nat) (h : 8 ≤ c) :
    AArch64.TM.ABI.ArgumentRegisters.get? c = none := by
  rw [List.get?_eq_none]
  exact h

theorem AArch64.SubRegs_head? (c : Nat) (h : c < 8) :
    (AArch64.TM.RegInfo.SubRegs (c + 32)).head? = some c := by
  have : ∀ c < 8, (AArch64.TM.RegInfo.SubRegs (c + 32)).head? = some c := by decide
  exact this c h

/-- Operand conversion leaves the stack frame and the caller mark alone and
inserts nothing or one `LOAD`. -/
theorem GetMachineOperandFromValue_frame (TM : TargetMachine) (A : Value) (IsDef : Bool)
    (S S1 : LLIRState) (MO : MachineOperand)
    (h : GetMachineOperandFromValue TM A IsDef S = some (MO, S1)) :
    S1.MF.SF = S.MF.SF ∧ S1.MF.HasCall = S.MF.HasCall ∧
      (S1.Inserted = S.Inserted ∨
        ∃ L, L.IsLOAD = true ∧ S1.Inserted = S.Inserted ++ [L]) := by
  by_cases hV : A.Kind = ValueKind.REGISTER
  · obtain ⟨_, hc⟩ := GetMachineOperandFromValue_register TM A IsDef S S1 MO hV h
    rcases hc with ⟨v, _, _, hS1, _⟩ | ⟨_, _, _, hS1⟩ | ⟨_, _, Slot, w, _, hS1⟩
    · subst hS1
      exact ⟨rfl, rfl, Or.inl rfl⟩
    · subst hS1
      exact ⟨rfl, rfl, Or.inl rfl⟩
    · subst hS1
      exact ⟨rfl, rfl, Or.inr ⟨_, by rfl, rfl⟩⟩
  · unfold GetMachineOperandFromValue at h
    cases e : A.Kind <;> rw [e] at h <;> dsimp only at h
    all_goals first
      | exact absurd e hV
      | exact Option.noConfusion h
      | (split_ifs at h
         all_goals first
           | exact Option.noConfusion h
           | (simp only [Option.some.injEq, Prod.mk.injEq] at h
              obtain ⟨_, h2⟩ := h
              subst h2
              exact ⟨rfl, rfl, Or.inl rfl⟩))

/-- Operand conversion of a scalar argument succeeds. -/
theorem GetMachineOperandFromValue_scalar (TM : TargetMachine) (A : Value) (S : LLIRState)
    (hA : A.IsScalarArg S.MF.SF = true) :
    ∃ Src Sa, GetMachineOperandFromValue TM A false S = some (Src, Sa) := by
  unfold Value.IsScalarArg at hA
  simp only [Bool.and_eq_true, Bool.or_eq_true, Bool.not_eq_true'] at hA
  obtain ⟨_, hk⟩ := hA
  unfold GetMachineOperandFromValue
  rcases hk with (hk | hk) | ⟨hk, hfp⟩
  · have e : A.Kind = ValueKind.REGISTER := by simpa [Value.IsRegister] using hk
    simp only [e]
    split_ifs <;> exact ⟨_, _, rfl⟩
  · have e : A.Kind = ValueKind.PARAM := by simpa [Value.IsParameter] using hk
    simp only [e]
    split_ifs <;> exact ⟨_, _, rfl⟩
  · have e : A.Kind = ValueKind.CONST := by simpa [Value.IsConstant] using hk
    simp only [e, hfp]
    exact ⟨_, _, rfl⟩

/-- The argument loop on scalar arguments: it succeeds, follows the moves of
`ScalarArgMoves`, and what it inserts are the moves, one per argument, and
loads. -/
theorem CallArgs_scalar (TM : TargetMachine) (SF : StackFrame)
    (hsub : ∀ i r, TM.ABI.ArgumentRegisters.get? i = some r →
      ∃ s, (TM.RegInfo.SubRegs r).head? = some s)
    (Args : List Value) :
    ∀ (i : Nat) (S : LLIRState), S.MF.SF = SF →
      i + Args.length ≤ TM.ABI.ArgumentRegisters.length →
      (∀ A ∈ Args, A.IsScalarArg SF = true) →
      ∃ S1 New, CallArgs TM Args i S = some (i + Args.length, S1) ∧
        ScalarArgMoves TM Args i S S1 ∧
        S1.MF.SF = SF ∧ S1.MF.HasCall = S.MF.HasCall ∧
        S1.Inserted = S.Inserted ++ New ∧
        (New.filter MachineInstruction.IsMOV).length = Args.length ∧
        (∀ I ∈ New, I.IsMOV = true ∨ I.IsLOAD = true) := by
  induction Args with
  | nil =>
    intro i S hS _ _
    exact ⟨S, [], rfl, ScalarArgMoves.done i S, hS, rfl, by simp, rfl, by simp⟩
  | cons A rest ih =>
    intro i S hS hlen hsc
    simp only [List.length_cons] at hlen
    have hA : A.IsScalarArg S.MF.SF = true := by
      rw [hS]; exact hsc A (List.mem_cons_self _ _)
    have hA2 := hA
    unfold Value.IsScalarArg at hA2
    simp only [Bool.and_eq_true, Bool.not_eq_true'] at hA2
    obtain ⟨⟨hst, hptr⟩, _⟩ := hA2
    have hptr2 : (A.Ty.IsPTR && (A.IsGlobalVar || S.MF.IsStackSlot A.ID)) = false := hptr
    obtain ⟨ArgReg, hreg⟩ : ∃ r, TM.ABI.ArgumentRegisters.get? i = some r := by
      have : i < TM.ABI.ArgumentRegisters.length := by omega
      exact ⟨_, List.get?_eq_get this⟩
    obtain ⟨Src, Sa, hsrc⟩ := GetMachineOperandFromValue_scalar TM A S hA
    obtain ⟨f1, f2, f3⟩ := GetMachineOperandFromValue_frame TM A false S Sa Src hsrc
    have hins : ∃ L0, Sa.Inserted = S.Inserted ++ L0 ∧ L0.filter MachineInstruction.IsMOV = [] ∧
        ∀ I ∈ L0, I.IsMOV = true ∨ I.IsLOAD = true := by
      rcases f3 with e | ⟨L, hL, e⟩
      · exact ⟨[], by simp [e], rfl, by simp⟩
      · refine ⟨[L], e, ?_, ?_⟩
        · have : L.IsMOV = false := by
            unfold MachineInstruction.IsLOAD at hL
            unfold MachineInstruction.IsMOV
            have e1 : L.Opcode = MIOpcode.generic OperationCode.LOAD := by simpa using hL
            rw [e1]; decide
          simp [this]
        · intro I hI
          simp only [List.mem_singleton] at hI
          subst hI
          exact Or.inr hL
    obtain ⟨L0, hL0, hL0f, hL0m⟩ := hins
    have hmov : ∀ r w, (ArgumentMove r w Src).IsMOV = true := fun _ _ => rfl
    by_cases hn : Src.GetSize < TM.RegInfo.BitWidth ArgReg
    · obtain ⟨Sub, hSub⟩ := hsub i ArgReg hreg
      obtain ⟨S1, New, h1, h2, h3, h4, h5, h6, h7⟩ := ih (i + 1)
        (Sa.InsertInstr (ArgumentMove Sub (TM.RegInfo.BitWidth Sub) Src))
        (by show Sa.MF.SF = SF; rw [f1, hS]) (by omega)
        (fun B hB => hsc B (List.mem_cons_of_mem _ hB))
      refine ⟨S1, L0 ++ ArgumentMove Sub (TM.RegInfo.BitWidth Sub) Src :: New, ?_,
        ScalarArgMoves.sub A rest i S Sa S1 Src ArgReg Sub hreg hsrc hn hSub h2, h3, ?_, ?_, ?_, ?_⟩
      · rw [CallArgs]
        simp only [hst, hreg, hptr2, hsrc, hn, hSub, Bool.false_eq_true, if_false, if_true]
        exact h1.trans (by rw [List.length_cons, Nat.add_assoc, Nat.add_comm 1])
      · rw [h4]; exact f2
      · rw [h5]
        show Sa.Inserted ++ [_] ++ New = _
        rw [hL0]; simp
      · simp [List.filter_append, hL0f, hmov, h6, List.filter_cons]
      · intro I hI
        simp only [List.mem_append, List.mem_cons] at hI
        rcases hI with hI | hI | hI
        · exact hL0m I hI
        · subst hI; exact Or.inl rfl
        · exact h7 I hI
    · obtain ⟨S1, New, h1, h2, h3, h4, h5, h6, h7⟩ := ih (i + 1)
        (Sa.InsertInstr (ArgumentMove ArgReg (TM.RegInfo.BitWidth ArgReg) Src))
        (by show Sa.MF.SF = SF; rw [f1, hS]) (by omega)
        (fun B hB => hsc B (List.mem_cons_of_mem _ hB))
      refine ⟨S1, L0 ++ ArgumentMove ArgReg (TM.RegInfo.BitWidth ArgReg) Src :: New, ?_,
        ScalarArgMoves.whole A rest i S Sa S1 Src ArgReg hreg hsrc hn h2, h3, ?_, ?_, ?_, ?_⟩
      · rw [CallArgs]
        simp only [hst, hreg, hptr2, hsrc, hn, Bool.false_eq_true, if_false]
        exact h1.trans (by rw [List.length_cons, Nat.add_assoc, Nat.add_comm 1])
      · rw [h4]; exact f2
      · rw [h5]
        show Sa.Inserted ++ [_] ++ New = _
        rw [hL0]; simp
      · simp [List.filter_append, hL0f, hmov, h6, List.filter_cons]
      · intro I hI
        simp only [List.mem_append, List.mem_cons] at hI
        rcases hI with hI | hI | hI
        · exact hL0m I hI
        · subst hI; exact Or.inl rfl
        · exact h7 I hI

/-- The spill of the returned value leaves the caller mark alone. -/
theorem CallSpill_HasCall (TM : TargetMachine) (ID RegsCount : Nat) (Remaining : Nat) :
    ∀ (i B : Nat) (S S1 : LLIRState) (R : Option MachineInstruction),
      CallSpill TM ID RegsCount Remaining i B S = some (R, S1) →
      S1.MF.HasCall = S.MF.HasCall := by
  induction Remaining with
  | zero =>
    intro i B S S1 R h
    simp only [CallSpill, Option.some.injEq, Prod.mk.injEq] at h
    obtain ⟨_, h2⟩ := h
    subst h2
    rfl
  | succ n ih =>
    intro i B S S1 R h
    simp only [CallSpill] at h
    split at h
    · exact absurd h (by simp)
    · rename_i MF1 hMF
      have hMF1 : MF1.HasCall = S.MF.HasCall := by
        unfold MachineFunction.InsertStackSlot at hMF
        simp only [Option.map_eq_some'] at hMF
        obtain ⟨sf, _, e⟩ := hMF
        subst e
        rfl
      split at h
      · exact absurd h (by simp)
      · split at h
        · exact absurd h (by simp)
        · split at h
          · simp only [Option.some.injEq, Prod.mk.injEq] at h
            obtain ⟨_, h2⟩ := h
            subst h2
            exact hMF1
          · rw [ih _ _ _ _ _ h]
            exact hMF1

/-- Claim C21: on AArch64, a call with at most 8 arguments, all of them
scalars.  The argument loop succeeds with the running index at the number of
arguments; it follows `ScalarArgMoves` from index 0: in argument order, the
operand of the argument is obtained and one `MOV` is inserted from that operand
into the argument register of the index, or into that register's first
sub-register when the operand is narrower.  What the loop inserts are exactly
as many `MOV`s as there are arguments, and besides them only the `LOAD`s that
obtaining an operand inserts.  The function is marked as a caller.  For a void
result the `CALL` with the callee's name is returned, to be placed after the
moves; for any other result the `CALL` is inserted right after the moves and
the spill of the returned value follows it. -/
theorem ConvertCall_scalar_arguments (Res : Value) (Name : String) (Args : List Value)
    (S : LLIRState) (hn : Args.length ≤ 8)
    (hscalar : ∀ A ∈ Args, A.IsScalarArg S.MF.SF = true) :
    ∃ S1 New,
      CallArgs AArch64.TM Args 0 { S with MF := { S.MF with HasCall := true } }
        = some (Args.length, S1) ∧
      ScalarArgMoves AArch64.TM Args 0 { S with MF := { S.MF with HasCall := true } } S1 ∧
      S1.Inserted = S.Inserted ++ New ∧
      (New.filter MachineInstruction.IsMOV).length = Args.length ∧
      (∀ I ∈ New, I.IsMOV = true ∨ I.IsLOAD = true) ∧
      S1.MF.HasCall = true ∧
      (Res.Ty.IsVoid = true →
        ConvertCall AArch64.TM Res Name Args S
          = some ((MachineInstruction.ofOpcode OperationCode.CALL).AddFunctionName Name, S1)) ∧
      (Res.Ty.IsVoid = false →
        ConvertCall AArch64.TM Res Name Args S
          = (if GetNextAlignedValue (Res.Ty.ByteSize * 8) AArch64.TM.PointerSize
                / AArch64.TM.PointerSize = 0 then none
             else (CallSpill AArch64.TM Res.ID
                (GetNextAlignedValue (Res.Ty.ByteSize * 8) AArch64.TM.PointerSize
                  / AArch64.TM.PointerSize)
                (GetNextAlignedValue (Res.Ty.ByteSize * 8) AArch64.TM.PointerSize
                  / AArch64.TM.PointerSize) 0 (Res.Ty.ByteSize * 8)
                (S1.InsertInstr
                  ((MachineInstruction.ofOpcode OperationCode.CALL).AddFunctionName Name))).map
               (fun r => (r.1.getD
                  ((MachineInstruction.ofOpcode OperationCode.CALL).AddFunctionName Name), r.2))) ∧
        ∀ MI S2, ConvertCall AArch64.TM Res Name Args S = some (MI, S2) →
          S2.MF.HasCall = true ∧
          ∃ Rest, S2.Inserted = S1.Inserted ++
            (MachineInstruction.ofOpcode OperationCode.CALL).AddFunctionName Name :: Rest) := by
  have hsub : ∀ i r, AArch64.TM.ABI.ArgumentRegisters.get? i = some r →
      ∃ s, (AArch64.TM.RegInfo.SubRegs r).head? = some s := by
    intro i r hi
    have hlt : i < 8 := by
      by_contra hc
      rw [AArch64.ArgumentRegisters_get?_none i (by omega)] at hi
      exact absurd hi (by simp)
    rw [AArch64.ArgumentRegisters_get? i hlt] at hi
    simp only [Option.some.injEq] at hi
    subst hi
    exact ⟨i, AArch64.SubRegs_head? i hlt⟩
  obtain ⟨S1, New, h1, h2, _, h4, h5, h6, h7⟩ := CallArgs_scalar AArch64.TM S.MF.SF hsub Args 0
    { S with MF := { S.MF with HasCall := true } } rfl
    (by
      have : AArch64.TM.ABI.ArgumentRegisters.length = 8 := by decide
      omega)
    hscalar
  rw [Nat.zero_add] at h1
  have hcall : S1.MF.HasCall = true := h4
  have hconv : ConvertCall AArch64.TM Res Name Args S
      = (if Res.Ty.IsVoid = true then
          some ((MachineInstruction.ofOpcode OperationCode.CALL).AddFunctionName Name, S1)
        else if GetNextAlignedValue (Res.Ty.ByteSize * 8) AArch64.TM.PointerSize
                / AArch64.TM.PointerSize = 0 then none
             else (CallSpill AArch64.TM Res.ID
                (GetNextAlignedValue (Res.Ty.ByteSize * 8) AArch64.TM.PointerSize
                  / AArch64.TM.PointerSize)
                (GetNextAlignedValue (Res.Ty.ByteSize * 8) AArch64.TM.PointerSize
                  / AArch64.TM.PointerSize) 0 (Res.Ty.ByteSize * 8)
                (S1.InsertInstr
                  ((MachineInstruction.ofOpcode OperationCode.CALL).AddFunctionName Name))).map
               (fun r => (r.1.getD
                  ((MachineInstruction.ofOpcode OperationCode.CALL).AddFunctionName Name), r.2))) := by
    unfold ConvertCall
    dsimp only
    rw [h1]
    dsimp only
    split_ifs
    · rfl
    · rfl
    · cases hsp : CallSpill AArch64.TM Res.ID
          (GetNextAlignedValue (Res.Ty.ByteSize * 8) AArch64.TM.PointerSize
            / AArch64.TM.PointerSize)
          (GetNextAlignedValue (Res.Ty.ByteSize * 8) AArch64.TM.PointerSize
            / AArch64.TM.PointerSize) 0 (Res.Ty.ByteSize * 8)
          (S1.InsertInstr
            ((MachineInstruction.ofOpcode OperationCode.CALL).AddFunctionName Name)) with
      | none => rfl
      | some r =>
        obtain ⟨o, S3⟩ := r
        cases o <;> rfl
  refine ⟨S1, New, h1, h2, h5, h6, h7, hcall, ?_, ?_⟩
  · intro hv
    rw [hconv, if_pos hv]
  · intro hv
    have hv2 : ¬ Res.Ty.IsVoid = true := by simp [hv]
    rw [hconv, if_neg hv2]
    refine ⟨rfl, ?_⟩
    intro MI S2 hres
    split_ifs at hres
    · simp only [Option.map_eq_some', Prod.exists, Prod.mk.injEq] at hres
      obtain ⟨o, S3, hsp, _, e⟩ := hres
      subst e
      have hx := CallSpill_HasCall _ _ _ _ _ _ _ _ _ hsp
      obtain ⟨⟨Rest, hr, _⟩, _⟩ := CallSpill_spec _ _ _ _ _ _ _ _ _ hsp
      refine ⟨hx.trans hcall, Rest, ?_⟩
      unfold LLIRState.InsertedSince at hr
      rw [hr]
      show S1.Inserted ++ [_] ++ Rest = _
      simp

theorem ConvertCall_scalar_arguments_witness :
    Example.scalarArgs.length ≤ 8 ∧
    (∀ A ∈ Example.scalarArgs, A.IsScalarArg Example.stateWithSlot.MF.SF = true) ∧
    (∃ S1,
      ScalarArgMoves AArch64.TM Example.scalarArgs 0
        { Example.stateWithSlot with MF := { Example.stateWithSlot.MF with HasCall := true } } S1 ∧
      S1.MF.HasCall = true ∧
      ConvertCall AArch64.TM Example.voidResult "h" Example.scalarArgs Example.stateWithSlot
        = some ((MachineInstruction.ofOpcode OperationCode.CALL).AddFunctionName "h", S1)) ∧
    (ConvertCall AArch64.TM Example.voidResult "h" Example.scalarArgs Example.stateWithSlot).map
        (fun r => (r.2.Inserted, r.1))
      = some ([ArgumentMove 0 32 (MachineOperand.CreateVirtualRegister 10 32),
               ArgumentMove 33 64 ((MachineOperand.CreateVirtualRegister 11 32).SetType
                 (LowLevelType.CreatePTR 64)),
               ArgumentMove 2 32 (MachineOperand.CreateImmediate 3 32)],
              (MachineInstruction.ofOpcode OperationCode.CALL).AddFunctionName "h") ∧
    (ConvertCall AArch64.TM Example.intResult "h" Example.scalarArgs Example.stateWithSlot).map
        (fun r => (r.2.Inserted.map (fun I => I.Opcode), r.1.Opcode, r.2.MF.HasCall))
      = some ([MIOpcode.generic OperationCode.MOV, MIOpcode.generic OperationCode.MOV,
               MIOpcode.generic OperationCode.MOV, MIOpcode.generic OperationCode.CALL],
              MIOpcode.generic OperationCode.STORE, true) := by
  have hlen : Example.scalarArgs.length ≤ 8 := by decide
  have hsc : ∀ A ∈ Example.scalarArgs, A.IsScalarArg Example.stateWithSlot.MF.SF = true := by
    decide
  obtain ⟨S1, _, _, h2, _, _, _, h6, h7, _⟩ := ConvertCall_scalar_arguments Example.voidResult
    "h" Example.scalarArgs Example.stateWithSlot hlen hsc
  exact ⟨hlen, hsc, ⟨S1, h2, h6, h7 rfl⟩, by decide, by decide⟩

/-! ### Lowering of calls and memory copies -/

/-- Claim C22, the code at the failing input: the call `%6 = call g()` returns
a 16-byte struct in two registers.  Lowering inserts the `CALL` and the store
of `x0` to the fresh slot 10 and returns the store of `x1` to the fresh slot
11; the mapping recorded for the id 6 is the last slot, 11, not the first, and
a later use of the value loads from slot 11. -/
theorem ConvertToMachineInstr_Call_records_last_slot :
    (ConvertToMachineInstr AArch64.TM Example.callStruct [] Example.stateWithSlot).map
        (fun r => (r.2.Inserted, r.1))
      = some ([(MachineInstruction.ofOpcode OperationCode.CALL).AddFunctionName "g",
               ((MachineInstruction.ofOpcode OperationCode.STORE).AddStackAccess 10 4).AddRegister
                 32 64],
              ((MachineInstruction.ofOpcode OperationCode.STORE).AddStackAccess 11 4).AddRegister
                33 64) ∧
    (ConvertToMachineInstr AArch64.TM Example.callStruct [] Example.stateWithSlot).map
        (fun r => (r.2.MF.SF.StackSlots, r.2.IRVregToLLIRVreg))
      = some ([(5, 16), (10, 8), (11, 8)], [(6, 11)]) ∧
    StdMap.get? [(6, 11)] 6 ≠ some 10 ∧
    ((ConvertToMachineInstr AArch64.TM Example.callStruct [] Example.stateWithSlot).bind
        (fun r => GetMachineOperandFromValue AArch64.TM
          { Kind := ValueKind.REGISTER, ID := 6, BitWidth := 64 } false r.2)).map
        (fun r => r.2.Inserted.getLast?)
      = some (some (((MachineInstruction.ofOpcode OperationCode.LOAD).AddVirtualRegister
          12 64).AddOperand (MachineOperand.CreateStackAccess 11 0))) :=
  ⟨by decide, by decide, by decide, by decide⟩

/-- Claim C23, the code at the failing input: for a copy of 6 bytes the loop
runs `6 / 4 = 1` time, so one `LOAD` is inserted and its `STORE` returned, one
pair where `⌈6 / 4⌉ = 2` are needed, and the bytes 4 and 5 are not copied.
For the copy of 8 bytes from a stack slot the second `LOAD` reads the slot at
offset 0 as the first does, while the second `STORE` writes at offset 4. -/
theorem ConvertToMachineInstr_MemoryCopy_pairs :
    (ConvertToMachineInstr AArch64.TM Example.memoryCopySix [] Example.stateWithSlot).map
        (fun r => (r.2.Inserted, r.1))
      = some ([((MachineInstruction.ofOpcode OperationCode.LOAD).AddVirtualRegister
                 10 32).AddOperand (MachineOperand.CreateStackAccess 5 0)],
              (((MachineInstruction.ofOpcode OperationCode.STORE).AddOperand
                 ((MachineOperand.CreateMemory 6 64).SetOffset 0)).AddVirtualRegister 10 32)) ∧
    (6 + 3) / 4 = 2 ∧
    (ConvertToMachineInstr AArch64.TM Example.memoryCopy [] Example.stateWithSlot).map
        (fun r => (r.2.Inserted ++ [r.1]).map
          (fun I => (I.Opcode, I.Operands.map (fun O => (O.Kind, O.Value, O.Offset)))))
      = some [(MIOpcode.generic OperationCode.LOAD,
                [(MOKind.REGISTER, 10, 0), (MOKind.STACK_ACCESS, 5, 0)]),
              (MIOpcode.generic OperationCode.STORE,
                [(MOKind.MEMORY_ADDRESS, 6, 0), (MOKind.REGISTER, 10, 0)]),
              (MIOpcode.generic OperationCode.LOAD,
                [(MOKind.REGISTER, 11, 0), (MOKind.STACK_ACCESS, 5, 0)]),
              (MIOpcode.generic OperationCode.STORE,
                [(MOKind.MEMORY_ADDRESS, 6, 4), (MOKind.REGISTER, 11, 0)])] :=
  ⟨by decide, by decide, by decide⟩

/-! ### Pre-allocation of the parameters -/

/-- The bindings and live ranges of `PreAllocateParameters` on AArch64, from
the argument register `c` on. -/
theorem AArch64.PreAllocateParameters_some (Params : List (Nat × LowLevelType)) :
    ∀ (c : Nat) (A : List (Nat × Nat)) (L : List (Nat × Nat × Nat)), c + Params.length ≤ 8 →
      ∃ A1 L1, PreAllocateParameters AArch64.TM Params c A L = some (A1, L1) ∧
        (∀ k, k ∉ Params.map Prod.fst →
          StdMap.get? A1 k = StdMap.get? A k ∧ StdMap.get? L1 k = StdMap.get? L k) ∧
        ((Params.map Prod.fst).Nodup → ∀ i ID LLT, Params.get? i = some (ID, LLT) →
          StdMap.get? A1 ID = some (if LLT.BitWidth ≤ 32 then c + i else c + i + 32) ∧
          StdMap.get? L1 ID = some (0, UNSIGNED_MAX)) := by
  induction Params with
  | nil =>
    intro c A L _
    exact ⟨A, L, rfl, fun k _ => ⟨rfl, rfl⟩, fun _ i ID LLT h => by simp at h⟩
  | cons P rest ih =>
    intro c A L hc
    obtain ⟨ID0, LLT0⟩ := P
    simp only [List.length_cons] at hc
    have hc8 : c < 8 := by omega
    obtain ⟨A1, L1, h1, h2, h3⟩ := ih (c + 1)
      (StdMap.set A ID0 (if LLT0.BitWidth ≤ 32 then c else c + 32))
      (StdMap.set L ID0 (0, UNSIGNED_MAX)) (by omega)
    refine ⟨A1, L1, ?_, ?_, ?_⟩
    · rw [← h1]
      simp only [PreAllocateParameters, AArch64.ArgumentRegisters_get? c hc8,
        AArch64.SubRegs_head? c hc8]
      split <;> rfl
    · intro k hk
      simp only [List.map_cons, List.mem_cons, not_or] at hk
      obtain ⟨e1, e2⟩ := h2 k hk.2
      rw [e1, e2, StdMap.get?_set_ne _ _ _ _ hk.1, StdMap.get?_set_ne _ _ _ _ hk.1]
      exact ⟨rfl, rfl⟩
    · intro hnd i ID LLT hi
      simp only [List.map_cons, List.nodup_cons] at hnd
      cases i with
      | zero =>
        simp only [List.get?_cons_zero, Option.some.injEq, Prod.mk.injEq] at hi
        obtain ⟨e1, e2⟩ := hi
        subst e1 e2
        obtain ⟨e3, e4⟩ := h2 ID0 hnd.1
        rw [e3, e4, StdMap.get?_set_self, StdMap.get?_set_self]
        simp
      | succ j =>
        simp only [List.get?_cons_succ] at hi
        obtain ⟨e1, e2⟩ := h3 hnd.2 j ID LLT hi
        rw [e1, e2]
        refine ⟨?_, rfl⟩
        congr 1
        split <;> omega

/-- Pre-allocation of the parameters fails on AArch64 exactly when an argument
register index beyond the eighth is needed. -/
theorem AArch64.PreAllocateParameters_none_iff (Params : List (Nat × LowLevelType))
    (c : Nat) (A : List (Nat × Nat)) (L : List (Nat × Nat × Nat)) (hc : c ≤ 8) :
    PreAllocateParameters AArch64.TM Params c A L = none ↔ 8 < c + Params.length := by
  induction Params generalizing c A L with
  | nil => simp [PreAllocateParameters]; omega
  | cons P rest ih =>
    obtain ⟨ID0, LLT0⟩ := P
    simp only [List.length_cons]
    by_cases hc8 : c < 8
    · simp only [PreAllocateParameters, AArch64.ArgumentRegisters_get? c hc8,
        AArch64.SubRegs_head? c hc8]
      split
      · rw [ih (c + 1) _ _ (by omega)]; omega
      · rw [ih (c + 1) _ _ (by omega)]; omega
    · simp only [PreAllocateParameters, AArch64.ArgumentRegisters_get?_none c (by omega)]
      simp
      omega

/-- Claim C25: for a function with at most 8 parameters of distinct ids,
`PreAllocateParameters` on AArch64 succeeds and binds the i-th parameter to the
i-th argument register when the parameter is wider than 32 bits, and to the
first sub-register of that register, a 32-bit register, when its width is at
most 32; the live range of every parameter is `(0, ~0)`; the registers of two
parameters are neither equal nor parent or sub-register of each other. -/
theorem PreAllocateParameters_binds_in_order (Params : List (Nat × LowLevelType))
    (hn : Params.length ≤ AArch64.TM.ABI.ArgumentRegisters.length)
    (hnd : (Params.map Prod.fst).Nodup) :
    ∃ A L, PreAllocateParameters AArch64.TM Params 0 [] [] = some (A, L) ∧
      (∀ i ID LLT, Params.get? i = some (ID, LLT) →
        ∃ ArgReg, AArch64.TM.ABI.ArgumentRegisters.get? i = some ArgReg ∧
          (32 < LLT.BitWidth → StdMap.get? A ID = some ArgReg) ∧
          (LLT.BitWidth ≤ 32 → ∃ Sub, (AArch64.TM.RegInfo.SubRegs ArgReg).head? = some Sub ∧
            AArch64.TM.RegInfo.BitWidth Sub = 32 ∧ StdMap.get? A ID = some Sub) ∧
          StdMap.get? L ID = some (0, UNSIGNED_MAX)) ∧
      (∀ i j ID1 LLT1 ID2 LLT2 p q, i ≠ j →
        Params.get? i = some (ID1, LLT1) → Params.get? j = some (ID2, LLT2) →
        StdMap.get? A ID1 = some p → StdMap.get? A ID2 = some q →
        ¬ AArch64.TM.RegInfo.Conflict p q) := by
  have hn8 : Params.length ≤ 8 := hn
  obtain ⟨A, L, h1, _, h3⟩ := AArch64.PreAllocateParameters_some Params 0 [] [] (by omega)
  have hlt : ∀ i ID LLT, Params.get? i = some (ID, LLT) → i < 8 := by
    intro i ID LLT hi
    have := List.get?_eq_some.mp hi
    obtain ⟨hlen, _⟩ := this
    omega
  refine ⟨A, L, h1, ?_, ?_⟩
  · intro i ID LLT hi
    have hi8 := hlt i ID LLT hi
    obtain ⟨e1, e2⟩ := h3 hnd i ID LLT hi
    simp only [Nat.zero_add] at e1
    refine ⟨i + 32, AArch64.ArgumentRegisters_get? i hi8, ?_, ?_, e2⟩
    · intro hw
      rw [e1, if_neg (by omega)]
    · intro hw
      refine ⟨i, AArch64.SubRegs_head? i hi8, ?_, ?_⟩
      · show (if i < 32 then 32 else if i ≤ 64 then 64 else 0) = 32
        rw [if_pos (by omega)]
      · rw [e1, if_pos hw]
  · intro i j ID1 LLT1 ID2 LLT2 p q hij hi hj hp hq
    have hi8 := hlt i ID1 LLT1 hi
    have hj8 := hlt j ID2 LLT2 hj
    obtain ⟨e1, _⟩ := h3 hnd i ID1 LLT1 hi
    obtain ⟨e2, _⟩ := h3 hnd j ID2 LLT2 hj
    rw [hp] at e1
    rw [hq] at e2
    simp only [Nat.zero_add, Option.some.injEq] at e1 e2
    have hp2 : p = i ∨ p = i + 32 := by
      rw [e1]; split
      · exact Or.inl rfl
      · exact Or.inr rfl
    have hq2 : q = j ∨ q = j + 32 := by
      rw [e2]; split
      · exact Or.inl rfl
      · exact Or.inr rfl
    unfold RegisterInfo.Conflict
    show ¬ (p = q ∨ (if p < 32 then some (p + 32) else none) = some q ∨
      (if q < 32 then some (q + 32) else none) = some p ∨
      p ∈ (if 32 ≤ q ∧ q < 64 then [q - 32] else []) ∨
      q ∈ (if 32 ≤ p ∧ p < 64 then [p - 32] else []))
    rcases hp2 with hp2 | hp2 <;> rcases hq2 with hq2 | hq2 <;> subst hp2 hq2 <;>
      simp <;> omega

theorem PreAllocateParameters_binds_in_order_witness :
    (Example.sumFunction.Parameters.length ≤ AArch64.TM.ABI.ArgumentRegisters.length ∧
     (Example.sumFunction.Parameters.map Prod.fst).Nodup) ∧
    ∃ A L, PreAllocateParameters AArch64.TM Example.sumFunction.Parameters 0 [] [] = some (A, L) ∧
      (∀ i ID LLT, Example.sumFunction.Parameters.get? i = some (ID, LLT) →
        ∃ ArgReg, AArch64.TM.ABI.ArgumentRegisters.get? i = some ArgReg ∧
          (32 < LLT.BitWidth → StdMap.get? A ID = some ArgReg) ∧
          (LLT.BitWidth ≤ 32 → ∃ Sub, (AArch64.TM.RegInfo.SubRegs ArgReg).head? = some Sub ∧
            AArch64.TM.RegInfo.BitWidth Sub = 32 ∧ StdMap.get? A ID = some Sub) ∧
          StdMap.get? L ID = some (0, UNSIGNED_MAX)) ∧
      (∀ i j ID1 LLT1 ID2 LLT2 p q, i ≠ j →
        Example.sumFunction.Parameters.get? i = some (ID1, LLT1) →
        Example.sumFunction.Parameters.get? j = some (ID2, LLT2) →
        StdMap.get? A ID1 = some p → StdMap.get? A ID2 = some q →
        ¬ AArch64.TM.RegInfo.Conflict p q) :=
  ⟨⟨by decide, by decide⟩,
   PreAllocateParameters_binds_in_order Example.sumFunction.Parameters (by decide) (by decide)⟩

theorem HandleFunctionParams.structRegs_length (TM : TargetMachine) (Name : String) (n : Nat) :
    ∀ S : LLIRState, (HandleFunctionParams.structRegs TM Name n S).MF.Parameters.length
      = S.MF.Parameters.length + n := by
  induction n with
  | zero => intro S; rfl
  | succ k ih =>
    intro S
    simp only [HandleFunctionParams.structRegs]
    rw [ih]
    simp [MachineFunction.InsertParameter, LLIRState.GetNextAvailableVReg]
    omega

theorem HandleFunctionParams_length (TM : TargetMachine) (Params : List Value) :
    ∀ S : LLIRState, (HandleFunctionParams TM Params S).MF.Parameters.length
      = S.MF.Parameters.length +
        (Params.map (fun P => if P.IsStructByValue = true then 128 / TM.PointerSize else 1)).sum := by
  induction Params with
  | nil => intro S; rfl
  | cons P rest ih =>
    intro S
    simp only [HandleFunctionParams, List.map_cons, List.sum_cons]
    split
    · rw [ih, HandleFunctionParams.structRegs_length]; omega
    · split
      · rw [ih]; simp [MachineFunction.InsertParameter]; omega
      · rw [ih]; simp [MachineFunction.InsertParameter]; omega

/-- Claim C26: the machine function of a MIR function has one parameter per
MIR parameter, and `128 / pointer size = 2` per struct passed by value, as
`HandleFunctionParams` registers them; `PreAllocateParameters` fails on it
exactly when that number exceeds the number of argument registers, 8 on
AArch64, and then `RunRA` produces no allocation. -/
theorem PreAllocateParameters_fails_iff (Params : List Value) (S : LLIRState)
    (Func : MachineFunction) (hS : S.MF.Parameters = [])
    (hF : Func.Parameters = (HandleFunctionParams AArch64.TM Params S).MF.Parameters) :
    128 / AArch64.TM.PointerSize = 2 ∧
    AArch64.TM.ABI.ArgumentRegisters.length = 8 ∧
    Func.Parameters.length
      = (Params.map (fun P => if P.IsStructByValue = true then 2 else 1)).sum ∧
    (PreAllocateParameters AArch64.TM Func.Parameters 0 [] [] = none ↔
      AArch64.TM.ABI.ArgumentRegisters.length < Func.Parameters.length) ∧
    (PreAllocateParameters AArch64.TM Func.Parameters 0 [] [] = none →
      RunRA.allocate AArch64.TM Func = none) := by
  refine ⟨rfl, rfl, ?_, ?_, ?_⟩
  · rw [hF, HandleFunctionParams_length, hS]
    simp only [List.length_nil, Nat.zero_add]
    rfl
  · rw [AArch64.PreAllocateParameters_none_iff _ 0 [] [] (by omega)]
    simp only [Nat.zero_add]
    exact Iff.rfl
  · intro h
    unfold RunRA.allocate
    rw [h]

theorem PreAllocateParameters_fails_iff_witness :
    (({ MF := { NextVReg := 10 } } : LLIRState).MF.Parameters = [] ∧
     Example.nineParamFunction.Parameters
       = (HandleFunctionParams AArch64.TM Example.fiveParams
           { MF := { NextVReg := 10 } }).MF.Parameters) ∧
    (128 / AArch64.TM.PointerSize = 2 ∧
     AArch64.TM.ABI.ArgumentRegisters.length = 8 ∧
     Example.nineParamFunction.Parameters.length
       = (Example.fiveParams.map (fun P => if P.IsStructByValue = true then 2 else 1)).sum ∧
     (PreAllocateParameters AArch64.TM Example.nineParamFunction.Parameters 0 [] [] = none ↔
       AArch64.TM.ABI.ArgumentRegisters.length < Example.nineParamFunction.Parameters.length) ∧
     (PreAllocateParameters AArch64.TM Example.nineParamFunction.Parameters 0 [] [] = none →
       RunRA.allocate AArch64.TM Example.nineParamFunction = none)) ∧
    Example.nineParamFunction.Parameters.length = 9 ∧
    RunRA.allocate AArch64.TM Example.nineParamFunction = none :=
  ⟨⟨by decide, by decide⟩,
   PreAllocateParameters_fails_iff Example.fiveParams { MF := { NextVReg := 10 } }
     Example.nineParamFunction (by decide) (by decide),
   by decide, by decide⟩

/-! ### Pre-allocation of the return register -/

/-- Claim C27, the code at the failing input: the only instruction of
`Example.returnConstant` is `RET 5`; no operand of the function is a virtual
register, a parameter or a memory operand, and it has no parameters, yet
`PreAllocateReturnRegister` binds the id 5, the value of the immediate, to
`w0` (register 0), and `RunRA` keeps that binding. -/
theorem PreAllocateReturnRegister_binds_immediate :
    Example.returnConstant.AllInstructions
      = [{ Opcode := MIOpcode.target AArch64.Opcodes.RET,
           Operands := [MachineOperand.CreateImmediate 5 32] }] ∧
    (MachineOperand.CreateImmediate 5 32).UsesReg = false ∧
    Example.returnConstant.Parameters = [] ∧
    PreAllocateReturnRegister AArch64.TM Example.returnConstant [] = some [(5, 0)] ∧
    (RunRA.allocate AArch64.TM Example.returnConstant).map (fun r => r.AllocatedRegisters)
      = some [(5, 0)] :=
  ⟨by decide, by decide, by decide, by decide, by decide⟩

/-! ### Exhaustion of the register pools -/

theorem GetNextAvailableReg.search_wide (RI : RegisterInfo) (BitSize e : Nat) (rest : List Nat)
    (c : Nat) (he : RI.BitWidth e = 64 ∧ ∃ s ∈ RI.SubRegs e, RI.BitWidth s = 32)
    (hB : BitSize = 32 ∨ BitSize = 64) :
    ∃ Reg, GetNextAvailableReg.search RI BitSize (e :: rest) c = some (Reg, c) := by
  obtain ⟨hw, s, hs, hsw⟩ := he
  unfold GetNextAvailableReg.search
  rcases hB with hB | hB
  · subst hB
    rw [if_neg (by omega)]
    cases hf : (RI.SubRegs e).find? (fun SubReg => RI.BitWidth SubReg == 32) with
    | some r => exact ⟨r, rfl⟩
    | none =>
      rw [List.find?_eq_none] at hf
      exact absurd (by simpa using hsw) (hf s hs)
  · subst hB
    rw [if_pos hw]
    exact ⟨e, rfl⟩

set_option maxRecDepth 100000 in
/-- Claim C28: with pools that hold only 64-bit registers, each with a 32-bit
sub-register, and a requested width of 32 or 64 bits, `GetNextAvailableReg`
fails exactly when both pools are empty.  The pools of AArch64 are of this
kind and hold 15 + 10 = 25 registers: `RunRA` allocates the 25 registers of
`Example.manyLive 25`, whose live ranges all overlap, to 25 different
registers, and fails on the 26 of `Example.manyLive 26`. -/
theorem GetNextAvailableReg_fails_iff_pools_empty (RI : RegisterInfo) (P : RegPools)
    (BitSize : Nat)
    (hP : ∀ e ∈ P.Pool ++ P.BackupPool,
      RI.BitWidth e = 64 ∧ ∃ s ∈ RI.SubRegs e, RI.BitWidth s = 32)
    (hB : BitSize = 32 ∨ BitSize = 64) :
    (GetNextAvailableReg RI BitSize P = none ↔ P.Pool = [] ∧ P.BackupPool = []) ∧
    (∀ e ∈ AArch64.TM.ABI.CallerSavedRegisters ++ AArch64.TM.ABI.CalleeSavedRegisters,
      AArch64.TM.RegInfo.BitWidth e = 64 ∧
        ∃ s ∈ AArch64.TM.RegInfo.SubRegs e, AArch64.TM.RegInfo.BitWidth s = 32) ∧
    AArch64.TM.ABI.CallerSavedRegisters.length = 15 ∧
    AArch64.TM.ABI.CalleeSavedRegisters.length = 10 ∧
    (RunRA.allocate AArch64.TM (Example.manyLive 25)).map
        (fun r => (r.PreAllocated, r.LiveRanges.length,
          decide (∀ a ∈ r.LiveRanges, ∀ b ∈ r.LiveRanges, a.2.1 ≤ b.2.2 ∧ b.2.1 ≤ a.2.2),
          r.AllocatedRegisters.map Prod.snd))
      = some ([], 25, true,
          [0, 1, 2, 3, 4, 5, 6, 7, 9, 10, 11, 12, 13, 14, 15,
           19, 20, 21, 22, 23, 24, 25, 26, 27, 28]) ∧
    RunRA.allocate AArch64.TM (Example.manyLive 26) = none := by
  refine ⟨?_, by decide, by decide, by decide, by decide, by decide⟩
  constructor
  · intro h
    by_contra hne
    apply absurd h
    unfold GetNextAvailableReg
    cases hp : P.Pool with
    | cons e rest =>
      have he := hP e (by simp [hp])
      obtain ⟨Reg, hs⟩ := GetNextAvailableReg.search_wide RI BitSize e rest 0 he hB
      simp [hp, hs]
    | nil =>
      cases hb : P.BackupPool with
      | nil => exact absurd ⟨hp, hb⟩ hne
      | cons e rest =>
        have he := hP e (by simp [hb])
        obtain ⟨Reg, hs⟩ := GetNextAvailableReg.search_wide RI BitSize e [] 0 he hB
        simp [hp, hb, hs]
  · rintro ⟨h1, h2⟩
    simp [GetNextAvailableReg, h1, h2]

theorem GetNextAvailableReg_fails_iff_pools_empty_witness :
    ((∀ e ∈ (RunRA.initState AArch64.TM (Example.manyLive 25) []).Pools.Pool ++
          (RunRA.initState AArch64.TM (Example.manyLive 25) []).Pools.BackupPool,
        AArch64.RegInfo.BitWidth e = 64 ∧
          ∃ s ∈ AArch64.RegInfo.SubRegs e, AArch64.RegInfo.BitWidth s = 32) ∧
     ((32 : Nat) = 32 ∨ (32 : Nat) = 64)) ∧
    (GetNextAvailableReg AArch64.RegInfo 32
        (RunRA.initState AArch64.TM (Example.manyLive 25) []).Pools = none ↔
      (RunRA.initState AArch64.TM (Example.manyLive 25) []).Pools.Pool = [] ∧
      (RunRA.initState AArch64.TM (Example.manyLive 25) []).Pools.BackupPool = []) :=
  ⟨⟨by decide, by decide⟩,
   (GetNextAvailableReg_fails_iff_pools_empty AArch64.RegInfo
      (RunRA.initState AArch64.TM (Example.manyLive 25) []).Pools 32
      (by decide) (by decide)).1⟩

/-! ### The live ranges of the scan -/

theorem Mentions_spec (id : Nat) (Instrs : List MachineInstruction) :
    ∀ (n f l k : Nat), Mentions id Instrs n = some (f, l, k) →
      n ≤ f ∧ f ≤ l ∧ l < n + Instrs.length ∧ 1 ≤ k ∧
      (∃ I, Instrs.get? (f - n) = some I ∧ 0 < I.MentionCount id) ∧
      (∃ I, Instrs.get? (l - n) = some I ∧ 0 < I.MentionCount id) ∧
      (∀ j I, Instrs.get? j = some I → n + j < f ∨ l < n + j → I.MentionCount id = 0) ∧
      k = (Instrs.map (fun I => I.MentionCount id)).sum := by
  induction Instrs with
  | nil => intro n f l k h; simp [Mentions] at h
  | cons I rest ih =>
    intro n f l k h
    simp only [Mentions] at h
    cases hm : Mentions id rest (n + 1) with
    | none =>
      rw [hm] at h
      simp only at h
      split at h
      · exact absurd h (by simp)
      · rename_i hc
        simp only [Option.some.injEq, Prod.mk.injEq] at h
        obtain ⟨h1, h2, h3⟩ := h
        subst h1 h2 h3
        have hnone : ∀ (R : List MachineInstruction) (m : Nat), Mentions id R m = none →
            ∀ J ∈ R, J.MentionCount id = 0 := by
          intro R
          induction R with
          | nil => intro m _ J hJ; simp at hJ
          | cons a r ihr =>
            intro m hR J hJ
            simp only [Mentions] at hR
            cases hr : Mentions id r (m + 1) with
            | none =>
              rw [hr] at hR
              simp only at hR
              split at hR
              · rename_i h0
                rcases List.mem_cons.mp hJ with e | e
                · rw [e]; exact h0
                · exact ihr (m + 1) hr J e
              · exact absurd hR (by simp)
            | some t =>
              obtain ⟨a1, a2, a3⟩ := t
              rw [hr] at hR
              simp only at hR
              split at hR <;> exact absurd hR (by simp)
        have hz := hnone rest (n + 1) hm
        refine ⟨Nat.le_refl _, Nat.le_refl _, by simp, by omega, ⟨I, by simp, by omega⟩,
          ⟨I, by simp, by omega⟩, ?_, ?_⟩
        · intro j J hj hor
          cases j with
          | zero => omega
          | succ j =>
            simp only [List.get?_cons_succ] at hj
            exact hz J (List.get?_mem hj)
        · simp only [List.map_cons, List.sum_cons]
          have : (rest.map (fun I => I.MentionCount id)).sum = 0 := by
            apply List.sum_eq_zero
            intro x hx
            simp only [List.mem_map] at hx
            obtain ⟨J, hJ, e⟩ := hx
            rw [← e]; exact hz J hJ
          omega
    | some t =>
      obtain ⟨f1, l1, k1⟩ := t
      rw [hm] at h
      simp only at h
      obtain ⟨a1, a2, a3, a4, ⟨If, a5, a5b⟩, ⟨Il, a6, a6b⟩, a7, a8⟩ := ih (n + 1) f1 l1 k1 hm
      split at h
      · rename_i hc
        simp only [Option.some.injEq, Prod.mk.injEq] at h
        obtain ⟨h1, h2, h3⟩ := h
        subst h1 h2 h3
        refine ⟨by omega, a2, by simp; omega, a4, ⟨If, ?_, a5b⟩, ⟨Il, ?_, a6b⟩, ?_, ?_⟩
        · have : f1 - n = (f1 - (n + 1)) + 1 := by omega
          rw [this, List.get?_cons_succ]; exact a5
        · have : l1 - n = (l1 - (n + 1)) + 1 := by omega
          rw [this, List.get?_cons_succ]; exact a6
        · intro j J hj hor
          cases j with
          | zero =>
            simp only [List.get?_cons_zero, Option.some.injEq] at hj
            rw [← hj]; exact hc
          | succ j =>
            simp only [List.get?_cons_succ] at hj
            exact a7 j J hj (by omega)
        · simp only [List.map_cons, List.sum_cons]
          omega
      · rename_i hc
        simp only [Option.some.injEq, Prod.mk.injEq] at h
        obtain ⟨h1, h2, h3⟩ := h
        subst h1 h2 h3
        refine ⟨Nat.le_refl _, by omega, by simp; omega, by omega, ⟨I, by simp, by omega⟩,
          ⟨Il, ?_, a6b⟩, ?_, ?_⟩
        · have : l1 - n = (l1 - (n + 1)) + 1 := by omega
          rw [this, List.get?_cons_succ]; exact a6
        · intro j J hj hor
          cases j with
          | zero => omega
          | succ j =>
            simp only [List.get?_cons_succ] at hj
            exact a7 j J hj (by omega)
        · simp only [List.map_cons, List.sum_cons]
          omega

/-- The entry of `id` after the scan of the operands of instruction `n`. -/
theorem LiveRangeScan.operands_get (n id : Nat) (Ops : List MachineOperand) :
    ∀ (acc : List (Nat × Nat × Nat) × List (Nat × MachineOperand)),
      StdMap.get? (LiveRangeScan.operands n Ops acc).1 id =
        if (Ops.filter (fun O => O.Mentions id)).length = 0 then StdMap.get? acc.1 id
        else
          match StdMap.get? acc.1 id with
          | none => some (n, if (Ops.filter (fun O => O.Mentions id)).length = 1
              then UNSIGNED_MAX else n)
          | some (d, _) => some (d, n) := by
  induction Ops with
  | nil => intro acc; simp [LiveRangeScan.operands]
  | cons O rest ih =>
    intro acc
    obtain ⟨LR, M⟩ := acc
    simp only [LiveRangeScan.operands]
    by_cases hu : (O.IsVirtualReg || O.IsParameter || O.IsMemory) = true
    · rw [if_pos hu]
      have hu2 : O.UsesReg = true := hu
      rw [ih]
      by_cases hid : O.GetReg = id
      · have hm : O.Mentions id = true := by simp [MachineOperand.Mentions, hu2, hid]
        simp only [List.filter_cons, hm, if_true, List.length_cons]
        subst hid
        cases hg : StdMap.get? LR O.GetReg with
        | none =>
          simp only [StdMap.get?_set_self]
          by_cases h0 : (rest.filter (fun O1 => O1.Mentions O.GetReg)).length = 0
          · simp [h0]
          · have h1 : ¬ (rest.filter (fun O1 => O1.Mentions O.GetReg)).length + 1 = 1 := by omega
            simp [h0, h1]
        | some e =>
          obtain ⟨d, k⟩ := e
          simp only [StdMap.get?_set_self]
          by_cases h0 : (rest.filter (fun O1 => O1.Mentions O.GetReg)).length = 0
          · simp [h0]
          · simp [h0]
      · have hm : O.Mentions id = false := by
          simp [MachineOperand.Mentions, hid]
        have hne : id ≠ O.GetReg := fun e => hid e.symm
        simp only [List.filter_cons, hm, Bool.false_eq_true, if_false]
        cases hg : StdMap.get? LR O.GetReg with
        | none => simp only [StdMap.get?_set_ne _ _ _ _ hne]
        | some e => simp only [StdMap.get?_set_ne _ _ _ _ hne]
    · rw [if_neg hu]
      have hu2 : O.UsesReg = false := by
        simpa [MachineOperand.UsesReg] using hu
      have hm : O.Mentions id = false := by simp [MachineOperand.Mentions, hu2]
      rw [ih]
      simp only [List.filter_cons, hm, Bool.false_eq_true, if_false]

/-- The entry of `id` after the scan of instructions numbered from `n` on. -/
theorem LiveRangeScan.instrs_get (id : Nat) (Instrs : List MachineInstruction) :
    ∀ (n : Nat) (acc : List (Nat × Nat × Nat) × List (Nat × MachineOperand)),
      n + Instrs.length ≤ UNSIGNED_MAX →
      StdMap.get? (LiveRangeScan.instrs Instrs n acc).1 id =
        match Mentions id Instrs n with
        | none => StdMap.get? acc.1 id
        | some (f, l, k) =>
          match StdMap.get? acc.1 id with
          | none => some (f, if k = 1 then UNSIGNED_MAX else l)
          | some (d, _) => some (d, l) := by
  induction Instrs with
  | nil => intro n acc _; simp [LiveRangeScan.instrs, Mentions]
  | cons I rest ih =>
    intro n acc hn
    simp only [List.length_cons] at hn
    have hu : toUnsigned (n + 1) = n + 1 := by
      unfold toUnsigned
      unfold UNSIGNED_MAX at hn
      omega
    simp only [LiveRangeScan.instrs, hu]
    rw [ih (n + 1) _ (by omega), LiveRangeScan.operands_get]
    simp only [Mentions]
    have hc : (I.Operands.filter (fun O => O.Mentions id)).length = I.MentionCount id := rfl
    rw [hc]
    cases hm : Mentions id rest (n + 1) with
    | none =>
      simp only
      by_cases h0 : I.MentionCount id = 0
      · simp [h0]
      · simp only [h0, if_false]
    | some t =>
      obtain ⟨f, l, k⟩ := t
      have hk := (Mentions_spec id rest (n + 1) f l k hm).2.2.2.1
      simp only
      by_cases h0 : I.MentionCount id = 0
      · simp [h0]
      · simp only [h0, if_false]
        have h1 : ¬ I.MentionCount id + k = 1 := by omega
        cases StdMap.get? acc.1 id with
        | none => simp [h1]
        | some e => rfl

theorem PreAllocateParameters_LiveRanges (TM : TargetMachine)
    (Params : List (Nat × LowLevelType)) :
    ∀ (c : Nat) (A A1 : List (Nat × Nat)) (L L1 : List (Nat × Nat × Nat)),
      PreAllocateParameters TM Params c A L = some (A1, L1) →
      ∀ k, k ∉ Params.map Prod.fst → StdMap.get? L1 k = StdMap.get? L k := by
  induction Params with
  | nil =>
    intro c A A1 L L1 h k _
    simp only [PreAllocateParameters, Option.some.injEq, Prod.mk.injEq] at h
    rw [h.2]
  | cons P rest ih =>
    intro c A A1 L L1 h k hk
    obtain ⟨ID0, LLT0⟩ := P
    simp only [List.map_cons, List.mem_cons, not_or] at hk
    simp only [PreAllocateParameters] at h
    split at h
    · exact absurd h (by simp)
    · split at h
      · split at h
        · exact absurd h (by simp)
        · rw [ih _ _ _ _ _ h k hk.2, StdMap.get?_set_ne _ _ _ _ hk.1]
      · rw [ih _ _ _ _ _ h k hk.2, StdMap.get?_set_ne _ _ _ _ hk.1]

/-- Claim C29: `RunRA` scans the instructions of a function in block order and
in instruction order within a block, numbered 0, 1, 2, ...  For a register id
that is not a parameter and that some virtual-register, parameter or memory
operand names, the live range recorded has as def the number of the first
instruction that names it and as kill the number of the last instruction that
names it, or `~0` when exactly one operand names it; so def ≤ kill. -/
theorem LiveRangeScan_records_first_and_last (TM : TargetMachine) (Func : MachineFunction)
    (A0 : List (Nat × Nat)) (L0 : List (Nat × Nat × Nat)) (id f l k : Nat)
    (hpre : PreAllocateParameters TM Func.Parameters 0 [] [] = some (A0, L0))
    (hlen : Func.AllInstructions.length ≤ UNSIGNED_MAX)
    (hid : id ∉ Func.Parameters.map Prod.fst)
    (hm : Mentions id Func.AllInstructions 0 = some (f, l, k)) :
    Func.AllInstructions = (Func.BasicBlocks.map (fun BB => BB.Instructions)).flatten ∧
    (∀ Res, RunRA.allocate TM Func = some Res →
      Res.LiveRanges = (LiveRangeScan.instrs Func.AllInstructions 0 (L0, [])).1) ∧
    StdMap.get? (LiveRangeScan.instrs Func.AllInstructions 0 (L0, [])).1 id
      = some (f, if k = 1 then UNSIGNED_MAX else l) ∧
    f ≤ (if k = 1 then UNSIGNED_MAX else l) ∧
    (∃ I, Func.AllInstructions.get? f = some I ∧ 0 < I.MentionCount id) ∧
    (∃ I, Func.AllInstructions.get? l = some I ∧ 0 < I.MentionCount id) ∧
    (∀ j I, Func.AllInstructions.get? j = some I → j < f ∨ l < j → I.MentionCount id = 0) ∧
    k = (Func.AllInstructions.map (fun I => I.MentionCount id)).sum := by
  obtain ⟨_, a2, a3, _, a5, a6, a7, a8⟩ := Mentions_spec id _ 0 f l k hm
  have hL0 : StdMap.get? L0 id = none := by
    rw [PreAllocateParameters_LiveRanges TM _ _ _ _ _ _ hpre id hid]
    rfl
  refine ⟨rfl, ?_, ?_, ?_, by simpa using a5, by simpa using a6, ?_, a8⟩
  · intro Res hRes
    unfold RunRA.allocate at hRes
    rw [hpre] at hRes
    simp only at hRes
    split at hRes
    · exact absurd hRes (by simp)
    · split at hRes
      · exact absurd hRes (by simp)
      · simp only [Option.some.injEq] at hRes
        rw [← hRes]
  · rw [LiveRangeScan.instrs_get id _ 0 _ (by omega), hm]
    simp only [hL0]
  · split
    · simp only [Nat.zero_add] at a3
      omega
    · exact a2
  · intro j I hj hor
    exact a7 j I hj (by omega)

theorem LiveRangeScan_records_first_and_last_witness :
    (PreAllocateParameters AArch64.TM Example.sumFunction.Parameters 0 [] []
        = some ([(1, 0), (2, 1)], [(1, 0, UNSIGNED_MAX), (2, 0, UNSIGNED_MAX)]) ∧
     Example.sumFunction.AllInstructions.length ≤ UNSIGNED_MAX ∧
     3 ∉ Example.sumFunction.Parameters.map Prod.fst ∧
     Mentions 3 Example.sumFunction.AllInstructions 0 = some (0, 2, 3)) ∧
    StdMap.get? (LiveRangeScan.instrs Example.sumFunction.AllInstructions 0
        ([(1, 0, UNSIGNED_MAX), (2, 0, UNSIGNED_MAX)], [])).1 3 = some (0, 2) ∧
    Mentions 4 Example.sumFunction.AllInstructions 0 = some (1, 1, 1) ∧
    StdMap.get? (LiveRangeScan.instrs Example.sumFunction.AllInstructions 0
        ([(1, 0, UNSIGNED_MAX), (2, 0, UNSIGNED_MAX)], [])).1 4 = some (1, UNSIGNED_MAX) :=
  ⟨⟨by decide, by decide, by decide, by decide⟩,
   (LiveRangeScan_records_first_and_last AArch64.TM Example.sumFunction
      [(1, 0), (2, 1)] [(1, 0, UNSIGNED_MAX), (2, 0, UNSIGNED_MAX)] 3 0 2 3
      (by decide) (by decide) (by decide) (by decide)).2.2.1.trans (by decide),
   by decide, by decide⟩

/-! ### The order of allocation and expiry -/

/-- Claim C30, counterexample: in `Example.twoRanges`, a function without
pre-allocations, the 32-bit registers 1 and 2 live on `(0, 1)` and `(2, 3)`;
register 1 gets `w0` (register 0) and register 2 gets `w1` (register 1), not
the register that register 1 held. -/
theorem RunRA.second_range_gets_next_register :
    RunRA.allocate AArch64.TM Example.twoRanges
      = some { PreAllocated := [],
               LiveRanges := [(1, 0, 1), (2, 2, 3)],
               AllocatedRegisters := [(1, 0), (2, 1)],
               UsedCalleSavedRegs := [] } ∧
    StdMap.get? [(1, 0), (2, 1)] 2 ≠ StdMap.get? [(1, 0), (2, 1)] 1 :=
  ⟨by decide, by decide⟩

theorem FreeKilled_eq (RI : RegisterInfo) (A : List (Nat × Nat)) (d : Nat)
    (WL : List (Nat × Nat × Nat)) :
    ∀ (Pool : List Nat), (∀ w ∈ WL, ∃ r, StdMap.get? A w.1 = some r) →
      FreeKilled RI A d WL Pool = some (WL.filter (fun w => !decide (w.2.2 < d)),
        ((WL.filter (fun w => decide (w.2.2 < d))).map
          (fun w => RI.rootOf (StdMap.getD0 A w.1))).reverse ++ Pool) := by
  induction WL with
  | nil => intro Pool _; simp [FreeKilled]
  | cons w rest ih =>
    intro Pool hA
    obtain ⟨v, dl, kl⟩ := w
    obtain ⟨r, hr⟩ := hA (v, dl, kl) (List.mem_cons_self _ _)
    have hrest : ∀ w ∈ rest, ∃ r, StdMap.get? A w.1 = some r :=
      fun w hw => hA w (List.mem_cons_of_mem _ hw)
    unfold FreeKilled
    by_cases hk : kl < d
    · rw [if_pos hk]
      simp only at hr
      rw [hr]
      simp only
      rw [ih _ hrest]
      simp [hk, RegisterInfo.rootOf, StdMap.getD0, hr]
    · rw [if_neg hk, ih _ hrest]
      simp [hk]

/-- Claim C30 (amended): when the allocation loop processes a live range `R`
that is not allocated yet, the register for `R` is picked first, from the
pools as they stand, and only then every range of the work list whose kill is
less than the def of `R` is expired, its register (replaced by its parent if
it has one) going to the front of the primary pool: the registers of the
ranges that expire at `R` are not yet in the pool when the register for `R` is
picked. -/
theorem AllocateRange_picks_before_expiring (RI : RegisterInfo)
    (VRegToMOMap : List (Nat × MachineOperand)) (St : RAState) (R : Nat × Nat × Nat)
    (MO : MachineOperand) (Reg : Nat) (Pools1 : RegPools)
    (hnot : StdMap.contains St.AllocatedRegisters R.1 = false)
    (hMO : StdMap.get? VRegToMOMap R.1 = some MO)
    (hget : GetNextAvailableReg RI (MO.GetSize % 256) St.Pools = some (Reg, Pools1))
    (hwl : ∀ w ∈ St.FreeAbleWorkList, StdMap.contains St.AllocatedRegisters w.1 = true) :
    AllocateRange RI VRegToMOMap St R = some
      { AllocatedRegisters := StdMap.set St.AllocatedRegisters R.1 Reg,
        Pools := { Pools1 with
          Pool := (((St.FreeAbleWorkList ++ [R]).filter (fun w => decide (w.2.2 < R.2.1))).map
              (fun w => RI.rootOf
                (StdMap.getD0 (StdMap.set St.AllocatedRegisters R.1 Reg) w.1))).reverse
            ++ Pools1.Pool },
        FreeAbleWorkList :=
          (St.FreeAbleWorkList ++ [R]).filter (fun w => !decide (w.2.2 < R.2.1)) } := by
  have hA : ∀ w ∈ St.FreeAbleWorkList ++ [R],
      ∃ r, StdMap.get? (StdMap.set St.AllocatedRegisters R.1 Reg) w.1 = some r := by
    intro w hw
    rcases List.mem_append.mp hw with h | h
    · obtain ⟨r, hr⟩ := (StdMap.contains_iff_get? _ _).mp (hwl w h)
      by_cases hne : w.1 = R.1
      · exact ⟨Reg, by rw [hne]; exact StdMap.get?_set_self _ _ _⟩
      · exact ⟨r, by rw [StdMap.get?_set_ne _ _ _ _ hne]; exact hr⟩
    · simp only [List.mem_singleton] at h
      subst h
      exact ⟨Reg, StdMap.get?_set_self _ _ _⟩
  unfold AllocateRange
  simp only [hnot, Bool.false_eq_true, if_false, hMO, hget]
  rw [FreeKilled_eq RI _ R.2.1 _ _ hA]

theorem AllocateRange_picks_before_expiring_witness :
    (StdMap.contains Example.stateAfterFirstRange.AllocatedRegisters 2 = false ∧
     (∀ w ∈ Example.stateAfterFirstRange.FreeAbleWorkList,
        StdMap.contains Example.stateAfterFirstRange.AllocatedRegisters w.1 = true) ∧
     StdMap.get? [(1, MachineOperand.CreateVirtualRegister 1 32),
        (2, MachineOperand.CreateVirtualRegister 2 32)] 2
       = some (MachineOperand.CreateVirtualRegister 2 32) ∧
     GetNextAvailableReg AArch64.RegInfo ((MachineOperand.CreateVirtualRegister 2 32).GetSize % 256)
        Example.stateAfterFirstRange.Pools
       = some (1, { Example.stateAfterFirstRange.Pools with
           Pool := [34, 35, 36, 37, 38, 39, 41, 42, 43, 44, 45, 46, 47] })) ∧
    AllocateRange AArch64.RegInfo
        [(1, MachineOperand.CreateVirtualRegister 1 32),
         (2, MachineOperand.CreateVirtualRegister 2 32)]
        Example.stateAfterFirstRange (2, 2, 3)
      = some { AllocatedRegisters := [(1, 0), (2, 1)],
               Pools := { Example.stateAfterFirstRange.Pools with
                 Pool := [32, 34, 35, 36, 37, 38, 39, 41, 42, 43, 44, 45, 46, 47] },
               FreeAbleWorkList := [(2, 2, 3)] } :=
  ⟨⟨by decide, by decide, by decide, by decide⟩,
   (AllocateRange_picks_before_expiring AArch64.RegInfo
      [(1, MachineOperand.CreateVirtualRegister 1 32),
       (2, MachineOperand.CreateVirtualRegister 2 32)]
      Example.stateAfterFirstRange (2, 2, 3) (MachineOperand.CreateVirtualRegister 2 32) 1
      { Example.stateAfterFirstRange.Pools with
        Pool := [34, 35, 36, 37, 38, 39, 41, 42, 43, 44, 45, 46, 47] }
      (by decide) (by decide) (by decide) (by decide)).trans (by decide)⟩

/-! ### The pick from the primary pool and the promotion from the backup pool -/

/-- The search passes over the entries that cannot serve the width. -/
theorem GetNextAvailableReg.search_skip (RI : RegisterInfo) (BitSize : Nat) (l : List Nat)
    (pre : List Nat) :
    ∀ (c : Nat),
      (∀ x ∈ pre, RI.BitWidth x ≠ BitSize ∧ ∀ s ∈ RI.SubRegs x, RI.BitWidth s ≠ BitSize) →
      GetNextAvailableReg.search RI BitSize (pre ++ l) c
        = GetNextAvailableReg.search RI BitSize l (c + pre.length) := by
  induction pre with
  | nil => intro c _; rfl
  | cons x rest ih =>
    intro c h
    obtain ⟨h1, h2⟩ := h x (List.mem_cons_self _ _)
    have hf : (RI.SubRegs x).find? (fun SubReg => RI.BitWidth SubReg == BitSize) = none := by
      rw [List.find?_eq_none]
      intro s hs
      simpa using h2 s hs
    simp only [List.cons_append, GetNextAvailableReg.search, if_neg h1, hf, List.length_cons]
    have hrec := ih (c + 1) (fun y hy => h y (List.mem_cons_of_mem _ hy))
    rw [show rest.append l = rest ++ l from rfl, hrec]
    congr 1
    omega

/-- The search at an entry that serves the width: the entry itself when its
width is the requested one, else its first sub-register of that width. -/
theorem GetNextAvailableReg.search_head (RI : RegisterInfo) (BitSize e : Nat) (post : List Nat)
    (c : Nat)
    (he : RI.BitWidth e = BitSize ∨ ∃ s ∈ RI.SubRegs e, RI.BitWidth s = BitSize) :
    ∃ Reg, GetNextAvailableReg.search RI BitSize (e :: post) c = some (Reg, c) ∧
      RI.BitWidth Reg = BitSize ∧
      (RI.BitWidth e = BitSize → Reg = e) ∧
      (RI.BitWidth e ≠ BitSize → ∃ s1 s2, RI.SubRegs e = s1 ++ Reg :: s2 ∧
        ∀ s ∈ s1, RI.BitWidth s ≠ BitSize) := by
  unfold GetNextAvailableReg.search
  by_cases hw : RI.BitWidth e = BitSize
  · rw [if_pos hw]
    exact ⟨e, rfl, hw, fun _ => rfl, fun h => absurd hw h⟩
  · rw [if_neg hw]
    rcases he with he | ⟨s, hs, hsw⟩
    · exact absurd he hw
    · cases hf : (RI.SubRegs e).find? (fun SubReg => RI.BitWidth SubReg == BitSize) with
      | none =>
        rw [List.find?_eq_none] at hf
        exact absurd (by simpa using hsw) (hf s hs)
      | some r =>
        rw [List.find?_eq_some] at hf
        obtain ⟨hr, s1, s2, hsplit, hbefore⟩ := hf
        refine ⟨r, rfl, by simpa using hr, fun h => absurd h hw, fun _ => ⟨s1, s2, hsplit, ?_⟩⟩
        intro x hx
        simpa using hbefore x hx

/-- An entry that cannot serve the width, alone in the pool: the search
fails. -/
theorem GetNextAvailableReg.search_none (RI : RegisterInfo) (BitSize e : Nat) (c : Nat)
    (he : ¬ (RI.BitWidth e = BitSize ∨ ∃ s ∈ RI.SubRegs e, RI.BitWidth s = BitSize)) :
    GetNextAvailableReg.search RI BitSize [e] c = none := by
  simp only [not_or, not_exists, not_and] at he
  have hf : (RI.SubRegs e).find? (fun SubReg => RI.BitWidth SubReg == BitSize) = none := by
    rw [List.find?_eq_none]
    intro s hs
    simpa using he.2 s hs
  simp [GetNextAvailableReg.search, he.1, hf]

/-- Claim C31: the primary pool is `pre ++ e :: post`, no entry of `pre` has
the requested width or a sub-register of it, and `e` has.  Then
`GetNextAvailableReg` returns `e` when the width of `e` is the requested one
and otherwise the first sub-register of `e` of that width; the register
returned has the requested width; the primary pool becomes `pre ++ post`, and
the backup pool and the used-callee-saved list are as before. -/
theorem GetNextAvailableReg_picks_first_match (RI : RegisterInfo) (BitSize : Nat)
    (P : RegPools) (pre post : List Nat) (e : Nat)
    (hpool : P.Pool = pre ++ e :: post)
    (hpre : ∀ x ∈ pre, RI.BitWidth x ≠ BitSize ∧ ∀ s ∈ RI.SubRegs x, RI.BitWidth s ≠ BitSize)
    (he : RI.BitWidth e = BitSize ∨ ∃ s ∈ RI.SubRegs e, RI.BitWidth s = BitSize) :
    ∃ Reg, GetNextAvailableReg RI BitSize P
        = some (Reg, { Pool := pre ++ post, BackupPool := P.BackupPool,
                       UsedCalleSavedRegs := P.UsedCalleSavedRegs }) ∧
      RI.BitWidth Reg = BitSize ∧
      (RI.BitWidth e = BitSize → Reg = e) ∧
      (RI.BitWidth e ≠ BitSize → ∃ s1 s2, RI.SubRegs e = s1 ++ Reg :: s2 ∧
        ∀ s ∈ s1, RI.BitWidth s ≠ BitSize) := by
  obtain ⟨Reg, hs, hw, h1, h2⟩ := GetNextAvailableReg.search_head RI BitSize e post
    (0 + pre.length) he
  refine ⟨Reg, ?_, hw, h1, h2⟩
  have hne : P.Pool.isEmpty = false := by rw [hpool]; cases pre <;> rfl
  unfold GetNextAvailableReg
  simp only [hne, Bool.false_and, Bool.false_eq_true, if_false]
  rw [hpool, GetNextAvailableReg.search_skip RI BitSize _ pre 0 hpre, hs]
  simp only [Nat.zero_add, Option.some.injEq, Prod.mk.injEq, true_and]
  rw [List.eraseIdx_append_of_length_le (Nat.le_refl _)]
  simp

theorem GetNextAvailableReg_picks_first_match_witness :
    (Example.poolsWithoutX0.Pool = [] ++ 33 :: [34, 35] ∧
     (∀ x ∈ ([] : List Nat), AArch64.RegInfo.BitWidth x ≠ 32 ∧
        ∀ s ∈ AArch64.RegInfo.SubRegs x, AArch64.RegInfo.BitWidth s ≠ 32) ∧
     (AArch64.RegInfo.BitWidth 33 = 32 ∨
        ∃ s ∈ AArch64.RegInfo.SubRegs 33, AArch64.RegInfo.BitWidth s = 32)) ∧
    (∃ Reg, GetNextAvailableReg AArch64.RegInfo 32 Example.poolsWithoutX0
        = some (Reg, { Pool := [] ++ [34, 35],
                       BackupPool := Example.poolsWithoutX0.BackupPool,
                       UsedCalleSavedRegs := Example.poolsWithoutX0.UsedCalleSavedRegs }) ∧
      AArch64.RegInfo.BitWidth Reg = 32 ∧
      (AArch64.RegInfo.BitWidth 33 = 32 → Reg = 33) ∧
      (AArch64.RegInfo.BitWidth 33 ≠ 32 → ∃ s1 s2,
        AArch64.RegInfo.SubRegs 33 = s1 ++ Reg :: s2 ∧
        ∀ s ∈ s1, AArch64.RegInfo.BitWidth s ≠ 32)) ∧
    GetNextAvailableReg AArch64.RegInfo 32 Example.poolsWithoutX0
      = some (1, { Pool := [34, 35], BackupPool := [51, 52], UsedCalleSavedRegs := [] }) :=
  ⟨⟨by decide, by decide, Or.inr ⟨1, by decide, by decide⟩⟩,
   GetNextAvailableReg_picks_first_match AArch64.RegInfo 32 Example.poolsWithoutX0 [] [34, 35] 33
     (by decide) (by decide) (Or.inr ⟨1, by decide, by decide⟩),
   by decide⟩

/-- Claim C32: the primary pool is empty and the backup pool is `b :: rest`.
Whatever `GetNextAvailableReg` returns, it has taken `b`, the first register
of the backup pool, out of it, has appended `b` to the used-callee-saved list
and has left `rest` in its order.  When `b` has the requested width or a
sub-register of it, the call returns `b` or that sub-register; when it has
not, the call fails.  On every other path, that is with a primary pool that is
not empty, the backup pool and the used-callee-saved list stay as they are,
and so they do in an iteration of the allocation loop for a range that is
allocated already. -/
theorem GetNextAvailableReg_promotes_first_backup (RI : RegisterInfo) (BitSize : Nat)
    (P : RegPools) (b : Nat) (rest : List Nat)
    (hpool : P.Pool = []) (hbackup : P.BackupPool = b :: rest) :
    (∀ Reg P1, GetNextAvailableReg RI BitSize P = some (Reg, P1) →
      P1 = { Pool := [], BackupPool := rest,
             UsedCalleSavedRegs := P.UsedCalleSavedRegs ++ [b] }) ∧
    ((RI.BitWidth b = BitSize ∨ ∃ s ∈ RI.SubRegs b, RI.BitWidth s = BitSize) →
      ∃ Reg, GetNextAvailableReg RI BitSize P
          = some (Reg, { Pool := [], BackupPool := rest,
                         UsedCalleSavedRegs := P.UsedCalleSavedRegs ++ [b] }) ∧
        RI.BitWidth Reg = BitSize ∧ (Reg = b ∨ Reg ∈ RI.SubRegs b)) ∧
    (¬ (RI.BitWidth b = BitSize ∨ ∃ s ∈ RI.SubRegs b, RI.BitWidth s = BitSize) →
      GetNextAvailableReg RI BitSize P = none) ∧
    (∀ (Q Q1 : RegPools) (Reg : Nat), Q.Pool ≠ [] →
      GetNextAvailableReg RI BitSize Q = some (Reg, Q1) →
      Q1.BackupPool = Q.BackupPool ∧ Q1.UsedCalleSavedRegs = Q.UsedCalleSavedRegs) ∧
    (∀ (V : List (Nat × MachineOperand)) (St St1 : RAState) (R : Nat × Nat × Nat),
      StdMap.contains St.AllocatedRegisters R.1 = true →
      AllocateRange RI V St R = some St1 →
      St1.Pools.BackupPool = St.Pools.BackupPool ∧
      St1.Pools.UsedCalleSavedRegs = St.Pools.UsedCalleSavedRegs) := by
  have hsome : ∀ Reg i, GetNextAvailableReg.search RI BitSize [b] 0 = some (Reg, i) →
      GetNextAvailableReg RI BitSize P
        = some (Reg, { Pool := ([b] : List Nat).eraseIdx i, BackupPool := rest,
                       UsedCalleSavedRegs := P.UsedCalleSavedRegs ++ [b] }) := by
    intro Reg i hs
    unfold GetNextAvailableReg
    simp [hpool, hbackup, hs]
  have hnone : GetNextAvailableReg.search RI BitSize [b] 0 = none →
      GetNextAvailableReg RI BitSize P = none := by
    intro hs
    unfold GetNextAvailableReg
    simp [hpool, hbackup, hs]
  have hyes : (RI.BitWidth b = BitSize ∨ ∃ s ∈ RI.SubRegs b, RI.BitWidth s = BitSize) →
      ∃ Reg, GetNextAvailableReg RI BitSize P
          = some (Reg, { Pool := [], BackupPool := rest,
                         UsedCalleSavedRegs := P.UsedCalleSavedRegs ++ [b] }) ∧
        RI.BitWidth Reg = BitSize ∧ (Reg = b ∨ Reg ∈ RI.SubRegs b) := by
    intro hb
    obtain ⟨Reg, hs, hw, h1, h2⟩ := GetNextAvailableReg.search_head RI BitSize b [] 0 hb
    refine ⟨Reg, ?_, hw, ?_⟩
    · rw [hsome Reg 0 hs]
      rfl
    · by_cases hbw : RI.BitWidth b = BitSize
      · exact Or.inl (h1 hbw)
      · obtain ⟨s1, s2, hsplit, _⟩ := h2 hbw
        right
        rw [hsplit]
        simp
  have hnot : ¬ (RI.BitWidth b = BitSize ∨ ∃ s ∈ RI.SubRegs b, RI.BitWidth s = BitSize) →
      GetNextAvailableReg RI BitSize P = none := by
    intro hb
    exact hnone (GetNextAvailableReg.search_none RI BitSize b 0 hb)
  refine ⟨?_, hyes, hnot, ?_, ?_⟩
  · intro Reg P1 h
    by_cases hb : RI.BitWidth b = BitSize ∨ ∃ s ∈ RI.SubRegs b, RI.BitWidth s = BitSize
    · obtain ⟨Reg1, h1, _⟩ := hyes hb
      rw [h1] at h
      simp only [Option.some.injEq, Prod.mk.injEq] at h
      exact h.2.symm
    · rw [hnot hb] at h
      exact absurd h (by simp)
  · intro Q Q1 Reg hQ h
    have hne : Q.Pool.isEmpty = false := by
      cases hq : Q.Pool with
      | nil => exact absurd hq hQ
      | cons _ _ => rfl
    unfold GetNextAvailableReg at h
    simp only [hne, Bool.false_and, Bool.false_eq_true, if_false] at h
    cases hs : GetNextAvailableReg.search RI BitSize Q.Pool 0 with
    | none => simp [hs] at h
    | some r =>
      simp only [hs, Option.some.injEq, Prod.mk.injEq] at h
      obtain ⟨_, h2⟩ := h
      subst h2
      exact ⟨rfl, rfl⟩
  · intro V St St1 R hc h
    rcases AllocateRange_some RI V St St1 R h with ⟨_, _, hb, hu, _⟩ | ⟨hc2, _⟩
    · exact ⟨hb, hu⟩
    · rw [hc] at hc2
      exact absurd hc2 (by simp)

theorem GetNextAvailableReg_promotes_first_backup_witness :
    (Example.poolsPrimaryEmpty.Pool = [] ∧ Example.poolsPrimaryEmpty.BackupPool = 51 :: [52, 53]) ∧
    (∀ Reg P1, GetNextAvailableReg AArch64.RegInfo 32 Example.poolsPrimaryEmpty = some (Reg, P1) →
      P1 = { Pool := [], BackupPool := [52, 53],
             UsedCalleSavedRegs := Example.poolsPrimaryEmpty.UsedCalleSavedRegs ++ [51] }) ∧
    GetNextAvailableReg AArch64.RegInfo 32 Example.poolsPrimaryEmpty
      = some (19, { Pool := [], BackupPool := [52, 53], UsedCalleSavedRegs := [51] }) ∧
    GetNextAvailableReg AArch64.RegInfo 8 Example.poolsPrimaryEmpty = none :=
  ⟨⟨by decide, by decide⟩,
   (GetNextAvailableReg_promotes_first_backup AArch64.RegInfo 32 Example.poolsPrimaryEmpty 51
     [52, 53] (by decide) (by decide)).1,
   by decide, by decide⟩

/-! ### The primary pool after the pre-allocation -/

/-- In a coherent catalog the registers that the removal loop looks for, the
sub-registers of `p`, `p` itself and its parent, are the registers that
conflict with `p`. -/
theorem RegisterInfo.mem_RegsToCheck_iff (RI : RegisterInfo) (hWF : RI.WellFormed) (r p : Nat) :
    r ∈ RI.SubRegs p ++ [p] ++ (RI.ParentReg p).toList ↔ RI.Conflict r p := by
  obtain ⟨hW1, _⟩ := hWF
  simp only [List.mem_append, List.mem_singleton, Option.mem_toList, Option.mem_def,
    RegisterInfo.Conflict]
  constructor
  · rintro ((h | h) | h)
    · exact Or.inr (Or.inr (Or.inr (Or.inl h)))
    · exact Or.inl h
    · exact Or.inr (Or.inr (Or.inl h))
  · rintro (h | h | h | h | h)
    · exact Or.inl (Or.inr h)
    · exact Or.inl (Or.inl ((hW1 p r).mpr h))
    · exact Or.inr h
    · exact Or.inl (Or.inl h)
    · exact Or.inr ((hW1 r p).mp h)

/-- The removal loop on a duplicate-free pool keeps, in their order, exactly
the registers that none of the pre-allocations makes it look for. -/
theorem RemovePreAllocated_foldl_eq_filter (RI : RegisterInfo) (Pre : List (Nat × Nat)) :
    ∀ (Pool : List Nat), Pool.Nodup →
      Pre.foldl (fun pool e => RemovePreAllocated RI pool e.2) Pool
        = Pool.filter (fun r => decide (∀ e ∈ Pre,
            r ∉ RI.SubRegs e.2 ++ [e.2] ++ (RI.ParentReg e.2).toList)) := by
  induction Pre with
  | nil => intro Pool _; simp
  | cons x rest ih =>
    intro Pool hnd
    simp only [List.foldl_cons]
    have hdiff : RemovePreAllocated RI Pool x.2 =
        Pool.filter (fun r => decide (r ∉ RI.SubRegs x.2 ++ [x.2] ++ (RI.ParentReg x.2).toList)) := by
      have h1 : RemovePreAllocated RI Pool x.2 =
          Pool.diff (RI.SubRegs x.2 ++ [x.2] ++ (RI.ParentReg x.2).toList) := by
        rw [List.diff_eq_foldl]; rfl
      rw [h1, List.Nodup.diff_eq_filter hnd]
    rw [hdiff, ih _ (hnd.filter _), List.filter_filter]
    apply List.filter_congr
    intro r _
    simp only [List.mem_cons, forall_eq_or_imp, Bool.decide_and, Bool.and_comm]

/-- Claim C33: the primary pool with which the allocation loop starts on
AArch64, whatever the pre-allocations `Pre` of parameters and return value
are.  No register of the pool is a pre-allocated register, its parent or one
of its sub-registers; every caller-saved register that is none of these is in
the pool; the pool is the caller-saved list with the other registers taken
out, in the original order.  For `Example.sumFunction`, whose pre-allocations
are `w0` and `w1`, the pool is the caller-saved list without `x0` and `x1`. -/
theorem RunRA.initState_pool_without_preallocated (Func : MachineFunction)
    (Pre : List (Nat × Nat)) :
    (∀ r ∈ (RunRA.initState AArch64.TM Func Pre).Pools.Pool, ∀ e ∈ Pre,
      ¬ AArch64.TM.RegInfo.Conflict r e.2) ∧
    (∀ r ∈ AArch64.TM.ABI.CallerSavedRegisters,
      (∀ e ∈ Pre, ¬ AArch64.TM.RegInfo.Conflict r e.2) →
      r ∈ (RunRA.initState AArch64.TM Func Pre).Pools.Pool) ∧
    List.Sublist (RunRA.initState AArch64.TM Func Pre).Pools.Pool
      AArch64.TM.ABI.CallerSavedRegisters ∧
    (RunRA.initState AArch64.TM Func Pre).Pools.BackupPool
      = AArch64.TM.ABI.CalleeSavedRegisters ∧
    (RunRA.allocate AArch64.TM Example.sumFunction).map (fun Res => Res.PreAllocated)
      = some [(1, 0), (2, 1), (3, 0)] ∧
    (RunRA.initState AArch64.TM Example.sumFunction [(1, 0), (2, 1), (3, 0)]).Pools.Pool
      = [34, 35, 36, 37, 38, 39, 41, 42, 43, 44, 45, 46, 47] := by
  have hnd : AArch64.TM.ABI.CallerSavedRegisters.Nodup := by decide
  have hpool : (RunRA.initState AArch64.TM Func Pre).Pools.Pool
      = AArch64.TM.ABI.CallerSavedRegisters.filter (fun r => decide (∀ e ∈ Pre,
          r ∉ AArch64.TM.RegInfo.SubRegs e.2 ++ [e.2] ++
            (AArch64.TM.RegInfo.ParentReg e.2).toList)) :=
    RemovePreAllocated_foldl_eq_filter AArch64.TM.RegInfo Pre _ hnd
  refine ⟨?_, ?_, ?_, rfl, by decide, by decide⟩
  · intro r hr e he hc
    rw [hpool, List.mem_filter] at hr
    have h1 := of_decide_eq_true hr.2 e he
    exact h1 ((RegisterInfo.mem_RegsToCheck_iff _ AArch64.RegInfo_WellFormed r e.2).mpr hc)
  · intro r hr hall
    rw [hpool, List.mem_filter]
    refine ⟨hr, decide_eq_true ?_⟩
    intro e he hmem
    exact hall e he ((RegisterInfo.mem_RegsToCheck_iff _ AArch64.RegInfo_WellFormed r e.2).mp hmem)
  · rw [hpool]
    exact List.filter_sublist _

/-- In `Example.sumFunction`, with `w0` and `w1` pre-allocated, `x2` (register
34) conflicts with no pre-allocated register and is in the pool, and `x0`
(register 32), the parent of `w0`, is not. -/
theorem RunRA.initState_pool_without_preallocated_witness :
    34 ∈ (RunRA.initState AArch64.TM Example.sumFunction [(1, 0), (2, 1), (3, 0)]).Pools.Pool ∧
    32 ∉ (RunRA.initState AArch64.TM Example.sumFunction [(1, 0), (2, 1), (3, 0)]).Pools.Pool := by
  have T := RunRA.initState_pool_without_preallocated Example.sumFunction
    [(1, 0), (2, 1), (3, 0)]
  refine ⟨T.2.1 34 (by decide) ?_, ?_⟩
  · intro e he
    simp only [List.mem_cons, List.mem_singleton, List.not_mem_nil, or_false] at he
    rcases he with rfl | rfl | rfl <;>
      simp [RegisterInfo.Conflict, AArch64.TM, AArch64.RegInfo]
  · intro hin
    exact T.1 32 hin (1, 0) (by decide)
      (by simp [RegisterInfo.Conflict, AArch64.TM, AArch64.RegInfo])

/-! ### Registers of the ranges that the loop allocates -/

/-- A register that the loop allocates itself never conflicts with a
pre-allocated register. -/
theorem RunRA.allocate_apart_from_preallocated (TM : TargetMachine) (Func : MachineFunction)
    (Res : RAResult) (hWF : TM.RegInfo.WellFormed) (hP : TM.PoolsWellFormed)
    (h : RunRA.allocate TM Func = some Res)
    (v u : Nat) (r : Nat × Nat) (p q : Nat)
    (hr : StdMap.get? Res.LiveRanges v = some r)
    (hv : StdMap.contains Res.PreAllocated v = false)
    (hq : StdMap.get? Res.PreAllocated u = some q)
    (hp : StdMap.get? Res.AllocatedRegisters v = some p) :
    ¬ TM.RegInfo.Conflict p q := by
  obtain ⟨L0, d, Done, St, hSt, hInv, hall, hpreroot⟩ := RunRA.allocate_inv TM Func Res hWF hP h
  apply RegisterInfo.not_conflict_of_root_ne _ hWF
  rw [← hSt] at hp
  intro heq
  obtain ⟨p1, hp1, hroot⟩ := hInv.root _ (hall _ (StdMap.mem_of_get? _ _ _ hr) hv)
  simp only at hp1
  rw [hp] at hp1
  simp only [Option.some.injEq] at hp1
  subst hp1
  exact hpreroot _ (StdMap.mem_of_get? _ _ _ hq) (heq ▸ hroot)

/-- Claim C34: on AArch64 the caller-saved and callee-saved registers are
duplicate-free and disjoint and a register has at most one sub-register.
After the allocation of `RunRA`, two different register ids that the loop
allocated itself and whose live ranges `[def, kill]` overlap have registers
that do not conflict: they are different and neither is the parent or a
sub-register of the other.  And the register of an id that the loop allocated
itself does not conflict with any register pre-allocated to a parameter or to
the return value. -/
theorem RunRA.loop_allocations_apart (Func : MachineFunction) (Res : RAResult)
    (h : RunRA.allocate AArch64.TM Func = some Res) :
    ((AArch64.TM.ABI.CallerSavedRegisters ++ AArch64.TM.ABI.CalleeSavedRegisters).Nodup ∧
      ∀ r, (AArch64.TM.RegInfo.SubRegs r).length ≤ 1) ∧
    (∀ (v1 v2 : Nat) (r1 r2 : Nat × Nat) (p1 p2 : Nat), v1 ≠ v2 →
      StdMap.get? Res.LiveRanges v1 = some r1 → StdMap.get? Res.LiveRanges v2 = some r2 →
      StdMap.contains Res.PreAllocated v1 = false →
      StdMap.contains Res.PreAllocated v2 = false →
      LiveRangesOverlap r1 r2 →
      StdMap.get? Res.AllocatedRegisters v1 = some p1 →
      StdMap.get? Res.AllocatedRegisters v2 = some p2 →
      ¬ AArch64.TM.RegInfo.Conflict p1 p2) ∧
    (∀ (v u : Nat) (r : Nat × Nat) (p q : Nat),
      StdMap.get? Res.LiveRanges v = some r →
      StdMap.contains Res.PreAllocated v = false →
      StdMap.get? Res.PreAllocated u = some q →
      StdMap.get? Res.AllocatedRegisters v = some p →
      ¬ AArch64.TM.RegInfo.Conflict p q) := by
  refine ⟨⟨by decide, ?_⟩, ?_, ?_⟩
  · intro r
    simp only [AArch64.TM, AArch64.RegInfo]
    split <;> simp
  · intro v1 v2 r1 r2 p1 p2 hne hr1 hr2 hc1 _ hov hp1 hp2
    exact RunRA.allocate_no_conflict AArch64.TM Func Res AArch64.RegInfo_WellFormed
      AArch64.TM_PoolsWellFormed h v1 v2 r1 r2 p1 p2 hne hr1 hr2 hov (Or.inl hc1) hp1 hp2
  · intro v u r p q hr hv hq hp
    exact RunRA.allocate_apart_from_preallocated AArch64.TM Func Res AArch64.RegInfo_WellFormed
      AArch64.TM_PoolsWellFormed h v u r p q hr hv hq hp

/-- In `Example.manyLive 2` the registers 1 and 2 are live at the same time
and get `w0` and `w1`; in `Example.sumFunction` the register 4 gets `w2`, apart
from `w0` of the parameter 1. -/
theorem RunRA.loop_allocations_apart_witness :
    RunRA.allocate AArch64.TM (Example.manyLive 2)
      = some { PreAllocated := [], LiveRanges := [(1, 0, 2), (2, 1, 3)],
               AllocatedRegisters := [(1, 0), (2, 1)], UsedCalleSavedRegs := [] } ∧
    LiveRangesOverlap (0, 2) (1, 3) ∧
    ¬ AArch64.TM.RegInfo.Conflict 0 1 ∧
    RunRA.allocate AArch64.TM Example.sumFunction = some Example.sumResult ∧
    StdMap.get? Example.sumResult.PreAllocated 1 = some 0 ∧
    StdMap.get? Example.sumResult.AllocatedRegisters 4 = some 2 ∧
    ¬ AArch64.TM.RegInfo.Conflict 2 0 :=
  ⟨by decide, ⟨by decide, by decide⟩,
   (RunRA.loop_allocations_apart (Example.manyLive 2)
      { PreAllocated := [], LiveRanges := [(1, 0, 2), (2, 1, 3)],
        AllocatedRegisters := [(1, 0), (2, 1)], UsedCalleSavedRegs := [] } (by decide)).2.1
     1 2 (0, 2) (1, 3) 0 1 (by decide) (by decide) (by decide) (by decide) (by decide)
     ⟨by decide, by decide⟩ (by decide) (by decide),
   by decide, by decide, by decide,
   (RunRA.loop_allocations_apart Example.sumFunction Example.sumResult (by decide)).2.2
     4 1 (1, 4294967295) 2 0 (by decide) (by decide) (by decide) (by decide)⟩

/-! ### The byte ranges of the stack slots -/

/-- A sequence of insertions that succeeds inserts new, pairwise different
ids. -/
theorem StackFrame.InsertAll_some_nodup (slots : List (Nat × Nat)) :
    ∀ (SF SF1 : StackFrame), StackFrame.InsertAll SF slots = some SF1 →
      (∀ e ∈ slots, SF.IsStackSlot e.1 = false) ∧ (slots.map Prod.fst).Nodup := by
  induction slots with
  | nil => intro SF SF1 _; exact ⟨by simp, by simp⟩
  | cons e rest ih =>
    intro SF SF1 h
    simp only [StackFrame.InsertAll] at h
    cases hi : SF.InsertStackSlot e.1 e.2 with
    | none => simp [hi] at h
    | some SF2 =>
      simp only [hi] at h
      obtain ⟨h1, h2⟩ := ih SF2 SF1 h
      have he : SF.IsStackSlot e.1 = false :=
        ((StackFrame.InsertStackSlot_eq_some SF SF2 e.1 e.2).mp hi).1
      have hfresh : ∀ x ∈ rest, SF.IsStackSlot x.1 = false ∧ e.1 ≠ x.1 := by
        intro x hx
        have h3 := h1 x hx
        rw [StackFrame.IsStackSlot_InsertStackSlot SF SF2 e.1 e.2 x.1 hi] at h3
        simpa using h3
      refine ⟨?_, ?_⟩
      · intro x hx
        rcases List.mem_cons.mp hx with hx | hx
        · subst hx; exact he
        · exact (hfresh x hx).1
      · simp only [List.map_cons, List.nodup_cons, List.mem_map, not_exists, not_and]
        exact ⟨fun x hx heq => (hfresh x hx).2 heq.symm, h2⟩

/-- With 4 bytes or more per slot, the slots in front of the `k`-th slot and
the `k`-th slot itself fit in the sum over all slots. -/
theorem StackFrame.stride_le_sum (slots : List (Nat × Nat)) :
    ∀ (k : Nat) (hk : k < slots.length),
      4 * k + max (slots.get ⟨k, hk⟩).2 4 ≤ (slots.map (fun e => max e.2 4)).sum := by
  induction slots with
  | nil => intro k hk; simp at hk
  | cons e rest ih =>
    intro k hk
    cases k with
    | zero => simp
    | succ k =>
      have hk2 : k < rest.length := by simpa using hk
      have := ih k hk2
      simp only [List.get_cons_succ, List.map_cons, List.sum_cons]
      have h4 : 4 ≤ max e.2 4 := Nat.le_max_right _ _
      omega

theorem StackFrame.four_mul_length_le_sum (slots : List (Nat × Nat)) :
    4 * slots.length ≤ (slots.map (fun e => max e.2 4)).sum := by
  induction slots with
  | nil => simp
  | cons e rest ih =>
    simp only [List.length_cons, List.map_cons, List.sum_cons]
    have h4 : 4 ≤ max e.2 4 := Nat.le_max_right _ _
    omega

/-- Claim C35: in a stack frame built from the empty frame by `InsertStackSlot`
calls (whose padded sizes sum up within an `unsigned`), every slot lies inside
the frame, `GetPosition(id) + max(GetSize(id), 4) ≤ ObjectsSize`, and two
slots at the same position are the same slot. -/
theorem StackFrame.slots_inside_frame (slots : List (Nat × Nat)) (SF : StackFrame)
    (h : StackFrame.InsertAll StackFrame.empty slots = some SF)
    (hfit : (slots.map (fun e => max e.2 4)).sum < 4294967296) :
    (∀ ID, SF.IsStackSlot ID = true →
      ∃ Position Size, SF.GetPosition ID = some Position ∧ SF.GetSize ID = some Size ∧
        Position + max Size 4 ≤ SF.ObjectsSize) ∧
    (∀ ID1 ID2 Position, SF.GetPosition ID1 = some Position →
      SF.GetPosition ID2 = some Position → ID1 = ID2) := by
  obtain ⟨_, hnd0⟩ := StackFrame.InsertAll_some_nodup slots _ _ h
  obtain ⟨SF0, h1, h2, hperm, _, hnd, _⟩ := StackFrame.InsertAll_empty slots hnd0
  rw [h] at h1
  simp only [Option.some.injEq] at h1
  subst h1
  have hsum : (SF.StackSlots.map (fun e => max e.2 4)).sum
      = (slots.map (fun e => max e.2 4)).sum := (hperm.map _).sum_eq
  have hsize : SF.ObjectsSize = (SF.StackSlots.map (fun e => max e.2 4)).sum := by
    rw [h2, hsum]
    exact toUnsigned_of_lt hfit
  have hlen := StackFrame.four_mul_length_le_sum SF.StackSlots
  have hpos : ∀ (k : Nat) (hk : k < SF.StackSlots.length),
      SF.GetPosition (SF.StackSlots.get ⟨k, hk⟩).1 = some (4 * k) := by
    intro k hk
    have hin : SF.IsStackSlot (SF.StackSlots.get ⟨k, hk⟩).1 = true := by
      rw [StackFrame.IsStackSlot_iff]
      exact List.mem_map_of_mem Prod.fst (List.get_mem SF.StackSlots k hk)
    simp only [StackFrame.GetPosition, hin, if_true]
    rw [StackFrame.GetPositionLoop_idx SF.StackSlots 0 k hk hnd (by omega)]
    rw [toUnsigned_of_lt (by omega)]
    simp
  have hidx : ∀ ID, SF.IsStackSlot ID = true →
      ∃ (k : Nat) (hk : k < SF.StackSlots.length), (SF.StackSlots.get ⟨k, hk⟩).1 = ID := by
    intro ID hID
    rw [StackFrame.IsStackSlot_iff] at hID
    obtain ⟨e, he, rfl⟩ := List.mem_map.mp hID
    obtain ⟨n, hn⟩ := List.get_of_mem he
    exact ⟨n.1, n.2, by rw [hn]⟩
  refine ⟨?_, ?_⟩
  · intro ID hID
    obtain ⟨k, hk, hk1⟩ := hidx ID hID
    refine ⟨4 * k, (SF.StackSlots.get ⟨k, hk⟩).2, ?_, ?_, ?_⟩
    · rw [← hk1]; exact hpos k hk
    · simp only [StackFrame.GetSize, hID, if_true]
      rw [← hk1, List.find?_key_of_nodup SF.StackSlots _ (List.get_mem SF.StackSlots k hk) hnd]
      rfl
    · rw [hsize]
      exact StackFrame.stride_le_sum SF.StackSlots k hk
  · intro ID1 ID2 Position h1 h2
    have s1 : SF.IsStackSlot ID1 = true := by
      by_contra hc
      simp only [Bool.not_eq_true] at hc
      simp [StackFrame.GetPosition, hc] at h1
    have s2 : SF.IsStackSlot ID2 = true := by
      by_contra hc
      simp only [Bool.not_eq_true] at hc
      simp [StackFrame.GetPosition, hc] at h2
    obtain ⟨k1, hk1, e1⟩ := hidx ID1 s1
    obtain ⟨k2, hk2, e2⟩ := hidx ID2 s2
    have p1 := hpos k1 hk1
    have p2 := hpos k2 hk2
    rw [e1, h1] at p1
    rw [e2, h2] at p2
    simp only [Option.some.injEq] at p1 p2
    have hk : k1 = k2 := by omega
    subst hk
    rw [← e1, ← e2]

/-- A frame with an `int`, a `char` and a 12-byte array, inserted under the ids
7, 3 and 9: the table holds them in the order 3, 7, 9, and the array at offset
8 ends at byte 20, the size of the frame. -/
theorem StackFrame.slots_inside_frame_witness :
    (StackFrame.InsertAll StackFrame.empty [(7, 4), (3, 1), (9, 12)]
        = some { ObjectsSize := 20, StackSlots := [(3, 1), (7, 4), (9, 12)] } ∧
     ([((7 : Nat), (4 : Nat)), (3, 1), (9, 12)].map (fun e => max e.2 4)).sum < 4294967296) ∧
    ((∀ ID, StackFrame.IsStackSlot
          { ObjectsSize := 20, StackSlots := [(3, 1), (7, 4), (9, 12)] } ID = true →
        ∃ Position Size,
          StackFrame.GetPosition
            { ObjectsSize := 20, StackSlots := [(3, 1), (7, 4), (9, 12)] } ID = some Position ∧
          StackFrame.GetSize
            { ObjectsSize := 20, StackSlots := [(3, 1), (7, 4), (9, 12)] } ID = some Size ∧
          Position + max Size 4 ≤ 20) ∧
     (∀ ID1 ID2 Position,
        StackFrame.GetPosition
          { ObjectsSize := 20, StackSlots := [(3, 1), (7, 4), (9, 12)] } ID1 = some Position →
        StackFrame.GetPosition
          { ObjectsSize := 20, StackSlots := [(3, 1), (7, 4), (9, 12)] } ID2 = some Position →
        ID1 = ID2)) ∧
    StackFrame.GetPosition { ObjectsSize := 20, StackSlots := [(3, 1), (7, 4), (9, 12)] } 9
      = some 8 ∧
    StackFrame.GetPosition { ObjectsSize := 20, StackSlots := [(3, 1), (7, 4), (9, 12)] } 7
      = some 4 :=
  ⟨⟨by decide, by decide⟩,
   StackFrame.slots_inside_frame [(7, 4), (3, 1), (9, 12)]
     { ObjectsSize := 20, StackSlots := [(3, 1), (7, 4), (9, 12)] } (by decide) (by decide),
   by decide, by decide⟩

/-! ### The instruction-definition table -/

/-- Claim C36, the code at the failing input: the entry stored under the key
`MUL_rrr` has the opcode `MUL_rri`, and the entry under `MUL_rri` has the
opcode `MUL_rrr`.  Every other entry of the table is stored under its own
opcode, and `GetTargetInstr` returns nothing exactly for the opcodes that are
no key of the table (and for generic opcodes). -/
theorem AArch64.GetTargetInstr_MUL_opcodes_swapped :
    (AArch64.GetTargetInstr (MIOpcode.target AArch64.Opcodes.MUL_rrr)).map (fun TI => TI.Opcode)
      = some AArch64.Opcodes.MUL_rri ∧
    (AArch64.GetTargetInstr (MIOpcode.target AArch64.Opcodes.MUL_rri)).map (fun TI => TI.Opcode)
      = some AArch64.Opcodes.MUL_rrr ∧
    AArch64.Opcodes.MUL_rrr ∈ AArch64.Instructions.map Prod.fst ∧
    (∀ e ∈ AArch64.Instructions, e.1 ≠ AArch64.Opcodes.MUL_rrr → e.1 ≠ AArch64.Opcodes.MUL_rri →
      (AArch64.GetTargetInstr (MIOpcode.target e.1)).map (fun TI => TI.Opcode) = some e.1) ∧
    (∀ c : AArch64.Opcodes, AArch64.GetTargetInstr (MIOpcode.target c) = none ↔
      c ∉ AArch64.Instructions.map Prod.fst) ∧
    (∀ g : OperationCode, AArch64.GetTargetInstr (MIOpcode.generic g) = none) :=
  ⟨by decide, by decide, by decide, by decide, fun c => by cases c <;> decide, fun _ => rfl⟩

/-! ### The used callee-saved registers -/

/-- A call of `GetNextAvailableReg` moves at most the first backup register to
the end of the used list: the used list followed by the backup pool stays the
same list, and the backup pool only loses registers. -/
theorem GetNextAvailableReg_backup (RI : RegisterInfo) (BitSize : Nat) (P P1 : RegPools)
    (Reg : Nat) (h : GetNextAvailableReg RI BitSize P = some (Reg, P1)) :
    P1.UsedCalleSavedRegs ++ P1.BackupPool = P.UsedCalleSavedRegs ++ P.BackupPool ∧
    ∃ t, P.BackupPool = t ++ P1.BackupPool := by
  unfold GetNextAvailableReg at h
  split at h
  · exact absurd h (by simp)
  · dsimp only at h
    split at h
    · exact absurd h (by simp)
    · rename_i Reg1 loopCounter _
      simp only [Option.some.injEq, Prod.mk.injEq] at h
      obtain ⟨_, h2⟩ := h
      subst h2
      by_cases hp : P.Pool.isEmpty = true
      · simp only [hp, if_true]
        refine ⟨?_, P.BackupPool.take 1, ?_⟩
        · rw [List.append_assoc, List.take_append_drop]
        · rw [List.take_append_drop]
      · simp only [hp, Bool.false_eq_true, if_false]
        refine ⟨?_, [], ?_⟩ <;> first | rfl | trivial

/-- One iteration of the allocation loop keeps the bookkeeping of the
promoted registers: the used list followed by the backup pool is constant, and
no register that the loop has handed out has its root in the backup pool. -/
theorem AllocateRange_used (RI : RegisterInfo) (V : List (Nat × MachineOperand))
    (Pre : List (Nat × Nat)) (St St1 : RAState) (R : Nat × Nat × Nat)
    (hnd : (St.Pools.Pool ++ St.Pools.BackupPool).Nodup)
    (hgood : ∀ e ∈ St.Pools.Pool ++ St.Pools.BackupPool,
      RI.ParentReg e = none ∧ ∀ s ∈ RI.SubRegs e, RI.ParentReg s = some e)
    (hapart : ∀ k p, StdMap.get? St.AllocatedRegisters k = some p →
      StdMap.contains Pre k = false → RI.rootOf p ∉ St.Pools.BackupPool)
    (h : AllocateRange RI V St R = some St1) :
    St1.Pools.UsedCalleSavedRegs ++ St1.Pools.BackupPool
      = St.Pools.UsedCalleSavedRegs ++ St.Pools.BackupPool ∧
    (∀ k p, StdMap.get? St1.AllocatedRegisters k = some p →
      StdMap.contains Pre k = false → RI.rootOf p ∉ St1.Pools.BackupPool) := by
  rcases AllocateRange_some RI V St St1 R h with
    ⟨_, ha, hb, hu, _⟩ | ⟨_, MO, Reg, P1, _, hg, ha, hb, hu, _⟩
  · rw [ha, hb, hu]
    exact ⟨rfl, hapart⟩
  · obtain ⟨hsplit, t, ht⟩ := GetNextAvailableReg_backup RI _ _ _ _ hg
    obtain ⟨e, hor, hperm⟩ := GetNextAvailableReg_some RI _ _ _ _ hg
    rw [ha, hb, hu]
    refine ⟨hsplit, ?_⟩
    have he_mem : e ∈ St.Pools.Pool ++ St.Pools.BackupPool :=
      hperm.symm.subset (List.mem_cons_self _ _)
    have hnd1 : (e :: (P1.Pool ++ P1.BackupPool)).Nodup := hperm.nodup_iff.mp hnd
    have he_not : e ∉ P1.BackupPool := fun hin =>
      (List.nodup_cons.mp hnd1).1 (List.mem_append_right _ hin)
    have hroot : RI.rootOf Reg = e := by
      obtain ⟨g1, g2⟩ := hgood e he_mem
      rcases hor with h1 | h1
      · rw [h1]; simp [RegisterInfo.rootOf, g1]
      · simp [RegisterInfo.rootOf, g2 Reg h1]
    intro k p hk hc
    by_cases hkR : k = R.1
    · subst hkR
      rw [StdMap.get?_set_self] at hk
      simp only [Option.some.injEq] at hk
      subst hk
      rw [hroot]
      exact he_not
    · rw [StdMap.get?_set_ne _ _ _ _ hkR] at hk
      intro hin
      apply hapart k p hk hc
      rw [ht]
      exact List.mem_append_right _ hin

/-- The allocation loop keeps the bookkeeping of the promoted registers. -/
theorem AllocateRanges_used (RI : RegisterInfo) (V : List (Nat × MachineOperand))
    (L0 : List Nat) (Pre : List (Nat × Nat))
    (hnd : L0.Nodup)
    (hgood : ∀ e ∈ L0, RI.ParentReg e = none ∧ ∀ s ∈ RI.SubRegs e, RI.ParentReg s = some e)
    (Ranges : List (Nat × Nat × Nat)) :
    ∀ (d : Nat) (Done : List (Nat × Nat × Nat)) (St St1 : RAState),
      Ranges.Pairwise (fun a b => a.2.1 ≤ b.2.1) →
      (∀ r ∈ Ranges, d ≤ r.2.1) →
      ((Done ++ Ranges).map (fun w => w.1)).Nodup →
      RAInv RI L0 Pre d Done St →
      (∀ k p, StdMap.get? St.AllocatedRegisters k = some p →
        StdMap.contains Pre k = false → RI.rootOf p ∉ St.Pools.BackupPool) →
      AllocateRanges RI V Ranges St = some St1 →
      St1.Pools.UsedCalleSavedRegs ++ St1.Pools.BackupPool
        = St.Pools.UsedCalleSavedRegs ++ St.Pools.BackupPool ∧
      (∀ k p, StdMap.get? St1.AllocatedRegisters k = some p →
        StdMap.contains Pre k = false → RI.rootOf p ∉ St1.Pools.BackupPool) ∧
      (∀ k p, StdMap.get? Pre k = some p → StdMap.get? St1.AllocatedRegisters k = some p) := by
  induction Ranges with
  | nil =>
    intro d Done St St1 _ _ _ hInv hapart h
    simp only [AllocateRanges, Option.some.injEq] at h
    subst h
    exact ⟨rfl, hapart, hInv.pre⟩
  | cons R rest ih =>
    intro d Done St St1 hpw hd hkeys hInv hapart h
    simp only [AllocateRanges] at h
    cases hs : AllocateRange RI V St R with
    | none => simp [hs] at h
    | some St2 =>
      simp only [hs] at h
      have hfresh : ∀ w ∈ Done, w.1 ≠ R.1 := by
        intro w hw heq
        simp only [List.map_append, List.map_cons] at hkeys
        have hdis := List.disjoint_of_nodup_append hkeys
        exact hdis (List.mem_map_of_mem _ hw) (by rw [heq]; exact List.mem_cons_self _ _)
      obtain ⟨Done2, hInv2, hDone2, _⟩ :=
        AllocateRange_inv RI V L0 Pre d Done St St2 R hInv hnd hgood
          (hd R (List.mem_cons_self _ _)) hfresh hs
      have hpw2 := List.pairwise_cons.mp hpw
      have hkeys2 : ((Done2 ++ rest).map (fun w => w.1)).Nodup := by
        rcases hDone2 with h1 | h1
        · rw [h1]
          refine hkeys.sublist ?_
          exact List.Sublist.map _ ((List.Sublist.refl Done).append (List.sublist_cons_self R rest))
        · rw [h1]
          simpa using hkeys
      have hsubL : List.Sublist (St.Pools.Pool ++ St.Pools.BackupPool)
          (St.Pools.Pool ++ St.Pools.BackupPool ++
            St.FreeAbleWorkList.map (fun w => RI.rootOf (StdMap.getD0 St.AllocatedRegisters w.1))) :=
        List.sublist_append_left _ _
      have hndP : (St.Pools.Pool ++ St.Pools.BackupPool).Nodup :=
        (hInv.perm.nodup_iff.mpr hnd).sublist hsubL
      have hgoodP : ∀ e ∈ St.Pools.Pool ++ St.Pools.BackupPool,
          RI.ParentReg e = none ∧ ∀ s ∈ RI.SubRegs e, RI.ParentReg s = some e :=
        fun e he => hgood e (hInv.perm.subset (hsubL.subset he))
      obtain ⟨u1, u2⟩ := AllocateRange_used RI V Pre St St2 R hndP hgoodP hapart hs
      obtain ⟨v1, v2, v3⟩ :=
        ih R.2.1 Done2 St2 St1 hpw2.2 (fun r hr => hpw2.1 r hr) hkeys2 hInv2 u2 h
      exact ⟨v1.trans u1, v2, v3⟩

/-- The bookkeeping of the promoted registers at the end of the allocation of
`RunRA`. -/
theorem RunRA.allocate_used (TM : TargetMachine) (Func : MachineFunction) (Res : RAResult)
    (hWF : TM.RegInfo.WellFormed) (hP : TM.PoolsWellFormed)
    (h : RunRA.allocate TM Func = some Res) :
    ∃ Backup : List Nat,
      Res.UsedCalleSavedRegs ++ Backup = Func.UsedCalleSavedRegs ++ TM.ABI.CalleeSavedRegisters ∧
      (∀ k p, StdMap.get? Res.AllocatedRegisters k = some p →
        StdMap.contains Res.PreAllocated k = false → TM.RegInfo.rootOf p ∉ Backup) ∧
      (∀ k p, StdMap.get? Res.AllocatedRegisters k = some p →
        StdMap.contains Res.PreAllocated k = true →
        TM.RegInfo.rootOf p ∉ TM.ABI.CalleeSavedRegisters) := by
  obtain ⟨hW1, hW2⟩ := hWF
  obtain ⟨hA1, hA2, hA3⟩ := hP
  unfold RunRA.allocate at h
  cases hp : PreAllocateParameters TM Func.Parameters 0 [] [] with
  | none => simp [hp] at h
  | some r =>
    obtain ⟨Alloc0, LR0⟩ := r
    simp only [hp] at h
    cases hr : PreAllocateReturnRegister TM Func Alloc0 with
    | none => simp [hr] at h
    | some Pre =>
      simp only [hr] at h
      cases ha : AllocateRanges TM.RegInfo (LiveRangeScan.instrs Func.AllInstructions 0 (LR0, [])).2
          (SortLiveRanges (LiveRangeScan.instrs Func.AllInstructions 0 (LR0, [])).1)
          (RunRA.initState TM Func Pre) with
      | none => simp [ha] at h
      | some St =>
        simp only [ha, Option.some.injEq] at h
        subst h
        simp only
        obtain ⟨hsub, _⟩ := RemovePreAllocated_foldl TM.RegInfo Pre TM.ABI.CallerSavedRegisters
        have hL0sub : List.Sublist
            (Pre.foldl (fun pool e => RemovePreAllocated TM.RegInfo pool e.2)
              TM.ABI.CallerSavedRegisters ++ TM.ABI.CalleeSavedRegisters)
            (TM.ABI.CallerSavedRegisters ++ TM.ABI.CalleeSavedRegisters) :=
          hsub.append (List.Sublist.refl _)
        have hnd := hA1.sublist hL0sub
        have hgood : ∀ e ∈ Pre.foldl (fun pool e => RemovePreAllocated TM.RegInfo pool e.2)
              TM.ABI.CallerSavedRegisters ++ TM.ABI.CalleeSavedRegisters,
            TM.RegInfo.ParentReg e = none ∧
              ∀ s ∈ TM.RegInfo.SubRegs e, TM.RegInfo.ParentReg s = some e :=
          fun e he => ⟨hA2 e (hL0sub.subset he), fun s hs => (hW1 e s).mp hs⟩
        have hparams := (PreAllocateParameters_spec TM Func.Parameters 0 [] Alloc0 [] LR0 hp)
        have hLR0 : LR0.Pairwise (fun a b => a.1 < b.1) := hparams.1 List.Pairwise.nil
        have hpre_vals : ∀ x ∈ Pre, ∃ a ∈ TM.ABI.ArgumentRegisters ++ TM.ABI.ReturnRegisters,
            x.2 = a ∨ x.2 ∈ TM.RegInfo.SubRegs a := by
          intro x hx
          unfold PreAllocateReturnRegister at hr
          cases hl : Func.BasicBlocks.getLast? with
          | none => simp [hl] at hr
          | some LastBB =>
            simp only [hl] at hr
            rcases PreAllocateReturnRegister.loop_spec TM _ _ _ hr x hx with h1 | ⟨a, ha1, ha2⟩
            · rcases hparams.2 x h1 with h2 | ⟨a, ha1, ha2⟩
              · simp at h2
              · exact ⟨a, List.mem_append_left _ ha1, ha2⟩
            · exact ⟨a, List.mem_append_right _ ha1, ha2⟩
        have hscan := LiveRangeScan.instrs_ordered Func.AllInstructions 0 (LR0, []) hLR0
        have hkeys : ((([] : List (Nat × Nat × Nat)) ++
            SortLiveRanges (LiveRangeScan.instrs Func.AllInstructions 0 (LR0, [])).1).map
              (fun w => w.1)).Nodup := by
          rw [List.nil_append]
          exact ((List.perm_insertionSort LiveRangeLE _).map _).nodup_iff.mpr
            (StdMap.keys_nodup_of_ordered _ hscan)
        have hInv0 : RAInv TM.RegInfo
            (Pre.foldl (fun pool e => RemovePreAllocated TM.RegInfo pool e.2)
              TM.ABI.CallerSavedRegisters ++ TM.ABI.CalleeSavedRegisters)
            Pre 0 [] (RunRA.initState TM Func Pre) := by
          refine ⟨?_, ?_, ?_, ?_, ?_, ?_, ?_⟩
          · simp [RunRA.initState]
          · intro w hw; simp [RunRA.initState] at hw
          · intro w hw; simp at hw
          · intro w hw; simp at hw
          · intro a ha; simp at ha
          · intro k hk; exact Or.inl hk
          · intro k p hk; exact hk
        have hapart0 : ∀ k p, StdMap.get? (RunRA.initState TM Func Pre).AllocatedRegisters k = some p →
            StdMap.contains Pre k = false →
            TM.RegInfo.rootOf p ∉ (RunRA.initState TM Func Pre).Pools.BackupPool := by
          intro k p hk hc
          have : StdMap.contains Pre k = true := (StdMap.contains_iff_get? _ _).mpr ⟨p, hk⟩
          rw [hc] at this
          exact absurd this (by simp)
        obtain ⟨u1, u2, u3⟩ :=
          AllocateRanges_used TM.RegInfo _ _ Pre hnd hgood _ 0 [] _ St
            (SortLiveRanges_pairwise _) (fun r _ => Nat.zero_le _) hkeys hInv0 hapart0 ha
        refine ⟨St.Pools.BackupPool, u1, u2, ?_⟩
        intro k p hk hc hin
        obtain ⟨q, hq⟩ := (StdMap.contains_iff_get? _ _).mp hc
        have h1 := u3 k q hq
        rw [hk] at h1
        simp only [Option.some.injEq] at h1
        subst h1
        obtain ⟨a, ha1, ha2⟩ := hpre_vals _ (StdMap.mem_of_get? _ _ _ hq)
        have hroot : TM.RegInfo.rootOf p = a := by
          rcases ha2 with h2 | h2
          · simp only at h2
            rw [h2]; simp [RegisterInfo.rootOf, (hA3 a ha1).1]
          · simp only at h2
            simp [RegisterInfo.rootOf, (hW1 a p).mp h2]
        rw [hroot] at hin
        exact (hA3 a ha1).2 hin

/-- Claim C37: after `RunRA` on AArch64 on a function whose used-callee-saved
list was empty before, the list is a prefix of the callee-saved list, so it
holds only callee-saved registers, in the order of their promotion, and none
twice; and every callee-saved register that is allocated to some register id,
itself or through a sub-register, is in the list.  The rewritten function
carries this list. -/
theorem RunRA.used_callee_saved_registers (Func : MachineFunction) (Res : RAResult)
    (h : RunRA.allocate AArch64.TM Func = some Res)
    (hU : Func.UsedCalleSavedRegs = []) :
    (∃ n, Res.UsedCalleSavedRegs = AArch64.TM.ABI.CalleeSavedRegisters.take n) ∧
    Res.UsedCalleSavedRegs.Nodup ∧
    (∀ c ∈ Res.UsedCalleSavedRegs, c ∈ AArch64.TM.ABI.CalleeSavedRegisters) ∧
    (∀ (v p c : Nat), StdMap.get? Res.AllocatedRegisters v = some p →
      c ∈ AArch64.TM.ABI.CalleeSavedRegisters → (p = c ∨ p ∈ AArch64.TM.RegInfo.SubRegs c) →
      c ∈ Res.UsedCalleSavedRegs) ∧
    (∀ F1, RunRA.function AArch64.TM Func = some F1 →
      F1.UsedCalleSavedRegs = Res.UsedCalleSavedRegs) := by
  obtain ⟨Backup, hsplit, hloop, hpre⟩ := RunRA.allocate_used AArch64.TM Func Res
    AArch64.RegInfo_WellFormed AArch64.TM_PoolsWellFormed h
  rw [hU, List.nil_append] at hsplit
  have htake : Res.UsedCalleSavedRegs
      = AArch64.TM.ABI.CalleeSavedRegisters.take Res.UsedCalleSavedRegs.length := by
    rw [← hsplit, List.take_left]
  have hndC : AArch64.TM.ABI.CalleeSavedRegisters.Nodup := by decide
  refine ⟨⟨_, htake⟩, ?_, ?_, ?_, ?_⟩
  · rw [htake]
    exact hndC.sublist (List.take_sublist _ _)
  · intro c hc
    rw [← hsplit]
    exact List.mem_append_left _ hc
  · intro v p c hv hc hpc
    have hroot : AArch64.TM.RegInfo.rootOf p = c := by
      have hpar : AArch64.TM.RegInfo.ParentReg c = none :=
        AArch64.TM_PoolsWellFormed.2.1 c (List.mem_append_right _ hc)
      rcases hpc with h1 | h1
      · rw [h1]; simp [RegisterInfo.rootOf, hpar]
      · simp [RegisterInfo.rootOf, (AArch64.RegInfo_WellFormed.1 c p).mp h1]
    cases hcv : StdMap.contains Res.PreAllocated v
    · have hnot := hloop v p hv hcv
      rw [hroot] at hnot
      have hmem : c ∈ Res.UsedCalleSavedRegs ++ Backup := by rw [hsplit]; exact hc
      rcases List.mem_append.mp hmem with h1 | h1
      · exact h1
      · exact absurd h1 hnot
    · have hnot := hpre v p hv hcv
      rw [hroot] at hnot
      exact absurd hc hnot
  · intro F1 hF
    unfold RunRA.function at hF
    rw [h] at hF
    dsimp only at hF
    split at hF
    · exact absurd hF (by simp)
    · simp only [Option.some.injEq] at hF
      subst hF
      rfl

set_option maxRecDepth 100000 in
theorem RunRA.used_callee_saved_registers_witness :
    (RunRA.allocate AArch64.TM (Example.manyLive 16) = some Example.sixteenLiveResult ∧
     (Example.manyLive 16).UsedCalleSavedRegs = []) ∧
    Example.sixteenLiveResult.UsedCalleSavedRegs = [51] ∧
    StdMap.get? Example.sixteenLiveResult.AllocatedRegisters 16 = some 19 ∧
    (∃ n, Example.sixteenLiveResult.UsedCalleSavedRegs
      = AArch64.TM.ABI.CalleeSavedRegisters.take n) ∧
    Example.sixteenLiveResult.UsedCalleSavedRegs.Nodup ∧
    51 ∈ Example.sixteenLiveResult.UsedCalleSavedRegs := by
  have h : RunRA.allocate AArch64.TM (Example.manyLive 16) = some Example.sixteenLiveResult := by
    decide
  have hU : (Example.manyLive 16).UsedCalleSavedRegs = [] := by decide
  have T := RunRA.used_callee_saved_registers (Example.manyLive 16) Example.sixteenLiveResult h hU
  exact ⟨⟨h, hU⟩, by decide, by decide, T.1, T.2.1,
    T.2.2.2.1 16 19 51 (by decide) (by decide) (Or.inr (by decide))⟩

/-! ### Branches with two labels -/

/-- Claim C38: `SelectBRANCH` on a branch with three operands returns `false`
and leaves the instruction as it is, opcode and operands; whenever it returns
`true`, the branch had exactly two operands and the opcode set is one of the
conditional branches. -/
theorem AArch64TargetMachine.SelectBRANCH_three_operands (BB : List MachineInstruction)
    (Index : Nat) (MI : MachineInstruction) (hops : MI.Operands.length = 3) :
    AArch64TargetMachine.SelectBRANCH BB Index MI = some (false, MI) ∧
    (∀ (BB1 : List MachineInstruction) (Index1 : Nat) (MI0 MI1 : MachineInstruction),
      AArch64TargetMachine.SelectBRANCH BB1 Index1 MI0 = some (true, MI1) →
      MI0.Operands.length = 2 ∧
      ∃ c ∈ [AArch64.Opcodes.BEQ, AArch64.Opcodes.BNE, AArch64.Opcodes.BLE, AArch64.Opcodes.BLT,
             AArch64.Opcodes.BGE, AArch64.Opcodes.BGT], MI1.Opcode = MIOpcode.target c) ∧
    (∀ (BB1 : List MachineInstruction) (Index1 : Nat) (MI0 : MachineInstruction),
      MI0.Operands.length ≠ 2 →
      AArch64TargetMachine.SelectBRANCH BB1 Index1 MI0 = some (false, MI0)) := by
  have hno : ∀ (BB1 : List MachineInstruction) (Index1 : Nat) (MI0 : MachineInstruction),
      MI0.Operands.length ≠ 2 →
      AArch64TargetMachine.SelectBRANCH BB1 Index1 MI0 = some (false, MI0) := by
    intro BB1 Index1 MI0 h
    have hft : MI0.IsFallThroughBranch = false := by
      simp [MachineInstruction.IsFallThroughBranch, h]
    unfold AArch64TargetMachine.SelectBRANCH
    simp [hft]
  refine ⟨hno BB Index MI (by omega), ?_, hno⟩
  intro BB1 Index1 MI0 MI1 h
  by_cases h2 : MI0.Operands.length = 2
  · refine ⟨h2, ?_⟩
    have hft : MI0.IsFallThroughBranch = true := by
      simp [MachineInstruction.IsFallThroughBranch, h2]
    unfold AArch64TargetMachine.SelectBRANCH at h
    simp only [hft, if_true] at h
    split at h
    · exact absurd h (by simp)
    · rename_i P _
      cases hr : P.GetRelation <;> rw [hr] at h <;>
        simp only [Option.some.injEq, Prod.mk.injEq, true_and, reduceCtorEq] at h <;>
        first
          | exact False.elim h
          | (subst h; simp [MachineInstruction.SetOpcode, MachineInstruction.RemoveOperand])
  · rw [hno BB1 Index1 MI0 h2] at h
    simp at h

theorem AArch64TargetMachine.SelectBRANCH_three_operands_witness :
    Example.branchThreeOperands.Operands.length = 3 ∧
    (ConvertToMachineInstr AArch64.TM Example.branchTwoLabels Example.ifElseBlocks
        Example.stateWithSlot).map (fun r => r.1) = some Example.branchThreeOperands ∧
    AArch64TargetMachine.SelectBRANCH Example.compareAndBranch 1 Example.branchThreeOperands
      = some (false, Example.branchThreeOperands) :=
  ⟨by decide, by decide,
   (AArch64TargetMachine.SelectBRANCH_three_operands Example.compareAndBranch 1
     Example.branchThreeOperands (by decide)).1⟩

/-! ### The result type of binary expressions -/

theorem ASTType.VariantKind.toNat_injective (a b : ASTType.VariantKind)
    (h : a.toNat = b.toNat) : a = b := by
  cases a <;> cases b <;> first | rfl | exact absurd h (by decide)

theorem ASTType.GetStrongestType_variant (a b : ASTType.VariantKind) :
    (ASTType.GetStrongestType a b).GetTypeVariant.toNat = max a.toNat b.toNat ∧
    ((ASTType.GetStrongestType a b).GetTypeVariant = a ∨
      (ASTType.GetStrongestType a b).GetTypeVariant = b) ∧
    ASTType.GetStrongestType a b = ASTType.ofVariant (ASTType.GetStrongestType a b).GetTypeVariant := by
  unfold ASTType.GetStrongestType
  split
  · refine ⟨?_, Or.inl rfl, rfl⟩
    show a.toNat = _
    omega
  · refine ⟨?_, Or.inr rfl, rfl⟩
    show b.toNat = _
    omega

/-- Claim C39: the result type of `BinaryExpression(L, Op, R)`.  For a
conditional operator (`!`, `==`, `<`, `>`, `!=`, `>=`, `<=`, `&&`) it is the
type `Int`.  For every other operator (assignment, compound assignment, shift,
`+ - * / %`, `&`) it is the simple type whose variant is the highest of the
variant of `L`, the variant of `R` and `Int` in the order of the enumeration.
`GetStrongestType` returns the higher of its two arguments, so it is
commutative and idempotent, and `Int` with `Double` gives `Double`. -/
theorem BinaryExpression.result_type (L R : Expression) (Op : Token) :
    (Op.Kind ∈ ConditionalOperators →
      ∃ E, BinaryExpression.new L Op R = some E ∧
        E.ResultType = ASTType.ofVariant ASTType.VariantKind.Int ∧
        E.Left = L ∧ E.Operation = Op ∧ E.Right = R) ∧
    (Op.Kind ∈ ArithmeticOperators →
      ∃ E v, BinaryExpression.new L Op R = some E ∧
        E.ResultType = ASTType.ofVariant v ∧
        (v = L.ResultType.GetTypeVariant ∨ v = R.ResultType.GetTypeVariant ∨
          v = ASTType.VariantKind.Int) ∧
        L.ResultType.GetTypeVariant.toNat ≤ v.toNat ∧
        R.ResultType.GetTypeVariant.toNat ≤ v.toNat ∧
        ASTType.VariantKind.Int.toNat ≤ v.toNat ∧
        E.Left = L ∧ E.Operation = Op ∧ E.Right = R) ∧
    (∀ a b : ASTType.VariantKind,
      (ASTType.GetStrongestType a b).GetTypeVariant.toNat = max a.toNat b.toNat ∧
      ASTType.GetStrongestType a b = ASTType.GetStrongestType b a ∧
      ASTType.GetStrongestType a a = ASTType.ofVariant a) ∧
    ASTType.GetStrongestType ASTType.VariantKind.Int ASTType.VariantKind.Double
      = ASTType.ofVariant ASTType.VariantKind.Double := by
  refine ⟨?_, ?_, ?_, rfl⟩
  · intro h
    have hc : BinaryExpression.IsConditional Op ASTType.default = some true := by
      unfold BinaryExpression.IsConditional BinaryExpression.GetOperationKind
      simp only [ConditionalOperators, List.mem_cons, List.mem_singleton, List.not_mem_nil,
        or_false] at h
      rcases h with h | h | h | h | h | h | h | h <;> rw [h] <;> rfl
    unfold BinaryExpression.new
    rw [hc]
    exact ⟨_, rfl, rfl, rfl, rfl, rfl⟩
  · intro h
    have hc : BinaryExpression.IsConditional Op ASTType.default = some false := by
      unfold BinaryExpression.IsConditional BinaryExpression.GetOperationKind
      simp only [ArithmeticOperators, List.mem_cons, List.mem_singleton, List.not_mem_nil,
        or_false] at h
      rcases h with h | h | h | h | h | h | h | h | h | h | h | h | h <;> rw [h] <;> rfl
    unfold BinaryExpression.new
    rw [hc]
    obtain ⟨m1, o1, _⟩ := ASTType.GetStrongestType_variant L.ResultType.GetTypeVariant
      R.ResultType.GetTypeVariant
    obtain ⟨m2, o2, e2⟩ := ASTType.GetStrongestType_variant
      (ASTType.GetStrongestType L.ResultType.GetTypeVariant
        R.ResultType.GetTypeVariant).GetTypeVariant ASTType.VariantKind.Int
    refine ⟨_, _, rfl, e2, ?_, ?_, ?_, ?_, rfl, rfl, rfl⟩
    · rcases o2 with o2 | o2
      · rw [o2]
        rcases o1 with o1 | o1
        · exact Or.inl o1
        · exact Or.inr (Or.inl o1)
      · exact Or.inr (Or.inr o2)
    · rw [m2, m1]; omega
    · rw [m2, m1]; omega
    · rw [m2]; omega
  · intro a b
    refine ⟨(ASTType.GetStrongestType_variant a b).1, ?_, ?_⟩
    · unfold ASTType.GetStrongestType
      by_cases h1 : a.toNat > b.toNat
      · have h2 : ¬ b.toNat > a.toNat := by omega
        rw [if_pos h1, if_neg h2]
      · by_cases h2 : b.toNat > a.toNat
        · rw [if_neg h1, if_pos h2]
        · rw [if_neg h1, if_neg h2]
          have : a = b := ASTType.VariantKind.toNat_injective a b (by omega)
          rw [this]
    · unfold ASTType.GetStrongestType
      simp

/-- The sum of a `char` and a `long` is a `long`, the sum of two `char`s and
the comparison of a `char` with a `long` are `int`s. -/
theorem BinaryExpression.result_type_witness :
    (Token.TokenKind.LessThan ∈ ConditionalOperators ∧
     Token.TokenKind.Plus ∈ ArithmeticOperators) ∧
    (∃ E, BinaryExpression.new Example.charExpr { Kind := Token.TokenKind.LessThan }
        Example.longExpr = some E ∧
      E.ResultType = ASTType.ofVariant ASTType.VariantKind.Int) ∧
    (∃ E v, BinaryExpression.new Example.charExpr { Kind := Token.TokenKind.Plus }
        Example.longExpr = some E ∧
      E.ResultType = ASTType.ofVariant v ∧ ASTType.VariantKind.Long.toNat ≤ v.toNat) ∧
    (BinaryExpression.new Example.charExpr { Kind := Token.TokenKind.Plus }
        Example.longExpr).map (fun E => E.ResultType.GetTypeVariant)
      = some ASTType.VariantKind.Long ∧
    (BinaryExpression.new Example.charExpr { Kind := Token.TokenKind.Plus }
        Example.charExpr).map (fun E => E.ResultType.GetTypeVariant)
      = some ASTType.VariantKind.Int ∧
    (BinaryExpression.new Example.charExpr { Kind := Token.TokenKind.Comma }
        Example.charExpr).isNone = true := by
  have hc : Token.TokenKind.LessThan ∈ ConditionalOperators := by decide
  have ha : Token.TokenKind.Plus ∈ ArithmeticOperators := by decide
  obtain ⟨E1, e1, t1, _⟩ := (BinaryExpression.result_type Example.charExpr Example.longExpr
    { Kind := Token.TokenKind.LessThan }).1 hc
  obtain ⟨E2, v, e2, t2, _, _, hR, _⟩ := (BinaryExpression.result_type Example.charExpr
    Example.longExpr { Kind := Token.TokenKind.Plus }).2.1 ha
  exact ⟨⟨hc, ha⟩, ⟨E1, e1, t1⟩, ⟨E2, v, e2, t2, hR⟩, by decide, by decide, by decide⟩

/-! ### The spellings of the token kinds -/

/-- Claim C40, the code at the failing input: for the kind `Colon` the
preprocessor's `ToString` returns "," while the lexer's returns ":"; the
preprocessor's spelling of `Colon` is the lexer's spelling of `Comma`.  For the
other six kinds that both define, `EndOfFile`, `Invalid`, `Identifier`, `Dot`,
`LeftParen` and `RightParen`, the two spellings agree. -/
theorem PPToken.ToString_Colon_differs :
    PPToken.ToString PPToken.PPTokenKind.Colon = "," ∧
    Token.ToString Token.TokenKind.Colon = ":" ∧
    PPToken.ToString PPToken.PPTokenKind.Colon ≠ Token.ToString Token.TokenKind.Colon ∧
    PPToken.ToString PPToken.PPTokenKind.Colon = Token.ToString Token.TokenKind.Comma ∧
    (∀ p ∈ CommonTokenKinds, p.1 ≠ PPToken.PPTokenKind.Colon →
      PPToken.ToString p.1 = Token.ToString p.2) :=
  ⟨by decide, by decide, by decide, by decide, by decide⟩
